import Mathlib

/-!
# Capocaccia_DSP : `ods_16xx_dss/dss_data_path.c`

Shallow embedding of the data-path routines of the ODS demo (Doppler line
bit mask, CFAR peak grouping, BPM decoding, Stage-1 line flagging) and the
properties proved about them.

Conventions of the embedding

* C unsigned/signed machine integers are `Nat`/`Int`; a wrap-around is written
  out (`% 2 ^ 32`) at the places where the C expression can leave the range.
* memory reached through a pointer is a function from the element index to the
  element (`Nat → α`); a write is a point-wise update.
* a routine that can stop in `OdsDemo_dssAssert(0)` returns `Except Halt α`.
-/

/-! ## Doppler line bit mask -/

/-- Ways in which a modelled routine ends without returning a value. -/
inductive Halt where
  /-- `OdsDemo_dssAssert(0)` was reached -/
  | assertFailed
  /-- a mask word outside `dopplerLineMask[0 .. len-1]` was read -/
  | outOfBounds
  /-- the iteration budget of the embedding ran out (shown unreachable) -/
  | outOfFuel
deriving DecidableEq, Repr

/-- The record `OdsDemo_1D_DopplerLines_t`: the mask words (`uint32_t *`), the number
of words, and the read cursor. -/
structure OdsDemo_1D_DopplerLines_t where
  dopplerLineMask : List Nat
  dopplerLineMaskLen : Nat
  currentIndex : Nat
deriving DecidableEq, Repr

/-- `OdsDemo_resetDopplerLines`: `memset` of the `dopplerLineMaskLen` mask words to zero,
cursor back to zero. The mask buffer is the `dopplerLineMaskLen`-word array. -/
def OdsDemo_resetDopplerLines (ths : OdsDemo_1D_DopplerLines_t) : OdsDemo_1D_DopplerLines_t :=
  { ths with
    dopplerLineMask := List.replicate ths.dopplerLineMaskLen 0
    currentIndex := 0 }

/-- `OdsDemo_setDopplerLine`: `dopplerLineMask[word] |= (0x1 << bit)` with
`word = dopplerIndex >> 5`, `bit = dopplerIndex & 31`. `dopplerIndex` is the value of the
`uint16_t` argument. -/
def OdsDemo_setDopplerLine (ths : OdsDemo_1D_DopplerLines_t) (dopplerIndex : Nat) :
    OdsDemo_1D_DopplerLines_t :=
  let word := dopplerIndex >>> 5
  let bit := dopplerIndex &&& 31
  { ths with
    dopplerLineMask :=
      ths.dopplerLineMask.set word ((ths.dopplerLineMask.getD word 0) ||| (1 <<< bit)) }

/-- `OdsDemo_isSetDopplerLine`: 1 when the bit of `index` is set in the mask, else 0. -/
def OdsDemo_isSetDopplerLine (ths : OdsDemo_1D_DopplerLines_t) (index : Nat) : Nat :=
  let word := index >>> 5
  let bit := index &&& 31
  if (ths.dopplerLineMask.getD word 0) &&& (1 <<< bit) ≠ 0 then 1 else 0

/-- Modelled from the spec: the macro `OdsDemo_dssAssert` is defined in a header that is not
part of the sources. By the spec an internal consistency check that fires is unrecoverable
and halts the system ("assert-and-stop"), so a zero argument ends the routine with
`Halt.assertFailed`; a non-zero argument has no effect. -/
def OdsDemo_dssAssert (expression : Nat) : Except Halt Unit :=
  if expression = 0 then .error .assertFailed else .ok ()

/-- The `while` loop of `OdsDemo_getDopplerLine` on the local variables `index`, `word`,
`bit`. The first argument bounds the number of loop iterations. -/
def OdsDemo_getDopplerLine.scan (mask : List Nat) (len : Nat) :
    Nat → Nat → Nat → Nat → Except Halt Nat
  | 0, _, _, _ => .error .outOfFuel
  | fuel + 1, index, word, bit =>
    match mask[word]? with
    | none => .error .outOfBounds
    | some w =>
      if (w >>> bit) &&& 1 = 0 then
        -- index++; bit++;
        if bit + 1 = 32 then
          -- word++; bit = 0;
          if word + 1 ≥ len then
            match OdsDemo_dssAssert 0 with
            | .error e => .error e
            | .ok _ => OdsDemo_getDopplerLine.scan mask len fuel (index + 1) (word + 1) 0
          else OdsDemo_getDopplerLine.scan mask len fuel (index + 1) (word + 1) 0
        else OdsDemo_getDopplerLine.scan mask len fuel (index + 1) word (bit + 1)
      else .ok index

/-- `OdsDemo_getDopplerLine`: scan from the cursor to the next set bit, return its
index and leave the cursor one past it. -/
def OdsDemo_getDopplerLine (ths : OdsDemo_1D_DopplerLines_t) :
    Except Halt (Nat × OdsDemo_1D_DopplerLines_t) :=
  let index := ths.currentIndex
  let word := index >>> 5
  let bit := index &&& 31
  match OdsDemo_getDopplerLine.scan ths.dopplerLineMask ths.dopplerLineMaskLen
      (32 * ths.dopplerLineMaskLen + 1) index word bit with
  | .ok index => .ok (index, { ths with currentIndex := index + 1 })
  | .error e => .error e

/-- `n` successive calls of `OdsDemo_getDopplerLine`, collecting the returned indices. -/
def getDopplerLines : Nat → OdsDemo_1D_DopplerLines_t →
    Except Halt (List Nat × OdsDemo_1D_DopplerLines_t)
  | 0, ths => .ok ([], ths)
  | n + 1, ths =>
    match OdsDemo_getDopplerLine ths with
    | .error e => .error e
    | .ok (index, ths1) =>
      match getDopplerLines n ths1 with
      | .error e => .error e
      | .ok (rest, ths2) => .ok (index :: rest, ths2)

/-- The value of mask bit `j` (bit `j % 32` of word `j / 32`). -/
def maskBit (mask : List Nat) (j : Nat) : Bool :=
  (mask.getD (j / 32) 0).testBit (j % 32)

/-- Number of bits that are set in the mask words `dopplerLineMask[0 .. len-1]`
(bit positions `0 .. 32*len - 1`). -/
def numBitsSet (ths : OdsDemo_1D_DopplerLines_t) : Nat :=
  ((List.range (32 * ths.dopplerLineMask.length)).filter
    (fun j => maskBit ths.dopplerLineMask j)).length

/-! ## Stage-1 flagging of `OdsDemo_interFrameProcessing` -/

/-- The flagging step of `OdsDemo_interFrameProcessing` for one range bin: for each of the
`numDetObjPerCfar` indices that the Doppler CFAR left in `cfarDetObjIndexBuf` (here the list
`det`), `if (!OdsDemo_isSetDopplerLine(..)) { OdsDemo_setDopplerLine(..); numDetObj1D++; }`.
The state is the line mask and the counter `numDetObj1D`. -/
def flagDopplerLines (det : List Nat) (st : OdsDemo_1D_DopplerLines_t × Nat) :
    OdsDemo_1D_DopplerLines_t × Nat :=
  if det.length > 0 then
    det.foldl (fun st d =>
      if OdsDemo_isSetDopplerLine st.1 d = 0 then (OdsDemo_setDopplerLine st.1 d, st.2 + 1)
      else st) st
  else st

/-- The range loop of `OdsDemo_interFrameProcessing` as far as the line mask and the counter
`numDetObj1D` go: `numDetObj1D = 0; OdsDemo_resetDopplerLines(..)`, then the flagging step
for the CFAR result of every range bin (`dets`, one list per range bin; the CFAR itself is
the library routine `mmwavelib_cfarCadBwrap`). -/
def stage1Flagging (ths : OdsDemo_1D_DopplerLines_t) (dets : List (List Nat)) :
    OdsDemo_1D_DopplerLines_t × Nat :=
  dets.foldl (fun st det => flagDopplerLines det st) (OdsDemo_resetDopplerLines ths, 0)

/-! ## BPM decoding -/

/-- The complex sample type `cmplx32ReIm_t` of the mmWave library: two `int32_t` parts,
`real` and `imag`. -/
structure cmplx32ReIm_t where
  real : Int
  imag : Int
deriving DecidableEq, Repr

/-- The `int32_t` value of an expression whose exact result is `x` (two's complement
wrap-around of the 32-bit addition and subtraction). -/
def wrapInt32 (x : Int) : Int := (x + 2147483648) % 4294967296 - 2147483648

/-- One iteration of the loop of `OdsDemo_decodeBPM`. `bpmAPtr[idx]` is `azimuthIn[idx]`,
`bpmBPtr[idx]` is `azimuthIn[numRxAnt + idx]`; the four assignments are done in the order
of the source, each on the buffer left by the one before. `/ 2` is the C division, which
truncates towards zero. -/
def OdsDemo_decodeBPM.body (numRxAnt : Nat) (azimuthIn : Nat → cmplx32ReIm_t) (idx : Nat) :
    Nat → cmplx32ReIm_t :=
  let a := idx
  let b := numRxAnt + idx
  -- store A
  let real := (azimuthIn a).real
  let imag := (azimuthIn a).imag
  -- compute S1 and store in place
  let m1 := Function.update azimuthIn a
    { azimuthIn a with real := (wrapInt32 ((azimuthIn a).real + (azimuthIn b).real)).tdiv 2 }
  let m2 := Function.update m1 a
    { m1 a with imag := (wrapInt32 ((m1 a).imag + (m1 b).imag)).tdiv 2 }
  -- compute S2 and store in place
  let m3 := Function.update m2 b
    { m2 b with real := (wrapInt32 (real - (m2 b).real)).tdiv 2 }
  Function.update m3 b
    { m3 b with imag := (wrapInt32 (imag - (m3 b).imag)).tdiv 2 }

/-- `OdsDemo_decodeBPM`: `for (idx = 0; idx < numRxAnt; idx++)` over the buffer. -/
def OdsDemo_decodeBPM (azimuthIn : Nat → cmplx32ReIm_t) (numRxAnt : Nat) :
    Nat → cmplx32ReIm_t :=
  (List.range numRxAnt).foldl (OdsDemo_decodeBPM.body numRxAnt) azimuthIn

/-- The 32-bit signed range. -/
def isInt32 (x : Int) : Prop := -2147483648 ≤ x ∧ x < 2147483648

/-! ## Peak grouping -/

/-- Modelled from the spec: the record `OdsDemo_objRaw_t` of a CFAR candidate (declared
in `dss_data_path.h`, which is not part of the sources) is the CandidateObject
`{rangeIdx, dopplerIdx (unsigned bin), peakVal}`; the three fields are `uint16_t`. -/
structure OdsDemo_objRaw_t where
  rangeIdx : Nat
  dopplerIdx : Nat
  peakVal : Nat
deriving DecidableEq, Repr

/-- Modelled from the spec: the record `OdsDemo_detectedObj` (declared in a header that is
not part of the sources) is the DetectedObject `{rangeIdx, dopplerIdx (signed), peakVal,
x, y, z}`. -/
structure OdsDemo_detectedObj where
  rangeIdx : Nat
  dopplerIdx : Int
  peakVal : Nat
  x : Int
  y : Int
  z : Int
deriving DecidableEq, Repr

/-- Modelled from the spec: the macro `DOPPLER_IDX_TO_SIGNED` (defined in a header that is
not part of the sources) converts "the stored unsigned Doppler bin to a signed,
Nyquist-centered value": bins below half the FFT size are kept, the others have the FFT size
subtracted. -/
def DOPPLER_IDX_TO_SIGNED (_idx : Nat) (_fftSize : Nat) : Int :=
  if _idx < _fftSize / 2 then (_idx : Int) else (_idx : Int) - (_fftSize : Int)

/-- Modelled from the spec: the macro `DOPPLER_IDX_TO_UNSIGNED` (defined in a header that is
not part of the sources) takes the signed, Nyquist-wrapped Doppler index back to the unsigned
bin: the 32-bit two's-complement value of the index masked with `_fftSize - 1`. -/
def DOPPLER_IDX_TO_UNSIGNED (_idx : Int) (_fftSize : Nat) : Nat :=
  (_idx % 4294967296).toNat &&& ((_fftSize + 4294967295) % 4294967296)

/-- The three assignments `objOut[numObjOut].rangeIdx = ..; .dopplerIdx =
DOPPLER_IDX_TO_SIGNED(..); .peakVal = ..` that emit one object. -/
def emitObj (objOut : Nat → OdsDemo_detectedObj) (numObjOut : Nat)
    (rangeIdx dopplerIdx numDopplerBins peakVal : Nat) : Nat → OdsDemo_detectedObj :=
  Function.update objOut numObjOut
    { objOut numObjOut with
      rangeIdx := rangeIdx
      dopplerIdx := DOPPLER_IDX_TO_SIGNED dopplerIdx numDopplerBins
      peakVal := peakVal }

/-- The "no grouping" branch, the same text in both grouping routines:
`for (i = 0; i < MIN(numDetectedObjects, MMW_MAX_OBJ_OUT); i++)`, copying the candidates
inside the range window. The state is `(numObjOut, objOut)`. -/
def noGroupingCopy (objOut : Nat → OdsDemo_detectedObj) (objRaw : Nat → OdsDemo_objRaw_t)
    (numDetectedObjects numDopplerBins maxRangeIdx minRangeIdx MMW_MAX_OBJ_OUT : Nat) :
    Nat × (Nat → OdsDemo_detectedObj) :=
  (List.range (min numDetectedObjects MMW_MAX_OBJ_OUT)).foldl
    (fun st i =>
      if (objRaw i).rangeIdx ≤ maxRangeIdx ∧ (objRaw i).rangeIdx ≥ minRangeIdx then
        (st.1 + 1,
          emitObj st.2 st.1 (objRaw i).rangeIdx (objRaw i).dopplerIdx numDopplerBins
            (objRaw i).peakVal)
      else st)
    (0, objOut)

/-- The comparison loop `for (k = startInd; k <= endInd; k += stepInd)
if (kernel[k] > kernel[4]) detectedObjFlag = 0;`. The first argument bounds the number of
iterations (`endInd + 1` is enough for a positive step). -/
def compareLoop (kernel : Nat → Nat) (stepInd endInd : Nat) : Nat → Nat → Nat → Nat
  | 0, _, detectedObjFlag => detectedObjFlag
  | fuel + 1, k, detectedObjFlag =>
    if k ≤ endInd then
      compareLoop kernel stepInd endInd fuel (k + stepInd)
        (if kernel k > kernel 4 then 0 else detectedObjFlag)
    else detectedObjFlag

/-- The Doppler column `l` of kernel column `k` in `OdsDemo_cfarPeakGrouping`:
`l = dopplerIdx + (k - 1); if (l < 0) l += numDopplerBins; else if (l >= numDopplerBins)
l -= numDopplerBins;`. -/
def kernelColumn (dopplerIdx k numDopplerBins : Nat) : Int :=
  let l : Int := (dopplerIdx : Int) + ((k : Int) - 1)
  if l < 0 then l + (numDopplerBins : Int)
  else if l ≥ (numDopplerBins : Int) then l - (numDopplerBins : Int)
  else l

/-- Filling of the local 3x3 kernel from the detection matrix in `OdsDemo_cfarPeakGrouping`.
`detMatrix` is the flat `uint16_t` array, `tempPtr` is kept as an element offset into it.
`kernel` is the content of the local array before the fill (it is not initialised by the
routine). `(rangeIdx - 1) * numDopplerBins` is computed on naturals: for `rangeIdx = 0` the
C value differs, but it is then overwritten, since an in-window `rangeIdx = 0` equals
`minRangeIdx`. -/
def OdsDemo_cfarPeakGrouping.fillKernel (detMatrix : Nat → Nat)
    (numDopplerBins maxRangeIdx minRangeIdx : Nat) (kernel : Nat → Nat)
    (rangeIdx dopplerIdx : Nat) : Nat → Nat :=
  let tempPtr := (rangeIdx - 1) * numDopplerBins
  let rowStart := 0
  let rowEnd := 2
  let init : (Nat × Nat × Nat) × (Nat → Nat) :=
    if rangeIdx = minRangeIdx then
      ((rangeIdx * numDopplerBins, 1, rowEnd),
        Function.update (Function.update (Function.update kernel 0 0) 1 0) 2 0)
    else if rangeIdx = maxRangeIdx then
      ((tempPtr, rowStart, 1),
        Function.update (Function.update (Function.update kernel 6 0) 7 0) 8 0)
    else ((tempPtr, rowStart, rowEnd), kernel)
  ((List.range' init.1.2.1 (init.1.2.2 + 1 - init.1.2.1)).foldl
    (fun (st : (Nat → Nat) × Nat) j =>
      ((List.range 3).foldl
        (fun kernel k =>
          Function.update kernel (j * 3 + k)
            (detMatrix (((st.2 : Int) + kernelColumn dopplerIdx k numDopplerBins).toNat)))
        st.1,
       st.2 + numDopplerBins))
    (init.2, init.1.1)).1

/-- The checking part of one iteration of the main loop of `OdsDemo_cfarPeakGrouping`
for the candidate at list position `i`: the content of the local kernel after the iteration
and the value of `detectedObjFlag`. `kernel` is the content of the local array before. -/
def OdsDemo_cfarPeakGrouping.check (objRaw : Nat → OdsDemo_objRaw_t) (detMatrix : Nat → Nat)
    (numDopplerBins maxRangeIdx minRangeIdx startInd stepInd endInd : Nat)
    (kernel : Nat → Nat) (i : Nat) : (Nat → Nat) × Nat :=
  let rangeIdx := (objRaw i).rangeIdx
  let dopplerIdx := (objRaw i).dopplerIdx
  if rangeIdx ≤ maxRangeIdx ∧ rangeIdx ≥ minRangeIdx then
    -- detectedObjFlag = 1; fill the kernel; compare
    let kernel1 :=
      OdsDemo_cfarPeakGrouping.fillKernel detMatrix numDopplerBins maxRangeIdx minRangeIdx
        kernel rangeIdx dopplerIdx
    (kernel1, compareLoop kernel1 stepInd endInd (endInd + 1) startInd 1)
  else (kernel, 0)

/-- The main loop of `OdsDemo_cfarPeakGrouping` (`for (i = 0; i < numDetectedObjects; i++)`
with the `break` on `numObjOut >= MMW_MAX_OBJ_OUT`). The first argument is the number of
candidates still to visit, `numDetectedObjects - i`. -/
def OdsDemo_cfarPeakGrouping.loop (objRaw : Nat → OdsDemo_objRaw_t) (detMatrix : Nat → Nat)
    (numDopplerBins maxRangeIdx minRangeIdx MMW_MAX_OBJ_OUT startInd stepInd endInd : Nat) :
    Nat → Nat → Nat → (Nat → OdsDemo_detectedObj) → (Nat → Nat) →
      Nat × (Nat → OdsDemo_detectedObj)
  | 0, _, numObjOut, objOut, _ => (numObjOut, objOut)
  | remaining + 1, i, numObjOut, objOut, kernel =>
    let chk := OdsDemo_cfarPeakGrouping.check objRaw detMatrix numDopplerBins maxRangeIdx
      minRangeIdx startInd stepInd endInd kernel i
    let st : Nat × (Nat → OdsDemo_detectedObj) :=
      if chk.2 = 1 then
        (numObjOut + 1,
          emitObj objOut numObjOut (objRaw i).rangeIdx (objRaw i).dopplerIdx numDopplerBins
            (objRaw i).peakVal)
      else (numObjOut, objOut)
    if st.1 ≥ MMW_MAX_OBJ_OUT then st
    else
      OdsDemo_cfarPeakGrouping.loop objRaw detMatrix numDopplerBins maxRangeIdx minRangeIdx
        MMW_MAX_OBJ_OUT startInd stepInd endInd remaining (i + 1) st.1 st.2 chk.1

/-- `OdsDemo_cfarPeakGrouping`. Returns `numObjOut` and the output array. The constant
`MMW_MAX_OBJ_OUT` (defined in a header that is not part of the sources) is a parameter, and
so is the content `kernel` of the uninitialised local array. -/
def OdsDemo_cfarPeakGrouping (objOut : Nat → OdsDemo_detectedObj)
    (objRaw : Nat → OdsDemo_objRaw_t) (numDetectedObjects : Nat) (detMatrix : Nat → Nat)
    (numDopplerBins maxRangeIdx minRangeIdx groupInDopplerDirection groupInRangeDirection : Nat)
    (MMW_MAX_OBJ_OUT : Nat) (kernel : Nat → Nat) : Nat × (Nat → OdsDemo_detectedObj) :=
  if groupInDopplerDirection = 1 ∧ groupInRangeDirection = 1 then
    OdsDemo_cfarPeakGrouping.loop objRaw detMatrix numDopplerBins maxRangeIdx minRangeIdx
      MMW_MAX_OBJ_OUT 0 1 8 numDetectedObjects 0 0 objOut kernel
  else if groupInDopplerDirection = 0 ∧ groupInRangeDirection = 1 then
    OdsDemo_cfarPeakGrouping.loop objRaw detMatrix numDopplerBins maxRangeIdx minRangeIdx
      MMW_MAX_OBJ_OUT 1 3 7 numDetectedObjects 0 0 objOut kernel
  else if groupInDopplerDirection = 1 ∧ groupInRangeDirection = 0 then
    OdsDemo_cfarPeakGrouping.loop objRaw detMatrix numDopplerBins maxRangeIdx minRangeIdx
      MMW_MAX_OBJ_OUT 3 1 5 numDetectedObjects 0 0 objOut kernel
  else
    noGroupingCopy objOut objRaw numDetectedObjects numDopplerBins maxRangeIdx minRangeIdx
      MMW_MAX_OBJ_OUT

/-- The macro `WRAP_DOPPLER_IDX(_x) ((_x) & (numDopplerBins-1))` on `uint32_t` values. -/
def WRAP_DOPPLER_IDX (numDopplerBins : Nat) (_x : Nat) : Nat :=
  _x &&& ((numDopplerBins + 4294967295) % 4294967296)

/-- The macro `WRAP_DWN_LIST_IDX(_x) ((_x) >= numDetectedObjects ? ((_x) -
numDetectedObjects) : (_x))`. -/
def WRAP_DWN_LIST_IDX (numDetectedObjects : Nat) (_x : Int) : Int :=
  if _x ≥ (numDetectedObjects : Int) then _x - (numDetectedObjects : Int) else _x

/-- The macro `WRAP_UP_LIST_IDX(_x) ((_x) < 0 ? ((_x) + numDetectedObjects) : (_x))`. -/
def WRAP_UP_LIST_IDX (numDetectedObjects : Nat) (_x : Int) : Int :=
  if _x < 0 then _x + (numDetectedObjects : Int) else _x

/-- The `uint32_t` value of `a - b` for `uint32_t` `a` and a small constant `b`. -/
def subU32 (a b : Nat) : Nat := (a + (4294967296 - b)) % 4294967296

/-- The `uint32_t` value of `a + b`. -/
def addU32 (a b : Nat) : Nat := (a + b) % 4294967296

/-- "Fill the left column of the kernel": the backward scan of the candidate list in
`OdsDemo_cfarPeakGroupingCfarQualified` (`for (l = 0; l < numDetectedObjects; l++)` with its
`break`). The first argument is the number of iterations left, `k` the list position. -/
def OdsDemo_cfarPeakGroupingCfarQualified.scanLeft (objRaw : Nat → OdsDemo_objRaw_t)
    (numDetectedObjects numDopplerBins rangeIdx dopplerIdx : Nat) :
    Nat → Int → (Nat → Nat) → (Nat → Nat)
  | 0, _, kernel => kernel
  | remaining + 1, k, kernel =>
    if (objRaw k.toNat).dopplerIdx = WRAP_DOPPLER_IDX numDopplerBins (subU32 dopplerIdx 2) then
      kernel
    else
      let kernel1 :=
        if (objRaw k.toNat).rangeIdx = addU32 rangeIdx 1 ∧
            (objRaw k.toNat).dopplerIdx = WRAP_DOPPLER_IDX numDopplerBins (subU32 dopplerIdx 1)
        then Function.update kernel 6 (objRaw k.toNat).peakVal
        else if (objRaw k.toNat).rangeIdx = rangeIdx ∧
            (objRaw k.toNat).dopplerIdx = WRAP_DOPPLER_IDX numDopplerBins (subU32 dopplerIdx 1)
        then Function.update kernel 3 (objRaw k.toNat).peakVal
        else if (objRaw k.toNat).rangeIdx = subU32 rangeIdx 1 ∧
            (objRaw k.toNat).dopplerIdx = WRAP_DOPPLER_IDX numDopplerBins (subU32 dopplerIdx 1)
        then Function.update kernel 0 (objRaw k.toNat).peakVal
        else kernel
      OdsDemo_cfarPeakGroupingCfarQualified.scanLeft objRaw numDetectedObjects numDopplerBins
        rangeIdx dopplerIdx remaining (WRAP_UP_LIST_IDX numDetectedObjects (k - 1)) kernel1

/-- "Fill the right column of the kernel": the forward scan of the candidate list in
`OdsDemo_cfarPeakGroupingCfarQualified`. -/
def OdsDemo_cfarPeakGroupingCfarQualified.scanRight (objRaw : Nat → OdsDemo_objRaw_t)
    (numDetectedObjects numDopplerBins rangeIdx dopplerIdx : Nat) :
    Nat → Int → (Nat → Nat) → (Nat → Nat)
  | 0, _, kernel => kernel
  | remaining + 1, k, kernel =>
    if (objRaw k.toNat).dopplerIdx = WRAP_DOPPLER_IDX numDopplerBins (addU32 dopplerIdx 2) then
      kernel
    else
      let kernel1 :=
        if (objRaw k.toNat).rangeIdx = subU32 rangeIdx 1 ∧
            (objRaw k.toNat).dopplerIdx = WRAP_DOPPLER_IDX numDopplerBins (addU32 dopplerIdx 1)
        then Function.update kernel 2 (objRaw k.toNat).peakVal
        else if (objRaw k.toNat).rangeIdx = rangeIdx ∧
            (objRaw k.toNat).dopplerIdx = WRAP_DOPPLER_IDX numDopplerBins (addU32 dopplerIdx 1)
        then Function.update kernel 5 (objRaw k.toNat).peakVal
        else if (objRaw k.toNat).rangeIdx = addU32 rangeIdx 1 ∧
            (objRaw k.toNat).dopplerIdx = WRAP_DOPPLER_IDX numDopplerBins (addU32 dopplerIdx 1)
        then Function.update kernel 8 (objRaw k.toNat).peakVal
        else kernel
      OdsDemo_cfarPeakGroupingCfarQualified.scanRight objRaw numDetectedObjects numDopplerBins
        rangeIdx dopplerIdx remaining (WRAP_DWN_LIST_IDX numDetectedObjects (k + 1)) kernel1

/-- The first part of the kernel construction of `OdsDemo_cfarPeakGroupingCfarQualified` for
the candidate at list position `i`: `memset` of the kernel to zero, the centre `kernel[4]`,
and the middle column `kernel[1]`, `kernel[7]` from the list neighbours `i-1` and `i+1`. -/
def OdsDemo_cfarPeakGroupingCfarQualified.middleColumn (objRaw : Nat → OdsDemo_objRaw_t)
    (numDetectedObjects i : Nat) : Nat → Nat :=
  let rangeIdx := (objRaw i).rangeIdx
  let dopplerIdx := (objRaw i).dopplerIdx
  let peakVal := (objRaw i).peakVal
  let kernel0 : Nat → Nat := fun _ => 0
  -- Fill the middle column of the kernel
  let kernel1 := Function.update kernel0 4 peakVal
  let kernel2 :=
    if i > 0 then
      if (objRaw (i - 1)).rangeIdx = subU32 rangeIdx 1 ∧ (objRaw (i - 1)).dopplerIdx = dopplerIdx
      then Function.update kernel1 1 (objRaw (i - 1)).peakVal
      else kernel1
    else kernel1
  if i < numDetectedObjects - 1 then
    if (objRaw (i + 1)).rangeIdx = addU32 rangeIdx 1 ∧ (objRaw (i + 1)).dopplerIdx = dopplerIdx
    then Function.update kernel2 7 (objRaw (i + 1)).peakVal
    else kernel2
  else kernel2

/-- The 3x3 kernel that `OdsDemo_cfarPeakGroupingCfarQualified` builds for the in-window
candidate at list position `i`: centre and middle column, then the left and the right column
scans. -/
def OdsDemo_cfarPeakGroupingCfarQualified.buildKernel (objRaw : Nat → OdsDemo_objRaw_t)
    (numDetectedObjects numDopplerBins i : Nat) : Nat → Nat :=
  let rangeIdx := (objRaw i).rangeIdx
  let dopplerIdx := (objRaw i).dopplerIdx
  -- Fill the left column of the kernel
  let kernel4 :=
    OdsDemo_cfarPeakGroupingCfarQualified.scanLeft objRaw numDetectedObjects numDopplerBins
      rangeIdx dopplerIdx numDetectedObjects
      (WRAP_UP_LIST_IDX numDetectedObjects ((i : Int) - 1))
      (OdsDemo_cfarPeakGroupingCfarQualified.middleColumn objRaw numDetectedObjects i)
  -- Fill the right column of the kernel
  OdsDemo_cfarPeakGroupingCfarQualified.scanRight objRaw numDetectedObjects numDopplerBins
    rangeIdx dopplerIdx numDetectedObjects
    (WRAP_DWN_LIST_IDX numDetectedObjects ((i : Int) + 1)) kernel4

/-- The checking part of one iteration of the main loop of
`OdsDemo_cfarPeakGroupingCfarQualified` for the candidate at list position `i`: the value of
`detectedObjFlag`. -/
def OdsDemo_cfarPeakGroupingCfarQualified.check (objRaw : Nat → OdsDemo_objRaw_t)
    (numDetectedObjects numDopplerBins maxRangeIdx minRangeIdx startInd stepInd endInd : Nat)
    (i : Nat) : Nat :=
  let rangeIdx := (objRaw i).rangeIdx
  if rangeIdx ≤ maxRangeIdx ∧ rangeIdx ≥ minRangeIdx then
    compareLoop
      (OdsDemo_cfarPeakGroupingCfarQualified.buildKernel objRaw numDetectedObjects
        numDopplerBins i)
      stepInd endInd (endInd + 1) startInd 1
  else 0

/-- The main loop of `OdsDemo_cfarPeakGroupingCfarQualified`; the first argument is the
number of candidates still to visit, `numDetectedObjects - i`. -/
def OdsDemo_cfarPeakGroupingCfarQualified.loop (objRaw : Nat → OdsDemo_objRaw_t)
    (numDetectedObjects numDopplerBins maxRangeIdx minRangeIdx MMW_MAX_OBJ_OUT
      startInd stepInd endInd : Nat) :
    Nat → Nat → Nat → (Nat → OdsDemo_detectedObj) → Nat × (Nat → OdsDemo_detectedObj)
  | 0, _, numObjOut, objOut => (numObjOut, objOut)
  | remaining + 1, i, numObjOut, objOut =>
    let detectedObjFlag := OdsDemo_cfarPeakGroupingCfarQualified.check objRaw
      numDetectedObjects numDopplerBins maxRangeIdx minRangeIdx startInd stepInd endInd i
    let st : Nat × (Nat → OdsDemo_detectedObj) :=
      if detectedObjFlag = 1 then
        (numObjOut + 1,
          emitObj objOut numObjOut (objRaw i).rangeIdx (objRaw i).dopplerIdx numDopplerBins
            (objRaw i).peakVal)
      else (numObjOut, objOut)
    if st.1 ≥ MMW_MAX_OBJ_OUT then st
    else
      OdsDemo_cfarPeakGroupingCfarQualified.loop objRaw numDetectedObjects numDopplerBins
        maxRangeIdx minRangeIdx MMW_MAX_OBJ_OUT startInd stepInd endInd remaining (i + 1)
        st.1 st.2

/-- `OdsDemo_cfarPeakGroupingCfarQualified`. Returns `numObjOut` and the output array; the
constant `MMW_MAX_OBJ_OUT` is a parameter. -/
def OdsDemo_cfarPeakGroupingCfarQualified (objOut : Nat → OdsDemo_detectedObj)
    (objRaw : Nat → OdsDemo_objRaw_t) (numDetectedObjects : Nat)
    (numDopplerBins maxRangeIdx minRangeIdx groupInDopplerDirection groupInRangeDirection : Nat)
    (MMW_MAX_OBJ_OUT : Nat) : Nat × (Nat → OdsDemo_detectedObj) :=
  if groupInDopplerDirection = 1 ∧ groupInRangeDirection = 1 then
    OdsDemo_cfarPeakGroupingCfarQualified.loop objRaw numDetectedObjects numDopplerBins
      maxRangeIdx minRangeIdx MMW_MAX_OBJ_OUT 0 1 8 numDetectedObjects 0 0 objOut
  else if groupInDopplerDirection = 0 ∧ groupInRangeDirection = 1 then
    OdsDemo_cfarPeakGroupingCfarQualified.loop objRaw numDetectedObjects numDopplerBins
      maxRangeIdx minRangeIdx MMW_MAX_OBJ_OUT 1 3 7 numDetectedObjects 0 0 objOut
  else if groupInDopplerDirection = 1 ∧ groupInRangeDirection = 0 then
    OdsDemo_cfarPeakGroupingCfarQualified.loop objRaw numDetectedObjects numDopplerBins
      maxRangeIdx minRangeIdx MMW_MAX_OBJ_OUT 3 1 5 numDetectedObjects 0 0 objOut
  else
    noGroupingCopy objOut objRaw numDetectedObjects numDopplerBins maxRangeIdx minRangeIdx
      MMW_MAX_OBJ_OUT

/-- The objects in the output slots `objOut[0 .. numObjOut-1]`, as
`(rangeIdx, dopplerIdx, peakVal)` triples. -/
def emitted (res : Nat × (Nat → OdsDemo_detectedObj)) : List (Nat × Int × Nat) :=
  (List.range res.1).map (fun j => ((res.2 j).rangeIdx, (res.2 j).dopplerIdx, (res.2 j).peakVal))

/-- The output array after emitting, from slot `numObjOut` on, the candidates at the list
positions `is` in that order. -/
def emitAll (objRaw : Nat → OdsDemo_objRaw_t) (numDopplerBins : Nat) :
    (Nat → OdsDemo_detectedObj) → Nat → List Nat → (Nat → OdsDemo_detectedObj)
  | objOut, _, [] => objOut
  | objOut, numObjOut, i :: is =>
    emitAll objRaw numDopplerBins
      (emitObj objOut numObjOut (objRaw i).rangeIdx (objRaw i).dopplerIdx numDopplerBins
        (objRaw i).peakVal)
      (numObjOut + 1) is

/-- The `(rangeIdx, dopplerIdx, peakVal)` triple that is emitted for the candidate at list
position `i`. -/
def emittedOf (objRaw : Nat → OdsDemo_objRaw_t) (numDopplerBins : Nat) (i : Nat) :
    Nat × Int × Nat :=
  ((objRaw i).rangeIdx, DOPPLER_IDX_TO_SIGNED (objRaw i).dopplerIdx numDopplerBins,
    (objRaw i).peakVal)

/-- The value that the statement of the matrix-based policy gives to the neighbour in row
`row` and Doppler column `col` (taken modulo `numDopplerBins`): the matrix cell when the row is
inside `[minRangeIdx, maxRangeIdx]`, and 0 otherwise. -/
def windowedCell (detMatrix : Nat → Nat) (numDopplerBins maxRangeIdx minRangeIdx : Nat)
    (row col : Int) : Nat :=
  if (minRangeIdx : Int) ≤ row ∧ row ≤ (maxRangeIdx : Int) then
    detMatrix (row.toNat * numDopplerBins + (col % (numDopplerBins : Int)).toNat)
  else 0

/-- The condition of the matrix-based policy, as stated: the candidate `(r, d)` is inside the
range window and `detMatrix[r][d]` is not exceeded by any of its 8 neighbours
`detMatrix[r+dr][(d+dd) mod numDopplerBins]`, rows outside the window counting as 0. -/
def isLocalPeak (detMatrix : Nat → Nat) (numDopplerBins maxRangeIdx minRangeIdx r d : Nat) :
    Prop :=
  minRangeIdx ≤ r ∧ r ≤ maxRangeIdx ∧
  ∀ dr ∈ ([-1, 0, 1] : List Int), ∀ dd ∈ ([-1, 0, 1] : List Int), (dr, dd) ≠ (0, 0) →
    windowedCell detMatrix numDopplerBins maxRangeIdx minRangeIdx ((r : Int) + dr) ((d : Int) + dd)
      ≤ detMatrix (r * numDopplerBins + d)

instance (detMatrix : Nat → Nat) (numDopplerBins maxRangeIdx minRangeIdx r d : Nat) :
    Decidable (isLocalPeak detMatrix numDopplerBins maxRangeIdx minRangeIdx r d) := by
  unfold isLocalPeak
  infer_instance

/-- A list scan with a stop test and point-wise kernel writes, the common shape of the two
column scans of `OdsDemo_cfarPeakGroupingCfarQualified` (used to reason about them; they are
shown equal to instances of it). `stop m` is the `break` test on list entry `m`, `hit m t`
says that entry `m` is written to kernel slot `t`. -/
def scanGen (objRaw : Nat → OdsDemo_objRaw_t) (next : Int → Int) (stop : Nat → Bool)
    (hit : Nat → Nat → Bool) : Nat → Int → (Nat → Nat) → (Nat → Nat)
  | 0, _, kernel => kernel
  | remaining + 1, k, kernel =>
    if stop k.toNat then kernel
    else
      scanGen objRaw next stop hit remaining (next k)
        (fun t => if hit k.toNat t then (objRaw k.toNat).peakVal else kernel t)

/-- The list position visited by a scan after `l` steps from position `k`. -/
def scanPos (next : Int → Int) : Nat → Int → Int
  | 0, k => k
  | l + 1, k => scanPos next l (next k)

/-- Entry `m` is written to kernel slot `t` by the left column scan for a candidate
`(rangeIdx, dopplerIdx)` (the `if / else if` chain of the scan). -/
def hitLeft (objRaw : Nat → OdsDemo_objRaw_t) (numDopplerBins rangeIdx dopplerIdx : Nat)
    (m t : Nat) : Bool :=
  decide ((objRaw m).dopplerIdx = WRAP_DOPPLER_IDX numDopplerBins (subU32 dopplerIdx 1) ∧
    (((objRaw m).rangeIdx = addU32 rangeIdx 1 ∧ t = 6) ∨
     ((objRaw m).rangeIdx ≠ addU32 rangeIdx 1 ∧ (objRaw m).rangeIdx = rangeIdx ∧ t = 3) ∨
     ((objRaw m).rangeIdx ≠ addU32 rangeIdx 1 ∧ (objRaw m).rangeIdx ≠ rangeIdx ∧
        (objRaw m).rangeIdx = subU32 rangeIdx 1 ∧ t = 0)))

/-- Entry `m` is written to kernel slot `t` by the right column scan. -/
def hitRight (objRaw : Nat → OdsDemo_objRaw_t) (numDopplerBins rangeIdx dopplerIdx : Nat)
    (m t : Nat) : Bool :=
  decide ((objRaw m).dopplerIdx = WRAP_DOPPLER_IDX numDopplerBins (addU32 dopplerIdx 1) ∧
    (((objRaw m).rangeIdx = subU32 rangeIdx 1 ∧ t = 2) ∨
     ((objRaw m).rangeIdx ≠ subU32 rangeIdx 1 ∧ (objRaw m).rangeIdx = rangeIdx ∧ t = 5) ∨
     ((objRaw m).rangeIdx ≠ subU32 rangeIdx 1 ∧ (objRaw m).rangeIdx ≠ rangeIdx ∧
        (objRaw m).rangeIdx = addU32 rangeIdx 1 ∧ t = 8)))

/-- CFAR order of two candidates: Doppler-line-major, then ascending range. -/
def cfarOrderLt (a b : OdsDemo_objRaw_t) : Prop :=
  a.dopplerIdx < b.dopplerIdx ∨ (a.dopplerIdx = b.dopplerIdx ∧ a.rangeIdx < b.rangeIdx)

instance (a b : OdsDemo_objRaw_t) : Decidable (cfarOrderLt a b) := by
  unfold cfarOrderLt
  infer_instance

/-- The candidate list `objRaw[0 .. n-1]` is in CFAR order: strictly ascending in
`(dopplerIdx, rangeIdx)`. -/
def InCfarOrder (objRaw : Nat → OdsDemo_objRaw_t) (n : Nat) : Prop :=
  ∀ b, b < n → ∀ a, a < b → cfarOrderLt (objRaw a) (objRaw b)

instance (objRaw : Nat → OdsDemo_objRaw_t) (n : Nat) : Decidable (InCfarOrder objRaw n) := by
  unfold InCfarOrder
  infer_instance

/-- The `peakVal` of the entry of `objRaw[0 .. n-1]` whose range index is `row` and whose
Doppler index is `col`, and 0 when the list has no such entry. -/
def listPeak (objRaw : Nat → OdsDemo_objRaw_t) : Nat → Int → Int → Nat
  | 0, _, _ => 0
  | n + 1, row, col =>
    if ((objRaw n).rangeIdx : Int) = row ∧ ((objRaw n).dopplerIdx : Int) = col then
      (objRaw n).peakVal
    else listPeak objRaw n row col

/-- List position visited by the backward (left column) scan at step `l`. -/
def leftPos (n i l : Nat) : Nat := if l < i then i - 1 - l else n + i - 1 - l

/-- List position visited by the forward (right column) scan at step `l`. -/
def rightPos (n i l : Nat) : Nat := if i + 1 + l < n then i + 1 + l else i + 1 + l - n

/-! ## Sample inputs -/

/-- An output array with all fields zero. -/
def sampleObjOut : Nat → OdsDemo_detectedObj := fun _ => ⟨0, 0, 0, 0, 0, 0⟩

/-- Eight candidates in CFAR order for 8 Doppler bins (Doppler lines 0, 1, 2 and 7). -/
def sampleObjRaw : Nat → OdsDemo_objRaw_t := fun i =>
  ([⟨1, 0, 11⟩, ⟨2, 0, 12⟩, ⟨1, 1, 13⟩, ⟨2, 1, 14⟩, ⟨3, 1, 15⟩, ⟨2, 2, 16⟩, ⟨1, 7, 17⟩,
    ⟨3, 7, 18⟩] : List OdsDemo_objRaw_t).getD i ⟨0, 0, 0⟩

/-- A detection matrix with 8 Doppler bins that holds 10 everywhere except three cells. -/
def sampleDetMatrix : Nat → Nat := fun idx =>
  if idx = 2 * 8 + 3 then 50 else if idx = 3 * 8 + 3 then 60 else if idx = 2 * 8 + 2 then 50
  else 10

/-- Three candidates of `sampleDetMatrix`. -/
def sampleObjRaw3 : Nat → OdsDemo_objRaw_t := fun i =>
  ([⟨2, 2, 50⟩, ⟨2, 3, 50⟩, ⟨3, 3, 60⟩] : List OdsDemo_objRaw_t).getD i ⟨0, 0, 0⟩

/-- A list of 101 candidates in CFAR order for 16 Doppler bins: candidate `i` is on Doppler
line `i / 8` at range index `i % 8`. -/
def manyObjRaw : Nat → OdsDemo_objRaw_t := fun i => ⟨i % 8, i / 8, 20⟩

/-! ## Doppler compensation -/

/-- The table look-up of `OdsDemo_addDopplerCompensation` on `int32_t` values that do not
overflow: `none` when `numAnt == 0` (the routine returns before any look-up), otherwise the
index `dopplerCompensationIdx` at which `azimuthModCoefs` is read, paired with
`dopplerIdx & 0x1`, the condition under which the entry is multiplied by
`azimuthModCoefsHalfBin`. The division `/ 2` of C truncates towards zero. -/
def OdsDemo_addDopplerCompensation.lookup (dopplerIdx numDopplerBins : Int) (numAnt : Nat) :
    Option (Int × Int) :=
  if numAnt = 0 then none
  else
    let dopplerCompensationIdx := dopplerIdx
    let dopplerCompensationIdx :=
      if dopplerCompensationIdx ≥ numDopplerBins.tdiv 2 then
        dopplerCompensationIdx - numDopplerBins
      else dopplerCompensationIdx
    let dopplerCompensationIdx := dopplerCompensationIdx.tdiv 2
    let dopplerCompensationIdx :=
      if dopplerCompensationIdx < 0 then dopplerCompensationIdx + numDopplerBins
      else dopplerCompensationIdx
    some (dopplerCompensationIdx, dopplerIdx % 2)

/-! ## Dynamic configuration check -/

/-- The routine `OdsDemo_checkDynamicConfigErrors` on the four fields it reads:
`cliCfg->extendedMaxVelocityCfg.enabled`, `cliCfg->multiObjBeamFormingCfg.enabled`,
`cliCfg->nearFieldCorrectionCfg.enabled` and `obj->numTxAntennas`. The three assertions run in
order; the argument of each is the value of the C expression `!(a && b)`. -/
def OdsDemo_checkDynamicConfigErrors (extendedMaxVelocityEnabled multiObjBeamFormingEnabled
    nearFieldCorrectionEnabled numTxAntennas : Nat) : Except Halt Unit := do
  OdsDemo_dssAssert
    (if extendedMaxVelocityEnabled = 1 ∧ multiObjBeamFormingEnabled = 1 then 0 else 1)
  OdsDemo_dssAssert
    (if extendedMaxVelocityEnabled = 1 ∧ nearFieldCorrectionEnabled = 1 then 0 else 1)
  OdsDemo_dssAssert
    (if extendedMaxVelocityEnabled = 1 ∧ numTxAntennas = 1 then 0 else 1)

/-! ## Direction of arrival: output quantisation and range -/

/-- Conversion of an integer to `int16_t`, keeping the low 16 bits. -/
def wrapInt16 (x : Int) : Int := (x + 32768) % 65536 - 32768

/-- Modelled from the spec: the macro `ROUND` is not part of the sources. By the spec the
final outputs are quantised "rounding to nearest"; on an integer argument, the only use
modelled here, rounding to nearest returns the argument. -/
def ROUND (x : Int) : Int := x

/-- The macro `ONE_QFORMAT`, that is `(1 << xyzOutputQFormat)` in `int` arithmetic; the shifted
value is written as the power `2 ^ xyzOutputQFormat`. -/
def ONE_QFORMAT (xyzOutputQFormat : Nat) : Int := wrapInt32 (2 ^ xyzOutputQFormat)

/-- The branch of `OdsDemo_angleEstimationAzimElev` taken when the azimuth angle cannot be
computed: the three stores `(int16_t) ROUND(1000 * ONE_QFORMAT)` into the fields `x`, `y`
and `z` of `detObj2D[objIndex]`, after which the routine returns. The product is an `int`
product. -/
def OdsDemo_angleEstimationAzimElev.unresolvable (detObj2D : Nat → OdsDemo_detectedObj)
    (objIndex xyzOutputQFormat : Nat) : Nat → OdsDemo_detectedObj :=
  let d1 := Function.update detObj2D objIndex
    { detObj2D objIndex with
      x := wrapInt16 (ROUND (wrapInt32 (1000 * ONE_QFORMAT xyzOutputQFormat))) }
  let d2 := Function.update d1 objIndex
    { d1 objIndex with
      y := wrapInt16 (ROUND (wrapInt32 (1000 * ONE_QFORMAT xyzOutputQFormat))) }
  Function.update d2 objIndex
    { d2 objIndex with
      z := wrapInt16 (ROUND (wrapInt32 (1000 * ONE_QFORMAT xyzOutputQFormat))) }

/-- The local variable `range` of `OdsDemo_XYcalc` when the coordinates are computed
(`MMW_ENABLE_NEGATIVE_FREQ_SLOPE` is not defined in the sources). The `float` values are
modelled by the rationals they denote and the operations are exact. -/
def OdsDemo_XYcalc.range (rangeIdx : Nat) (rangeResolution rangeBias : ℚ) : ℚ :=
  let range := (rangeIdx : ℚ) * rangeResolution
  let range := range - rangeBias
  if range < 0 then 0 else range

/-- The local variable `range` of `OdsDemo_Yestimation` when `y` is computed, modelled as in
`OdsDemo_XYcalc.range`. -/
def OdsDemo_Yestimation.range (rangeIdx : Nat) (rangeResolution rangeBias : ℚ) : ℚ :=
  let range := (rangeIdx : ℚ) * rangeResolution
  let range := range - rangeBias
  if range < 0 then 0 else range

/-- The local variable `range` of `OdsDemo_angleEstimationAzimElev`: it is assigned once, from
`rangeIdx` and `rangeResolution`, and read when `x`, `y` and `z` are computed. The routine never
reads `rangeBias`. -/
def OdsDemo_angleEstimationAzimElev.range (rangeIdx : Nat) (rangeResolution : ℚ) : ℚ :=
  (rangeIdx : ℚ) * rangeResolution

/-! ## Azimuth peak search of `OdsDemo_XYestimation` -/

/-- The fields of the data path object written by `OdsDemo_XYcalc` and
`OdsDemo_XYestimation`: the object list `detObj2D`, the byte array `detObj2dAzimIdx` and the
object count `numDetObj`. -/
structure DetObjState where
  /-- The list `obj->detObj2D`. -/
  detObj2D : Nat → OdsDemo_detectedObj
  /-- The array `obj->detObj2dAzimIdx` of `uint8_t`. -/
  detObj2dAzimIdx : Nat → Nat
  /-- The count `obj->numDetObj`. -/
  numDetObj : Nat

/-- The routine `OdsDemo_XYcalc` (`MMW_ENABLE_NEGATIVE_FREQ_SLOPE` is not defined in the
sources). The `float` type is a linearly ordered type `α`; the `float` computation of the peak
value and of the coordinates `x`, `y` is the parameter `coords`, a function of the range index
of the object, of the `uint16_t` argument `azimIdx` and of `maxVal`. The routine stores the
azimuth index in the byte array and overwrites `peakVal`, `x`, `y`, `z` of the object. -/
def OdsDemo_XYcalc {α : Type} (coords : Nat → Nat → α → Nat × Int × Int)
    (obj : DetObjState) (objIndex azimIdx : Nat) (maxVal : α) : DetObjState :=
  let azimIdx := azimIdx % 65536
  let o := obj.detObj2D objIndex
  let c := coords o.rangeIdx azimIdx maxVal
  { obj with
    detObj2dAzimIdx := Function.update obj.detObj2dAzimIdx objIndex (azimIdx % 256)
    detObj2D := Function.update obj.detObj2D objIndex
      { o with peakVal := c.1, x := c.2.1, y := c.2.2, z := 0 } }

/-- The first loop of `OdsDemo_XYestimation`: the pair `(azimIdx, maxVal)` after the search
over `numSearchBins` bins, starting from `(0, 0)`. -/
def OdsDemo_XYestimation.firstPeak {α : Type} [LinearOrder α] [Zero α]
    (azimuthMagSqr : Nat → α) (numSearchBins : Nat) : Nat × α :=
  (List.range numSearchBins).foldl
    (fun (p : Nat × α) i => if azimuthMagSqr i > p.2 then (i, azimuthMagSqr i) else p)
    (0, 0)

/-- The loop "find right edge of the first peak" of `OdsDemo_XYestimation` on the variables
`k`, `i`, `leftSearchIdx`; the result is the final `leftSearchIdx`. -/
def OdsDemo_XYestimation.rightEdge {α : Type} [LinearOrder α] (azimuthMagSqr : Nat → α)
    (numAngleBins : Nat) : Nat → Nat → Nat → Nat
  | 0, _, leftSearchIdx => leftSearchIdx
  | k + 1, i, leftSearchIdx =>
    if azimuthMagSqr i ≥ azimuthMagSqr leftSearchIdx then
      OdsDemo_XYestimation.rightEdge azimuthMagSqr numAngleBins k
        (addU32 i 1 &&& subU32 numAngleBins 1)
        (addU32 leftSearchIdx 1 &&& subU32 numAngleBins 1)
    else leftSearchIdx

/-- The loop "find left edge of the first peak" of `OdsDemo_XYestimation` on the variables
`k`, `i`, `rightSearchIdx`; the result is the final `rightSearchIdx`. -/
def OdsDemo_XYestimation.leftEdge {α : Type} [LinearOrder α] (azimuthMagSqr : Nat → α)
    (numAngleBins : Nat) : Nat → Nat → Nat → Nat
  | 0, _, rightSearchIdx => rightSearchIdx
  | k + 1, i, rightSearchIdx =>
    if azimuthMagSqr i ≥ azimuthMagSqr rightSearchIdx then
      OdsDemo_XYestimation.leftEdge azimuthMagSqr numAngleBins k
        (subU32 i 1 &&& subU32 numAngleBins 1)
        (subU32 rightSearchIdx 1 &&& subU32 numAngleBins 1)
    else rightSearchIdx

/-- The second-peak search of `OdsDemo_XYestimation` for a first peak at `azimIdx`: the two
edge loops, the length `secondSearchLen` and the search loop. The result is the final pair
`(azimIdx, maxVal2)`. The counter `k` of the edge loops is an `int32_t` set to
`numAngleBins`. -/
def OdsDemo_XYestimation.secondPeak {α : Type} [LinearOrder α] (azimuthMagSqr : Nat → α)
    (numAngleBins azimIdx : Nat) : Nat × α :=
  let leftSearchIdx := OdsDemo_XYestimation.rightEdge azimuthMagSqr numAngleBins
    (wrapInt32 numAngleBins).toNat azimIdx (addU32 azimIdx 1 &&& subU32 numAngleBins 1)
  let rightSearchIdx := OdsDemo_XYestimation.leftEdge azimuthMagSqr numAngleBins
    (wrapInt32 numAngleBins).toNat azimIdx (subU32 azimIdx 1 &&& subU32 numAngleBins 1)
  let secondSearchLen :=
    addU32 (subU32 rightSearchIdx leftSearchIdx &&& subU32 numAngleBins 1) 1
  (List.range' leftSearchIdx (addU32 leftSearchIdx secondSearchLen - leftSearchIdx)).foldl
    (fun (p : Nat × α) i =>
      let iModAzimLen := i &&& subU32 numAngleBins 1
      if azimuthMagSqr iModAzimLen > p.2 then (iModAzimLen, azimuthMagSqr iModAzimLen) else p)
    (leftSearchIdx, azimuthMagSqr leftSearchIdx)

/-- The first part of `OdsDemo_XYestimation`, up to the first call of `OdsDemo_XYcalc`: the
peak search, the correction for an aliased velocity and the coordinates of the object. The
result is the state with the values of `azimIdx` and `maxVal` that the second part reads. The
field `dopplerIdx` is an `int16_t`. -/
def OdsDemo_XYestimation.first {α : Type} [LinearOrder α] [Zero α]
    (coords : Nat → Nat → α → Nat × Int × Int) (azimuthMagSqr : Nat → α)
    (numAngleBins numDopplerBins numVirtualAntAzim numRxAntennas
      extendedMaxVelocityEnabled : Nat)
    (obj : DetObjState) (objIndex : Nat) : DetObjState × Nat × α :=
  let ext : Prop := extendedMaxVelocityEnabled ≠ 0 ∧ numVirtualAntAzim > numRxAntennas
  let numSearchBins := if ext then (numAngleBins * 2) % 4294967296 else numAngleBins
  let p := OdsDemo_XYestimation.firstPeak azimuthMagSqr numSearchBins
  let azimIdx := p.1
  let maxVal := p.2
  let q : DetObjState × Nat :=
    if ext ∧ azimIdx ≥ numAngleBins then
      let o := obj.detObj2D objIndex
      let dopplerIdx :=
        if o.dopplerIdx < 0 then wrapInt16 (o.dopplerIdx + wrapInt16 numDopplerBins)
        else wrapInt16 (o.dopplerIdx - wrapInt16 numDopplerBins)
      ({ obj with
          detObj2D := Function.update obj.detObj2D objIndex { o with dopplerIdx := dopplerIdx } },
        subU32 azimIdx numAngleBins)
    else (obj, azimIdx)
  (OdsDemo_XYcalc coords q.1 objIndex q.2 maxVal, q.2, maxVal)

/-- The routine `OdsDemo_XYestimation`. The `float` type is a linearly ordered type `α` with a
zero, `coords` is the `float` arithmetic of `OdsDemo_XYcalc`, and `thrs maxVal` is the `float`
product `maxVal * multiPeakThrsScal`. `MMW_MAX_OBJ_OUT` is a constant of a header that is not
part of the sources. -/
def OdsDemo_XYestimation {α : Type} [LinearOrder α] [Zero α]
    (coords : Nat → Nat → α → Nat × Int × Int) (thrs : α → α) (azimuthMagSqr : Nat → α)
    (numAngleBins numDopplerBins numVirtualAntAzim numRxAntennas
      extendedMaxVelocityEnabled multiObjBeamFormingEnabled MMW_MAX_OBJ_OUT : Nat)
    (obj : DetObjState) (objIndex : Nat) : DetObjState :=
  let s := OdsDemo_XYestimation.first coords azimuthMagSqr numAngleBins numDopplerBins
    numVirtualAntAzim numRxAntennas extendedMaxVelocityEnabled obj objIndex
  let obj := s.1
  let azimIdx := s.2.1
  let maxVal := s.2.2
  if multiObjBeamFormingEnabled ≠ 0 ∧ ¬ extendedMaxVelocityEnabled ≠ 0 then
    let p := OdsDemo_XYestimation.secondPeak azimuthMagSqr numAngleBins azimIdx
    let azimIdx := p.1
    let maxVal2 := p.2
    if maxVal2 > thrs maxVal ∧ obj.numDetObj < MMW_MAX_OBJ_OUT then
      let obj := { obj with
        detObj2D := Function.update obj.detObj2D obj.numDetObj
          { obj.detObj2D obj.numDetObj with dopplerIdx := (obj.detObj2D objIndex).dopplerIdx } }
      let obj := { obj with
        detObj2D := Function.update obj.detObj2D obj.numDetObj
          { obj.detObj2D obj.numDetObj with rangeIdx := (obj.detObj2D objIndex).rangeIdx } }
      let objIndex := obj.numDetObj
      let obj := { obj with numDetObj := addU32 obj.numDetObj 1 }
      OdsDemo_XYcalc coords obj objIndex azimIdx maxVal2
    else obj
  else obj

/-- The condition under which `OdsDemo_XYestimation` appends a second object: the second-peak
block is entered (multi-object beamforming enabled, extended maximum velocity disabled), the
second peak exceeds `thrs maxVal` and the object list is not full. -/
def OdsDemo_XYestimation.accepted {α : Type} [LinearOrder α] [Zero α]
    (coords : Nat → Nat → α → Nat × Int × Int) (thrs : α → α) (azimuthMagSqr : Nat → α)
    (numAngleBins numDopplerBins numVirtualAntAzim numRxAntennas
      extendedMaxVelocityEnabled multiObjBeamFormingEnabled MMW_MAX_OBJ_OUT : Nat)
    (obj : DetObjState) (objIndex : Nat) : Prop :=
  multiObjBeamFormingEnabled ≠ 0 ∧ extendedMaxVelocityEnabled = 0 ∧
    (OdsDemo_XYestimation.secondPeak azimuthMagSqr numAngleBins
        (OdsDemo_XYestimation.first coords azimuthMagSqr numAngleBins numDopplerBins
          numVirtualAntAzim numRxAntennas extendedMaxVelocityEnabled obj objIndex).2.1).2
      > thrs (OdsDemo_XYestimation.first coords azimuthMagSqr numAngleBins numDopplerBins
          numVirtualAntAzim numRxAntennas extendedMaxVelocityEnabled obj objIndex).2.2 ∧
    obj.numDetObj < MMW_MAX_OBJ_OUT

instance {α : Type} [LinearOrder α] [Zero α]
    (coords : Nat → Nat → α → Nat × Int × Int) (thrs : α → α) (azimuthMagSqr : Nat → α)
    (numAngleBins numDopplerBins numVirtualAntAzim numRxAntennas
      extendedMaxVelocityEnabled multiObjBeamFormingEnabled MMW_MAX_OBJ_OUT : Nat)
    (obj : DetObjState) (objIndex : Nat) :
    Decidable (OdsDemo_XYestimation.accepted coords thrs azimuthMagSqr numAngleBins
      numDopplerBins numVirtualAntAzim numRxAntennas extendedMaxVelocityEnabled
      multiObjBeamFormingEnabled MMW_MAX_OBJ_OUT obj objIndex) := by
  unfold OdsDemo_XYestimation.accepted
  infer_instance

/-- A spectrum over 8 angle bins with a single peak at bin 2 on a flat floor. -/
def singlePeakSpectrum : Nat → Nat := fun i => [1, 2, 5, 3, 1, 1, 1, 1].getD i 0

/-- A state with one stored object at range index 4 and Doppler index 3. -/
def oneObjState : DetObjState :=
  { detObj2D := fun _ => ⟨4, 3, 0, 0, 0, 0⟩, detObj2dAzimIdx := fun _ => 0, numDetObj := 1 }

/-! ## DC range signature compensation -/

/-- The element type `cmplx16ReIm_t` of `fftOut1D`: 16-bit real part in the lower halfword and
16-bit imaginary part in the upper halfword of a 32-bit word. -/
structure cmplx16ReIm_t where
  /-- Real part, an `int16_t`. -/
  real : Int
  /-- Imaginary part, an `int16_t`. -/
  imag : Int
  deriving DecidableEq, Repr

/-- The element type `cmplx32ImRe_t` of `dcRangeSigMean`: 32-bit imaginary part in the lower
word and 32-bit real part in the upper word of a 64-bit double word. -/
structure cmplx32ImRe_t where
  /-- Imaginary part, an `int32_t`. -/
  imag : Int
  /-- Real part, an `int32_t`. -/
  real : Int
  deriving DecidableEq, Repr

/-- The configuration that `OdsDemo_dcRangeSignatureCompensation` reads: fields of the data
path object and of `cliCfg->calibDcRangeSigCfg`. -/
structure DcRangeSigCfg where
  /-- The field `obj->numRxAntennas`. -/
  numRxAntennas : Nat
  /-- The field `obj->numTxAntennas`. -/
  numTxAntennas : Nat
  /-- The field `obj->numRangeBins`. -/
  numRangeBins : Nat
  /-- The field `calibDcCfg->positiveBinIdx`. -/
  positiveBinIdx : Nat
  /-- The field `calibDcCfg->negativeBinIdx`, zero or negative in a valid configuration. -/
  negativeBinIdx : Int
  /-- The field `calibDcCfg->numAvgChirps`. -/
  numAvgChirps : Nat
  /-- The field `obj->log2NumAvgChirps`. -/
  log2NumAvgChirps : Nat

/-- The part of the data path object that `OdsDemo_dcRangeSignatureCompensation` reads and
writes. -/
structure DcRangeSigState where
  /-- The array `obj->dcRangeSigMean`. -/
  dcRangeSigMean : Nat → cmplx32ImRe_t
  /-- The array `obj->fftOut1D`. -/
  fftOut1D : Nat → cmplx16ReIm_t
  /-- The counter `obj->dcRangeSigCalibCntr`. -/
  dcRangeSigCalibCntr : Nat

/-- Conversion of an integer to `uint32_t`. -/
def u32 (x : Int) : Nat := (x % 4294967296).toNat

/-- The value of `chirpPingPongSize`, an `int32_t`. -/
def OdsDemo_dcRangeSignatureCompensation.chirpPingPongSize (cfg : DcRangeSigCfg) : Int :=
  wrapInt32 ((cfg.numRxAntennas : Int) * ((cfg.positiveBinIdx : Int) - cfg.negativeBinIdx + 1))

/-- One inner loop of the accumulation: `count` bins of `fftOut1D` from `fftBase` on are added
to the entries `meanBase + ind` of the mean, component by component in `int32_t` arithmetic,
with `ind` incremented after every bin. The state is the mean together with `ind`. -/
def OdsDemo_dcRangeSignatureCompensation.accumulateBand (fftOut1D : Nat → cmplx16ReIm_t)
    (meanBase fftBase count : Nat) (st : (Nat → cmplx32ImRe_t) × Nat) :
    (Nat → cmplx32ImRe_t) × Nat :=
  (List.range count).foldl
    (fun st binIdx =>
      let meanBin := st.1 (meanBase + st.2)
      let fftBin := fftOut1D (fftBase + binIdx)
      let Im := wrapInt32 (meanBin.imag + fftBin.imag)
      let Re := wrapInt32 (meanBin.real + fftBin.real)
      (Function.update st.1 (meanBase + st.2) ⟨Im, Re⟩, st.2 + 1))
    st

/-- One inner loop of the subtraction: for `count` bins of `fftOut1D` from `fftBase` on, the
entry `meanBase + ind` of the mean is subtracted in `int32_t` arithmetic and the low 16 bits of
both components are stored back (`_pack2`), with `ind` incremented after every bin. The state
is `fftOut1D` together with `ind`. -/
def OdsDemo_dcRangeSignatureCompensation.subtractBand (dcRangeSigMean : Nat → cmplx32ImRe_t)
    (meanBase fftBase count : Nat) (st : (Nat → cmplx16ReIm_t) × Nat) :
    (Nat → cmplx16ReIm_t) × Nat :=
  (List.range count).foldl
    (fun st binIdx =>
      let meanBin := dcRangeSigMean (meanBase + st.2)
      let fftBin := st.1 (fftBase + binIdx)
      let Im := wrapInt32 (fftBin.imag - meanBin.imag)
      let Re := wrapInt32 (fftBin.real - meanBin.real)
      (Function.update st.1 (fftBase + binIdx) ⟨wrapInt16 Re, wrapInt16 Im⟩, st.2 + 1))
    st

/-- The value of `chirpInOffs` for the first band of receive antenna `rxAntIdx`. -/
def OdsDemo_dcRangeSignatureCompensation.chirpInOffs (cfg : DcRangeSigCfg)
    (chirpPingPongId rxAntIdx : Nat) : Nat :=
  (chirpPingPongId * (cfg.numRxAntennas * cfg.numRangeBins % 4294967296) % 4294967296
    + cfg.numRangeBins * rxAntIdx % 4294967296) % 4294967296

/-- The value of `chirpInOffs` for the second band of receive antenna `rxAntIdx`. -/
def OdsDemo_dcRangeSignatureCompensation.chirpInOffsNeg (cfg : DcRangeSigCfg)
    (chirpPingPongId rxAntIdx : Nat) : Nat :=
  u32 ((OdsDemo_dcRangeSignatureCompensation.chirpInOffs cfg chirpPingPongId rxAntIdx : Int)
    + cfg.numRangeBins + cfg.negativeBinIdx)

/-- The routine `OdsDemo_dcRangeSignatureCompensation`. The intrinsics are read as follows:
`_loll` and `_hill` are the imaginary and real part of a mean entry, `_ext(x, 0, 16)` and
`_ext(x, 16, 16)` the sign-extended imaginary and real part of an FFT bin, `_itoll(Re, Im)`
and `_pack2(Im, Re)` build the stored entry, and `_sshvr` with a non-negative count is the
arithmetic right shift. -/
def OdsDemo_dcRangeSignatureCompensation (cfg : DcRangeSigCfg) (obj : DcRangeSigState)
    (chirpPingPongId : Nat) : DcRangeSigState :=
  let chirpPingPongSize := OdsDemo_dcRangeSignatureCompensation.chirpPingPongSize cfg
  let total := u32 ((cfg.numTxAntennas : Int) * chirpPingPongSize)
  let mean0 : Nat → cmplx32ImRe_t :=
    if obj.dcRangeSigCalibCntr = 0 then
      fun i => if i < total then ⟨0, 0⟩ else obj.dcRangeSigMean i
    else obj.dcRangeSigMean
  let chirpPingPongOffs := wrapInt32 ((chirpPingPongId : Int) * chirpPingPongSize)
  let meanBase := chirpPingPongOffs.toNat
  if obj.dcRangeSigCalibCntr < cfg.numAvgChirps * cfg.numTxAntennas % 4294967296 then
    let acc := (List.range cfg.numRxAntennas).foldl
      (fun st rxAntIdx =>
        let st := OdsDemo_dcRangeSignatureCompensation.accumulateBand obj.fftOut1D meanBase
          (OdsDemo_dcRangeSignatureCompensation.chirpInOffs cfg chirpPingPongId rxAntIdx)
          (cfg.positiveBinIdx + 1) st
        OdsDemo_dcRangeSignatureCompensation.accumulateBand obj.fftOut1D meanBase
          (OdsDemo_dcRangeSignatureCompensation.chirpInOffsNeg cfg chirpPingPongId rxAntIdx)
          (u32 (-cfg.negativeBinIdx)) st)
      (mean0, 0)
    let cntr := addU32 obj.dcRangeSigCalibCntr 1
    let mean1 : Nat → cmplx32ImRe_t :=
      if cntr = cfg.numAvgChirps * cfg.numTxAntennas % 4294967296 then
        fun ind =>
          if ind < total then
            ⟨(acc.1 ind).imag >>> cfg.log2NumAvgChirps, (acc.1 ind).real >>> cfg.log2NumAvgChirps⟩
          else acc.1 ind
      else acc.1
    { obj with dcRangeSigMean := mean1, dcRangeSigCalibCntr := cntr }
  else
    let sub := (List.range cfg.numRxAntennas).foldl
      (fun st rxAntIdx =>
        let st := OdsDemo_dcRangeSignatureCompensation.subtractBand mean0 meanBase
          (OdsDemo_dcRangeSignatureCompensation.chirpInOffs cfg chirpPingPongId rxAntIdx)
          (cfg.positiveBinIdx + 1) st
        OdsDemo_dcRangeSignatureCompensation.subtractBand mean0 meanBase
          (OdsDemo_dcRangeSignatureCompensation.chirpInOffsNeg cfg chirpPingPongId rxAntIdx)
          (u32 (-cfg.negativeBinIdx)) st)
      (obj.fftOut1D, 0)
    { obj with dcRangeSigMean := mean0, fftOut1D := sub.1 }

/-- The calls of `OdsDemo_dcRangeSignatureCompensation` made by `OdsDemo_processChirp` for the
chirps `c, c + 1, ...`: before the call for chirp `c` the 1D FFT output of that chirp,
`chirps c`, is in `fftOut1D`, and the ping/pong id is `pingPongId(chirpCount)`, the low bit of
the chirp count. The result is the state after the call for the last chirp. -/
def dcRangeSigRun (cfg : DcRangeSigCfg) (chirps : Nat → Nat → cmplx16ReIm_t) :
    Nat → Nat → DcRangeSigState → DcRangeSigState
  | 0, _, obj => obj
  | n + 1, c, obj =>
    dcRangeSigRun cfg chirps n (c + 1)
      (OdsDemo_dcRangeSignatureCompensation cfg { obj with fftOut1D := chirps c } (c &&& 1))

/-- An FFT bin minus a mean entry, component by component, truncated to 16 bits. -/
def dcSubtract (fftBin : cmplx16ReIm_t) (meanBin : cmplx32ImRe_t) : cmplx16ReIm_t :=
  ⟨wrapInt16 (fftBin.real - meanBin.real), wrapInt16 (fftBin.imag - meanBin.imag)⟩

/-- A configuration with 2 receive and 2 transmit antennas, 8 range bins, the calibration
band `-1 .. 1` and 2 averaged chirps. -/
def sampleDcCfg : DcRangeSigCfg :=
  { numRxAntennas := 2, numTxAntennas := 2, numRangeBins := 8, positiveBinIdx := 1,
    negativeBinIdx := -1, numAvgChirps := 2, log2NumAvgChirps := 1 }

/-- A state after the warm-up window of `sampleDcCfg`. -/
def sampleDcState : DcRangeSigState :=
  { dcRangeSigMean := fun i => ⟨i, 2 * i⟩, fftOut1D := fun a => ⟨100 + a, 7⟩,
    dcRangeSigCalibCntr := 4 }

/-- A configuration with a single transmit antenna: 1 receive antenna, 4 range bins, the
calibration band reduced to bin 0, and 4 averaged chirps. -/
def singleTxDcCfg : DcRangeSigCfg :=
  { numRxAntennas := 1, numTxAntennas := 1, numRangeBins := 4, positiveBinIdx := 0,
    negativeBinIdx := 0, numAvgChirps := 4, log2NumAvgChirps := 2 }

/-- Chirps whose FFT output is `10 * (c + 1)` in the real part of every bin, for the chirp
count `c`. -/
def rampChirps : Nat → Nat → cmplx16ReIm_t := fun c _ => ⟨10 * (c + 1), 0⟩

/-- A state before calibration: zero mean, counter zero. -/
def freshDcState : DcRangeSigState :=
  { dcRangeSigMean := fun _ => ⟨0, 0⟩, fftOut1D := fun _ => ⟨0, 0⟩, dcRangeSigCalibCntr := 0 }

/-! ## Buffer allocation of `OdsDemo_dataPathConfigBuffers` -/

/-- The product of two `uint32_t` values. -/
def mulU32 (a b : Nat) : Nat := (a * b) % 4294967296

/-- The macro `ALIGN(x,a)`, that is `(((x)+((a)-1))&~((a)-1))` on `uint32_t` values. -/
def ALIGN (x a : Nat) : Nat := addU32 x (subU32 a 1) &&& (4294967295 - subU32 a 1)

/-- The result of one expansion of `MMW_ALLOC_BUF`: the arguments `startAddr` and `alignment`,
the byte size `(size) * sizeof(nameType)`, the assigned pointer `obj->name` and the local
`name_end`. -/
structure Buf where
  /-- The argument `startAddr`. -/
  startAddr : Nat
  /-- The argument `alignment`. -/
  alignment : Nat
  /-- The byte size `(size) * sizeof(nameType)`, a `uint32_t` product. -/
  bytes : Nat
  /-- The pointer `obj->name`. -/
  name : Nat
  /-- The local `name_end`. -/
  name_end : Nat
deriving DecidableEq, Repr

/-- The macro `MMW_ALLOC_BUF(name, nameType, startAddr, alignment, size)` with overlays
(`NO_OVERLAY` is not defined); the first argument is `sizeof(nameType)`. -/
def MMW_ALLOC_BUF (sizeofType startAddr alignment size : Nat) : Buf :=
  { startAddr := startAddr
    alignment := alignment
    bytes := mulU32 size sizeofType
    name := ALIGN startAddr alignment
    name_end := addU32 (ALIGN startAddr alignment) (mulU32 size sizeofType) }

/-- The inputs of `OdsDemo_dataPathConfigBuffers`: the fields of the data path object that it
reads, the addresses of the three heaps, the argument `adcBufAddress`, and the constants and
type sizes that are declared in headers which are not part of the sources. -/
structure DataPathCfg where
  /-- The field `obj->numRangeBins`. -/
  numRangeBins : Nat
  /-- The field `obj->numDopplerBins`. -/
  numDopplerBins : Nat
  /-- The field `obj->numAngleBins`. -/
  numAngleBins : Nat
  /-- The field `obj->numVirtualAntAzim`. -/
  numVirtualAntAzim : Nat
  /-- The field `obj->numRxAntennas`. -/
  numRxAntennas : Nat
  /-- The field `obj->numTxAntennas`. -/
  numTxAntennas : Nat
  /-- The field `obj->numAdcSamples`. -/
  numAdcSamples : Nat
  /-- The field `obj->cliCfg->bpmCfg.isEnabled`. -/
  bpmEnabled : Nat
  /-- The address of `gMmwL1`. -/
  heapL1start : Nat
  /-- The address of `gOdsL2`. -/
  heapL2start : Nat
  /-- The address of `gOdsL3`. -/
  heapL3start : Nat
  /-- The argument `adcBufAddress`; `NULL` is 0. -/
  adcBufAddress : Nat
  /-- The constant `MMWDEMO_MEMORY_ALLOC_DOUBLE_WORD_ALIGN`. -/
  MMWDEMO_MEMORY_ALLOC_DOUBLE_WORD_ALIGN : Nat
  /-- The constant `MMWDEMO_MEMORY_ALLOC_MAX_STRUCT_ALIGN`. -/
  MMWDEMO_MEMORY_ALLOC_MAX_STRUCT_ALIGN : Nat
  /-- The constant `MAX_DET_OBJECTS_RAW`. -/
  MAX_DET_OBJECTS_RAW : Nat
  /-- The constant `MMW_MAX_OBJ_OUT`. -/
  MMW_MAX_OBJ_OUT : Nat
  /-- The value of `sizeof(OdsDemo_objRaw_t)`. -/
  sizeofObjRaw : Nat
  /-- The value of `sizeof(OdsDemo_detectedObj)`. -/
  sizeofDetectedObj : Nat
  /-- The constant `SOC_MAX_NUM_RX_ANTENNAS`. -/
  SOC_MAX_NUM_RX_ANTENNAS : Nat
  /-- The constant `SOC_MAX_NUM_TX_ANTENNAS`. -/
  SOC_MAX_NUM_TX_ANTENNAS : Nat
  /-- The constant `DC_RANGE_SIGNATURE_COMP_MAX_BIN_SIZE`. -/
  DC_RANGE_SIGNATURE_COMP_MAX_BIN_SIZE : Nat
  /-- The value of `sizeof(gOdsL3)`, that is `L3_HEAP_SIZE`. -/
  L3_HEAP_SIZE : Nat

/-- The constant `MMW_L1_HEAP_SIZE`. -/
def MMW_L1_HEAP_SIZE : Nat := 0x4000

/-- The constant `MMW_L2_HEAP_SIZE`. -/
def MMW_L2_HEAP_SIZE : Nat := 0x6000

/-- The buffer `adcDataIn` of `cmplx16ReIm_t`, allocated in L1. -/
def OdsDemo_dataPathConfigBuffers.adcDataIn (cfg : DataPathCfg) : Buf :=
  MMW_ALLOC_BUF 4 (cfg.heapL1start) cfg.MMWDEMO_MEMORY_ALLOC_DOUBLE_WORD_ALIGN
    (mulU32 2 cfg.numRangeBins)

/-- The buffer `dstPingPong` of `cmplx16ReIm_t`, allocated in L1. -/
def OdsDemo_dataPathConfigBuffers.dstPingPong (cfg : DataPathCfg) : Buf :=
  MMW_ALLOC_BUF 4 (cfg.heapL1start) cfg.MMWDEMO_MEMORY_ALLOC_DOUBLE_WORD_ALIGN
    (mulU32 2 cfg.numDopplerBins)

/-- The buffer `fftOut2D` of `cmplx32ReIm_t`, allocated in L1. -/
def OdsDemo_dataPathConfigBuffers.fftOut2D (cfg : DataPathCfg) : Buf :=
  MMW_ALLOC_BUF 8 ((OdsDemo_dataPathConfigBuffers.dstPingPong cfg).name_end) cfg.MMWDEMO_MEMORY_ALLOC_DOUBLE_WORD_ALIGN
    (mulU32 (if cfg.bpmEnabled ≠ 0 then 2 else 1) cfg.numDopplerBins)

/-- The buffer `windowingBuf2D` of `cmplx32ReIm_t`, allocated in L1. -/
def OdsDemo_dataPathConfigBuffers.windowingBuf2D (cfg : DataPathCfg) : Buf :=
  MMW_ALLOC_BUF 8 ((OdsDemo_dataPathConfigBuffers.fftOut2D cfg).name_end) cfg.MMWDEMO_MEMORY_ALLOC_DOUBLE_WORD_ALIGN
    (cfg.numDopplerBins)

/-- The buffer `log2Abs` of `uint16_t`, allocated in L1. -/
def OdsDemo_dataPathConfigBuffers.log2Abs (cfg : DataPathCfg) : Buf :=
  MMW_ALLOC_BUF 2 ((OdsDemo_dataPathConfigBuffers.fftOut2D cfg).name_end) cfg.MMWDEMO_MEMORY_ALLOC_DOUBLE_WORD_ALIGN
    (cfg.numDopplerBins)

/-- The buffer `sumAbs` of `uint16_t`, allocated in L1. -/
def OdsDemo_dataPathConfigBuffers.sumAbs (cfg : DataPathCfg) : Buf :=
  MMW_ALLOC_BUF 2 (max (OdsDemo_dataPathConfigBuffers.log2Abs cfg).name_end (OdsDemo_dataPathConfigBuffers.windowingBuf2D cfg).name_end) cfg.MMWDEMO_MEMORY_ALLOC_DOUBLE_WORD_ALIGN
    (mulU32 2 cfg.numDopplerBins)

/-- The buffer `detObj2DRaw` of `OdsDemo_objRaw_t`, allocated in L1. -/
def OdsDemo_dataPathConfigBuffers.detObj2DRaw (cfg : DataPathCfg) : Buf :=
  MMW_ALLOC_BUF cfg.sizeofObjRaw (cfg.heapL1start) cfg.MMWDEMO_MEMORY_ALLOC_MAX_STRUCT_ALIGN
    (cfg.MAX_DET_OBJECTS_RAW)

/-- The buffer `azimuthIn` of `cmplx32ReIm_t`, allocated in L1 (`MMW_USE_SINGLE_POINT_DFT` is defined). -/
def OdsDemo_dataPathConfigBuffers.azimuthIn (cfg : DataPathCfg) : Buf :=
  MMW_ALLOC_BUF 8 ((OdsDemo_dataPathConfigBuffers.dstPingPong cfg).name_end) cfg.MMWDEMO_MEMORY_ALLOC_DOUBLE_WORD_ALIGN
    (addU32 cfg.numAngleBins cfg.numVirtualAntAzim)

/-- The buffer `azimuthOut` of `cmplx32ReIm_t`, allocated in L1. -/
def OdsDemo_dataPathConfigBuffers.azimuthOut (cfg : DataPathCfg) : Buf :=
  MMW_ALLOC_BUF 8 ((OdsDemo_dataPathConfigBuffers.azimuthIn cfg).name_end) cfg.MMWDEMO_MEMORY_ALLOC_DOUBLE_WORD_ALIGN
    (mulU32 2 cfg.numAngleBins)

/-- The buffer `azimuthMagSqr` of `float`, allocated in L1. -/
def OdsDemo_dataPathConfigBuffers.azimuthMagSqr (cfg : DataPathCfg) : Buf :=
  MMW_ALLOC_BUF 4 ((OdsDemo_dataPathConfigBuffers.azimuthOut cfg).name_end) 4
    (mulU32 cfg.numAngleBins 2)

/-- The buffer `fftOut1D` of `cmplx16ReIm_t`, allocated in L2. -/
def OdsDemo_dataPathConfigBuffers.fftOut1D (cfg : DataPathCfg) : Buf :=
  MMW_ALLOC_BUF 4 (cfg.heapL2start) cfg.MMWDEMO_MEMORY_ALLOC_DOUBLE_WORD_ALIGN
    (mulU32 (mulU32 2 cfg.numRxAntennas) cfg.numRangeBins)

/-- The buffer `cfarDetObjIndexBuf` of `uint16_t`, allocated in L2. -/
def OdsDemo_dataPathConfigBuffers.cfarDetObjIndexBuf (cfg : DataPathCfg) : Buf :=
  MMW_ALLOC_BUF 2 (cfg.heapL2start) 2
    (max cfg.numRangeBins cfg.numDopplerBins)

/-- The buffer `dopplerLineMask` of `uint32_t`, allocated in L2 (the expansion for `detDopplerLines.dopplerLineMask` written out in the source). -/
def OdsDemo_dataPathConfigBuffers.dopplerLineMask (cfg : DataPathCfg) : Buf :=
  MMW_ALLOC_BUF 4 ((OdsDemo_dataPathConfigBuffers.cfarDetObjIndexBuf cfg).name_end) cfg.MMWDEMO_MEMORY_ALLOC_MAX_STRUCT_ALIGN
    (max (cfg.numDopplerBins >>> 5) 1)

/-- The buffer `sumAbsRange` of `uint16_t`, allocated in L2. -/
def OdsDemo_dataPathConfigBuffers.sumAbsRange (cfg : DataPathCfg) : Buf :=
  MMW_ALLOC_BUF 2 ((OdsDemo_dataPathConfigBuffers.dopplerLineMask cfg).name_end) 2
    (mulU32 2 cfg.numRangeBins)

/-- The buffer `twiddle16x16_1D` of `cmplx16ReIm_t`, allocated in L2. -/
def OdsDemo_dataPathConfigBuffers.twiddle16x16_1D (cfg : DataPathCfg) : Buf :=
  MMW_ALLOC_BUF 4 (max (OdsDemo_dataPathConfigBuffers.fftOut1D cfg).name_end (OdsDemo_dataPathConfigBuffers.sumAbsRange cfg).name_end) cfg.MMWDEMO_MEMORY_ALLOC_DOUBLE_WORD_ALIGN
    (cfg.numRangeBins)

/-- The buffer `window1D` of `int16_t`, allocated in L2. -/
def OdsDemo_dataPathConfigBuffers.window1D (cfg : DataPathCfg) : Buf :=
  MMW_ALLOC_BUF 2 ((OdsDemo_dataPathConfigBuffers.twiddle16x16_1D cfg).name_end) cfg.MMWDEMO_MEMORY_ALLOC_DOUBLE_WORD_ALIGN
    (cfg.numAdcSamples / 2)

/-- The buffer `twiddle32x32_2D` of `cmplx32ReIm_t`, allocated in L2. -/
def OdsDemo_dataPathConfigBuffers.twiddle32x32_2D (cfg : DataPathCfg) : Buf :=
  MMW_ALLOC_BUF 8 ((OdsDemo_dataPathConfigBuffers.window1D cfg).name_end) cfg.MMWDEMO_MEMORY_ALLOC_DOUBLE_WORD_ALIGN
    (cfg.numDopplerBins)

/-- The buffer `window2D` of `int32_t`, allocated in L2. -/
def OdsDemo_dataPathConfigBuffers.window2D (cfg : DataPathCfg) : Buf :=
  MMW_ALLOC_BUF 4 ((OdsDemo_dataPathConfigBuffers.twiddle32x32_2D cfg).name_end) cfg.MMWDEMO_MEMORY_ALLOC_DOUBLE_WORD_ALIGN
    (cfg.numDopplerBins / 2)

/-- The buffer `detObj2D` of `OdsDemo_detectedObj`, allocated in L2. -/
def OdsDemo_dataPathConfigBuffers.detObj2D (cfg : DataPathCfg) : Buf :=
  MMW_ALLOC_BUF cfg.sizeofDetectedObj ((OdsDemo_dataPathConfigBuffers.window2D cfg).name_end) cfg.MMWDEMO_MEMORY_ALLOC_MAX_STRUCT_ALIGN
    (cfg.MMW_MAX_OBJ_OUT)

/-- The buffer `detObj2dAzimIdx` of `uint8_t`, allocated in L2. -/
def OdsDemo_dataPathConfigBuffers.detObj2dAzimIdx (cfg : DataPathCfg) : Buf :=
  MMW_ALLOC_BUF 1 ((OdsDemo_dataPathConfigBuffers.detObj2D cfg).name_end) cfg.MMWDEMO_MEMORY_ALLOC_MAX_STRUCT_ALIGN
    (cfg.MMW_MAX_OBJ_OUT)

/-- The buffer `azimuthTwiddle32x32` of `cmplx32ReIm_t`, allocated in L2. -/
def OdsDemo_dataPathConfigBuffers.azimuthTwiddle32x32 (cfg : DataPathCfg) : Buf :=
  MMW_ALLOC_BUF 8 ((OdsDemo_dataPathConfigBuffers.detObj2dAzimIdx cfg).name_end) cfg.MMWDEMO_MEMORY_ALLOC_DOUBLE_WORD_ALIGN
    (cfg.numAngleBins)

/-- The buffer `azimuthModCoefs` of `cmplx16ImRe_t`, allocated in L2. -/
def OdsDemo_dataPathConfigBuffers.azimuthModCoefs (cfg : DataPathCfg) : Buf :=
  MMW_ALLOC_BUF 4 ((OdsDemo_dataPathConfigBuffers.azimuthTwiddle32x32 cfg).name_end) cfg.MMWDEMO_MEMORY_ALLOC_DOUBLE_WORD_ALIGN
    (cfg.numDopplerBins)

/-- The buffer `dcRangeSigMean` of `cmplx32ImRe_t`, allocated in L2. -/
def OdsDemo_dataPathConfigBuffers.dcRangeSigMean (cfg : DataPathCfg) : Buf :=
  MMW_ALLOC_BUF 8 ((OdsDemo_dataPathConfigBuffers.azimuthModCoefs cfg).name_end) cfg.MMWDEMO_MEMORY_ALLOC_DOUBLE_WORD_ALIGN
    (mulU32 (mulU32 cfg.SOC_MAX_NUM_TX_ANTENNAS cfg.SOC_MAX_NUM_RX_ANTENNAS) cfg.DC_RANGE_SIGNATURE_COMP_MAX_BIN_SIZE)

/-- The buffer `ADCdataBuf` of `cmplx16ReIm_t`, allocated in L3; when `adcBufAddress` is not `NULL`
the pointer is replaced by `adcBufAddress` and `ADCdataBuf_end` by `heapL3start`. -/
def OdsDemo_dataPathConfigBuffers.ADCdataBuf (cfg : DataPathCfg) : Buf :=
  let b := MMW_ALLOC_BUF 4 (cfg.heapL3start) cfg.MMWDEMO_MEMORY_ALLOC_DOUBLE_WORD_ALIGN
    (mulU32 (mulU32 cfg.numRangeBins cfg.numRxAntennas) cfg.numTxAntennas)
  if cfg.adcBufAddress ≠ 0 then
    { b with name := cfg.adcBufAddress, name_end := cfg.heapL3start }
  else b

/-- The buffer `radarCube` of `cmplx16ReIm_t`, allocated in L3. -/
def OdsDemo_dataPathConfigBuffers.radarCube (cfg : DataPathCfg) : Buf :=
  MMW_ALLOC_BUF 4 ((OdsDemo_dataPathConfigBuffers.ADCdataBuf cfg).name_end) cfg.MMWDEMO_MEMORY_ALLOC_DOUBLE_WORD_ALIGN
    (mulU32 (mulU32 (mulU32 cfg.numRangeBins cfg.numDopplerBins) cfg.numRxAntennas) cfg.numTxAntennas)

/-- The buffer `azimuthStaticHeatMap` of `cmplx16ImRe_t`, allocated in L3. -/
def OdsDemo_dataPathConfigBuffers.azimuthStaticHeatMap (cfg : DataPathCfg) : Buf :=
  MMW_ALLOC_BUF 4 ((OdsDemo_dataPathConfigBuffers.radarCube cfg).name_end) cfg.MMWDEMO_MEMORY_ALLOC_DOUBLE_WORD_ALIGN
    (mulU32 (mulU32 cfg.numRangeBins cfg.numRxAntennas) cfg.numTxAntennas)

/-- The buffer `detMatrix` of `uint16_t`, allocated in L3. -/
def OdsDemo_dataPathConfigBuffers.detMatrix (cfg : DataPathCfg) : Buf :=
  MMW_ALLOC_BUF 2 ((OdsDemo_dataPathConfigBuffers.azimuthStaticHeatMap cfg).name_end) 2
    (mulU32 cfg.numRangeBins cfg.numDopplerBins)

/-- The value of `heapUsed` checked by the first assertion. -/
def OdsDemo_dataPathConfigBuffers.heapUsedL1 (cfg : DataPathCfg) : Nat :=
  subU32 (max (max (max (OdsDemo_dataPathConfigBuffers.sumAbs cfg).name_end (OdsDemo_dataPathConfigBuffers.adcDataIn cfg).name_end)
    (OdsDemo_dataPathConfigBuffers.azimuthMagSqr cfg).name_end) (OdsDemo_dataPathConfigBuffers.detObj2DRaw cfg).name_end) cfg.heapL1start

/-- The value of `heapUsed` checked by the second assertion. -/
def OdsDemo_dataPathConfigBuffers.heapUsedL2 (cfg : DataPathCfg) : Nat :=
  subU32 (OdsDemo_dataPathConfigBuffers.dcRangeSigMean cfg).name_end cfg.heapL2start

/-- The value of `heapUsed` checked by the third assertion. -/
def OdsDemo_dataPathConfigBuffers.heapUsedL3 (cfg : DataPathCfg) : Nat :=
  subU32 (OdsDemo_dataPathConfigBuffers.detMatrix cfg).name_end cfg.heapL3start

/-- The three memory tiers. -/
inductive Tier where
  | L1
  | L2
  | L3
deriving DecidableEq, Repr

/-- The buffers assigned by `OdsDemo_dataPathConfigBuffers`. -/
inductive BufName where
  | adcDataIn
  | dstPingPong
  | fftOut2D
  | windowingBuf2D
  | log2Abs
  | sumAbs
  | detObj2DRaw
  | azimuthIn
  | azimuthOut
  | azimuthMagSqr
  | fftOut1D
  | cfarDetObjIndexBuf
  | dopplerLineMask
  | sumAbsRange
  | twiddle16x16_1D
  | window1D
  | twiddle32x32_2D
  | window2D
  | detObj2D
  | detObj2dAzimIdx
  | azimuthTwiddle32x32
  | azimuthModCoefs
  | dcRangeSigMean
  | ADCdataBuf
  | radarCube
  | azimuthStaticHeatMap
  | detMatrix
deriving DecidableEq, Repr

/-- The tier in which a buffer is allocated. -/
def BufName.tier : BufName → Tier
  | .adcDataIn => .L1
  | .dstPingPong => .L1
  | .fftOut2D => .L1
  | .windowingBuf2D => .L1
  | .log2Abs => .L1
  | .sumAbs => .L1
  | .detObj2DRaw => .L1
  | .azimuthIn => .L1
  | .azimuthOut => .L1
  | .azimuthMagSqr => .L1
  | .fftOut1D => .L2
  | .cfarDetObjIndexBuf => .L2
  | .dopplerLineMask => .L2
  | .sumAbsRange => .L2
  | .twiddle16x16_1D => .L2
  | .window1D => .L2
  | .twiddle32x32_2D => .L2
  | .window2D => .L2
  | .detObj2D => .L2
  | .detObj2dAzimIdx => .L2
  | .azimuthTwiddle32x32 => .L2
  | .azimuthModCoefs => .L2
  | .dcRangeSigMean => .L2
  | .ADCdataBuf => .L3
  | .radarCube => .L3
  | .azimuthStaticHeatMap => .L3
  | .detMatrix => .L3

/-- All buffer assignments of `OdsDemo_dataPathConfigBuffers`. -/
def OdsDemo_dataPathConfigBuffers.layout (cfg : DataPathCfg) : BufName → Buf
  | .adcDataIn => OdsDemo_dataPathConfigBuffers.adcDataIn cfg
  | .dstPingPong => OdsDemo_dataPathConfigBuffers.dstPingPong cfg
  | .fftOut2D => OdsDemo_dataPathConfigBuffers.fftOut2D cfg
  | .windowingBuf2D => OdsDemo_dataPathConfigBuffers.windowingBuf2D cfg
  | .log2Abs => OdsDemo_dataPathConfigBuffers.log2Abs cfg
  | .sumAbs => OdsDemo_dataPathConfigBuffers.sumAbs cfg
  | .detObj2DRaw => OdsDemo_dataPathConfigBuffers.detObj2DRaw cfg
  | .azimuthIn => OdsDemo_dataPathConfigBuffers.azimuthIn cfg
  | .azimuthOut => OdsDemo_dataPathConfigBuffers.azimuthOut cfg
  | .azimuthMagSqr => OdsDemo_dataPathConfigBuffers.azimuthMagSqr cfg
  | .fftOut1D => OdsDemo_dataPathConfigBuffers.fftOut1D cfg
  | .cfarDetObjIndexBuf => OdsDemo_dataPathConfigBuffers.cfarDetObjIndexBuf cfg
  | .dopplerLineMask => OdsDemo_dataPathConfigBuffers.dopplerLineMask cfg
  | .sumAbsRange => OdsDemo_dataPathConfigBuffers.sumAbsRange cfg
  | .twiddle16x16_1D => OdsDemo_dataPathConfigBuffers.twiddle16x16_1D cfg
  | .window1D => OdsDemo_dataPathConfigBuffers.window1D cfg
  | .twiddle32x32_2D => OdsDemo_dataPathConfigBuffers.twiddle32x32_2D cfg
  | .window2D => OdsDemo_dataPathConfigBuffers.window2D cfg
  | .detObj2D => OdsDemo_dataPathConfigBuffers.detObj2D cfg
  | .detObj2dAzimIdx => OdsDemo_dataPathConfigBuffers.detObj2dAzimIdx cfg
  | .azimuthTwiddle32x32 => OdsDemo_dataPathConfigBuffers.azimuthTwiddle32x32 cfg
  | .azimuthModCoefs => OdsDemo_dataPathConfigBuffers.azimuthModCoefs cfg
  | .dcRangeSigMean => OdsDemo_dataPathConfigBuffers.dcRangeSigMean cfg
  | .ADCdataBuf => OdsDemo_dataPathConfigBuffers.ADCdataBuf cfg
  | .radarCube => OdsDemo_dataPathConfigBuffers.radarCube cfg
  | .azimuthStaticHeatMap => OdsDemo_dataPathConfigBuffers.azimuthStaticHeatMap cfg
  | .detMatrix => OdsDemo_dataPathConfigBuffers.detMatrix cfg

/-- The routine `OdsDemo_dataPathConfigBuffers` (`NO_OVERLAY` and `NO_L1_ALLOC` are not
defined): the three tiers are laid out in turn, each followed by its heap assertion; the
result is the assignment of all buffers. -/
def OdsDemo_dataPathConfigBuffers (cfg : DataPathCfg) : Except Halt (BufName → Buf) := do
  OdsDemo_dssAssert (if OdsDemo_dataPathConfigBuffers.heapUsedL1 cfg ≤ MMW_L1_HEAP_SIZE then 1 else 0)
  OdsDemo_dssAssert (if OdsDemo_dataPathConfigBuffers.heapUsedL2 cfg ≤ MMW_L2_HEAP_SIZE then 1 else 0)
  OdsDemo_dssAssert (if OdsDemo_dataPathConfigBuffers.heapUsedL3 cfg ≤ cfg.L3_HEAP_SIZE then 1 else 0)
  pure (OdsDemo_dataPathConfigBuffers.layout cfg)

/-- The base address of a tier. -/
def arenaBase (cfg : DataPathCfg) : Tier → Nat
  | .L1 => cfg.heapL1start
  | .L2 => cfg.heapL2start
  | .L3 => cfg.heapL3start

/-- The capacity of a tier in bytes. -/
def arenaSize (cfg : DataPathCfg) : Tier → Nat
  | .L1 => MMW_L1_HEAP_SIZE
  | .L2 => MMW_L2_HEAP_SIZE
  | .L3 => cfg.L3_HEAP_SIZE

/-- No address computation of the allocation wraps around 32 bits: neither the rounding
`startAddr + (alignment - 1)` nor the end `name + bytes`. -/
def Buf.noWrap (b : Buf) : Prop :=
  b.startAddr + (b.alignment - 1) < 4294967296 ∧ b.name + b.bytes < 4294967296

instance (b : Buf) : Decidable b.noWrap := by
  unfold Buf.noWrap
  infer_instance

/-- Two buffers have disjoint byte ranges. -/
def Buf.disjoint (a b : Buf) : Prop := a.name_end ≤ b.name ∨ b.name_end ≤ a.name

instance (a b : Buf) : Decidable (a.disjoint b) := by
  unfold Buf.disjoint
  infer_instance

/-- The buffer `a` ends at or before the start of `b`, and `b` does not end before it
starts. -/
def Buf.before (a b : Buf) : Prop := a.name_end ≤ b.name ∧ b.name ≤ b.name_end

/-- A configuration with 64 range bins, 16 Doppler bins, 8 angle bins, 4 receive and 2
transmit antennas, 8-byte alignments, and heaps at `0x00F00000`, `0x00800000` and
`0x20000000`. -/
def sampleDataPathCfg : DataPathCfg :=
  { numRangeBins := 64, numDopplerBins := 16, numAngleBins := 8, numVirtualAntAzim := 8,
    numRxAntennas := 4, numTxAntennas := 2, numAdcSamples := 64, bpmEnabled := 0,
    heapL1start := 0x00F00000, heapL2start := 0x00800000, heapL3start := 0x20000000,
    adcBufAddress := 0,
    MMWDEMO_MEMORY_ALLOC_DOUBLE_WORD_ALIGN := 8, MMWDEMO_MEMORY_ALLOC_MAX_STRUCT_ALIGN := 8,
    MAX_DET_OBJECTS_RAW := 100, MMW_MAX_OBJ_OUT := 100, sizeofObjRaw := 6,
    sizeofDetectedObj := 12, SOC_MAX_NUM_RX_ANTENNAS := 4, SOC_MAX_NUM_TX_ANTENNAS := 2,
    DC_RANGE_SIGNATURE_COMP_MAX_BIN_SIZE := 32, L3_HEAP_SIZE := 0x80000 }

/-- A mean entry plus an FFT bin, component by component in `int32_t` arithmetic. -/
def dcAdd (meanBin : cmplx32ImRe_t) (fftBin : cmplx16ReIm_t) : cmplx32ImRe_t :=
  ⟨wrapInt32 (meanBin.imag + fftBin.imag), wrapInt32 (meanBin.real + fftBin.real)⟩

/-- The offset in its row of the FFT bin that is accumulated into position `j` of an antenna's
block of the mean: the bins `0 .. positiveBinIdx` come first, then the `n` bins from
`numRangeBins - n` on. -/
def dcBinOffset (cfg : DcRangeSigCfg) (n j : Nat) : Nat :=
  if j ≤ cfg.positiveBinIdx then j else (cfg.numRangeBins - n) + (j - (cfg.positiveBinIdx + 1))

/-- The mean as the accumulation of a call sees it: cleared by the `memset` when the counter
is 0. -/
def dcMean0 (cfg : DcRangeSigCfg) (obj : DcRangeSigState) : Nat → cmplx32ImRe_t :=
  if obj.dcRangeSigCalibCntr = 0 then
    fun i =>
      if i < u32 ((cfg.numTxAntennas : Int)
          * OdsDemo_dcRangeSignatureCompensation.chirpPingPongSize cfg) then ⟨0, 0⟩
      else obj.dcRangeSigMean i
  else obj.dcRangeSigMean

/-- The divide step at the end of the warm-up window applied to one entry. -/
def dcShift (cfg : DcRangeSigCfg) (meanBin : cmplx32ImRe_t) : cmplx32ImRe_t :=
  ⟨meanBin.imag >>> cfg.log2NumAvgChirps, meanBin.real >>> cfg.log2NumAvgChirps⟩

/-- The sum of the real parts of element `addr` of the first `m` chirps of parity `id`, the
chirps `id, 2 + id, 4 + id, ...`. -/
def dcSumRe (chirps : Nat → Nat → cmplx16ReIm_t) (id addr m : Nat) : Int :=
  ((List.range m).map (fun k => (chirps (2 * k + id) addr).real)).sum

/-- The sum of the imaginary parts of element `addr` of the first `m` chirps of parity `id`. -/
def dcSumIm (chirps : Nat → Nat → cmplx16ReIm_t) (id addr m : Nat) : Int :=
  ((List.range m).map (fun k => (chirps (2 * k + id) addr).imag)).sum

/-- The value fits in an `int16_t`. -/
def isInt16 (x : Int) : Prop := -32768 ≤ x ∧ x < 32768

/-! ## Rounding up to a power of two -/

/-- The `while` loop of `OdsDemo_pow2roundup` on the `uint32_t` local `result`:
`while (x > result) { result <<= 1; }`. The first argument bounds the number of loop
iterations; the shift keeps the low 32 bits. -/
def OdsDemo_pow2roundup.loop (x : Nat) : Nat → Nat → Except Halt Nat
  | 0, _ => .error .outOfFuel
  | fuel + 1, result =>
    if x > result then OdsDemo_pow2roundup.loop x fuel ((result <<< 1) % 4294967296)
    else .ok result

/-- `OdsDemo_pow2roundup`: `result = 1`, the loop, `return result`. The first argument is the
iteration budget of the loop. -/
def OdsDemo_pow2roundup (fuel x : Nat) : Except Halt Nat :=
  OdsDemo_pow2roundup.loop x fuel 1

/-! ## Virtual antenna slots -/

/-- The macro `pingPongId(x) ((x) & 0x1U)`. -/
def pingPongId (x : Nat) : Nat := x &&& 1

/-- The macro `isPong(x) (pingPongId(x))`. -/
def isPong (x : Nat) : Nat := pingPongId x

/-- The index `binIndex` of `OdsDemo_interFrameProcessing` (heat map), the same expression
as `azimuthInIndx`: `rxAntIdx/2 + pingPongId(rxAntIdx) * obj->numRxAntennas` when
`numTxAntennas == 2`, else `rxAntIdx`, in `uint32_t` arithmetic. -/
def OdsDemo_interFrameProcessing.binIndex (numTxAntennas numRxAntennas rxAntIdx : Nat) : Nat :=
  if numTxAntennas = 2 then
    addU32 (rxAntIdx / 2) (mulU32 (pingPongId rxAntIdx) numRxAntennas)
  else rxAntIdx

/-- The index `azimuthInIndx` of `OdsDemo_interFrameProcessing` (azimuth input of the
detected objects). -/
def OdsDemo_interFrameProcessing.azimuthInIndx (numTxAntennas numRxAntennas rxAntIdx : Nat) :
    Nat :=
  if numTxAntennas = 2 then
    addU32 (rxAntIdx / 2) (mulU32 (pingPongId rxAntIdx) numRxAntennas)
  else rxAntIdx

/-! ## Chirp counters -/

/-- The three counters of the data path object that `OdsDemo_processChirp` advances. -/
structure ChirpCounters where
  /-- The counter `obj->chirpCount`. -/
  chirpCount : Nat
  /-- The counter `obj->dopplerBinCount`. -/
  dopplerBinCount : Nat
  /-- The counter `obj->txAntennaCount`. -/
  txAntennaCount : Nat
deriving DecidableEq, Repr

/-- `OdsDemo_dataPathInit1Dstate` on the three counters. -/
def OdsDemo_dataPathInit1Dstate (_obj : ChirpCounters) : ChirpCounters :=
  { chirpCount := 0, dopplerBinCount := 0, txAntennaCount := 0 }

/-- The counter update at the end of `OdsDemo_processChirp`. The counters are fields of
`OdsDemo_DSS_DataPathObj`, which is declared in a header that is not part of the sources; the
widths in bits of the three fields are the parameters `chirpBits`, `dopplerBits` and `txBits`,
and each `++` keeps that many low bits. -/
def OdsDemo_processChirp (chirpBits dopplerBits txBits numTxAntennas numDopplerBins : Nat)
    (obj : ChirpCounters) : ChirpCounters :=
  let obj := { obj with chirpCount := (obj.chirpCount + 1) % 2 ^ chirpBits }
  let obj := { obj with txAntennaCount := (obj.txAntennaCount + 1) % 2 ^ txBits }
  if obj.txAntennaCount = numTxAntennas then
    let obj := { obj with txAntennaCount := 0 }
    let obj := { obj with dopplerBinCount := (obj.dopplerBinCount + 1) % 2 ^ dopplerBits }
    if obj.dopplerBinCount = numDopplerBins then
      let obj := { obj with dopplerBinCount := 0 }
      { obj with chirpCount := 0 }
    else obj
  else obj

/-- The counters after `n` calls of `OdsDemo_processChirp`. -/
def processChirps (chirpBits dopplerBits txBits numTxAntennas numDopplerBins : Nat) :
    Nat → ChirpCounters → ChirpCounters
  | 0, obj => obj
  | n + 1, obj =>
    OdsDemo_processChirp chirpBits dopplerBits txBits numTxAntennas numDopplerBins
      (processChirps chirpBits dopplerBits txBits numTxAntennas numDopplerBins n obj)

/-! ## Range-only output -/

/-- `OdsDemo_Yestimation` on the object list `detObj2D` (`MMW_ENABLE_NEGATIVE_FREQ_SLOPE` is
not defined in the sources). The `float` values are modelled by the rationals they denote.
The macro `ROUND` is not part of the sources: its action on the `float` argument is the
parameter `round`. The conversion `(int16_t)` keeps the low 16 bits. -/
def OdsDemo_Yestimation (round : ℚ → Int) (rangeResolution rangeBias : ℚ)
    (xyzOutputQFormat : Nat) (detObj2D : Nat → OdsDemo_detectedObj) (objIndex : Nat) :
    Nat → OdsDemo_detectedObj :=
  let range :=
    OdsDemo_Yestimation.range (detObj2D objIndex).rangeIdx rangeResolution rangeBias
  let d1 := Function.update detObj2D objIndex { detObj2D objIndex with x := 0 }
  let d2 := Function.update d1 objIndex
    { d1 objIndex with y := wrapInt16 (round (range * (ONE_QFORMAT xyzOutputQFormat : ℚ))) }
  Function.update d2 objIndex { d2 objIndex with z := 0 }

/-- A detection matrix with 8 Doppler bins that holds 10 everywhere except the cells
`(2, 2)`, which holds 50, and `(2, 3)`, which holds 60. -/
def gapDetMatrix : Nat → Nat := fun idx =>
  if idx = 2 * 8 + 2 then 50 else if idx = 2 * 8 + 3 then 60 else 10

/-- Two candidates of `gapDetMatrix` in CFAR order, the cells `(2, 2)` and `(4, 5)`; the cell
`(2, 3)` is not a candidate. -/
def gapObjRaw : Nat → OdsDemo_objRaw_t := fun i =>
  ([⟨2, 2, 50⟩, ⟨4, 5, 10⟩] : List OdsDemo_objRaw_t).getD i ⟨0, 0, 0⟩

/-- The condition of range-only grouping, as stated: the candidate `(r, d)` is inside the
range window and `detMatrix[r][d]` is not exceeded by `detMatrix[r-1][d]` nor by
`detMatrix[r+1][d]`, a row outside the window counting as 0. -/
def isRangePeak (detMatrix : Nat → Nat) (numDopplerBins maxRangeIdx minRangeIdx r d : Nat) :
    Prop :=
  minRangeIdx ≤ r ∧ r ≤ maxRangeIdx ∧
  ∀ dr ∈ ([-1, 1] : List Int),
    windowedCell detMatrix numDopplerBins maxRangeIdx minRangeIdx ((r : Int) + dr) (d : Int)
      ≤ detMatrix (r * numDopplerBins + d)

instance (detMatrix : Nat → Nat) (numDopplerBins maxRangeIdx minRangeIdx r d : Nat) :
    Decidable (isRangePeak detMatrix numDopplerBins maxRangeIdx minRangeIdx r d) := by
  unfold isRangePeak
  infer_instance

/-- The condition of Doppler-only grouping, as stated: the candidate `(r, d)` is inside the
range window and `detMatrix[r][d]` is not exceeded by `detMatrix[r][(d-1) mod N]` nor by
`detMatrix[r][(d+1) mod N]`. -/
def isDopplerPeak (detMatrix : Nat → Nat) (numDopplerBins maxRangeIdx minRangeIdx r d : Nat) :
    Prop :=
  minRangeIdx ≤ r ∧ r ≤ maxRangeIdx ∧
  ∀ dd ∈ ([-1, 1] : List Int),
    detMatrix (r * numDopplerBins + (((d : Int) + dd) % (numDopplerBins : Int)).toNat)
      ≤ detMatrix (r * numDopplerBins + d)

instance (detMatrix : Nat → Nat) (numDopplerBins maxRangeIdx minRangeIdx r d : Nat) :
    Decidable (isDopplerPeak detMatrix numDopplerBins maxRangeIdx minRangeIdx r d) := by
  unfold isDopplerPeak
  infer_instance

/-- The element offsets into `detMatrix` that the kernel filling of `OdsDemo_cfarPeakGrouping`
reads for one in-window candidate, in the order of the reads `tempPtr[l]`: the same row
selection and the same two loops as in `OdsDemo_cfarPeakGrouping.fillKernel`. -/
def OdsDemo_cfarPeakGrouping.fillKernelReads
    (numDopplerBins maxRangeIdx minRangeIdx rangeIdx dopplerIdx : Nat) : List Nat :=
  let tempPtr := (rangeIdx - 1) * numDopplerBins
  let rowStart := 0
  let rowEnd := 2
  let init : Nat × Nat × Nat :=
    if rangeIdx = minRangeIdx then (rangeIdx * numDopplerBins, 1, rowEnd)
    else if rangeIdx = maxRangeIdx then (tempPtr, rowStart, 1)
    else (tempPtr, rowStart, rowEnd)
  ((List.range' init.2.1 (init.2.2 + 1 - init.2.1)).foldl
    (fun (st : List Nat × Nat) _j =>
      ((List.range 3).foldl
        (fun reads k =>
          reads ++ [((st.2 : Int) + kernelColumn dopplerIdx k numDopplerBins).toNat])
        st.1,
       st.2 + numDopplerBins))
    ([], init.1)).1

/-- A detection matrix with 8 Doppler bins that holds 10 everywhere except the cell `(4, 2)`,
which holds 90. -/
def edgeDetMatrix : Nat → Nat := fun idx => if idx = 4 * 8 + 2 then 90 else 10

/-! ## Stage 2 of `OdsDemo_interFrameProcessing` -/

/-- The store loop of Stage 2 for one Doppler line: for each of the `numDetObjPerCfar` range
indices that the range CFAR left in `cfarDetObjIndexBuf`, `if (numDetObj2D <
MAX_DET_OBJECTS_RAW)` the three fields of `detObj2DRaw[numDetObj2D]` are written and
`numDetObj2D++`. The state is `(numDetObj2D, detObj2DRaw)`; `sumAbsRange` is the half of the
buffer that holds the current line. The constant `MAX_DET_OBJECTS_RAW` (defined in a header
that is not part of the sources) is a parameter. -/
def OdsDemo_interFrameProcessing.storeRaw (MAX_DET_OBJECTS_RAW dopplerLine : Nat)
    (sumAbsRange : Nat → Nat) (cfarDetObjIndexBuf : List Nat)
    (st : Nat × (Nat → OdsDemo_objRaw_t)) : Nat × (Nat → OdsDemo_objRaw_t) :=
  if cfarDetObjIndexBuf.length > 0 then
    cfarDetObjIndexBuf.foldl
      (fun st idx =>
        if st.1 < MAX_DET_OBJECTS_RAW then
          (st.1 + 1,
            Function.update st.2 st.1
              { st.2 st.1 with
                dopplerIdx := dopplerLine
                rangeIdx := idx
                peakVal := sumAbsRange idx })
        else st)
      st
  else st

/-- The loop `for (detIdx1 = 0; detIdx1 < numDetObj1D; detIdx1++)` of Stage 2. The first
argument is the number of iterations still to run, `numDetObj1D - detIdx1`. `cfar line` is the
list of range indices that the library routine `mmwavelib_cfarCadB_SOGO` returns on the range
line transferred for Doppler line `line`, and `sumAbsRange line` is that range line. Inside
the loop `numDetObj1D ≥ 1`, so `numDetObj1D - 1` does not wrap. -/
def OdsDemo_interFrameProcessing.stage2Loop (cfar : Nat → List Nat)
    (sumAbsRange : Nat → Nat → Nat) (MAX_DET_OBJECTS_RAW numDetObj1D : Nat) :
    Nat → Nat → OdsDemo_1D_DopplerLines_t → Nat → Nat → Nat × (Nat → OdsDemo_objRaw_t) →
      Except Halt (OdsDemo_1D_DopplerLines_t × Nat × (Nat → OdsDemo_objRaw_t))
  | 0, _, ths, _, _, st => .ok (ths, st)
  | remaining + 1, detIdx1, ths, dopplerLine, dopplerLineNext, st =>
    match
      (if detIdx1 < numDetObj1D - 1 then OdsDemo_getDopplerLine ths
        else .ok (dopplerLineNext, ths)) with
    | .error e => .error e
    | .ok (dopplerLineNext, ths) =>
      let st := OdsDemo_interFrameProcessing.storeRaw MAX_DET_OBJECTS_RAW dopplerLine
        (sumAbsRange dopplerLine) (cfar dopplerLine) st
      OdsDemo_interFrameProcessing.stage2Loop cfar sumAbsRange MAX_DET_OBJECTS_RAW numDetObj1D
        remaining (detIdx1 + 1) ths dopplerLineNext dopplerLineNext st

/-- Stage 2 of `OdsDemo_interFrameProcessing` up to `obj->numDetObjRaw = numDetObj2D`: the
first call of `OdsDemo_getDopplerLine` under `if (numDetObj1D > 0)`, `numDetObj2D = 0`, and
the loop. `dopplerLine` and `dopplerLineNext` are the contents of the two uninitialised
locals. Returns the line mask, `numDetObjRaw` and `detObj2DRaw`. -/
def OdsDemo_interFrameProcessing.stage2 (cfar : Nat → List Nat)
    (sumAbsRange : Nat → Nat → Nat) (MAX_DET_OBJECTS_RAW numDetObj1D : Nat)
    (ths : OdsDemo_1D_DopplerLines_t) (dopplerLine dopplerLineNext : Nat)
    (detObj2DRaw : Nat → OdsDemo_objRaw_t) :
    Except Halt (OdsDemo_1D_DopplerLines_t × Nat × (Nat → OdsDemo_objRaw_t)) :=
  match
    (if numDetObj1D > 0 then OdsDemo_getDopplerLine ths else .ok (dopplerLine, ths)) with
  | .error e => .error e
  | .ok (dopplerLine, ths) =>
    OdsDemo_interFrameProcessing.stage2Loop cfar sumAbsRange MAX_DET_OBJECTS_RAW numDetObj1D
      numDetObj1D 0 ths dopplerLine dopplerLineNext (0, detObj2DRaw)

/-- The candidates of the Doppler lines `lines`, line by line, each line with the range
indices of its range CFAR in the order of `cfarDetObjIndexBuf`. -/
def stage2Candidates (cfar : Nat → List Nat) (sumAbsRange : Nat → Nat → Nat)
    (lines : List Nat) : List OdsDemo_objRaw_t :=
  lines.flatMap (fun line => (cfar line).map (fun idx => ⟨idx, line, sumAbsRange line idx⟩))

/-- Appending the entries of a list to `detObj2DRaw` under the capacity test. -/
def appendRaw (MAX_DET_OBJECTS_RAW : Nat) (entries : List OdsDemo_objRaw_t)
    (st : Nat × (Nat → OdsDemo_objRaw_t)) : Nat × (Nat → OdsDemo_objRaw_t) :=
  entries.foldl
    (fun st e => if st.1 < MAX_DET_OBJECTS_RAW then (st.1 + 1, Function.update st.2 st.1 e)
      else st)
    st

/-! ## Event trace of `OdsDemo_interChirpProcessing` -/

/-- The events of `OdsDemo_interChirpProcessing` that touch the two halves ("slots") of the
input buffer `adcDataIn`: the start of the input transfer on a channel (0 for
`ODS_EDMA_CH_1D_IN_PING`, which fills slot 0, and 1 for `ODS_EDMA_CH_1D_IN_PONG`, which fills
slot 1), the wait `OdsDemo_dataPathWait1DInputData` on a ping/pong id, and the three
computations on the slot of an antenna: windowing, zero padding (`memset`) and FFT. -/
inductive Event1D where
  /-- `EDMA_startDmaTransfer` on the input channel of the slot -/
  | startDma (channel : Nat)
  /-- `OdsDemo_dataPathWait1DInputData(obj, pingPongId)` -/
  | wait1DInputData (pingPongId : Nat)
  /-- `mmwavelib_windowing16x16_evenlen` on the slot -/
  | windowing (antIndx slot : Nat)
  /-- the `memset` that pads the slot with zeros -/
  | zeroPad (antIndx slot : Nat)
  /-- `DSP_fft16x16` reading the slot -/
  | fft (antIndx slot : Nat)
deriving DecidableEq, Repr

/-- The slot of `adcDataIn` that a computation event accesses. -/
def Event1D.slot : Event1D → Option Nat
  | .windowing _ s => some s
  | .zeroPad _ s => some s
  | .fft _ s => some s
  | _ => none

/-- The events of one iteration of the antenna loop of `OdsDemo_interChirpProcessing`: the
start of the transfer for the next antenna under `if (antIndx < (obj->numRxAntennas - 1))`
(inside the loop `numRxAntennas ≥ 1`, so the subtraction does not wrap), the wait for the
current antenna, and the three computations on the slot `pingPongId(antIndx)`. -/
def OdsDemo_interChirpProcessing.iteration (numRxAntennas antIndx : Nat) : List Event1D :=
  (if antIndx < numRxAntennas - 1 then
    [if isPong antIndx ≠ 0 then Event1D.startDma 0 else Event1D.startDma 1]
  else []) ++
  [Event1D.wait1DInputData (pingPongId antIndx),
   Event1D.windowing antIndx (pingPongId antIndx),
   Event1D.zeroPad antIndx (pingPongId antIndx),
   Event1D.fft antIndx (pingPongId antIndx)]

/-- The event trace of `OdsDemo_interChirpProcessing`: the start of the transfer for the
first antenna on the PING channel, then the iterations of the antenna loop. -/
def OdsDemo_interChirpProcessing.trace (numRxAntennas : Nat) : List Event1D :=
  Event1D.startDma 0 ::
    (List.range numRxAntennas).flatMap (OdsDemo_interChirpProcessing.iteration numRxAntennas)

/-- Closed form of the event at position `p` of the trace for `n ≥ 1` antennas (shown equal
to the trace): position 0 is the first start, the iteration of antenna `a < n - 1` fills the
positions `5a+1 .. 5a+5`, the last iteration the positions `5(n-1)+1 .. 5(n-1)+4`. -/
def traceAt (n p : Nat) : Option Event1D :=
  if p = 0 then some (Event1D.startDma 0)
  else if (p - 1) / 5 < n - 1 then
    if (p - 1) % 5 = 0 then some (Event1D.startDma (((p - 1) / 5 + 1) % 2))
    else if (p - 1) % 5 = 1 then some (Event1D.wait1DInputData ((p - 1) / 5 % 2))
    else if (p - 1) % 5 = 2 then some (Event1D.windowing ((p - 1) / 5) ((p - 1) / 5 % 2))
    else if (p - 1) % 5 = 3 then some (Event1D.zeroPad ((p - 1) / 5) ((p - 1) / 5 % 2))
    else some (Event1D.fft ((p - 1) / 5) ((p - 1) / 5 % 2))
  else if (p - 1) / 5 = n - 1 then
    if (p - 1) % 5 = 0 then some (Event1D.wait1DInputData ((p - 1) / 5 % 2))
    else if (p - 1) % 5 = 1 then some (Event1D.windowing ((p - 1) / 5) ((p - 1) / 5 % 2))
    else if (p - 1) % 5 = 2 then some (Event1D.zeroPad ((p - 1) / 5) ((p - 1) / 5 % 2))
    else if (p - 1) % 5 = 3 then some (Event1D.fft ((p - 1) / 5) ((p - 1) / 5 % 2))
    else none
  else none

/-- The event is the start of an input transfer. -/
def Event1D.isStart : Event1D → Bool
  | .startDma _ => true
  | _ => false

/-- The event is a wait for an input transfer. -/
def Event1D.isWait : Event1D → Bool
  | .wait1DInputData _ => true
  | _ => false

/-- The Doppler bin of the detected object `detIdx2` in the direction-of-arrival stage of
`OdsDemo_interFrameProcessing`: the argument
`DOPPLER_IDX_TO_UNSIGNED(obj->detObj2D[detIdx2].dopplerIdx, obj->numDopplerBins)` that is
passed to `mmwavelib_dftSingleBinWithWindow` and to `OdsDemo_addDopplerCompensation`. -/
def OdsDemo_interFrameProcessing.dopplerBin (detObj2D : Nat → OdsDemo_detectedObj)
    (detIdx2 numDopplerBins : Nat) : Nat :=
  DOPPLER_IDX_TO_UNSIGNED (detObj2D detIdx2).dopplerIdx numDopplerBins

/-- The signed Doppler index of the raw bin `d`, as stated: `s` is in `[-N/2, N/2)`, is
congruent to `d` modulo `N`, and is the only such integer. -/
def IsSignedDoppler (N d : Nat) (s : Int) : Prop :=
  (-((N : Int) / 2) ≤ s ∧ s < (N : Int) / 2) ∧
  (N : Int) ∣ s - (d : Int) ∧
  ∀ t : Int, -((N : Int) / 2) ≤ t → t < (N : Int) / 2 → (N : Int) ∣ t - (d : Int) → t = s

/-- Invariant of the flagging loop: the mask bits are exactly the bins of `S`, and the
counter is the size of `S`. -/
def FlagInv (L : Nat) (S : Finset Nat) (st : OdsDemo_1D_DopplerLines_t × Nat) : Prop :=
  st.1.dopplerLineMask.length = L ∧
  (∀ j, maskBit st.1.dopplerLineMask j = true ↔ j ∈ S) ∧
  st.2 = S.card

/-! # Theorems -/

/-! ### Lemmas on the mask -/

theorem shr_and_one_eq_zero_iff (w b : Nat) : (w >>> b) &&& 1 = 0 ↔ w.testBit b = false := by
  unfold Nat.testBit
  rw [Nat.and_comm]
  cases h : (1 &&& w >>> b) with
  | zero => simp
  | succ n => simp

theorem and_shl_ne_zero_iff (w b : Nat) : w &&& (1 <<< b) ≠ 0 ↔ w.testBit b = true := by
  rw [Nat.one_shiftLeft]
  constructor
  · intro h
    by_contra hb
    apply h
    apply Nat.eq_of_testBit_eq
    intro i
    rw [Nat.testBit_and, Nat.testBit_two_pow, Nat.zero_testBit]
    by_cases hi : b = i
    · subst hi; simp at hb; simp [hb]
    · simp [hi]
  · intro h h0
    have := congrArg (fun x => Nat.testBit x b) h0
    simp [Nat.testBit_and, h] at this

theorem shr5 (i : Nat) : i >>> 5 = i / 32 := by
  rw [Nat.shiftRight_eq_div_pow]

theorem and31 (i : Nat) : i &&& 31 = i % 32 :=
  Nat.and_pow_two_sub_one_eq_mod i 5

theorem maskBit_replicate (len j : Nat) : maskBit (List.replicate len 0) j = false := by
  unfold maskBit
  by_cases h : j / 32 < len
  · simp [List.getD_eq_getElem?_getD, List.getElem?_replicate, h]
  · simp [List.getD_eq_getElem?_getD, List.getElem?_replicate, h]

theorem setDopplerLine_len (ths : OdsDemo_1D_DopplerLines_t) (d : Nat) :
    (OdsDemo_setDopplerLine ths d).dopplerLineMaskLen = ths.dopplerLineMaskLen := rfl

theorem setDopplerLine_cur (ths : OdsDemo_1D_DopplerLines_t) (d : Nat) :
    (OdsDemo_setDopplerLine ths d).currentIndex = ths.currentIndex := rfl

theorem setDopplerLine_length (ths : OdsDemo_1D_DopplerLines_t) (d : Nat) :
    (OdsDemo_setDopplerLine ths d).dopplerLineMask.length = ths.dopplerLineMask.length := by
  simp [OdsDemo_setDopplerLine]

theorem setDopplerLine_maskBit (ths : OdsDemo_1D_DopplerLines_t) (d j : Nat)
    (hd : d < 32 * ths.dopplerLineMask.length) :
    maskBit (OdsDemo_setDopplerLine ths d).dopplerLineMask j
      = (decide (j = d) || maskBit ths.dopplerLineMask j) := by
  unfold maskBit OdsDemo_setDopplerLine
  simp only [shr5, and31]
  have hw : d / 32 < ths.dopplerLineMask.length := by omega
  by_cases hj : j / 32 = d / 32
  · rw [hj]
    simp only [List.getD_eq_getElem?_getD, List.getElem?_set_self hw, Option.getD_some]
    rw [Nat.testBit_or, Nat.one_shiftLeft, Nat.testBit_two_pow]
    by_cases hb : d % 32 = j % 32
    · have : j = d := by omega
      simp [this]
    · have : j ≠ d := by intro h; subst h; exact hb rfl
      simp [hb, this]
  · have hne : j ≠ d := by intro h; subst h; exact hj rfl
    have hne2 : d / 32 ≠ j / 32 := fun h => hj h.symm
    simp only [List.getD_eq_getElem?_getD, List.getElem?_set_ne hne2]
    simp [hne]

theorem isSetDopplerLine_eq (ths : OdsDemo_1D_DopplerLines_t) (j : Nat) :
    OdsDemo_isSetDopplerLine ths j = if maskBit ths.dopplerLineMask j then 1 else 0 := by
  unfold OdsDemo_isSetDopplerLine maskBit
  simp only [shr5, and31]
  by_cases h : (ths.dopplerLineMask.getD (j / 32) 0).testBit (j % 32) = true
  · rw [if_pos ((and_shl_ne_zero_iff _ _).2 h), if_pos h]
  · rw [if_neg (fun hc => h ((and_shl_ne_zero_iff _ _).1 hc)), if_neg h]

theorem maskBit_getElem (mask : List Nat) (j : Nat) (hw : j / 32 < mask.length) :
    maskBit mask j = (mask[j / 32]).testBit (j % 32) := by
  unfold maskBit
  rw [List.getD_eq_getElem _ _ hw]

/-- The scan started at `index` stops at the first set bit `m` at or after `index`. -/
theorem scan_found (mask : List Nat) (len : Nat) (hlen : mask.length = len) (m : Nat)
    (hm : m < 32 * len) (hset : maskBit mask m = true) :
    ∀ fuel index, index ≤ m → m - index < fuel →
      (∀ j, index ≤ j → j < m → maskBit mask j = false) →
      OdsDemo_getDopplerLine.scan mask len fuel index (index / 32) (index % 32) = .ok m := by
  intro fuel
  induction fuel with
  | zero => intro index _ h; omega
  | succ f ih =>
    intro index hle hf hun
    have hw : index / 32 < mask.length := by omega
    unfold OdsDemo_getDopplerLine.scan
    rw [List.getElem?_eq_getElem hw]
    simp only
    by_cases hidx : index = m
    · subst hidx
      rw [maskBit_getElem _ _ hw] at hset
      have hne : ¬ ((mask[index / 32] >>> (index % 32)) &&& 1 = 0) := by
        rw [shr_and_one_eq_zero_iff, hset]; simp
      rw [if_neg hne]
    · have hlt : index < m := by omega
      have h0 := hun index le_rfl hlt
      rw [maskBit_getElem _ _ hw] at h0
      have hz : (mask[index / 32] >>> (index % 32)) &&& 1 = 0 :=
        (shr_and_one_eq_zero_iff _ _).2 h0
      rw [if_pos hz]
      have hrec := ih (index + 1) (by omega) (by omega)
        (fun j hj hjm => hun j (by omega) hjm)
      by_cases hb : index % 32 + 1 = 32
      · rw [if_pos hb]
        have hnl : ¬ (index / 32 + 1 ≥ len) := by omega
        rw [if_neg hnl]
        have e1 : (index + 1) / 32 = index / 32 + 1 := by omega
        have e2 : (index + 1) % 32 = 0 := by omega
        rw [e1, e2] at hrec
        exact hrec
      · rw [if_neg hb]
        have e1 : (index + 1) / 32 = index / 32 := by omega
        have e2 : (index + 1) % 32 = index % 32 + 1 := by omega
        rw [e1, e2] at hrec
        exact hrec

/-- On an all-zero mask the scan runs to the end of the mask and stops in the assertion. -/
theorem scan_all_zero (len : Nat) :
    ∀ fuel index, index < 32 * len → 32 * len - index ≤ fuel →
      OdsDemo_getDopplerLine.scan (List.replicate len 0) len fuel index (index / 32) (index % 32)
        = .error .assertFailed := by
  intro fuel
  induction fuel with
  | zero => intro index h1 h2; omega
  | succ f ih =>
    intro index h1 h2
    have hw : index / 32 < (List.replicate len 0).length := by
      rw [List.length_replicate]; omega
    unfold OdsDemo_getDopplerLine.scan
    rw [List.getElem?_eq_getElem hw]
    simp only [List.getElem_replicate, Nat.zero_shiftRight, Nat.zero_and, if_true]
    by_cases hb : index % 32 + 1 = 32
    · rw [if_pos hb]
      by_cases hl : index / 32 + 1 ≥ len
      · rw [if_pos hl]
        rfl
      · rw [if_neg hl]
        have hrec := ih (index + 1) (by omega) (by omega)
        have e1 : (index + 1) / 32 = index / 32 + 1 := by omega
        have e2 : (index + 1) % 32 = 0 := by omega
        rw [e1, e2] at hrec
        exact hrec
    · rw [if_neg hb]
      have hrec := ih (index + 1) (by omega) (by omega)
      have e1 : (index + 1) / 32 = index / 32 := by omega
      have e2 : (index + 1) % 32 = index % 32 + 1 := by omega
      rw [e1, e2] at hrec
      exact hrec

/-- One call of `OdsDemo_getDopplerLine` returns the first set bit at or after the cursor. -/
theorem getDopplerLine_found (ths : OdsDemo_1D_DopplerLines_t)
    (hlen : ths.dopplerLineMask.length = ths.dopplerLineMaskLen) (m : Nat)
    (hcur : ths.currentIndex ≤ m) (hm : m < 32 * ths.dopplerLineMaskLen)
    (hset : maskBit ths.dopplerLineMask m = true)
    (hun : ∀ j, ths.currentIndex ≤ j → j < m → maskBit ths.dopplerLineMask j = false) :
    OdsDemo_getDopplerLine ths = .ok (m, { ths with currentIndex := m + 1 }) := by
  unfold OdsDemo_getDopplerLine
  simp only [shr5, and31]
  rw [scan_found ths.dopplerLineMask ths.dopplerLineMaskLen hlen m hm hset _ _ hcur
    (by omega) hun]

/-- Successive calls drain the set bits at or after the cursor in ascending order. -/
theorem getDopplerLines_drain (ys : List Nat) (hs : ys.Sorted (· < ·)) :
    ∀ ths : OdsDemo_1D_DopplerLines_t,
      ths.dopplerLineMask.length = ths.dopplerLineMaskLen →
      (∀ y ∈ ys, ths.currentIndex ≤ y ∧ y < 32 * ths.dopplerLineMaskLen) →
      (∀ j, ths.currentIndex ≤ j → (maskBit ths.dopplerLineMask j = true ↔ j ∈ ys)) →
      ∃ c, getDopplerLines ys.length ths = .ok (ys, { ths with currentIndex := c }) := by
  induction ys with
  | nil =>
    intro ths _ _ _
    exact ⟨ths.currentIndex, rfl⟩
  | cons y ys ih =>
    intro ths hlen hb hbits
    have hsort := List.sorted_cons.1 hs
    have hy := hb y (List.mem_cons_self _ _)
    have hget := getDopplerLine_found ths hlen y hy.1 hy.2
      ((hbits y hy.1).2 (List.mem_cons_self _ _))
      (fun j hj hjy => by
        by_contra hc
        have hmem := (hbits j hj).1 (by simpa using hc)
        rcases List.mem_cons.1 hmem with h | h
        · omega
        · have := hsort.1 _ h; omega)
    obtain ⟨c, hc⟩ := ih hsort.2 { ths with currentIndex := y + 1 } hlen
      (fun z hz => ⟨by have := hsort.1 _ hz; show y + 1 ≤ z; omega,
        (hb z (List.mem_cons_of_mem _ hz)).2⟩)
      (fun j hj => by
        have hj1 : y + 1 ≤ j := hj
        rw [hbits j (by omega), List.mem_cons]
        constructor
        · rintro (h | h)
          · omega
          · exact h
        · exact fun h => Or.inr h)
    refine ⟨c, ?_⟩
    simp only [List.length_cons, getDopplerLines, hget, hc]

/-- State after `OdsDemo_setDopplerLine` for every element of `xs`: the mask keeps its
length, the cursor is untouched, and exactly the bits of `xs` are added. -/
theorem foldl_setDopplerLine (xs : List Nat) :
    ∀ ths : OdsDemo_1D_DopplerLines_t,
      (∀ x ∈ xs, x < 32 * ths.dopplerLineMask.length) →
      (xs.foldl OdsDemo_setDopplerLine ths).dopplerLineMask.length = ths.dopplerLineMask.length ∧
      (xs.foldl OdsDemo_setDopplerLine ths).dopplerLineMaskLen = ths.dopplerLineMaskLen ∧
      (xs.foldl OdsDemo_setDopplerLine ths).currentIndex = ths.currentIndex ∧
      ∀ j, maskBit (xs.foldl OdsDemo_setDopplerLine ths).dopplerLineMask j
        = (decide (j ∈ xs) || maskBit ths.dopplerLineMask j) := by
  induction xs with
  | nil => intro ths _; simp
  | cons x xs ih =>
    intro ths hx
    have hx0 := hx x (List.mem_cons_self _ _)
    obtain ⟨h1, h2, h3, h4⟩ := ih (OdsDemo_setDopplerLine ths x) (fun z hz => by
      rw [setDopplerLine_length]; exact hx z (List.mem_cons_of_mem _ hz))
    refine ⟨?_, ?_, ?_, ?_⟩
    · rw [List.foldl_cons, h1, setDopplerLine_length]
    · rw [List.foldl_cons, h2, setDopplerLine_len]
    · rw [List.foldl_cons, h3, setDopplerLine_cur]
    · intro j
      rw [List.foldl_cons, h4, setDopplerLine_maskBit ths x j hx0]
      by_cases hjx : j = x
      · simp [hjx]
      · simp [hjx]

/-! ### C1, C9 -/

/-- C1: after `OdsDemo_resetDopplerLines` and `OdsDemo_setDopplerLine` for every element of
`xs` (any order, repeats allowed, all bins below `32 * dopplerLineMaskLen`), as many calls of
`OdsDemo_getDopplerLine` as there are distinct bins all return normally (no assertion, no
read outside the mask) and return the distinct bins in strictly ascending order, each once. -/
theorem C1_getDopplerLine_drains_ascending (ths : OdsDemo_1D_DopplerLines_t) (xs : List Nat)
    (hxs : ∀ x ∈ xs, x < 32 * ths.dopplerLineMaskLen) :
    ∃ c, getDopplerLines xs.toFinset.card
          (xs.foldl OdsDemo_setDopplerLine (OdsDemo_resetDopplerLines ths))
        = .ok (xs.toFinset.sort (· ≤ ·),
            { xs.foldl OdsDemo_setDopplerLine (OdsDemo_resetDopplerLines ths) with
              currentIndex := c })
      ∧ (xs.toFinset.sort (· ≤ ·)).Sorted (· < ·)
      ∧ (xs.toFinset.sort (· ≤ ·)).length = xs.toFinset.card
      ∧ ∀ x, x ∈ xs.toFinset.sort (· ≤ ·) ↔ x ∈ xs := by
  have hlen0 : (OdsDemo_resetDopplerLines ths).dopplerLineMask.length
      = ths.dopplerLineMaskLen := by
    simp [OdsDemo_resetDopplerLines]
  obtain ⟨h1, h2, h3, h4⟩ := foldl_setDopplerLine xs (OdsDemo_resetDopplerLines ths)
    (by rw [hlen0]; exact hxs)
  have hmem : ∀ x, x ∈ xs.toFinset.sort (· ≤ ·) ↔ x ∈ xs := by
    intro x; rw [Finset.mem_sort, List.mem_toFinset]
  have hl2 : (xs.foldl OdsDemo_setDopplerLine (OdsDemo_resetDopplerLines ths)).dopplerLineMaskLen
      = ths.dopplerLineMaskLen := by rw [h2]; rfl
  obtain ⟨c, hc⟩ := getDopplerLines_drain (xs.toFinset.sort (· ≤ ·))
    (Finset.sort_sorted_lt _)
    (xs.foldl OdsDemo_setDopplerLine (OdsDemo_resetDopplerLines ths))
    (by rw [h1, hlen0, hl2])
    (fun y hy => ⟨by rw [h3]; exact Nat.zero_le _, by rw [hl2]; exact hxs y ((hmem y).1 hy)⟩)
    (fun j _ => by
      rw [h4, hmem]
      simp [OdsDemo_resetDopplerLines, maskBit_replicate])
  rw [Finset.length_sort] at hc
  exact ⟨c, hc, Finset.sort_sorted_lt _, Finset.length_sort _, hmem⟩

/-- C9: for a mask of at least one word, `OdsDemo_resetDopplerLines` followed by
`OdsDemo_getDopplerLine` returns no Doppler index: the scan ends in `OdsDemo_dssAssert(0)`. -/
theorem C9_getDopplerLine_empty_mask_asserts (ths : OdsDemo_1D_DopplerLines_t)
    (hlen : 1 ≤ ths.dopplerLineMaskLen) :
    OdsDemo_getDopplerLine (OdsDemo_resetDopplerLines ths) = .error .assertFailed := by
  unfold OdsDemo_getDopplerLine
  simp only [shr5, and31]
  have h := scan_all_zero ths.dopplerLineMaskLen (32 * ths.dopplerLineMaskLen + 1) 0
    (by omega) (by omega)
  simp only [OdsDemo_resetDopplerLines]
  rw [h]

/-- C1 at a two-word mask with the bins 40, 3, 40, 63. -/
theorem C1_getDopplerLine_drains_ascending_witness :
    (∀ x ∈ [40, 3, 40, 63], x < 32 * 2) ∧
    ∃ c, getDopplerLines ([40, 3, 40, 63] : List Nat).toFinset.card
          (([40, 3, 40, 63] : List Nat).foldl OdsDemo_setDopplerLine
            (OdsDemo_resetDopplerLines ⟨[5, 9], 2, 7⟩))
        = .ok (([40, 3, 40, 63] : List Nat).toFinset.sort (· ≤ ·),
            { ([40, 3, 40, 63] : List Nat).foldl OdsDemo_setDopplerLine
                (OdsDemo_resetDopplerLines ⟨[5, 9], 2, 7⟩) with currentIndex := c })
      ∧ (([40, 3, 40, 63] : List Nat).toFinset.sort (· ≤ ·)).Sorted (· < ·)
      ∧ (([40, 3, 40, 63] : List Nat).toFinset.sort (· ≤ ·)).length
          = ([40, 3, 40, 63] : List Nat).toFinset.card
      ∧ ∀ x, x ∈ ([40, 3, 40, 63] : List Nat).toFinset.sort (· ≤ ·) ↔ x ∈ [40, 3, 40, 63] :=
  ⟨by decide, C1_getDopplerLine_drains_ascending ⟨[5, 9], 2, 7⟩ [40, 3, 40, 63] (by decide)⟩

/-- C9 at a one-word mask. -/
theorem C9_getDopplerLine_empty_mask_asserts_witness :
    1 ≤ (1 : Nat) ∧
    OdsDemo_getDopplerLine (OdsDemo_resetDopplerLines ⟨[12], 1, 3⟩) = .error .assertFailed :=
  ⟨by decide, C9_getDopplerLine_empty_mask_asserts ⟨[12], 1, 3⟩ (by decide)⟩

/-! ### C8 -/

theorem pow2_le_mask_bits (N p : Nat) (hN : N = 2 ^ p) : N ≤ 32 * max (N >>> 5) 1 := by
  rw [shr5]
  by_cases hp : 5 ≤ p
  · have hdvd : 32 ∣ N := by
      rw [hN]; exact pow_dvd_pow 2 hp
    have := Nat.div_mul_cancel hdvd
    have hm : N / 32 ≤ max (N / 32) 1 := le_max_left _ _
    omega
  · have hlt : N < 32 := by
      rw [hN]
      calc 2 ^ p < 2 ^ 5 := Nat.pow_lt_pow_right (by decide) (by omega)
        _ = 32 := by norm_num
    have hm : 1 ≤ max (N / 32) 1 := le_max_right _ _
    omega

theorem flag_step (L : Nat) (S : Finset Nat) (st : OdsDemo_1D_DopplerLines_t × Nat)
    (d : Nat) (hd : d < 32 * L) (h : FlagInv L S st) :
    FlagInv L (insert d S)
      (if OdsDemo_isSetDopplerLine st.1 d = 0 then (OdsDemo_setDopplerLine st.1 d, st.2 + 1)
       else st) := by
  obtain ⟨h1, h2, h3⟩ := h
  rw [isSetDopplerLine_eq]
  by_cases hb : maskBit st.1.dopplerLineMask d = true
  · have hmem : d ∈ S := (h2 d).1 hb
    simp only [hb, if_true, one_ne_zero, if_false]
    rw [Finset.insert_eq_of_mem hmem]
    exact ⟨h1, h2, h3⟩
  · have hnm : d ∉ S := fun hm => hb ((h2 d).2 hm)
    simp only [hb, if_true]
    refine ⟨?_, ?_, ?_⟩
    · show (OdsDemo_setDopplerLine st.1 d).dopplerLineMask.length = L
      rw [setDopplerLine_length, h1]
    · intro j
      show maskBit (OdsDemo_setDopplerLine st.1 d).dopplerLineMask j = true ↔ _
      rw [setDopplerLine_maskBit st.1 d j (by rw [h1]; exact hd), Finset.mem_insert,
        Bool.or_eq_true, decide_eq_true_eq, h2 j]
    · show st.2 + 1 = _
      rw [Finset.card_insert_of_not_mem hnm, h3]

theorem flag_fold (L : Nat) (det : List Nat) :
    ∀ (S : Finset Nat) (st : OdsDemo_1D_DopplerLines_t × Nat),
      (∀ d ∈ det, d < 32 * L) → FlagInv L S st →
      FlagInv L (S ∪ det.toFinset)
        (det.foldl (fun st d =>
          if OdsDemo_isSetDopplerLine st.1 d = 0 then (OdsDemo_setDopplerLine st.1 d, st.2 + 1)
          else st) st) := by
  induction det with
  | nil => intro S st _ h; simpa using h
  | cons d det ih =>
    intro S st hd h
    rw [List.foldl_cons]
    have := ih (insert d S) _ (fun z hz => hd z (List.mem_cons_of_mem _ hz))
      (flag_step L S st d (hd d (List.mem_cons_self _ _)) h)
    have e : insert d S ∪ det.toFinset = S ∪ (d :: det).toFinset := by
      ext x; simp only [Finset.mem_union, Finset.mem_insert, List.toFinset_cons]; tauto
    rw [e] at this
    exact this

theorem flagDopplerLines_inv (L : Nat) (det : List Nat) (S : Finset Nat)
    (st : OdsDemo_1D_DopplerLines_t × Nat) (hd : ∀ d ∈ det, d < 32 * L) (h : FlagInv L S st) :
    FlagInv L (S ∪ det.toFinset) (flagDopplerLines det st) := by
  unfold flagDopplerLines
  by_cases hl : det.length > 0
  · rw [if_pos hl]; exact flag_fold L det S st hd h
  · rw [if_neg hl]
    have : det = [] := List.length_eq_zero.1 (by omega)
    subst this
    simpa using h

theorem stage1_fold (L : Nat) (dets : List (List Nat)) :
    ∀ (S : Finset Nat) (st : OdsDemo_1D_DopplerLines_t × Nat),
      (∀ det ∈ dets, ∀ d ∈ det, d < 32 * L) → FlagInv L S st →
      FlagInv L (S ∪ dets.flatten.toFinset)
        (dets.foldl (fun st det => flagDopplerLines det st) st) := by
  induction dets with
  | nil => intro S st _ h; simpa using h
  | cons det dets ih =>
    intro S st hd h
    rw [List.foldl_cons]
    have := ih (S ∪ det.toFinset) _ (fun z hz => hd z (List.mem_cons_of_mem _ hz))
      (flagDopplerLines_inv L det S st (hd det (List.mem_cons_self _ _)) h)
    have e : S ∪ det.toFinset ∪ dets.flatten.toFinset = S ∪ (det :: dets).flatten.toFinset := by
      ext x
      simp only [Finset.mem_union, List.flatten_cons, List.toFinset_append]
      tauto
    rw [e] at this
    exact this

theorem numBitsSet_eq_card (L : Nat) (S : Finset Nat) (st : OdsDemo_1D_DopplerLines_t × Nat)
    (h : FlagInv L S st) (hS : ∀ j ∈ S, j < 32 * L) : numBitsSet st.1 = S.card := by
  obtain ⟨h1, h2, _⟩ := h
  unfold numBitsSet
  rw [h1]
  have hnd : ((List.range (32 * L)).filter (fun j => maskBit st.1.dopplerLineMask j)).Nodup :=
    (List.nodup_range _).filter _
  rw [← List.toFinset_card_of_nodup hnd]
  congr 1
  ext j
  simp only [List.mem_toFinset, List.mem_filter, List.mem_range]
  constructor
  · rintro ⟨_, hb⟩; exact (h2 j).1 hb
  · intro hj; exact ⟨hS j hj, (h2 j).2 hj⟩

/-- C8: Stage-1 flagging counts every Doppler line once. With a power-of-two
`numDopplerBins`, the mask of `MAX(numDopplerBins >> 5, 1)` words that
`OdsDemo_dataPathConfigBuffers` sets up, and CFAR detection lists whose indices are all below
`numDopplerBins`, after the range loop `numDetObj1D` is the number of distinct Doppler bins
detected, and this is the number of bits set in the Doppler line mask. -/
theorem C8_stage1_counts_distinct_lines (numDopplerBins p : Nat)
    (hN : numDopplerBins = 2 ^ p) (ths : OdsDemo_1D_DopplerLines_t)
    (hlen : ths.dopplerLineMaskLen = max (numDopplerBins >>> 5) 1)
    (dets : List (List Nat)) (hdets : ∀ det ∈ dets, ∀ d ∈ det, d < numDopplerBins) :
    (stage1Flagging ths dets).2 = dets.flatten.toFinset.card ∧
    (stage1Flagging ths dets).2 = numBitsSet (stage1Flagging ths dets).1 := by
  have hfit := pow2_le_mask_bits numDopplerBins p hN
  rw [← hlen] at hfit
  have hb : ∀ det ∈ dets, ∀ d ∈ det, d < 32 * ths.dopplerLineMaskLen :=
    fun det hdet d hd => lt_of_lt_of_le (hdets det hdet d hd) hfit
  have h0 : FlagInv ths.dopplerLineMaskLen ∅ (OdsDemo_resetDopplerLines ths, 0) := by
    refine ⟨by simp [OdsDemo_resetDopplerLines], fun j => ?_, by simp⟩
    simp [OdsDemo_resetDopplerLines, maskBit_replicate]
  have h := stage1_fold ths.dopplerLineMaskLen dets ∅ _ hb h0
  rw [Finset.empty_union] at h
  have hc : (stage1Flagging ths dets).2 = dets.flatten.toFinset.card := h.2.2
  refine ⟨hc, ?_⟩
  rw [hc]
  symm
  apply numBitsSet_eq_card ths.dopplerLineMaskLen _ _ h
  intro j hj
  rw [List.mem_toFinset, List.mem_flatten] at hj
  obtain ⟨det, hdet, hjd⟩ := hj
  exact hb det hdet j hjd

/-- C8 at 64 Doppler bins, three range bins with detections `[3, 40]`, `[]`, `[40, 3, 63]`. -/
theorem C8_stage1_counts_distinct_lines_witness :
    (64 = 2 ^ 6 ∧ (2 : Nat) = max (64 >>> 5) 1 ∧
      ∀ det ∈ [[3, 40], [], [40, 3, 63]], ∀ d ∈ det, d < 64) ∧
    (stage1Flagging ⟨[7, 7], 2, 5⟩ [[3, 40], [], [40, 3, 63]]).2
        = ([[3, 40], [], [40, 3, 63]] : List (List Nat)).flatten.toFinset.card ∧
    (stage1Flagging ⟨[7, 7], 2, 5⟩ [[3, 40], [], [40, 3, 63]]).2
        = numBitsSet (stage1Flagging ⟨[7, 7], 2, 5⟩ [[3, 40], [], [40, 3, 63]]).1 :=
  ⟨⟨by decide, by decide, by decide⟩,
   C8_stage1_counts_distinct_lines 64 6 (by decide) ⟨[7, 7], 2, 5⟩ (by decide)
     [[3, 40], [], [40, 3, 63]] (by decide)⟩

/-! ### C10 -/

theorem wrapInt32_of_isInt32 (x : Int) (h : isInt32 x) : wrapInt32 x = x := by
  unfold isInt32 at h
  unfold wrapInt32
  omega

/-- One loop iteration on a slot pair that still holds `A = s1 + s2`, `B = s1 - s2`
puts `s1` and `s2` there and touches nothing else. -/
theorem decodeBPM_body_spec (n idx : Nat) (buf : Nat → cmplx32ReIm_t) (s1 s2 : cmplx32ReIm_t)
    (hidx : idx < n)
    (hA : buf idx = ⟨s1.real + s2.real, s1.imag + s2.imag⟩)
    (hB : buf (n + idx) = ⟨s1.real - s2.real, s1.imag - s2.imag⟩)
    (h1r : isInt32 (2 * s1.real)) (h1i : isInt32 (2 * s1.imag))
    (h2r : isInt32 (2 * s2.real)) (h2i : isInt32 (2 * s2.imag)) :
    OdsDemo_decodeBPM.body n buf idx
      = Function.update (Function.update buf idx s1) (n + idx) s2 := by
  have hne : n + idx ≠ idx := by omega
  have hne2 : idx ≠ n + idx := by omega
  have e1 : s1.real + s2.real + (s1.real - s2.real) = 2 * s1.real := by ring
  have e2 : s1.imag + s2.imag + (s1.imag - s2.imag) = 2 * s1.imag := by ring
  have e3 : s1.real + s2.real - (s1.real - s2.real) = 2 * s2.real := by ring
  have e4 : s1.imag + s2.imag - (s1.imag - s2.imag) = 2 * s2.imag := by ring
  funext j
  unfold OdsDemo_decodeBPM.body
  simp only [Function.update_same, Function.update_noteq hne, Function.update_noteq hne2,
    hA, hB, e1, e2, e3, e4,
    wrapInt32_of_isInt32 _ h1r, wrapInt32_of_isInt32 _ h1i,
    wrapInt32_of_isInt32 _ h2r, wrapInt32_of_isInt32 _ h2i,
    Int.mul_tdiv_cancel_left _ (show (2 : Int) ≠ 0 by decide)]
  by_cases hj : j = n + idx
  · subst hj; simp
  · by_cases hj2 : j = idx
    · subst hj2; simp [Function.update_noteq hj]
    · simp [Function.update_noteq hj, Function.update_noteq hj2]

/-- Loop invariant of `OdsDemo_decodeBPM` after `k` iterations. -/
theorem decodeBPM_prefix (n : Nat) (S1 S2 : Nat → cmplx32ReIm_t) (azimuthIn : Nat → cmplx32ReIm_t)
    (hA : ∀ i, i < n → azimuthIn i = ⟨(S1 i).real + (S2 i).real, (S1 i).imag + (S2 i).imag⟩)
    (hB : ∀ i, i < n →
      azimuthIn (n + i) = ⟨(S1 i).real - (S2 i).real, (S1 i).imag - (S2 i).imag⟩)
    (h1 : ∀ i, i < n → isInt32 (2 * (S1 i).real) ∧ isInt32 (2 * (S1 i).imag))
    (h2 : ∀ i, i < n → isInt32 (2 * (S2 i).real) ∧ isInt32 (2 * (S2 i).imag)) :
    ∀ k, k ≤ n → ∀ j,
      ((List.range k).foldl (OdsDemo_decodeBPM.body n) azimuthIn) j
        = if j < k then S1 j
          else if n ≤ j ∧ j < n + k then S2 (j - n)
          else azimuthIn j := by
  intro k
  induction k with
  | zero =>
    intro _ j
    have h0 : ¬ (j < 0) := by omega
    have h1' : ¬ (n ≤ j ∧ j < n + 0) := by omega
    rw [List.range_zero, List.foldl_nil, if_neg h0, if_neg h1']
  | succ k ih =>
    intro hk j
    have hkn : k < n := by omega
    rw [List.range_succ, List.foldl_append, List.foldl_cons, List.foldl_nil]
    have ihk := ih (by omega)
    have hbk : ((List.range k).foldl (OdsDemo_decodeBPM.body n) azimuthIn) k
        = ⟨(S1 k).real + (S2 k).real, (S1 k).imag + (S2 k).imag⟩ := by
      rw [ihk k]
      have h1' : ¬ (k < k) := by omega
      have h2' : ¬ (n ≤ k ∧ k < n + k) := by omega
      rw [if_neg h1', if_neg h2']
      exact hA k hkn
    have hbnk : ((List.range k).foldl (OdsDemo_decodeBPM.body n) azimuthIn) (n + k)
        = ⟨(S1 k).real - (S2 k).real, (S1 k).imag - (S2 k).imag⟩ := by
      rw [ihk (n + k)]
      have h1' : ¬ (n + k < k) := by omega
      have h2' : ¬ (n ≤ n + k ∧ n + k < n + k) := by omega
      rw [if_neg h1', if_neg h2']
      exact hB k hkn
    rw [decodeBPM_body_spec n k _ (S1 k) (S2 k) hkn hbk hbnk (h1 k hkn).1 (h1 k hkn).2
      (h2 k hkn).1 (h2 k hkn).2]
    by_cases hj : j = n + k
    · subst hj
      have h1' : ¬ (n + k < k + 1) := by omega
      have h2' : n ≤ n + k ∧ n + k < n + (k + 1) := by omega
      rw [Function.update_same, if_neg h1', if_pos h2']
      congr 1
      omega
    · rw [Function.update_noteq hj]
      by_cases hj2 : j = k
      · subst hj2
        rw [Function.update_same, if_pos (by omega)]
      · rw [Function.update_noteq hj2, ihk j]
        split_ifs <;> first | rfl | (exfalso; omega)

/-- C10: BPM round trip. When the first half of the buffer holds `A = S1 + S2` and the second
half `B = S1 - S2` (component-wise, `numRxAnt` complex samples each) and `2*S1`, `2*S2` are
inside the `int32_t` range, `OdsDemo_decodeBPM` leaves exactly `S1` in the first half and
exactly `S2` in the second half, and changes nothing outside the two halves. -/
theorem C10_decodeBPM_round_trip (numRxAnt : Nat) (S1 S2 : Nat → cmplx32ReIm_t)
    (azimuthIn : Nat → cmplx32ReIm_t)
    (hA : ∀ i, i < numRxAnt →
      azimuthIn i = ⟨(S1 i).real + (S2 i).real, (S1 i).imag + (S2 i).imag⟩)
    (hB : ∀ i, i < numRxAnt →
      azimuthIn (numRxAnt + i) = ⟨(S1 i).real - (S2 i).real, (S1 i).imag - (S2 i).imag⟩)
    (h1 : ∀ i, i < numRxAnt → isInt32 (2 * (S1 i).real) ∧ isInt32 (2 * (S1 i).imag))
    (h2 : ∀ i, i < numRxAnt → isInt32 (2 * (S2 i).real) ∧ isInt32 (2 * (S2 i).imag)) :
    (∀ i, i < numRxAnt →
      OdsDemo_decodeBPM azimuthIn numRxAnt i = S1 i ∧
      OdsDemo_decodeBPM azimuthIn numRxAnt (numRxAnt + i) = S2 i) ∧
    (∀ j, 2 * numRxAnt ≤ j → OdsDemo_decodeBPM azimuthIn numRxAnt j = azimuthIn j) := by
  have h := decodeBPM_prefix numRxAnt S1 S2 azimuthIn hA hB h1 h2 numRxAnt le_rfl
  unfold OdsDemo_decodeBPM
  refine ⟨fun i hi => ⟨?_, ?_⟩, fun j hj => ?_⟩
  · rw [h i, if_pos hi]
  · rw [h (numRxAnt + i), if_neg (by omega), if_pos (by omega)]
    congr 1
    omega
  · rw [h j, if_neg (by omega), if_neg (by omega)]

/-- C10 at two receive antennas. -/
theorem C10_decodeBPM_round_trip_witness :
    OdsDemo_decodeBPM
        (fun j => if j = 0 then ⟨3 + (-7), -5 + 4⟩ else if j = 1 then ⟨-2 + 9, 6 + 1⟩
          else if j = 2 then ⟨3 - (-7), -5 - 4⟩ else if j = 3 then ⟨-2 - 9, 6 - 1⟩
          else ⟨0, 0⟩) 2 0 = ⟨3, -5⟩ ∧
    OdsDemo_decodeBPM
        (fun j => if j = 0 then ⟨3 + (-7), -5 + 4⟩ else if j = 1 then ⟨-2 + 9, 6 + 1⟩
          else if j = 2 then ⟨3 - (-7), -5 - 4⟩ else if j = 3 then ⟨-2 - 9, 6 - 1⟩
          else ⟨0, 0⟩) 2 (2 + 0) = ⟨-7, 4⟩ :=
  ((C10_decodeBPM_round_trip 2
      (fun i => if i = 0 then ⟨3, -5⟩ else ⟨-2, 6⟩)
      (fun i => if i = 0 then ⟨-7, 4⟩ else ⟨9, 1⟩)
      (fun j => if j = 0 then ⟨3 + (-7), -5 + 4⟩ else if j = 1 then ⟨-2 + 9, 6 + 1⟩
          else if j = 2 then ⟨3 - (-7), -5 - 4⟩ else if j = 3 then ⟨-2 - 9, 6 - 1⟩
          else ⟨0, 0⟩)
      (by decide) (by decide) (by unfold isInt32; decide) (by unfold isInt32; decide)).1
    0 (by decide))

/-! ### The Doppler index conversions -/

theorem pow2_split (p : Nat) (hp : p ≤ 31) :
    ∃ K, 1 ≤ K ∧ 4294967296 = 2 ^ p * (K + 1) := by
  refine ⟨2 ^ (32 - p) - 1, ?_, ?_⟩
  · have : 2 ^ 1 ≤ 2 ^ (32 - p) := Nat.pow_le_pow_right (by decide) (by omega)
    omega
  · have h1 : 1 ≤ 2 ^ (32 - p) := Nat.one_le_two_pow
    rw [Nat.sub_add_cancel h1, ← pow_add]
    have : p + (32 - p) = 32 := by omega
    rw [this]
    norm_num

theorem pow2_lt_u32 (p : Nat) (hp : p ≤ 31) : 2 ^ p < 4294967296 := by
  calc 2 ^ p ≤ 2 ^ 31 := Nat.pow_le_pow_right (by decide) hp
    _ < 4294967296 := by norm_num

theorem mask_u32 (p : Nat) (hp : p ≤ 31) :
    (2 ^ p + 4294967295) % 4294967296 = 2 ^ p - 1 := by
  have h1 : 1 ≤ 2 ^ p := Nat.one_le_two_pow
  have h2 := pow2_lt_u32 p hp
  omega

/-- The two Doppler index conversions for `N = 2^p` with `2 ≤ N < 2^32` and a bin `d < N`:
`DOPPLER_IDX_TO_SIGNED(d, N)` lies in `[-N/2, N/2)`, is congruent to `d` modulo `N`, is the
only such value, and `DOPPLER_IDX_TO_UNSIGNED` takes it back to `d`. -/
theorem signed_doppler_conversions (p d : Nat) (hp1 : 1 ≤ p) (hp : p ≤ 31) (hd : d < 2 ^ p) :
    (-(((2 ^ p : Nat) : Int) / 2) ≤ DOPPLER_IDX_TO_SIGNED d (2 ^ p) ∧
      DOPPLER_IDX_TO_SIGNED d (2 ^ p) < ((2 ^ p : Nat) : Int) / 2) ∧
    ((2 ^ p : Nat) : Int) ∣ DOPPLER_IDX_TO_SIGNED d (2 ^ p) - (d : Int) ∧
    (∀ t : Int, -(((2 ^ p : Nat) : Int) / 2) ≤ t → t < ((2 ^ p : Nat) : Int) / 2 →
      ((2 ^ p : Nat) : Int) ∣ t - (d : Int) → t = DOPPLER_IDX_TO_SIGNED d (2 ^ p)) ∧
    DOPPLER_IDX_TO_UNSIGNED (DOPPLER_IDX_TO_SIGNED d (2 ^ p)) (2 ^ p) = d := by
  obtain ⟨q, rfl⟩ : ∃ q, p = q + 1 := ⟨p - 1, by omega⟩
  have hN : (2 : Nat) ^ (q + 1) = 2 * 2 ^ q := by rw [pow_succ]; ring
  have hhalf : (2 : Nat) ^ (q + 1) / 2 = 2 ^ q := by rw [hN]; omega
  have hq1 : 1 ≤ 2 ^ q := Nat.one_le_two_pow
  obtain ⟨K, hK1, hK⟩ := pow2_split (q + 1) hp
  have hN32 := pow2_lt_u32 (q + 1) hp
  generalize hNN : (2 : Nat) ^ (q + 1) = N at *
  generalize hHH : (2 : Nat) ^ q = H at *
  have hs : DOPPLER_IDX_TO_SIGNED d N = if d < H then (d : Int) else (d : Int) - (N : Int) := by
    unfold DOPPLER_IDX_TO_SIGNED; rw [hhalf]
  refine ⟨?_, ?_, ?_, ?_⟩
  · rw [hs]; split_ifs <;> omega
  · rw [hs]; split_ifs
    · simp
    · exact ⟨-1, by ring⟩
  · intro t h1 h2 ⟨c, hc⟩
    rw [hs]
    split_ifs with h
    · have : c = 0 := by
        by_contra hne
        rcases lt_or_gt_of_ne hne with h' | h'
        · have : (N : Int) * c ≤ (N : Int) * (-1) := by
            apply mul_le_mul_of_nonneg_left <;> omega
          omega
        · have : (N : Int) * 1 ≤ (N : Int) * c := by
            apply mul_le_mul_of_nonneg_left <;> omega
          omega
      subst this; omega
    · have : c = -1 := by
        by_contra hne
        rcases lt_or_gt_of_ne hne with h' | h'
        · have : (N : Int) * c ≤ (N : Int) * (-2) := by
            apply mul_le_mul_of_nonneg_left <;> omega
          omega
        · have : (N : Int) * 0 ≤ (N : Int) * c := by
            apply mul_le_mul_of_nonneg_left <;> omega
          omega
      subst this; omega
  · unfold DOPPLER_IDX_TO_UNSIGNED
    rw [← hNN, mask_u32 (q + 1) hp, Nat.and_pow_two_sub_one_eq_mod, hNN, hs]
    split_ifs with h
    · have e : ((d : Int) % 4294967296).toNat = d := by omega
      rw [e]; exact Nat.mod_eq_of_lt hd
    · have e : (((d : Int) - (N : Int)) % 4294967296).toNat = d + N * K := by
        have : (4294967296 : Int) = (N : Int) * ((K : Int) + 1) := by exact_mod_cast hK
        have hNK : (0:Int) ≤ (N : Int) * (K : Int) := by positivity
        have h3 : ((d : Int) - (N : Int)) % 4294967296 = (d : Int) + (N : Int) * (K : Int) := by
          have : (d : Int) - (N : Int) = ((d : Int) + (N : Int) * (K : Int)) + 4294967296 * (-1) := by
            rw [this]; ring
          rw [this, Int.add_mul_emod_self_left]
          apply Int.emod_eq_of_lt
          · omega
          · nlinarith
        rw [h3]
        have : ((d : Int) + (N : Int) * (K : Int)) = ((d + N * K : Nat) : Int) := by push_cast; ring
        rw [this]; exact Int.toNat_natCast _
      rw [e, Nat.add_mul_mod_self_left]
      exact Nat.mod_eq_of_lt hd

/-! ### Output of the grouping loops -/

theorem emitObj_of_ne (objOut : Nat → OdsDemo_detectedObj) (n r d N pv j : Nat) (h : j ≠ n) :
    emitObj objOut n r d N pv j = objOut j := by
  unfold emitObj
  exact Function.update_noteq h _ _

theorem emitObj_self (objOut : Nat → OdsDemo_detectedObj) (n r d N pv : Nat) :
    emitObj objOut n r d N pv n
      = { objOut n with rangeIdx := r, dopplerIdx := DOPPLER_IDX_TO_SIGNED d N, peakVal := pv } := by
  unfold emitObj
  exact Function.update_same _ _ _

theorem emitAll_outside (objRaw : Nat → OdsDemo_objRaw_t) (N : Nat) (is : List Nat) :
    ∀ (objOut : Nat → OdsDemo_detectedObj) (n j : Nat), (j < n ∨ n + is.length ≤ j) →
      emitAll objRaw N objOut n is j = objOut j := by
  induction is with
  | nil => intro objOut n j _; rfl
  | cons i is ih =>
    intro objOut n j hj
    rw [emitAll, ih _ (n + 1) j (by simp only [List.length_cons] at hj; omega)]
    exact emitObj_of_ne _ _ _ _ _ _ _ (by simp only [List.length_cons] at hj; omega)

theorem emitAll_inside (objRaw : Nat → OdsDemo_objRaw_t) (N : Nat) (is : List Nat) :
    ∀ (objOut : Nat → OdsDemo_detectedObj) (n k : Nat) (hk : k < is.length),
      ((emitAll objRaw N objOut n is (n + k)).rangeIdx,
       (emitAll objRaw N objOut n is (n + k)).dopplerIdx,
       (emitAll objRaw N objOut n is (n + k)).peakVal) = emittedOf objRaw N (is.get ⟨k, hk⟩) := by
  induction is with
  | nil => intro _ _ k hk; exact absurd hk (by simp)
  | cons i is ih =>
    intro objOut n k hk
    rw [emitAll]
    cases k with
    | zero =>
      show ((emitAll objRaw N _ (n + 1) is n).rangeIdx, (emitAll objRaw N _ (n + 1) is n).dopplerIdx,
        (emitAll objRaw N _ (n + 1) is n).peakVal) = _
      rw [emitAll_outside objRaw N is _ (n + 1) n (Or.inl (by omega)), emitObj_self]
      rfl
    | succ k =>
      have hk' : k < is.length := by simp only [List.length_cons] at hk; omega
      have := ih (emitObj objOut n (objRaw i).rangeIdx (objRaw i).dopplerIdx N (objRaw i).peakVal)
        (n + 1) k hk'
      have e : n + 1 + k = n + (k + 1) := by omega
      rw [e] at this
      rw [this]
      rfl

theorem emitted_emitAll (objRaw : Nat → OdsDemo_objRaw_t) (N : Nat) (is : List Nat)
    (objOut : Nat → OdsDemo_detectedObj) :
    emitted (is.length, emitAll objRaw N objOut 0 is) = is.map (emittedOf objRaw N) := by
  unfold emitted
  apply List.ext_get
  · simp
  · intro k h1 h2
    simp only [List.get_eq_getElem, List.getElem_map, List.getElem_range]
    have hk : k < is.length := by simpa using h2
    have := emitAll_inside objRaw N is objOut 0 k hk
    rw [Nat.zero_add] at this
    rw [this]
    rfl

theorem noGrouping_fold_eq (objRaw : Nat → OdsDemo_objRaw_t) (N maxR minR : Nat)
    (is : List Nat) :
    ∀ st : Nat × (Nat → OdsDemo_detectedObj),
      is.foldl (fun st i =>
          if (objRaw i).rangeIdx ≤ maxR ∧ (objRaw i).rangeIdx ≥ minR then
            (st.1 + 1, emitObj st.2 st.1 (objRaw i).rangeIdx (objRaw i).dopplerIdx N
              (objRaw i).peakVal)
          else st) st
        = (st.1 + (is.filter (fun i =>
              decide ((objRaw i).rangeIdx ≤ maxR ∧ (objRaw i).rangeIdx ≥ minR))).length,
           emitAll objRaw N st.2 st.1 (is.filter (fun i =>
              decide ((objRaw i).rangeIdx ≤ maxR ∧ (objRaw i).rangeIdx ≥ minR)))) := by
  induction is with
  | nil => intro st; rfl
  | cons i is ih =>
    intro st
    rw [List.foldl_cons]
    by_cases hw : (objRaw i).rangeIdx ≤ maxR ∧ (objRaw i).rangeIdx ≥ minR
    · rw [if_pos hw, ih, List.filter_cons_of_pos (by simpa using hw)]
      simp only [List.length_cons, emitAll]
      congr 1
      omega
    · rw [if_neg hw, ih, List.filter_cons_of_neg (by simpa using hw)]

/-- Output of the "no grouping" branch: the in-window candidates among the first
`MIN(numDetectedObjects, MMW_MAX_OBJ_OUT)` candidates, in input order. -/
theorem noGroupingCopy_eq (objOut : Nat → OdsDemo_detectedObj)
    (objRaw : Nat → OdsDemo_objRaw_t) (n N maxR minR M : Nat) :
    noGroupingCopy objOut objRaw n N maxR minR M
      = (((List.range (min n M)).filter (fun i =>
              decide ((objRaw i).rangeIdx ≤ maxR ∧ (objRaw i).rangeIdx ≥ minR))).length,
         emitAll objRaw N objOut 0 ((List.range (min n M)).filter (fun i =>
              decide ((objRaw i).rangeIdx ≤ maxR ∧ (objRaw i).rangeIdx ≥ minR)))) := by
  unfold noGroupingCopy
  rw [noGrouping_fold_eq]
  simp

/-- Output of the main loop of `OdsDemo_cfarPeakGroupingCfarQualified`: the candidates whose
flag is 1, in list order, up to the capacity. -/
theorem cfarQ_loop_eq (objRaw : Nat → OdsDemo_objRaw_t) (cnt N maxR minR M a s e : Nat) :
    ∀ (remaining i n : Nat) (objOut : Nat → OdsDemo_detectedObj), n < M →
      OdsDemo_cfarPeakGroupingCfarQualified.loop objRaw cnt N maxR minR M a s e
          remaining i n objOut
        = (n + (((List.range' i remaining).filter (fun i =>
              decide (OdsDemo_cfarPeakGroupingCfarQualified.check objRaw cnt N maxR minR a s e i
                = 1))).take (M - n)).length,
           emitAll objRaw N objOut n (((List.range' i remaining).filter (fun i =>
              decide (OdsDemo_cfarPeakGroupingCfarQualified.check objRaw cnt N maxR minR a s e i
                = 1))).take (M - n))) := by
  intro remaining
  induction remaining with
  | zero => intro i n objOut _; simp [OdsDemo_cfarPeakGroupingCfarQualified.loop, emitAll]
  | succ r ih =>
    intro i n objOut hn
    rw [OdsDemo_cfarPeakGroupingCfarQualified.loop, List.range'_succ]
    by_cases hf : OdsDemo_cfarPeakGroupingCfarQualified.check objRaw cnt N maxR minR a s e i = 1
    · rw [List.filter_cons_of_pos (by simpa using hf)]
      simp only [hf, if_true]
      obtain ⟨m, hm⟩ : ∃ m, M - n = m + 1 := ⟨M - n - 1, by omega⟩
      rw [hm, List.take_succ_cons]
      by_cases hb : n + 1 ≥ M
      · have hm0 : m = 0 := by omega
        subst hm0
        rw [if_pos hb]
        simp [emitAll]
      · rw [if_neg hb, ih (i + 1) (n + 1) _ (by omega)]
        have e1 : M - (n + 1) = m := by omega
        rw [e1]
        simp only [List.length_cons, emitAll]
        congr 1
        omega
    · rw [List.filter_cons_of_neg (by simpa using hf)]
      simp only [hf, if_false]
      rw [if_neg (by omega), ih (i + 1) n objOut hn]

/-! ### The kernel of the matrix-based policy -/

theorem fillKernel_min (detMatrix : Nat → Nat) (N maxR minR : Nat) (kernel : Nat → Nat)
    (r d t : Nat) (ht : t < 9) (h1 : r = minR) :
    OdsDemo_cfarPeakGrouping.fillKernel detMatrix N maxR minR kernel r d t
      = if t < 3 then 0
        else detMatrix (((((r + (t / 3 - 1)) * N : Nat) : Int) + kernelColumn d (t % 3) N).toNat) := by
  simp only [OdsDemo_cfarPeakGrouping.fillKernel, if_pos h1, List.range', List.foldl_cons,
    List.foldl_nil, List.range_succ, List.range_zero, List.nil_append, List.cons_append]
  interval_cases t <;> simp [Function.update, Nat.add_mul]

theorem fillKernel_max (detMatrix : Nat → Nat) (N maxR minR : Nat) (kernel : Nat → Nat)
    (r d t : Nat) (ht : t < 9) (h1 : r ≠ minR) (h2 : r = maxR) :
    OdsDemo_cfarPeakGrouping.fillKernel detMatrix N maxR minR kernel r d t
      = if 6 ≤ t then 0
        else detMatrix (((((r - 1 + t / 3) * N : Nat) : Int) + kernelColumn d (t % 3) N).toNat) := by
  simp only [OdsDemo_cfarPeakGrouping.fillKernel, if_neg h1, if_pos h2, List.range', List.foldl_cons,
    List.foldl_nil, List.range_succ, List.range_zero, List.nil_append, List.cons_append]
  interval_cases t <;> simp [Function.update, Nat.add_mul]

theorem fillKernel_mid (detMatrix : Nat → Nat) (N maxR minR : Nat) (kernel : Nat → Nat)
    (r d t : Nat) (ht : t < 9) (h1 : r ≠ minR) (h2 : r ≠ maxR) :
    OdsDemo_cfarPeakGrouping.fillKernel detMatrix N maxR minR kernel r d t
      = detMatrix (((((r - 1 + t / 3) * N : Nat) : Int) + kernelColumn d (t % 3) N).toNat) := by
  simp only [OdsDemo_cfarPeakGrouping.fillKernel, if_neg h1, if_neg h2, List.range', List.foldl_cons,
    List.foldl_nil, List.range_succ, List.range_zero, List.nil_append, List.cons_append]
  interval_cases t <;> simp [Function.update, Nat.add_mul] <;> (congr 2; ring)

/-- The first nine entries of the filled kernel do not depend on what the local array held. -/
theorem fillKernel_indep (detMatrix : Nat → Nat) (N maxR minR : Nat) (kernel kernel' : Nat → Nat)
    (r d t : Nat) (ht : t < 9) :
    OdsDemo_cfarPeakGrouping.fillKernel detMatrix N maxR minR kernel r d t
      = OdsDemo_cfarPeakGrouping.fillKernel detMatrix N maxR minR kernel' r d t := by
  by_cases h1 : r = minR
  · rw [fillKernel_min _ _ _ _ _ _ _ _ ht h1, fillKernel_min _ _ _ _ _ _ _ _ ht h1]
  · by_cases h2 : r = maxR
    · rw [fillKernel_max _ _ _ _ _ _ _ _ ht h1 h2, fillKernel_max _ _ _ _ _ _ _ _ ht h1 h2]
    · rw [fillKernel_mid _ _ _ _ _ _ _ _ ht h1 h2, fillKernel_mid _ _ _ _ _ _ _ _ ht h1 h2]

theorem kernelColumn_eq_emod (d k N : Nat) (hd : d < N) (hk : k ≤ 2) :
    kernelColumn d k N = ((d : Int) + ((k : Int) - 1)) % (N : Int) := by
  unfold kernelColumn
  simp only
  split_ifs with h1 h2
  · rw [← Int.add_emod_self]
    exact (Int.emod_eq_of_lt (by omega) (by omega)).symm
  · have e : (d : Int) + ((k : Int) - 1) = ((d : Int) + ((k : Int) - 1) - (N : Int)) + 1 * (N : Int) := by
      ring
    rw [e, Int.add_mul_emod_self, ← e]
    exact (Int.emod_eq_of_lt (by omega) (by omega)).symm
  · exact (Int.emod_eq_of_lt (by omega) (by omega)).symm

theorem kernelColumn_nonneg (d k N : Nat) (hd : d < N) (hk : k ≤ 2) :
    0 ≤ kernelColumn d k N := by
  rw [kernelColumn_eq_emod d k N hd hk]
  exact Int.emod_nonneg _ (by omega)

/-- Under `minRangeIdx < maxRangeIdx`, the kernel entry `3*j + k` of an in-window candidate is
the windowed matrix cell in row `r + j - 1`, Doppler column `d + k - 1` (circular). -/
theorem fillKernel_spec (detMatrix : Nat → Nat) (N maxR minR : Nat) (kernel : Nat → Nat)
    (r d : Nat) (hwin : minR < maxR) (h1 : minR ≤ r) (h2 : r ≤ maxR) (hd : d < N)
    (j k : Nat) (hj : j < 3) (hk : k < 3) :
    OdsDemo_cfarPeakGrouping.fillKernel detMatrix N maxR minR kernel r d (3 * j + k)
      = windowedCell detMatrix N maxR minR ((r : Int) + ((j : Int) - 1))
          ((d : Int) + ((k : Int) - 1)) := by
  have ht : 3 * j + k < 9 := by omega
  have e3 : (3 * j + k) / 3 = j := by omega
  have e4 : (3 * j + k) % 3 = k := by omega
  have hc := kernelColumn_eq_emod d k N hd (by omega)
  have hc0 := kernelColumn_nonneg d k N hd (by omega)
  have key : ∀ R : Nat, (((R * N : Nat) : Int) + kernelColumn d k N).toNat
      = R * N + (((d : Int) + ((k : Int) - 1)) % (N : Int)).toNat := by
    intro R
    rw [← hc]
    omega
  unfold windowedCell
  by_cases c1 : r = minR
  · rw [fillKernel_min _ _ _ _ _ _ _ _ ht c1, e3, e4]
    by_cases hj0 : j = 0
    · subst hj0
      rw [if_pos (by omega), if_neg (by omega)]
    · have eR : r + (j - 1) = ((r : Int) + ((j : Int) - 1)).toNat := by omega
      rw [if_neg (by omega), if_pos (by omega), key, eR]
  · by_cases c2 : r = maxR
    · rw [fillKernel_max _ _ _ _ _ _ _ _ ht c1 c2, e3, e4]
      by_cases hj2 : j = 2
      · subst hj2
        rw [if_pos (by omega), if_neg (by omega)]
      · have eR : r - 1 + j = ((r : Int) + ((j : Int) - 1)).toNat := by omega
        rw [if_neg (by omega), if_pos (by omega), key, eR]
    · have eR : r - 1 + j = ((r : Int) + ((j : Int) - 1)).toNat := by omega
      rw [fillKernel_mid _ _ _ _ _ _ _ _ ht c1 c2, e3, e4, if_pos (by omega), key, eR]

theorem compareLoop_congr (kernel kernel' : Nat → Nat) (s e : Nat) (he : e ≤ 8)
    (h : ∀ t, t < 9 → kernel t = kernel' t) :
    ∀ fuel k flag, compareLoop kernel s e fuel k flag = compareLoop kernel' s e fuel k flag := by
  intro fuel
  induction fuel with
  | zero => intro k flag; rfl
  | succ f ih =>
    intro k flag
    simp only [compareLoop]
    by_cases hk : k ≤ e
    · rw [if_pos hk, if_pos hk, h k (by omega), h 4 (by omega), ih]
    · rw [if_neg hk, if_neg hk]

/-- With step 1 the flag stays 1 exactly when no compared entry exceeds the centre. -/
theorem compareLoop_step_one (kernel : Nat → Nat) (e : Nat) :
    ∀ fuel k flag, e + 1 ≤ k + fuel →
      (compareLoop kernel 1 e fuel k flag = 1 ↔
        flag = 1 ∧ ∀ t, k ≤ t → t ≤ e → kernel t ≤ kernel 4) := by
  intro fuel
  induction fuel with
  | zero =>
    intro k flag h
    simp only [compareLoop]
    exact ⟨fun hf => ⟨hf, fun t h1 h2 => by omega⟩, fun hf => hf.1⟩
  | succ f ih =>
    intro k flag h
    simp only [compareLoop]
    by_cases hk : k ≤ e
    · rw [if_pos hk, ih (k + 1) _ (by omega)]
      constructor
      · rintro ⟨hf, hall⟩
        by_cases hgt : kernel k > kernel 4
        · rw [if_pos hgt] at hf; exact absurd hf (by decide)
        · rw [if_neg hgt] at hf
          refine ⟨hf, fun t h1 h2 => ?_⟩
          by_cases htk : t = k
          · subst htk; omega
          · exact hall t (by omega) h2
      · rintro ⟨hf, hall⟩
        have := hall k le_rfl hk
        rw [if_neg (by omega)]
        exact ⟨hf, fun t h1 h2 => hall t (by omega) h2⟩
    · rw [if_neg hk]
      exact ⟨fun hf => ⟨hf, fun t h1 h2 => by omega⟩, fun hf => hf.1⟩

/-- The flag is 1 for every direction setting when no kernel entry exceeds the centre. -/
theorem compareLoop_of_all_le (kernel : Nat → Nat) (s e : Nat) (he : e ≤ 8)
    (h : ∀ t, t < 9 → kernel t ≤ kernel 4) :
    ∀ fuel k, compareLoop kernel s e fuel k 1 = 1 := by
  intro fuel
  induction fuel with
  | zero => intro k; rfl
  | succ f ih =>
    intro k
    simp only [compareLoop]
    by_cases hk : k ≤ e
    · have := h k (by omega)
      rw [if_pos hk, if_neg (by omega), ih]
    · rw [if_neg hk]

/-- The flag computed for candidate `i` does not depend on the prior content of the kernel. -/
theorem cfarPeakGrouping_check_indep (objRaw : Nat → OdsDemo_objRaw_t) (detMatrix : Nat → Nat)
    (N maxR minR a s e : Nat) (he : e ≤ 8) (kernel kernel' : Nat → Nat) (i : Nat) :
    (OdsDemo_cfarPeakGrouping.check objRaw detMatrix N maxR minR a s e kernel i).2
      = (OdsDemo_cfarPeakGrouping.check objRaw detMatrix N maxR minR a s e kernel' i).2 := by
  unfold OdsDemo_cfarPeakGrouping.check
  simp only
  split_ifs
  · exact compareLoop_congr _ _ s e he (fun t ht => fillKernel_indep _ _ _ _ _ _ _ _ _ ht) _ _ _
  · rfl

/-- Output of the main loop of `OdsDemo_cfarPeakGrouping`: the candidates whose flag is 1, in
list order, up to the capacity. -/
theorem cfarPeakGrouping_loop_eq (objRaw : Nat → OdsDemo_objRaw_t) (detMatrix : Nat → Nat)
    (N maxR minR M a s e : Nat) (he : e ≤ 8) :
    ∀ (remaining i n : Nat) (objOut : Nat → OdsDemo_detectedObj) (kernel : Nat → Nat), n < M →
      OdsDemo_cfarPeakGrouping.loop objRaw detMatrix N maxR minR M a s e
          remaining i n objOut kernel
        = (n + (((List.range' i remaining).filter (fun i =>
              decide ((OdsDemo_cfarPeakGrouping.check objRaw detMatrix N maxR minR a s e
                (fun _ => 0) i).2 = 1))).take (M - n)).length,
           emitAll objRaw N objOut n (((List.range' i remaining).filter (fun i =>
              decide ((OdsDemo_cfarPeakGrouping.check objRaw detMatrix N maxR minR a s e
                (fun _ => 0) i).2 = 1))).take (M - n))) := by
  intro remaining
  induction remaining with
  | zero => intro i n objOut _ _; simp [OdsDemo_cfarPeakGrouping.loop, emitAll]
  | succ r ih =>
    intro i n objOut kernel hn
    rw [OdsDemo_cfarPeakGrouping.loop, List.range'_succ]
    have hind := cfarPeakGrouping_check_indep objRaw detMatrix N maxR minR a s e he kernel
      (fun _ => 0) i
    by_cases hf : (OdsDemo_cfarPeakGrouping.check objRaw detMatrix N maxR minR a s e
        (fun _ => 0) i).2 = 1
    · rw [List.filter_cons_of_pos (by simpa using hf)]
      simp only [hind, hf, if_true]
      obtain ⟨m, hm⟩ : ∃ m, M - n = m + 1 := ⟨M - n - 1, by omega⟩
      rw [hm, List.take_succ_cons]
      by_cases hb : n + 1 ≥ M
      · have hm0 : m = 0 := by omega
        subst hm0
        rw [if_pos hb]
        simp [emitAll]
      · rw [if_neg hb, ih (i + 1) (n + 1) _ _ (by omega)]
        have e1 : M - (n + 1) = m := by omega
        rw [e1]
        simp only [List.length_cons, emitAll]
        congr 1
        omega
    · rw [List.filter_cons_of_neg (by simpa using hf)]
      simp only [hind, hf, if_false]
      rw [if_neg (by omega), ih (i + 1) n objOut _ hn]

/-! ### C2 -/

theorem windowedCell_centre (detMatrix : Nat → Nat) (N maxR minR r d : Nat)
    (h1 : minR ≤ r) (h2 : r ≤ maxR) (hd : d < N) :
    windowedCell detMatrix N maxR minR (r : Int) (d : Int) = detMatrix (r * N + d) := by
  unfold windowedCell
  rw [if_pos (by omega), Int.emod_eq_of_lt (by omega) (by omega)]
  simp

/-- With both directions enabled and `minRangeIdx < maxRangeIdx`, the flag of candidate `i` is
1 exactly when the candidate satisfies the stated local-peak condition. -/
theorem cfarPeakGrouping_check_both_iff (objRaw : Nat → OdsDemo_objRaw_t)
    (detMatrix : Nat → Nat) (N maxR minR : Nat) (kernel : Nat → Nat) (i : Nat)
    (hwin : minR < maxR) (hd : (objRaw i).dopplerIdx < N) :
    (OdsDemo_cfarPeakGrouping.check objRaw detMatrix N maxR minR 0 1 8 kernel i).2 = 1 ↔
      isLocalPeak detMatrix N maxR minR (objRaw i).rangeIdx (objRaw i).dopplerIdx := by
  unfold OdsDemo_cfarPeakGrouping.check isLocalPeak
  simp only
  by_cases hw : (objRaw i).rangeIdx ≤ maxR ∧ (objRaw i).rangeIdx ≥ minR
  · rw [if_pos hw]
    simp only
    rw [compareLoop_step_one _ 8 9 0 1 (by omega)]
    have hK : ∀ j k : Nat, j < 3 → k < 3 →
        OdsDemo_cfarPeakGrouping.fillKernel detMatrix N maxR minR kernel (objRaw i).rangeIdx
          (objRaw i).dopplerIdx (3 * j + k)
        = windowedCell detMatrix N maxR minR (((objRaw i).rangeIdx : Int) + ((j : Int) - 1))
          (((objRaw i).dopplerIdx : Int) + ((k : Int) - 1)) :=
      fun j k hj hk => fillKernel_spec detMatrix N maxR minR kernel _ _ hwin hw.2 hw.1 hd j k hj hk
    have hK4 : OdsDemo_cfarPeakGrouping.fillKernel detMatrix N maxR minR kernel
        (objRaw i).rangeIdx (objRaw i).dopplerIdx 4
        = detMatrix ((objRaw i).rangeIdx * N + (objRaw i).dopplerIdx) := by
      have := hK 1 1 (by omega) (by omega)
      simp only [Nat.cast_one, sub_self, add_zero] at this
      rw [show 3 * 1 + 1 = 4 from rfl] at this
      rw [this, windowedCell_centre _ _ _ _ _ _ hw.2 hw.1 hd]
    rw [hK4]
    constructor
    · rintro ⟨_, hall⟩
      refine ⟨hw.2, hw.1, ?_⟩
      intro dr hdr dd hdd hne
      have hmem : ∀ x : Int, x ∈ ([-1, 0, 1] : List Int) → ∃ j : Nat, j < 3 ∧ x = (j : Int) - 1 := by
        intro x hx
        simp only [List.mem_cons, List.mem_singleton, List.not_mem_nil, or_false] at hx
        rcases hx with rfl | rfl | rfl
        · exact ⟨0, by omega, by simp⟩
        · exact ⟨1, by omega, by simp⟩
        · exact ⟨2, by omega, by norm_num⟩
      obtain ⟨j, hj, rfl⟩ := hmem dr hdr
      obtain ⟨k, hk, rfl⟩ := hmem dd hdd
      have := hall (3 * j + k) (by omega) (by omega)
      rw [hK j k hj hk] at this
      exact this
    · rintro ⟨_, _, hnb⟩
      refine ⟨rfl, fun t _ ht => ?_⟩
      have e : t = 3 * (t / 3) + t % 3 := by omega
      by_cases hc : t = 4
      · subst hc; rw [hK4]
      · rw [e, hK (t / 3) (t % 3) (by omega) (by omega)]
        apply hnb
        · have : t / 3 = 0 ∨ t / 3 = 1 ∨ t / 3 = 2 := by omega
          rcases this with h | h | h <;> rw [h] <;> simp
        · have : t % 3 = 0 ∨ t % 3 = 1 ∨ t % 3 = 2 := by omega
          rcases this with h | h | h <;> rw [h] <;> simp
        · intro hz
          simp only [Prod.mk.injEq] at hz
          omega
  · rw [if_neg hw]
    constructor
    · intro h
      have h' : (0 : Nat) = 1 := h
      omega
    · rintro ⟨h1, h2, _⟩; exact absurd ⟨h2, h1⟩ hw

/-- C2: `OdsDemo_cfarPeakGrouping` with both grouping directions enabled and
`minRangeIdx < maxRangeIdx` (all candidate Doppler bins below `numDopplerBins`, capacity at
least 1): the emitted objects are, in list order, the candidates that lie in the range window
and whose matrix cell is greater than or equal to each of its 8 neighbours (Doppler circular,
rows outside the window counting as 0), up to the first `MMW_MAX_OBJ_OUT` of them. Hence a
candidate examined before the capacity is reached is emitted if and only if it satisfies this
condition; ties are kept. -/
theorem C2_cfarPeakGrouping_both_directions (objOut : Nat → OdsDemo_detectedObj)
    (objRaw : Nat → OdsDemo_objRaw_t) (numDetectedObjects : Nat) (detMatrix : Nat → Nat)
    (numDopplerBins maxRangeIdx minRangeIdx MMW_MAX_OBJ_OUT : Nat) (kernel : Nat → Nat)
    (hcap : 0 < MMW_MAX_OBJ_OUT) (hwin : minRangeIdx < maxRangeIdx)
    (hd : ∀ i, i < numDetectedObjects → (objRaw i).dopplerIdx < numDopplerBins) :
    emitted (OdsDemo_cfarPeakGrouping objOut objRaw numDetectedObjects detMatrix numDopplerBins
        maxRangeIdx minRangeIdx 1 1 MMW_MAX_OBJ_OUT kernel)
      = (((List.range numDetectedObjects).filter (fun i =>
            decide (isLocalPeak detMatrix numDopplerBins maxRangeIdx minRangeIdx
              (objRaw i).rangeIdx (objRaw i).dopplerIdx))).take MMW_MAX_OBJ_OUT).map
          (emittedOf objRaw numDopplerBins) := by
  unfold OdsDemo_cfarPeakGrouping
  rw [if_pos ⟨rfl, rfl⟩, cfarPeakGrouping_loop_eq _ _ _ _ _ _ 0 1 8 (by omega) _ _ _ _ _ hcap]
  have hf : (List.range' 0 numDetectedObjects).filter (fun i =>
        decide ((OdsDemo_cfarPeakGrouping.check objRaw detMatrix numDopplerBins maxRangeIdx
          minRangeIdx 0 1 8 (fun _ => 0) i).2 = 1))
      = (List.range numDetectedObjects).filter (fun i =>
        decide (isLocalPeak detMatrix numDopplerBins maxRangeIdx minRangeIdx
          (objRaw i).rangeIdx (objRaw i).dopplerIdx)) := by
    rw [List.range_eq_range']
    apply List.filter_congr
    intro i hi
    have hi' : i < numDetectedObjects := by
      have := List.mem_range'.1 hi
      omega
    exact decide_eq_decide.2
      (cfarPeakGrouping_check_both_iff objRaw detMatrix _ _ _ _ i hwin (hd i hi'))
  rw [hf, Nat.sub_zero, Nat.zero_add]
  exact emitted_emitAll _ _ _ _

/-! ### C5 -/

theorem loop_result_bound (objRaw : Nat → OdsDemo_objRaw_t) (N M : Nat) (is : List Nat)
    (objOut : Nat → OdsDemo_detectedObj) :
    (0 + (is.take (M - 0)).length ≤ M) ∧
    ∀ j, 0 + (is.take (M - 0)).length ≤ j →
      emitAll objRaw N objOut 0 (is.take (M - 0)) j = objOut j := by
  refine ⟨?_, fun j hj => emitAll_outside _ _ _ _ _ _ (Or.inr hj)⟩
  rw [List.length_take]
  have := Nat.min_le_left (M - 0) is.length
  omega

/-- C5: for every candidate list, detection matrix, range window and grouping flags (capacity
at least 1), both peak-grouping policies return `numObjOut ≤ MMW_MAX_OBJ_OUT` and leave every
output slot from `numObjOut` on as it was: only `objOut[0 .. numObjOut-1]` is written. -/
theorem C5_peak_grouping_output_bounded (objOut : Nat → OdsDemo_detectedObj)
    (objRaw : Nat → OdsDemo_objRaw_t) (numDetectedObjects : Nat) (detMatrix : Nat → Nat)
    (numDopplerBins maxRangeIdx minRangeIdx groupInDopplerDirection groupInRangeDirection : Nat)
    (MMW_MAX_OBJ_OUT : Nat) (kernel : Nat → Nat) (hcap : 0 < MMW_MAX_OBJ_OUT) :
    ((OdsDemo_cfarPeakGrouping objOut objRaw numDetectedObjects detMatrix numDopplerBins
        maxRangeIdx minRangeIdx groupInDopplerDirection groupInRangeDirection
        MMW_MAX_OBJ_OUT kernel).1 ≤ MMW_MAX_OBJ_OUT ∧
      ∀ j, (OdsDemo_cfarPeakGrouping objOut objRaw numDetectedObjects detMatrix numDopplerBins
          maxRangeIdx minRangeIdx groupInDopplerDirection groupInRangeDirection
          MMW_MAX_OBJ_OUT kernel).1 ≤ j →
        (OdsDemo_cfarPeakGrouping objOut objRaw numDetectedObjects detMatrix numDopplerBins
          maxRangeIdx minRangeIdx groupInDopplerDirection groupInRangeDirection
          MMW_MAX_OBJ_OUT kernel).2 j = objOut j) ∧
    ((OdsDemo_cfarPeakGroupingCfarQualified objOut objRaw numDetectedObjects numDopplerBins
        maxRangeIdx minRangeIdx groupInDopplerDirection groupInRangeDirection
        MMW_MAX_OBJ_OUT).1 ≤ MMW_MAX_OBJ_OUT ∧
      ∀ j, (OdsDemo_cfarPeakGroupingCfarQualified objOut objRaw numDetectedObjects
          numDopplerBins maxRangeIdx minRangeIdx groupInDopplerDirection groupInRangeDirection
          MMW_MAX_OBJ_OUT).1 ≤ j →
        (OdsDemo_cfarPeakGroupingCfarQualified objOut objRaw numDetectedObjects numDopplerBins
          maxRangeIdx minRangeIdx groupInDopplerDirection groupInRangeDirection
          MMW_MAX_OBJ_OUT).2 j = objOut j) := by
  have hng : (noGroupingCopy objOut objRaw numDetectedObjects numDopplerBins maxRangeIdx
        minRangeIdx MMW_MAX_OBJ_OUT).1 ≤ MMW_MAX_OBJ_OUT ∧
      ∀ j, (noGroupingCopy objOut objRaw numDetectedObjects numDopplerBins maxRangeIdx
          minRangeIdx MMW_MAX_OBJ_OUT).1 ≤ j →
        (noGroupingCopy objOut objRaw numDetectedObjects numDopplerBins maxRangeIdx
          minRangeIdx MMW_MAX_OBJ_OUT).2 j = objOut j := by
    rw [noGroupingCopy_eq]
    refine ⟨?_, fun j hj => emitAll_outside _ _ _ _ _ _ (Or.inr (by simpa using hj))⟩
    have h1 := List.length_filter_le (fun i =>
      decide ((objRaw i).rangeIdx ≤ maxRangeIdx ∧ (objRaw i).rangeIdx ≥ minRangeIdx))
      (List.range (min numDetectedObjects MMW_MAX_OBJ_OUT))
    rw [List.length_range] at h1
    have := Nat.min_le_right numDetectedObjects MMW_MAX_OBJ_OUT
    exact le_trans h1 this
  constructor
  · unfold OdsDemo_cfarPeakGrouping
    split_ifs
    · rw [cfarPeakGrouping_loop_eq _ _ _ _ _ _ 0 1 8 (by omega) _ _ _ _ _ hcap]
      exact loop_result_bound _ _ _ _ _
    · rw [cfarPeakGrouping_loop_eq _ _ _ _ _ _ 1 3 7 (by omega) _ _ _ _ _ hcap]
      exact loop_result_bound _ _ _ _ _
    · rw [cfarPeakGrouping_loop_eq _ _ _ _ _ _ 3 1 5 (by omega) _ _ _ _ _ hcap]
      exact loop_result_bound _ _ _ _ _
    · exact hng
  · unfold OdsDemo_cfarPeakGroupingCfarQualified
    split_ifs
    · rw [cfarQ_loop_eq _ _ _ _ _ _ 0 1 8 _ _ _ _ hcap]
      exact loop_result_bound _ _ _ _ _
    · rw [cfarQ_loop_eq _ _ _ _ _ _ 1 3 7 _ _ _ _ hcap]
      exact loop_result_bound _ _ _ _ _
    · rw [cfarQ_loop_eq _ _ _ _ _ _ 3 1 5 _ _ _ _ hcap]
      exact loop_result_bound _ _ _ _ _
    · exact hng

/-! ### The column scans of the list-based policy -/

theorem scanLeft_step_kernel (objRaw : Nat → OdsDemo_objRaw_t) (N r d m : Nat)
    (kernel : Nat → Nat) :
    (if (objRaw m).rangeIdx = addU32 r 1 ∧
          (objRaw m).dopplerIdx = WRAP_DOPPLER_IDX N (subU32 d 1)
      then Function.update kernel 6 (objRaw m).peakVal
      else if (objRaw m).rangeIdx = r ∧
          (objRaw m).dopplerIdx = WRAP_DOPPLER_IDX N (subU32 d 1)
      then Function.update kernel 3 (objRaw m).peakVal
      else if (objRaw m).rangeIdx = subU32 r 1 ∧
          (objRaw m).dopplerIdx = WRAP_DOPPLER_IDX N (subU32 d 1)
      then Function.update kernel 0 (objRaw m).peakVal
      else kernel)
      = fun t => if hitLeft objRaw N r d m t then (objRaw m).peakVal else kernel t := by
  funext t
  unfold hitLeft
  by_cases c6 : (objRaw m).rangeIdx = addU32 r 1 ∧
      (objRaw m).dopplerIdx = WRAP_DOPPLER_IDX N (subU32 d 1)
  · rw [if_pos c6]
    by_cases ht : t = 6
    · subst ht; simp [c6.1, c6.2]
    · simp [Function.update_noteq ht, c6.1, c6.2, ht]
  · rw [if_neg c6]
    by_cases c3 : (objRaw m).rangeIdx = r ∧
        (objRaw m).dopplerIdx = WRAP_DOPPLER_IDX N (subU32 d 1)
    · rw [if_pos c3]
      have hne : (objRaw m).rangeIdx ≠ addU32 r 1 := fun h => c6 ⟨h, c3.2⟩
      have hne' : ¬ r = addU32 r 1 := fun h => hne (c3.1.trans h)
      by_cases ht : t = 3
      · subst ht; simp [c3.1, c3.2, hne']
      · simp [Function.update_noteq ht, c3.1, c3.2, ht, hne']
    · rw [if_neg c3]
      by_cases c0 : (objRaw m).rangeIdx = subU32 r 1 ∧
          (objRaw m).dopplerIdx = WRAP_DOPPLER_IDX N (subU32 d 1)
      · rw [if_pos c0]
        have hne : (objRaw m).rangeIdx ≠ addU32 r 1 := fun h => c6 ⟨h, c0.2⟩
        have hne3 : (objRaw m).rangeIdx ≠ r := fun h => c3 ⟨h, c0.2⟩
        have hne' : ¬ subU32 r 1 = addU32 r 1 := fun h => hne (c0.1.trans h)
        have hne3' : ¬ subU32 r 1 = r := fun h => hne3 (c0.1.trans h)
        by_cases ht : t = 0
        · subst ht; simp [c0.1, c0.2, hne', hne3']
        · simp [Function.update_noteq ht, c0.1, c0.2, ht, hne', hne3']
      · rw [if_neg c0]
        have : ¬ ((objRaw m).dopplerIdx = WRAP_DOPPLER_IDX N (subU32 d 1) ∧
            (((objRaw m).rangeIdx = addU32 r 1 ∧ t = 6) ∨
             ((objRaw m).rangeIdx ≠ addU32 r 1 ∧ (objRaw m).rangeIdx = r ∧ t = 3) ∨
             ((objRaw m).rangeIdx ≠ addU32 r 1 ∧ (objRaw m).rangeIdx ≠ r ∧
                (objRaw m).rangeIdx = subU32 r 1 ∧ t = 0))) := by
          rintro ⟨hd, h | h | h⟩
          · exact c6 ⟨h.1, hd⟩
          · exact c3 ⟨h.2.1, hd⟩
          · exact c0 ⟨h.2.2.1, hd⟩
        simp [this]

theorem scanLeft_eq_scanGen (objRaw : Nat → OdsDemo_objRaw_t) (n N r d : Nat) :
    ∀ rem k kernel,
      OdsDemo_cfarPeakGroupingCfarQualified.scanLeft objRaw n N r d rem k kernel
        = scanGen objRaw (fun k => WRAP_UP_LIST_IDX n (k - 1))
            (fun m => decide ((objRaw m).dopplerIdx = WRAP_DOPPLER_IDX N (subU32 d 2)))
            (hitLeft objRaw N r d) rem k kernel := by
  intro rem
  induction rem with
  | zero => intro k kernel; rfl
  | succ rem ih =>
    intro k kernel
    simp only [OdsDemo_cfarPeakGroupingCfarQualified.scanLeft, scanGen, decide_eq_true_eq]
    by_cases hs : (objRaw k.toNat).dopplerIdx = WRAP_DOPPLER_IDX N (subU32 d 2)
    · rw [if_pos hs, if_pos hs]
    · rw [if_neg hs, if_neg hs, ih, scanLeft_step_kernel]

theorem scanRight_step_kernel (objRaw : Nat → OdsDemo_objRaw_t) (N r d m : Nat)
    (kernel : Nat → Nat) :
    (if (objRaw m).rangeIdx = subU32 r 1 ∧
          (objRaw m).dopplerIdx = WRAP_DOPPLER_IDX N (addU32 d 1)
      then Function.update kernel 2 (objRaw m).peakVal
      else if (objRaw m).rangeIdx = r ∧
          (objRaw m).dopplerIdx = WRAP_DOPPLER_IDX N (addU32 d 1)
      then Function.update kernel 5 (objRaw m).peakVal
      else if (objRaw m).rangeIdx = addU32 r 1 ∧
          (objRaw m).dopplerIdx = WRAP_DOPPLER_IDX N (addU32 d 1)
      then Function.update kernel 8 (objRaw m).peakVal
      else kernel)
      = fun t => if hitRight objRaw N r d m t then (objRaw m).peakVal else kernel t := by
  funext t
  unfold hitRight
  by_cases c6 : (objRaw m).rangeIdx = subU32 r 1 ∧
      (objRaw m).dopplerIdx = WRAP_DOPPLER_IDX N (addU32 d 1)
  · rw [if_pos c6]
    by_cases ht : t = 2
    · subst ht; simp [c6.1, c6.2]
    · simp [Function.update_noteq ht, c6.1, c6.2, ht]
  · rw [if_neg c6]
    by_cases c3 : (objRaw m).rangeIdx = r ∧
        (objRaw m).dopplerIdx = WRAP_DOPPLER_IDX N (addU32 d 1)
    · rw [if_pos c3]
      have hne : (objRaw m).rangeIdx ≠ subU32 r 1 := fun h => c6 ⟨h, c3.2⟩
      have hne' : ¬ r = subU32 r 1 := fun h => hne (c3.1.trans h)
      by_cases ht : t = 5
      · subst ht; simp [c3.1, c3.2, hne']
      · simp [Function.update_noteq ht, c3.1, c3.2, ht, hne']
    · rw [if_neg c3]
      by_cases c0 : (objRaw m).rangeIdx = addU32 r 1 ∧
          (objRaw m).dopplerIdx = WRAP_DOPPLER_IDX N (addU32 d 1)
      · rw [if_pos c0]
        have hne : (objRaw m).rangeIdx ≠ subU32 r 1 := fun h => c6 ⟨h, c0.2⟩
        have hne3 : (objRaw m).rangeIdx ≠ r := fun h => c3 ⟨h, c0.2⟩
        have hne' : ¬ addU32 r 1 = subU32 r 1 := fun h => hne (c0.1.trans h)
        have hne3' : ¬ addU32 r 1 = r := fun h => hne3 (c0.1.trans h)
        by_cases ht : t = 8
        · subst ht; simp [c0.1, c0.2, hne', hne3']
        · simp [Function.update_noteq ht, c0.1, c0.2, ht, hne', hne3']
      · rw [if_neg c0]
        have : ¬ ((objRaw m).dopplerIdx = WRAP_DOPPLER_IDX N (addU32 d 1) ∧
            (((objRaw m).rangeIdx = subU32 r 1 ∧ t = 2) ∨
             ((objRaw m).rangeIdx ≠ subU32 r 1 ∧ (objRaw m).rangeIdx = r ∧ t = 5) ∨
             ((objRaw m).rangeIdx ≠ subU32 r 1 ∧ (objRaw m).rangeIdx ≠ r ∧
                (objRaw m).rangeIdx = addU32 r 1 ∧ t = 8))) := by
          rintro ⟨hd, h | h | h⟩
          · exact c6 ⟨h.1, hd⟩
          · exact c3 ⟨h.2.1, hd⟩
          · exact c0 ⟨h.2.2.1, hd⟩
        simp [this]

theorem scanRight_eq_scanGen (objRaw : Nat → OdsDemo_objRaw_t) (n N r d : Nat) :
    ∀ rem k kernel,
      OdsDemo_cfarPeakGroupingCfarQualified.scanRight objRaw n N r d rem k kernel
        = scanGen objRaw (fun k => WRAP_DWN_LIST_IDX n (k + 1))
            (fun m => decide ((objRaw m).dopplerIdx = WRAP_DOPPLER_IDX N (addU32 d 2)))
            (hitRight objRaw N r d) rem k kernel := by
  intro rem
  induction rem with
  | zero => intro k kernel; rfl
  | succ rem ih =>
    intro k kernel
    simp only [OdsDemo_cfarPeakGroupingCfarQualified.scanRight, scanGen, decide_eq_true_eq]
    by_cases hs : (objRaw k.toNat).dopplerIdx = WRAP_DOPPLER_IDX N (addU32 d 2)
    · rw [if_pos hs, if_pos hs]
    · rw [if_neg hs, if_neg hs, ih, scanRight_step_kernel]

/-- A kernel slot after a scan holds its old value or the `peakVal` of a visited entry that
is written to that slot. -/
theorem scanGen_origin (objRaw : Nat → OdsDemo_objRaw_t) (next : Int → Int) (stop : Nat → Bool)
    (hit : Nat → Nat → Bool) (t : Nat) :
    ∀ rem k kernel,
      scanGen objRaw next stop hit rem k kernel t = kernel t ∨
      ∃ l, l < rem ∧ hit (scanPos next l k).toNat t = true ∧
        scanGen objRaw next stop hit rem k kernel t = (objRaw (scanPos next l k).toNat).peakVal := by
  intro rem
  induction rem with
  | zero => intro k kernel; exact Or.inl rfl
  | succ rem ih =>
    intro k kernel
    simp only [scanGen]
    split_ifs with hs
    · exact Or.inl rfl
    · rcases ih (next k) (fun t => if hit k.toNat t then (objRaw k.toNat).peakVal else kernel t)
        with h | ⟨l, hl, hh, he⟩
      · rw [h]
        by_cases hh : hit k.toNat t = true
        · exact Or.inr ⟨0, by omega, hh, by simp [hh, scanPos]⟩
        · exact Or.inl (by simp [hh])
      · exact Or.inr ⟨l + 1, by omega, hh, he⟩

/-- When the scan reaches, without stopping, an entry that is written to slot `t`, the slot
ends with the `peakVal` of an entry written to it. -/
theorem scanGen_hit (objRaw : Nat → OdsDemo_objRaw_t) (next : Int → Int) (stop : Nat → Bool)
    (hit : Nat → Nat → Bool) (t : Nat) :
    ∀ rem k kernel steps, steps < rem →
      (∀ l, l ≤ steps → stop (scanPos next l k).toNat = false) →
      hit (scanPos next steps k).toNat t = true →
      ∃ l, l < rem ∧ hit (scanPos next l k).toNat t = true ∧
        scanGen objRaw next stop hit rem k kernel t = (objRaw (scanPos next l k).toNat).peakVal := by
  intro rem
  induction rem with
  | zero => intro k kernel steps h; omega
  | succ rem ih =>
    intro k kernel steps hsteps hns hh
    have h0 := hns 0 (by omega)
    simp only [scanPos] at h0
    simp only [scanGen, h0, Bool.false_eq_true, if_false]
    cases steps with
    | zero =>
      simp only [scanPos] at hh
      rcases scanGen_origin objRaw next stop hit t rem (next k)
          (fun t => if hit k.toNat t then (objRaw k.toNat).peakVal else kernel t)
        with h | ⟨l, hl, hh', he⟩
      · exact ⟨0, by omega, hh, by rw [h]; simp [hh, scanPos]⟩
      · exact ⟨l + 1, by omega, hh', he⟩
    | succ s =>
      obtain ⟨l, hl, hh', he⟩ := ih (next k)
        (fun t => if hit k.toNat t then (objRaw k.toNat).peakVal else kernel t) s (by omega)
        (fun l hl => hns (l + 1) (by omega)) hh
      exact ⟨l + 1, by omega, hh', he⟩

theorem scanGen_frame (objRaw : Nat → OdsDemo_objRaw_t) (next : Int → Int) (stop : Nat → Bool)
    (hit : Nat → Nat → Bool) (t : Nat) (hno : ∀ m, hit m t = false) (rem : Nat) (k : Int)
    (kernel : Nat → Nat) :
    scanGen objRaw next stop hit rem k kernel t = kernel t := by
  rcases scanGen_origin objRaw next stop hit t rem k kernel with h | ⟨l, _, hh, _⟩
  · exact h
  · rw [hno] at hh; exact absurd hh (by decide)

theorem hitLeft_slot (objRaw : Nat → OdsDemo_objRaw_t) (N r d m t : Nat)
    (h : hitLeft objRaw N r d m t = true) : t = 6 ∨ t = 3 ∨ t = 0 := by
  unfold hitLeft at h
  simp only [decide_eq_true_eq] at h
  rcases h.2 with h | h | h
  · exact Or.inl h.2
  · exact Or.inr (Or.inl h.2.2)
  · exact Or.inr (Or.inr h.2.2.2)

theorem hitRight_slot (objRaw : Nat → OdsDemo_objRaw_t) (N r d m t : Nat)
    (h : hitRight objRaw N r d m t = true) : t = 2 ∨ t = 5 ∨ t = 8 := by
  unfold hitRight at h
  simp only [decide_eq_true_eq] at h
  rcases h.2 with h | h | h
  · exact Or.inl h.2
  · exact Or.inr (Or.inl h.2.2)
  · exact Or.inr (Or.inr h.2.2.2)

theorem hitLeft_false_of_slot (objRaw : Nat → OdsDemo_objRaw_t) (N r d t : Nat)
    (ht : t ≠ 6 ∧ t ≠ 3 ∧ t ≠ 0) (m : Nat) : hitLeft objRaw N r d m t = false := by
  cases h : hitLeft objRaw N r d m t with
  | false => rfl
  | true => have := hitLeft_slot _ _ _ _ _ _ h; omega

theorem hitRight_false_of_slot (objRaw : Nat → OdsDemo_objRaw_t) (N r d t : Nat)
    (ht : t ≠ 2 ∧ t ≠ 5 ∧ t ≠ 8) (m : Nat) : hitRight objRaw N r d m t = false := by
  cases h : hitRight objRaw N r d m t with
  | false => rfl
  | true => have := hitRight_slot _ _ _ _ _ _ h; omega

/-- The kernel of the list-based policy as two generic scans over the middle column. -/
theorem buildKernel_eq (objRaw : Nat → OdsDemo_objRaw_t) (n N i : Nat) :
    OdsDemo_cfarPeakGroupingCfarQualified.buildKernel objRaw n N i
      = scanGen objRaw (fun k => WRAP_DWN_LIST_IDX n (k + 1))
          (fun m => decide ((objRaw m).dopplerIdx
            = WRAP_DOPPLER_IDX N (addU32 (objRaw i).dopplerIdx 2)))
          (hitRight objRaw N (objRaw i).rangeIdx (objRaw i).dopplerIdx) n
          (WRAP_DWN_LIST_IDX n ((i : Int) + 1))
          (scanGen objRaw (fun k => WRAP_UP_LIST_IDX n (k - 1))
            (fun m => decide ((objRaw m).dopplerIdx
              = WRAP_DOPPLER_IDX N (subU32 (objRaw i).dopplerIdx 2)))
            (hitLeft objRaw N (objRaw i).rangeIdx (objRaw i).dopplerIdx) n
            (WRAP_UP_LIST_IDX n ((i : Int) - 1))
            (OdsDemo_cfarPeakGroupingCfarQualified.middleColumn objRaw n i)) := by
  unfold OdsDemo_cfarPeakGroupingCfarQualified.buildKernel
  simp only [scanLeft_eq_scanGen, scanRight_eq_scanGen]

theorem middleColumn_centre (objRaw : Nat → OdsDemo_objRaw_t) (n i : Nat) :
    OdsDemo_cfarPeakGroupingCfarQualified.middleColumn objRaw n i 4 = (objRaw i).peakVal := by
  unfold OdsDemo_cfarPeakGroupingCfarQualified.middleColumn
  split_ifs <;> simp [Function.update]

theorem middleColumn_side (objRaw : Nat → OdsDemo_objRaw_t) (n i t : Nat)
    (ht : t ≠ 4 ∧ t ≠ 1 ∧ t ≠ 7) :
    OdsDemo_cfarPeakGroupingCfarQualified.middleColumn objRaw n i t = 0 := by
  unfold OdsDemo_cfarPeakGroupingCfarQualified.middleColumn
  split_ifs <;> simp [Function.update, ht.1, ht.2.1, ht.2.2]

/-- The centre of the kernel of the list-based policy is the candidate's own `peakVal`. -/
theorem buildKernel_centre (objRaw : Nat → OdsDemo_objRaw_t) (n N i : Nat) :
    OdsDemo_cfarPeakGroupingCfarQualified.buildKernel objRaw n N i 4 = (objRaw i).peakVal := by
  rw [buildKernel_eq,
    scanGen_frame _ _ _ _ 4 (hitRight_false_of_slot _ _ _ _ 4 (by omega)),
    scanGen_frame _ _ _ _ 4 (hitLeft_false_of_slot _ _ _ _ 4 (by omega)),
    middleColumn_centre]

/-! ### C6 -/

theorem cfarQ_single_kernel (objRaw : Nat → OdsDemo_objRaw_t) (N : Nat) (t : Nat) :
    OdsDemo_cfarPeakGroupingCfarQualified.buildKernel objRaw 1 N 0 t
      ≤ OdsDemo_cfarPeakGroupingCfarQualified.buildKernel objRaw 1 N 0 4 := by
  rw [buildKernel_centre, buildKernel_eq]
  have hpos : ∀ (next : Int → Int) (k : Int) (l : Nat), l < 1 → scanPos next l k = k := by
    intro next k l hl
    have : l = 0 := by omega
    subst this; rfl
  have hk0 : (WRAP_UP_LIST_IDX 1 (((0 : Nat) : Int) - 1)).toNat = 0 := by
    simp [WRAP_UP_LIST_IDX]
  have hk1 : (WRAP_DWN_LIST_IDX 1 (((0 : Nat) : Int) + 1)).toNat = 0 := by
    simp [WRAP_DWN_LIST_IDX]
  have hbase : ∀ t, OdsDemo_cfarPeakGroupingCfarQualified.middleColumn objRaw 1 0 t
      ≤ (objRaw 0).peakVal := by
    intro t
    unfold OdsDemo_cfarPeakGroupingCfarQualified.middleColumn
    simp only [Nat.sub_self, lt_irrefl, gt_iff_lt, if_false]
    by_cases ht : t = 4
    · subst ht; simp
    · simp [Function.update_noteq ht]
  rcases scanGen_origin objRaw _ _ _ t 1 _ _ with h | ⟨l, hl, _, he⟩
  · rw [h]
    rcases scanGen_origin objRaw _ _ _ t 1 _ _ with h' | ⟨l, hl, _, he⟩
    · rw [h']; exact hbase t
    · rw [he, hpos _ _ l hl, hk0]
  · rw [he, hpos _ _ l hl, hk1]

theorem cfarPeakGrouping_loop_single (objRaw : Nat → OdsDemo_objRaw_t) (detMatrix : Nat → Nat)
    (N maxR minR M a s e : Nat) (objOut : Nat → OdsDemo_detectedObj) (kernel : Nat → Nat)
    (hf : (OdsDemo_cfarPeakGrouping.check objRaw detMatrix N maxR minR a s e kernel 0).2 = 1) :
    OdsDemo_cfarPeakGrouping.loop objRaw detMatrix N maxR minR M a s e 1 0 0 objOut kernel
      = (1, emitObj objOut 0 (objRaw 0).rangeIdx (objRaw 0).dopplerIdx N (objRaw 0).peakVal) := by
  show OdsDemo_cfarPeakGrouping.loop objRaw detMatrix N maxR minR M a s e (0 + 1) 0 0 objOut kernel
    = _
  simp only [OdsDemo_cfarPeakGrouping.loop, hf, if_true]
  split_ifs <;> rfl

theorem cfarQ_loop_single (objRaw : Nat → OdsDemo_objRaw_t) (cnt N maxR minR M a s e : Nat)
    (objOut : Nat → OdsDemo_detectedObj)
    (hf : OdsDemo_cfarPeakGroupingCfarQualified.check objRaw cnt N maxR minR a s e 0 = 1) :
    OdsDemo_cfarPeakGroupingCfarQualified.loop objRaw cnt N maxR minR M a s e 1 0 0 objOut
      = (1, emitObj objOut 0 (objRaw 0).rangeIdx (objRaw 0).dopplerIdx N (objRaw 0).peakVal) := by
  show OdsDemo_cfarPeakGroupingCfarQualified.loop objRaw cnt N maxR minR M a s e (0 + 1) 0 0 objOut
    = _
  simp only [OdsDemo_cfarPeakGroupingCfarQualified.loop, hf, if_true]
  split_ifs <;> rfl

theorem emitted_single (objOut : Nat → OdsDemo_detectedObj) (r d N p : Nat) :
    emitted (1, emitObj objOut 0 r d N p) = [(r, DOPPLER_IDX_TO_SIGNED d N, p)] := by
  simp [emitted, emitObj, List.range_succ]

theorem windowedCell_uniform_le (detMatrix : Nat → Nat) (N maxR minR r d b p : Nat)
    (hmat : ∀ idx, detMatrix idx = if idx = r * N + d then p else b) (hp : b < p)
    (row col : Int) : windowedCell detMatrix N maxR minR row col ≤ p := by
  unfold windowedCell
  split_ifs
  · rw [hmat]; split_ifs <;> omega
  · omega

/-- For a single injected peak the flag of the matrix-based policy is 1 under every
direction setting. -/
theorem cfarPeakGrouping_check_single (objRaw : Nat → OdsDemo_objRaw_t) (detMatrix : Nat → Nat)
    (N maxR minR a s e : Nat) (he : e ≤ 8) (kernel : Nat → Nat) (b p r d : Nat)
    (hraw : objRaw 0 = ⟨r, d, p⟩)
    (hmat : ∀ idx, detMatrix idx = if idx = r * N + d then p else b) (hp : b < p)
    (h1 : minR < r) (h2 : r < maxR) (hd : d < N) :
    (OdsDemo_cfarPeakGrouping.check objRaw detMatrix N maxR minR a s e kernel 0).2 = 1 := by
  unfold OdsDemo_cfarPeakGrouping.check
  simp only [hraw]
  rw [if_pos ⟨by omega, by omega⟩]
  simp only
  apply compareLoop_of_all_le _ _ _ he
  intro t ht
  have hK : ∀ j k : Nat, j < 3 → k < 3 →
      OdsDemo_cfarPeakGrouping.fillKernel detMatrix N maxR minR kernel r d (3 * j + k)
      = windowedCell detMatrix N maxR minR ((r : Int) + ((j : Int) - 1))
        ((d : Int) + ((k : Int) - 1)) :=
    fun j k hj hk => fillKernel_spec detMatrix N maxR minR kernel r d (by omega) (by omega)
      (by omega) hd j k hj hk
  have h4 : OdsDemo_cfarPeakGrouping.fillKernel detMatrix N maxR minR kernel r d 4 = p := by
    have := hK 1 1 (by omega) (by omega)
    simp only [Nat.cast_one, sub_self, add_zero] at this
    rw [show 3 * 1 + 1 = 4 from rfl] at this
    rw [this, windowedCell_centre _ _ _ _ _ _ (by omega) (by omega) hd, hmat, if_pos rfl]
  have e : t = 3 * (t / 3) + t % 3 := by omega
  rw [h4, e, hK (t / 3) (t % 3) (by omega) (by omega)]
  exact windowedCell_uniform_le detMatrix N maxR minR r d b p hmat hp _ _

/-- For a single candidate the flag of the list-based policy is 1 under every direction
setting when the candidate is inside the range window. -/
theorem cfarQ_check_single (objRaw : Nat → OdsDemo_objRaw_t) (N maxR minR a s e : Nat)
    (he : e ≤ 8) (h1 : minR ≤ (objRaw 0).rangeIdx) (h2 : (objRaw 0).rangeIdx ≤ maxR) :
    OdsDemo_cfarPeakGroupingCfarQualified.check objRaw 1 N maxR minR a s e 0 = 1 := by
  unfold OdsDemo_cfarPeakGroupingCfarQualified.check
  simp only
  rw [if_pos ⟨h2, h1⟩]
  exact compareLoop_of_all_le _ _ _ he (fun t _ => cfarQ_single_kernel objRaw N t) _ _

/-- C6: single injected peak. The detection matrix has the value `b` everywhere except the
cell `(r, d)`, which holds `p > b`; `minRangeIdx < r < maxRangeIdx`, `d < numDopplerBins`, and
the candidate list is that one cell with `peakVal = p`. Under each of the three direction
settings that enable grouping, both policies return exactly one object, with `rangeIdx = r`
and `dopplerIdx` the signed form of `d`. -/
theorem C6_single_peak (objOut : Nat → OdsDemo_detectedObj) (objRaw : Nat → OdsDemo_objRaw_t)
    (detMatrix : Nat → Nat) (numDopplerBins maxRangeIdx minRangeIdx MMW_MAX_OBJ_OUT : Nat)
    (kernel : Nat → Nat) (b p r d groupInDopplerDirection groupInRangeDirection : Nat)
    (hraw : objRaw 0 = ⟨r, d, p⟩)
    (hmat : ∀ idx, detMatrix idx = if idx = r * numDopplerBins + d then p else b)
    (hp : b < p) (h1 : minRangeIdx < r) (h2 : r < maxRangeIdx) (hd : d < numDopplerBins)
    (hflags : (groupInDopplerDirection = 1 ∧ groupInRangeDirection = 1) ∨
      (groupInDopplerDirection = 0 ∧ groupInRangeDirection = 1) ∨
      (groupInDopplerDirection = 1 ∧ groupInRangeDirection = 0)) :
    emitted (OdsDemo_cfarPeakGrouping objOut objRaw 1 detMatrix numDopplerBins maxRangeIdx
        minRangeIdx groupInDopplerDirection groupInRangeDirection MMW_MAX_OBJ_OUT kernel)
      = [(r, DOPPLER_IDX_TO_SIGNED d numDopplerBins, p)] ∧
    emitted (OdsDemo_cfarPeakGroupingCfarQualified objOut objRaw 1 numDopplerBins maxRangeIdx
        minRangeIdx groupInDopplerDirection groupInRangeDirection MMW_MAX_OBJ_OUT)
      = [(r, DOPPLER_IDX_TO_SIGNED d numDopplerBins, p)] := by
  have hr : (objRaw 0).rangeIdx = r := by rw [hraw]
  have hdd : (objRaw 0).dopplerIdx = d := by rw [hraw]
  have hpp : (objRaw 0).peakVal = p := by rw [hraw]
  have hm : ∀ a s e, e ≤ 8 →
      emitted (OdsDemo_cfarPeakGrouping.loop objRaw detMatrix numDopplerBins maxRangeIdx
        minRangeIdx MMW_MAX_OBJ_OUT a s e 1 0 0 objOut kernel)
      = [(r, DOPPLER_IDX_TO_SIGNED d numDopplerBins, p)] := by
    intro a s e he
    rw [cfarPeakGrouping_loop_single _ _ _ _ _ _ _ _ _ _ _
      (cfarPeakGrouping_check_single objRaw detMatrix _ _ _ a s e he kernel b p r d hraw hmat hp
        h1 h2 hd), hr, hdd, hpp]
    exact emitted_single _ _ _ _ _
  have hq : ∀ a s e, e ≤ 8 →
      emitted (OdsDemo_cfarPeakGroupingCfarQualified.loop objRaw 1 numDopplerBins maxRangeIdx
        minRangeIdx MMW_MAX_OBJ_OUT a s e 1 0 0 objOut)
      = [(r, DOPPLER_IDX_TO_SIGNED d numDopplerBins, p)] := by
    intro a s e he
    rw [cfarQ_loop_single _ _ _ _ _ _ _ _ _ _
      (cfarQ_check_single objRaw _ _ _ a s e he (by rw [hr]; omega) (by rw [hr]; omega)),
      hr, hdd, hpp]
    exact emitted_single _ _ _ _ _
  unfold OdsDemo_cfarPeakGrouping OdsDemo_cfarPeakGroupingCfarQualified
  rcases hflags with ⟨hg1, hg2⟩ | ⟨hg1, hg2⟩ | ⟨hg1, hg2⟩
  · subst hg1; subst hg2
    simp only [and_self, if_true]
    exact ⟨hm 0 1 8 (by omega), hq 0 1 8 (by omega)⟩
  · subst hg1; subst hg2
    simp only [zero_ne_one, one_ne_zero, and_true, and_false, and_self, if_true, if_false]
    exact ⟨hm 1 3 7 (by omega), hq 1 3 7 (by omega)⟩
  · subst hg1; subst hg2
    simp only [zero_ne_one, one_ne_zero, and_true, and_false, and_self, if_true, if_false]
    exact ⟨hm 3 1 5 (by omega), hq 3 1 5 (by omega)⟩

/-! ### C3 -/

theorem wrapDoppler_eq_mod (p x : Nat) (hp : p ≤ 31) :
    WRAP_DOPPLER_IDX (2 ^ p) x = x % 2 ^ p := by
  unfold WRAP_DOPPLER_IDX
  rw [mask_u32 p hp, Nat.and_pow_two_sub_one_eq_mod]

theorem wrapDoppler_sub (p d c : Nat) (hp : p ≤ 31) (hd : d < 2 ^ p) (hc : c ≤ 2 ^ p)
    (hc1 : 1 ≤ c) :
    WRAP_DOPPLER_IDX (2 ^ p) (subU32 d c) = if c ≤ d then d - c else d + 2 ^ p - c := by
  rw [wrapDoppler_eq_mod p _ hp]
  obtain ⟨K, hK1, hK⟩ := pow2_split p hp
  have hN32 := pow2_lt_u32 p hp
  unfold subU32
  generalize (2 : Nat) ^ p = N at *
  split_ifs with h
  · have e : (d + (4294967296 - c)) % 4294967296 = d - c := by omega
    rw [e]
    exact Nat.mod_eq_of_lt (by omega)
  · have e : (d + (4294967296 - c)) % 4294967296 = (d + N - c) + N * K := by
      have : N * (K + 1) = N * K + N := by ring
      omega
    rw [e, Nat.add_mul_mod_self_left]
    exact Nat.mod_eq_of_lt (by omega)

theorem wrapDoppler_add (p d c : Nat) (hp : p ≤ 31) (hd : d < 2 ^ p) (hc : c ≤ 2 ^ p) :
    WRAP_DOPPLER_IDX (2 ^ p) (addU32 d c) = if d + c < 2 ^ p then d + c else d + c - 2 ^ p := by
  rw [wrapDoppler_eq_mod p _ hp]
  have hN32 := pow2_lt_u32 p hp
  unfold addU32
  obtain ⟨K, hK1, hK⟩ := pow2_split p hp
  generalize (2 : Nat) ^ p = N at *
  have hlt : d + c < 4294967296 := by
    have : N * (K + 1) = N * K + N := by ring
    have : N ≤ N * K := Nat.le_mul_of_pos_right N (by omega)
    omega
  rw [Nat.mod_eq_of_lt hlt]
  split_ifs with h
  · exact Nat.mod_eq_of_lt h
  · have e : d + c = (d + c - N) + N * 1 := by omega
    rw [e, Nat.add_mul_mod_self_left]
    have : (d + c - N + N * 1 - N) = d + c - N := by omega
    rw [this]
    exact Nat.mod_eq_of_lt (by omega)

theorem cfarOrder_dop_mono (objRaw : Nat → OdsDemo_objRaw_t) (n : Nat)
    (hs : InCfarOrder objRaw n) (a b : Nat) (hab : a ≤ b) (hb : b < n) :
    (objRaw a).dopplerIdx ≤ (objRaw b).dopplerIdx := by
  rcases Nat.eq_or_lt_of_le hab with h | h
  · subst h; exact le_rfl
  · rcases hs b hb a h with h' | h'
    · exact le_of_lt h'
    · exact le_of_eq h'.1

theorem cfarOrder_lt_of_orderLt (objRaw : Nat → OdsDemo_objRaw_t) (n : Nat)
    (hs : InCfarOrder objRaw n) (a b : Nat) (ha : a < n) (_hb : b < n)
    (h : cfarOrderLt (objRaw a) (objRaw b)) : a < b := by
  by_contra hc
  rcases Nat.eq_or_lt_of_le (Nat.le_of_not_lt hc) with e | e
  · subst e
    unfold cfarOrderLt at h
    omega
  · have h' := hs a ha b e
    unfold cfarOrderLt at h h'
    omega

theorem cfarOrder_inj (objRaw : Nat → OdsDemo_objRaw_t) (n : Nat)
    (hs : InCfarOrder objRaw n) (a b : Nat) (ha : a < n) (hb : b < n)
    (h1 : (objRaw a).rangeIdx = (objRaw b).rangeIdx)
    (h2 : (objRaw a).dopplerIdx = (objRaw b).dopplerIdx) : a = b := by
  rcases Nat.lt_trichotomy a b with h | h | h
  · have := hs b hb a h; unfold cfarOrderLt at this; omega
  · exact h
  · have := hs a ha b h; unfold cfarOrderLt at this; omega

theorem listPeak_of_match (objRaw : Nat → OdsDemo_objRaw_t) (n : Nat)
    (hs : InCfarOrder objRaw n) (row col : Int) (m : Nat) (hm : m < n)
    (h1 : ((objRaw m).rangeIdx : Int) = row) (h2 : ((objRaw m).dopplerIdx : Int) = col) :
    listPeak objRaw n row col = (objRaw m).peakVal := by
  have key : ∀ n', n' ≤ n → m < n' → listPeak objRaw n' row col = (objRaw m).peakVal := by
    intro n'
    induction n' with
    | zero => intro _ h; omega
    | succ n' ih =>
      intro hn' hmn'
      simp only [listPeak]
      by_cases hc : ((objRaw n').rangeIdx : Int) = row ∧ ((objRaw n').dopplerIdx : Int) = col
      · rw [if_pos hc]
        have : n' = m := cfarOrder_inj objRaw n hs n' m (by omega) hm
          (by have := hc.1; omega) (by have := hc.2; omega)
        rw [this]
      · rw [if_neg hc]
        apply ih (by omega)
        by_contra hlt
        have : m = n' := by omega
        subst this
        exact hc ⟨h1, h2⟩
  exact key n le_rfl hm

theorem listPeak_of_none (objRaw : Nat → OdsDemo_objRaw_t) (row col : Int) :
    ∀ n, (∀ m, m < n →
        ¬ (((objRaw m).rangeIdx : Int) = row ∧ ((objRaw m).dopplerIdx : Int) = col)) →
      listPeak objRaw n row col = 0 := by
  intro n
  induction n with
  | zero => intro _; rfl
  | succ n ih =>
    intro h
    simp only [listPeak]
    rw [if_neg (h n (by omega))]
    exact ih (fun m hm => h m (by omega))

theorem scanPos_succ (next : Int → Int) : ∀ l k,
    scanPos next (l + 1) k = next (scanPos next l k) := by
  intro l
  induction l with
  | zero => intro k; rfl
  | succ l ih => intro k; rw [scanPos, ih (next k)]; rfl

/-- Positions of the backward scan: `i-1, i-2, .., 0, n-1, .., i`. -/
theorem scanPos_left (n i : Nat) (_hi : i < n) :
    ∀ l, l < n →
      scanPos (fun k => WRAP_UP_LIST_IDX n (k - 1)) l (WRAP_UP_LIST_IDX n ((i : Int) - 1))
        = if l < i then (i : Int) - 1 - l else (n : Int) + i - 1 - l := by
  intro l
  induction l with
  | zero =>
    intro _
    simp only [scanPos, WRAP_UP_LIST_IDX]
    split_ifs <;> omega
  | succ l ih =>
    intro hl
    rw [scanPos_succ, ih (by omega)]
    simp only [WRAP_UP_LIST_IDX]
    split_ifs <;> omega

/-- Positions of the forward scan: `i+1, .., n-1, 0, .., i`. -/
theorem scanPos_right (n i : Nat) (hi : i < n) :
    ∀ l, l < n →
      scanPos (fun k => WRAP_DWN_LIST_IDX n (k + 1)) l (WRAP_DWN_LIST_IDX n ((i : Int) + 1))
        = if i + 1 + l < n then (i : Int) + 1 + l else (i : Int) + 1 + l - n := by
  intro l
  induction l with
  | zero =>
    intro _
    simp only [scanPos, WRAP_DWN_LIST_IDX]
    split_ifs <;> omega
  | succ l ih =>
    intro hl
    rw [scanPos_succ, ih (by omega)]
    simp only [WRAP_DWN_LIST_IDX]
    split_ifs <;> omega

theorem scanPos_left_toNat (n i : Nat) (hi : i < n) (l : Nat) (hl : l < n) :
    (scanPos (fun k => WRAP_UP_LIST_IDX n (k - 1)) l
      (WRAP_UP_LIST_IDX n ((i : Int) - 1))).toNat = leftPos n i l := by
  rw [scanPos_left n i hi l hl]
  unfold leftPos
  split_ifs <;> omega

theorem scanPos_right_toNat (n i : Nat) (hi : i < n) (l : Nat) (hl : l < n) :
    (scanPos (fun k => WRAP_DWN_LIST_IDX n (k + 1)) l
      (WRAP_DWN_LIST_IDX n ((i : Int) + 1))).toNat = rightPos n i l := by
  rw [scanPos_right n i hi l hl]
  unfold rightPos
  split_ifs <;> omega

theorem leftPos_lt (n i l : Nat) (hi : i < n) (hl : l < n) : leftPos n i l < n := by
  unfold leftPos; split_ifs <;> omega

theorem rightPos_lt (n i l : Nat) (hi : i < n) (hl : l < n) : rightPos n i l < n := by
  unfold rightPos; split_ifs <;> omega

/-- A scan whose stop test is not met before the matching entry leaves in slot `t` the
`peakVal` of the list entry at `(row, col)`, or 0 when there is none. -/
theorem scan_slot (objRaw : Nat → OdsDemo_objRaw_t) (n : Nat) (hs : InCfarOrder objRaw n)
    (next : Int → Int) (stop : Nat → Bool) (hit : Nat → Nat → Bool) (t : Nat) (k0 : Int)
    (P : Nat → Nat) (row col : Int)
    (hP : ∀ l, l < n → (scanPos next l k0).toNat = P l)
    (hPn : ∀ l, l < n → P l < n)
    (hhit : ∀ m, m < n → (hit m t = true ↔
      (((objRaw m).rangeIdx : Int) = row ∧ ((objRaw m).dopplerIdx : Int) = col)))
    (hreach : ∀ m, m < n →
      (((objRaw m).rangeIdx : Int) = row ∧ ((objRaw m).dopplerIdx : Int) = col) →
      ∃ L, L < n ∧ P L = m ∧ ∀ l, l ≤ L → stop (P l) = false)
    (kernel : Nat → Nat) (hk : kernel t = 0) :
    scanGen objRaw next stop hit n k0 kernel t = listPeak objRaw n row col := by
  by_cases hex : ∃ m, m < n ∧
      (((objRaw m).rangeIdx : Int) = row ∧ ((objRaw m).dopplerIdx : Int) = col)
  · obtain ⟨m, hm, hmatch⟩ := hex
    obtain ⟨L, hL, hPL, hns⟩ := hreach m hm hmatch
    obtain ⟨l, hl, hh, he⟩ := scanGen_hit objRaw next stop hit t n k0 kernel L hL
      (fun l hl' => by rw [hP l (by omega)]; exact hns l hl')
      (by rw [hP L hL, hPL]; exact (hhit m hm).2 hmatch)
    rw [he, hP l hl]
    rw [hP l hl] at hh
    have := (hhit (P l) (hPn l hl)).1 hh
    exact (listPeak_of_match objRaw n hs row col (P l) (hPn l hl) this.1 this.2).symm
  · rcases scanGen_origin objRaw next stop hit t n k0 kernel with h | ⟨l, hl, hh, _⟩
    · rw [h, hk, listPeak_of_none]
      intro m hm hc
      exact hex ⟨m, hm, hc⟩
    · exfalso
      rw [hP l hl] at hh
      exact hex ⟨P l, hPn l hl, (hhit (P l) (hPn l hl)).1 hh⟩

theorem four_le_pow (p : Nat) (hp2 : 2 ≤ p) : 4 ≤ 2 ^ p := by
  calc 4 = 2 ^ 2 := by norm_num
    _ ≤ 2 ^ p := Nat.pow_le_pow_right (by decide) hp2

/-- The backward scan meets every entry of Doppler line `d-1` before it meets an entry of
Doppler line `d-2`. -/
theorem reach_left (objRaw : Nat → OdsDemo_objRaw_t) (n p i : Nat) (hp2 : 2 ≤ p) (hp : p ≤ 31)
    (hs : InCfarOrder objRaw n) (hdop : ∀ m, m < n → (objRaw m).dopplerIdx < 2 ^ p)
    (hi : i < n) (m : Nat) (hm : m < n)
    (hmd : (objRaw m).dopplerIdx = WRAP_DOPPLER_IDX (2 ^ p) (subU32 (objRaw i).dopplerIdx 1)) :
    ∃ L, L < n ∧ leftPos n i L = m ∧ ∀ l, l ≤ L →
      decide ((objRaw (leftPos n i l)).dopplerIdx
        = WRAP_DOPPLER_IDX (2 ^ p) (subU32 (objRaw i).dopplerIdx 2)) = false := by
  have hN4 := four_le_pow p hp2
  have hd := hdop i hi
  have h1 := wrapDoppler_sub p (objRaw i).dopplerIdx 1 hp hd (by omega) (by omega)
  have h2 := wrapDoppler_sub p (objRaw i).dopplerIdx 2 hp hd (by omega) (by omega)
  rw [h1] at hmd
  rw [h2]
  generalize (2 : Nat) ^ p = N at *
  have hmi : m ≠ i := by
    intro h; subst h
    split_ifs at hmd <;> omega
  rcases Nat.lt_or_gt_of_ne hmi with hlt | hgt
  · refine ⟨i - 1 - m, by omega, by unfold leftPos; split_ifs <;> omega, ?_⟩
    intro l hl
    have hpos : leftPos n i l = i - 1 - l := by unfold leftPos; split_ifs <;> omega
    have ha := cfarOrder_dop_mono objRaw n hs m (i - 1 - l) (by omega) (by omega)
    have hb := cfarOrder_dop_mono objRaw n hs (i - 1 - l) i (by omega) hi
    have hc := cfarOrder_dop_mono objRaw n hs m i (by omega) hi
    rw [hpos]
    simp only [decide_eq_false_iff_not]
    split_ifs at hmd ⊢ <;> omega
  · refine ⟨n + i - 1 - m, by omega, by unfold leftPos; split_ifs <;> omega, ?_⟩
    intro l hl
    have hc := cfarOrder_dop_mono objRaw n hs i m (by omega) hm
    simp only [decide_eq_false_iff_not]
    by_cases hli : l < i
    · have hpos : leftPos n i l = i - 1 - l := by unfold leftPos; rw [if_pos hli]
      have hb := cfarOrder_dop_mono objRaw n hs (i - 1 - l) i (by omega) hi
      rw [hpos]
      split_ifs at hmd ⊢ <;> omega
    · have hpos : leftPos n i l = n + i - 1 - l := by unfold leftPos; rw [if_neg hli]
      have ha := cfarOrder_dop_mono objRaw n hs m (n + i - 1 - l) (by omega) (by omega)
      rw [hpos]
      split_ifs at hmd ⊢ <;> omega

/-- The forward scan meets every entry of Doppler line `d+1` before it meets an entry of
Doppler line `d+2`. -/
theorem reach_right (objRaw : Nat → OdsDemo_objRaw_t) (n p i : Nat) (hp2 : 2 ≤ p) (hp : p ≤ 31)
    (hs : InCfarOrder objRaw n) (hdop : ∀ m, m < n → (objRaw m).dopplerIdx < 2 ^ p)
    (hi : i < n) (m : Nat) (hm : m < n)
    (hmd : (objRaw m).dopplerIdx = WRAP_DOPPLER_IDX (2 ^ p) (addU32 (objRaw i).dopplerIdx 1)) :
    ∃ L, L < n ∧ rightPos n i L = m ∧ ∀ l, l ≤ L →
      decide ((objRaw (rightPos n i l)).dopplerIdx
        = WRAP_DOPPLER_IDX (2 ^ p) (addU32 (objRaw i).dopplerIdx 2)) = false := by
  have hN4 := four_le_pow p hp2
  have hd := hdop i hi
  have h1 := wrapDoppler_add p (objRaw i).dopplerIdx 1 hp hd (by omega)
  have h2 := wrapDoppler_add p (objRaw i).dopplerIdx 2 hp hd (by omega)
  rw [h1] at hmd
  rw [h2]
  generalize (2 : Nat) ^ p = N at *
  have hmi : m ≠ i := by
    intro h; subst h
    split_ifs at hmd <;> omega
  rcases Nat.lt_or_gt_of_ne hmi with hlt | hgt
  · refine ⟨m + n - i - 1, by omega, by unfold rightPos; split_ifs <;> omega, ?_⟩
    intro l hl
    have hc := cfarOrder_dop_mono objRaw n hs m i (by omega) hi
    simp only [decide_eq_false_iff_not]
    by_cases hli : i + 1 + l < n
    · have hpos : rightPos n i l = i + 1 + l := by unfold rightPos; rw [if_pos hli]
      have hb := cfarOrder_dop_mono objRaw n hs i (i + 1 + l) (by omega) hli
      rw [hpos]
      split_ifs at hmd ⊢ <;> omega
    · have hpos : rightPos n i l = i + 1 + l - n := by unfold rightPos; rw [if_neg hli]
      have ha := cfarOrder_dop_mono objRaw n hs (i + 1 + l - n) m (by omega) hm
      rw [hpos]
      split_ifs at hmd ⊢ <;> omega
  · refine ⟨m - i - 1, by omega, by unfold rightPos; split_ifs <;> omega, ?_⟩
    intro l hl
    have hpos : rightPos n i l = i + 1 + l := by unfold rightPos; split_ifs <;> omega
    have ha := cfarOrder_dop_mono objRaw n hs (i + 1 + l) m (by omega) hm
    have hb := cfarOrder_dop_mono objRaw n hs i (i + 1 + l) (by omega) (by omega)
    have hc := cfarOrder_dop_mono objRaw n hs i m (by omega) hm
    rw [hpos]
    simp only [decide_eq_false_iff_not]
    split_ifs at hmd ⊢ <;> omega

theorem colLeft_cast (p d : Nat) (hp : p ≤ 31) (hd : d < 2 ^ p) :
    ((WRAP_DOPPLER_IDX (2 ^ p) (subU32 d 1) : Nat) : Int)
      = ((d : Int) - 1) % ((2 ^ p : Nat) : Int) := by
  have h1 : 1 ≤ 2 ^ p := Nat.one_le_two_pow
  rw [wrapDoppler_sub p d 1 hp hd h1 (by omega)]
  generalize (2 : Nat) ^ p = N at *
  split_ifs with h
  · rw [Int.emod_eq_of_lt (by omega) (by omega)]
    omega
  · have e : ((d : Int) - 1) = ((d : Int) - 1 + (N : Int)) + (-1) * (N : Int) := by ring
    rw [e, Int.add_mul_emod_self, Int.emod_eq_of_lt (by omega) (by omega)]
    omega

theorem colRight_cast (p d : Nat) (hp : p ≤ 31) (hd : d < 2 ^ p) :
    ((WRAP_DOPPLER_IDX (2 ^ p) (addU32 d 1) : Nat) : Int)
      = ((d : Int) + 1) % ((2 ^ p : Nat) : Int) := by
  have h1 : 1 ≤ 2 ^ p := Nat.one_le_two_pow
  rw [wrapDoppler_add p d 1 hp hd h1]
  generalize (2 : Nat) ^ p = N at *
  split_ifs with h
  · rw [Int.emod_eq_of_lt (by omega) (by omega)]
    omega
  · have e : ((d : Int) + 1) = ((d : Int) + 1 - (N : Int)) + 1 * (N : Int) := by ring
    rw [e, Int.add_mul_emod_self, Int.emod_eq_of_lt (by omega) (by omega)]
    omega

theorem addU32_small (r : Nat) (hr : r < 65536) : addU32 r 1 = r + 1 := by
  unfold addU32; omega

theorem subU32_small (r : Nat) (hr : r < 65536) :
    subU32 r 1 = if 1 ≤ r then r - 1 else 4294967295 := by
  unfold subU32; split_ifs <;> omega

theorem hitLeft_iff (objRaw : Nat → OdsDemo_objRaw_t) (p r d m t : Nat) (dr : Int)
    (hp : p ≤ 31) (hd : d < 2 ^ p) (hr : r < 65536) (hmr : (objRaw m).rangeIdx < 65536)
    (htd : (t = 6 ∧ dr = 1) ∨ (t = 3 ∧ dr = 0) ∨ (t = 0 ∧ dr = -1)) :
    hitLeft objRaw (2 ^ p) r d m t = true ↔
      (((objRaw m).rangeIdx : Int) = (r : Int) + dr ∧
        ((objRaw m).dopplerIdx : Int) = ((d : Int) - 1) % ((2 ^ p : Nat) : Int)) := by
  rw [← colLeft_cast p d hp hd]
  unfold hitLeft
  rw [addU32_small r hr, subU32_small r hr]
  simp only [decide_eq_true_eq]
  generalize WRAP_DOPPLER_IDX (2 ^ p) (subU32 d 1) = D1
  rcases htd with ⟨rfl, rfl⟩ | ⟨rfl, rfl⟩ | ⟨rfl, rfl⟩ <;> split_ifs <;>
    simp <;> constructor <;> intro h <;> omega

theorem hitRight_iff (objRaw : Nat → OdsDemo_objRaw_t) (p r d m t : Nat) (dr : Int)
    (hp : p ≤ 31) (hd : d < 2 ^ p) (hr : r < 65536) (hmr : (objRaw m).rangeIdx < 65536)
    (htd : (t = 2 ∧ dr = -1) ∨ (t = 5 ∧ dr = 0) ∨ (t = 8 ∧ dr = 1)) :
    hitRight objRaw (2 ^ p) r d m t = true ↔
      (((objRaw m).rangeIdx : Int) = (r : Int) + dr ∧
        ((objRaw m).dopplerIdx : Int) = ((d : Int) + 1) % ((2 ^ p : Nat) : Int)) := by
  rw [← colRight_cast p d hp hd]
  unfold hitRight
  rw [addU32_small r hr, subU32_small r hr]
  simp only [decide_eq_true_eq]
  generalize WRAP_DOPPLER_IDX (2 ^ p) (addU32 d 1) = D1
  rcases htd with ⟨rfl, rfl⟩ | ⟨rfl, rfl⟩ | ⟨rfl, rfl⟩ <;> split_ifs <;>
    simp <;> constructor <;> intro h <;> omega

/-- Left column of the kernel of the list-based policy. -/
theorem kernel_left (objRaw : Nat → OdsDemo_objRaw_t) (n p i : Nat) (hp2 : 2 ≤ p) (hp : p ≤ 31)
    (hs : InCfarOrder objRaw n) (hdop : ∀ m, m < n → (objRaw m).dopplerIdx < 2 ^ p)
    (hrng : ∀ m, m < n → (objRaw m).rangeIdx < 65536) (hi : i < n) (t : Nat) (dr : Int)
    (htd : (t = 6 ∧ dr = 1) ∨ (t = 3 ∧ dr = 0) ∨ (t = 0 ∧ dr = -1)) (row col : Int)
    (hrow : row = ((objRaw i).rangeIdx : Int) + dr)
    (hcol : col = (((objRaw i).dopplerIdx : Int) - 1) % ((2 ^ p : Nat) : Int)) :
    OdsDemo_cfarPeakGroupingCfarQualified.buildKernel objRaw n (2 ^ p) i t
      = listPeak objRaw n row col := by
  subst hrow; subst hcol
  have ht : t = 6 ∨ t = 3 ∨ t = 0 := by omega
  rw [buildKernel_eq,
    scanGen_frame _ _ _ _ t (hitRight_false_of_slot _ _ _ _ t (by omega))]
  exact scan_slot objRaw n hs _ _ _ t _ (leftPos n i) _ _
    (fun l hl => scanPos_left_toNat n i hi l hl)
    (fun l hl => leftPos_lt n i l hi hl)
    (fun m hm => hitLeft_iff objRaw p _ _ m t dr hp (hdop i hi) (hrng i hi) (hrng m hm) htd)
    (fun m hm hmatch => reach_left objRaw n p i hp2 hp hs hdop hi m hm (by
      have := colLeft_cast p (objRaw i).dopplerIdx hp (hdop i hi)
      have h2 := hmatch.2
      rw [← this] at h2
      exact_mod_cast h2))
    _ (middleColumn_side objRaw n i t (by omega))

/-- Right column of the kernel of the list-based policy. -/
theorem kernel_right (objRaw : Nat → OdsDemo_objRaw_t) (n p i : Nat) (hp2 : 2 ≤ p) (hp : p ≤ 31)
    (hs : InCfarOrder objRaw n) (hdop : ∀ m, m < n → (objRaw m).dopplerIdx < 2 ^ p)
    (hrng : ∀ m, m < n → (objRaw m).rangeIdx < 65536) (hi : i < n) (t : Nat) (dr : Int)
    (htd : (t = 2 ∧ dr = -1) ∨ (t = 5 ∧ dr = 0) ∨ (t = 8 ∧ dr = 1)) (row col : Int)
    (hrow : row = ((objRaw i).rangeIdx : Int) + dr)
    (hcol : col = (((objRaw i).dopplerIdx : Int) + 1) % ((2 ^ p : Nat) : Int)) :
    OdsDemo_cfarPeakGroupingCfarQualified.buildKernel objRaw n (2 ^ p) i t
      = listPeak objRaw n row col := by
  subst hrow; subst hcol
  have ht : t = 2 ∨ t = 5 ∨ t = 8 := by omega
  rw [buildKernel_eq]
  exact scan_slot objRaw n hs _ _ _ t _ (rightPos n i) _ _
    (fun l hl => scanPos_right_toNat n i hi l hl)
    (fun l hl => rightPos_lt n i l hi hl)
    (fun m hm => hitRight_iff objRaw p _ _ m t dr hp (hdop i hi) (hrng i hi) (hrng m hm) htd)
    (fun m hm hmatch => reach_right objRaw n p i hp2 hp hs hdop hi m hm (by
      have := colRight_cast p (objRaw i).dopplerIdx hp (hdop i hi)
      have h2 := hmatch.2
      rw [← this] at h2
      exact_mod_cast h2))
    _ (by
      rw [scanGen_frame _ _ _ _ t (hitLeft_false_of_slot _ _ _ _ t (by omega))]
      exact middleColumn_side objRaw n i t (by omega))

theorem middleColumn_one (objRaw : Nat → OdsDemo_objRaw_t) (n i : Nat) :
    OdsDemo_cfarPeakGroupingCfarQualified.middleColumn objRaw n i 1
      = if 0 < i ∧ (objRaw (i - 1)).rangeIdx = subU32 (objRaw i).rangeIdx 1 ∧
            (objRaw (i - 1)).dopplerIdx = (objRaw i).dopplerIdx
        then (objRaw (i - 1)).peakVal else 0 := by
  unfold OdsDemo_cfarPeakGroupingCfarQualified.middleColumn
  by_cases h0 : 0 < i <;>
  by_cases hc : ((objRaw (i - 1)).rangeIdx = subU32 (objRaw i).rangeIdx 1 ∧
        (objRaw (i - 1)).dopplerIdx = (objRaw i).dopplerIdx) <;>
  by_cases h7 : i < n - 1 <;>
  by_cases c7 : ((objRaw (i + 1)).rangeIdx = addU32 (objRaw i).rangeIdx 1 ∧
        (objRaw (i + 1)).dopplerIdx = (objRaw i).dopplerIdx) <;>
  simp only [gt_iff_lt, h0, hc, h7, c7, and_self, and_true, and_false, true_and, false_and,
    if_true, if_false] <;>
  simp [Function.update]

theorem middleColumn_seven (objRaw : Nat → OdsDemo_objRaw_t) (n i : Nat) :
    OdsDemo_cfarPeakGroupingCfarQualified.middleColumn objRaw n i 7
      = if i < n - 1 ∧ (objRaw (i + 1)).rangeIdx = addU32 (objRaw i).rangeIdx 1 ∧
            (objRaw (i + 1)).dopplerIdx = (objRaw i).dopplerIdx
        then (objRaw (i + 1)).peakVal else 0 := by
  unfold OdsDemo_cfarPeakGroupingCfarQualified.middleColumn
  by_cases h0 : 0 < i <;>
  by_cases hc : ((objRaw (i - 1)).rangeIdx = subU32 (objRaw i).rangeIdx 1 ∧
        (objRaw (i - 1)).dopplerIdx = (objRaw i).dopplerIdx) <;>
  by_cases h7 : i < n - 1 <;>
  by_cases c7 : ((objRaw (i + 1)).rangeIdx = addU32 (objRaw i).rangeIdx 1 ∧
        (objRaw (i + 1)).dopplerIdx = (objRaw i).dopplerIdx) <;>
  simp only [gt_iff_lt, h0, hc, h7, c7, and_self, and_true, and_false, true_and, false_and,
    if_true, if_false] <;>
  simp [Function.update]

/-- Kernel slot 1: the entry one range bin below on the same Doppler line. -/
theorem kernel_up (objRaw : Nat → OdsDemo_objRaw_t) (n N i : Nat)
    (hs : InCfarOrder objRaw n) (hrng : ∀ m, m < n → (objRaw m).rangeIdx < 65536)
    (hi : i < n) (row col : Int) (hrow : row = ((objRaw i).rangeIdx : Int) + -1)
    (hcol : col = ((objRaw i).dopplerIdx : Int)) :
    OdsDemo_cfarPeakGroupingCfarQualified.buildKernel objRaw n N i 1
      = listPeak objRaw n row col := by
  subst hrow; subst hcol
  rw [buildKernel_eq,
    scanGen_frame _ _ _ _ 1 (hitRight_false_of_slot _ _ _ _ 1 (by omega)),
    scanGen_frame _ _ _ _ 1 (hitLeft_false_of_slot _ _ _ _ 1 (by omega)),
    middleColumn_one]
  have hsub := subU32_small (objRaw i).rangeIdx (hrng i hi)
  by_cases hc : 0 < i ∧ (objRaw (i - 1)).rangeIdx = subU32 (objRaw i).rangeIdx 1 ∧
      (objRaw (i - 1)).dopplerIdx = (objRaw i).dopplerIdx
  · rw [if_pos hc]
    symm
    have hr1 := hrng (i - 1) (by omega)
    apply listPeak_of_match objRaw n hs _ _ (i - 1) (by omega)
    · have := hc.2.1
      rw [hsub] at this
      split_ifs at this <;> omega
    · have := hc.2.2
      omega
  · rw [if_neg hc]
    symm
    apply listPeak_of_none
    intro m hm hmatch
    apply hc
    have hlt : m < i := cfarOrder_lt_of_orderLt objRaw n hs m i hm hi
      (Or.inr ⟨by have := hmatch.2; omega, by have := hmatch.1; omega⟩)
    have hmi : m = i - 1 := by
      by_contra hne
      have h1 := hs (i - 1) (by omega) m (by omega)
      have h2 := hs i hi (i - 1) (by omega)
      unfold cfarOrderLt at h1 h2
      have := hmatch.1
      have := hmatch.2
      omega
    subst hmi
    refine ⟨by omega, ?_, by have := hmatch.2; omega⟩
    rw [hsub]
    have := hmatch.1
    split_ifs <;> omega

/-- Kernel slot 7: the entry one range bin above on the same Doppler line. -/
theorem kernel_down (objRaw : Nat → OdsDemo_objRaw_t) (n N i : Nat)
    (hs : InCfarOrder objRaw n) (hrng : ∀ m, m < n → (objRaw m).rangeIdx < 65536)
    (hi : i < n) (row col : Int) (hrow : row = ((objRaw i).rangeIdx : Int) + 1)
    (hcol : col = ((objRaw i).dopplerIdx : Int)) :
    OdsDemo_cfarPeakGroupingCfarQualified.buildKernel objRaw n N i 7
      = listPeak objRaw n row col := by
  subst hrow; subst hcol
  rw [buildKernel_eq,
    scanGen_frame _ _ _ _ 7 (hitRight_false_of_slot _ _ _ _ 7 (by omega)),
    scanGen_frame _ _ _ _ 7 (hitLeft_false_of_slot _ _ _ _ 7 (by omega)),
    middleColumn_seven]
  have hadd := addU32_small (objRaw i).rangeIdx (hrng i hi)
  by_cases hc : i < n - 1 ∧ (objRaw (i + 1)).rangeIdx = addU32 (objRaw i).rangeIdx 1 ∧
      (objRaw (i + 1)).dopplerIdx = (objRaw i).dopplerIdx
  · rw [if_pos hc]
    symm
    apply listPeak_of_match objRaw n hs _ _ (i + 1) (by omega)
    · have := hc.2.1
      rw [hadd] at this
      omega
    · have := hc.2.2
      omega
  · rw [if_neg hc]
    symm
    apply listPeak_of_none
    intro m hm hmatch
    apply hc
    have hlt : i < m := cfarOrder_lt_of_orderLt objRaw n hs i m hi hm
      (Or.inr ⟨by have := hmatch.2; omega, by have := hmatch.1; omega⟩)
    have hmi : m = i + 1 := by
      by_contra hne
      have h1 := hs m hm (i + 1) (by omega)
      have h2 := hs (i + 1) (by omega) i (by omega)
      unfold cfarOrderLt at h1 h2
      have := hmatch.1
      have := hmatch.2
      omega
    subst hmi
    refine ⟨by omega, ?_, by have := hmatch.2; omega⟩
    rw [hadd]
    have := hmatch.1
    omega

/-- C3: kernel of `OdsDemo_cfarPeakGroupingCfarQualified`. For a candidate list in CFAR order
(strictly ascending in `(dopplerIdx, rangeIdx)`), with all Doppler indices below
`numDopplerBins = 2^p ≥ 4` and `uint16_t` range indices, the 3x3 kernel built for the
candidate `(r, d)` at list position `i` holds the candidate's own `peakVal` at the centre, and
at each of the 8 neighbour slots `3*j + k` the `peakVal` of the list entry with range index
`r + j - 1` and Doppler index `(d + k - 1) mod numDopplerBins` if there is such an entry, and 0
otherwise. -/
theorem C3_cfarQualified_kernel (objRaw : Nat → OdsDemo_objRaw_t)
    (numDetectedObjects p i : Nat) (hp2 : 2 ≤ p) (hp : p ≤ 31)
    (hs : InCfarOrder objRaw numDetectedObjects)
    (hdop : ∀ m, m < numDetectedObjects → (objRaw m).dopplerIdx < 2 ^ p)
    (hrng : ∀ m, m < numDetectedObjects → (objRaw m).rangeIdx < 65536)
    (hi : i < numDetectedObjects) :
    OdsDemo_cfarPeakGroupingCfarQualified.buildKernel objRaw numDetectedObjects (2 ^ p) i 4
      = (objRaw i).peakVal ∧
    ∀ j k : Nat, j < 3 → k < 3 → (j, k) ≠ (1, 1) →
      OdsDemo_cfarPeakGroupingCfarQualified.buildKernel objRaw numDetectedObjects (2 ^ p) i
          (3 * j + k)
        = listPeak objRaw numDetectedObjects (((objRaw i).rangeIdx : Int) + ((j : Int) - 1))
            ((((objRaw i).dopplerIdx : Int) + ((k : Int) - 1)) % ((2 ^ p : Nat) : Int)) := by
  refine ⟨buildKernel_centre _ _ _ _, ?_⟩
  intro j k hj hk hne
  have hd := hdop i hi
  have hmid : (((objRaw i).dopplerIdx : Int) + (((1 : Nat) : Int) - 1)) % ((2 ^ p : Nat) : Int)
      = ((objRaw i).dopplerIdx : Int) := by
    rw [Int.emod_eq_of_lt (by omega) (by omega)]
    omega
  have hj3 : j = 0 ∨ j = 1 ∨ j = 2 := by omega
  have hk3 : k = 0 ∨ k = 1 ∨ k = 2 := by omega
  rcases hj3 with rfl | rfl | rfl <;> rcases hk3 with rfl | rfl | rfl
  · exact kernel_left objRaw _ p i hp2 hp hs hdop hrng hi 0 (-1) (by omega) _ _
      (by push_cast; ring) (by push_cast; ring_nf)
  · exact kernel_up objRaw _ _ i hs hrng hi _ _ (by push_cast; ring) hmid
  · exact kernel_right objRaw _ p i hp2 hp hs hdop hrng hi 2 (-1) (by omega) _ _
      (by push_cast; ring) (by push_cast; ring_nf)
  · exact kernel_left objRaw _ p i hp2 hp hs hdop hrng hi 3 0 (by omega) _ _
      (by push_cast; ring) (by push_cast; ring_nf)
  · exact absurd rfl hne
  · exact kernel_right objRaw _ p i hp2 hp hs hdop hrng hi 5 0 (by omega) _ _
      (by push_cast; ring) (by push_cast; ring_nf)
  · exact kernel_left objRaw _ p i hp2 hp hs hdop hrng hi 6 1 (by omega) _ _
      (by push_cast; ring) (by push_cast; ring_nf)
  · exact kernel_down objRaw _ _ i hs hrng hi _ _ (by push_cast; ring) hmid
  · exact kernel_right objRaw _ p i hp2 hp hs hdop hrng hi 8 1 (by omega) _ _
      (by push_cast; ring) (by push_cast; ring_nf)

/-! ### C4 -/

/-- C4 fails on the code: with `MMW_MAX_OBJ_OUT = 100`, both directions disabled, the range
window `[1, 7]` and the 101 candidates of `manyObjRaw` (13 of the first 100 have range index 0
and are outside the window), both policies return 87 objects, although the list has 88
candidates inside the window: candidate 100 (range index 4) is dropped while only 87 objects
have been emitted. -/
theorem C4_no_grouping_drops_before_capacity :
    (OdsDemo_cfarPeakGrouping sampleObjOut manyObjRaw 101 sampleDetMatrix 16 7 1 0 0 100
        (fun _ => 0)).1 = 87 ∧
    (OdsDemo_cfarPeakGroupingCfarQualified sampleObjOut manyObjRaw 101 16 7 1 0 0 100).1 = 87 ∧
    (((List.range 101).filter (fun i =>
        decide (1 ≤ (manyObjRaw i).rangeIdx ∧ (manyObjRaw i).rangeIdx ≤ 7))).take 100).length
      = 88 ∧
    1 ≤ (manyObjRaw 100).rangeIdx ∧ (manyObjRaw 100).rangeIdx ≤ 7 := by
  refine ⟨?_, ?_, by decide, by decide, by decide⟩
  · unfold OdsDemo_cfarPeakGrouping
    simp only [zero_ne_one, and_false, and_true, false_and, if_false]
    rw [noGroupingCopy_eq]
    decide
  · unfold OdsDemo_cfarPeakGroupingCfarQualified
    simp only [zero_ne_one, and_false, and_true, false_and, if_false]
    rw [noGroupingCopy_eq]
    decide

/-! ### Instances -/

/-- C2 on `sampleDetMatrix` with three candidates, window `[1, 5]`. -/
theorem C2_cfarPeakGrouping_both_directions_witness :
    (0 < 100 ∧ 1 < 5 ∧ ∀ i, i < 3 → (sampleObjRaw3 i).dopplerIdx < 8) ∧
    emitted (OdsDemo_cfarPeakGrouping sampleObjOut sampleObjRaw3 3 sampleDetMatrix 8 5 1 1 1 100
        (fun _ => 99))
      = (((List.range 3).filter (fun i =>
            decide (isLocalPeak sampleDetMatrix 8 5 1 (sampleObjRaw3 i).rangeIdx
              (sampleObjRaw3 i).dopplerIdx))).take 100).map (emittedOf sampleObjRaw3 8) :=
  ⟨by decide,
   C2_cfarPeakGrouping_both_directions sampleObjOut sampleObjRaw3 3 sampleDetMatrix 8 5 1 100
     (fun _ => 99) (by decide) (by decide) (by decide)⟩

/-- C3 on `sampleObjRaw` (8 Doppler bins) for the candidate at list position 1. -/
theorem C3_cfarQualified_kernel_witness :
    (2 ≤ 3 ∧ 3 ≤ 31 ∧ InCfarOrder sampleObjRaw 8 ∧
      (∀ m, m < 8 → (sampleObjRaw m).dopplerIdx < 2 ^ 3) ∧
      (∀ m, m < 8 → (sampleObjRaw m).rangeIdx < 65536) ∧ 1 < 8) ∧
    (OdsDemo_cfarPeakGroupingCfarQualified.buildKernel sampleObjRaw 8 (2 ^ 3) 1 4
      = (sampleObjRaw 1).peakVal ∧
    ∀ j k : Nat, j < 3 → k < 3 → (j, k) ≠ (1, 1) →
      OdsDemo_cfarPeakGroupingCfarQualified.buildKernel sampleObjRaw 8 (2 ^ 3) 1 (3 * j + k)
        = listPeak sampleObjRaw 8 (((sampleObjRaw 1).rangeIdx : Int) + ((j : Int) - 1))
            ((((sampleObjRaw 1).dopplerIdx : Int) + ((k : Int) - 1)) % ((2 ^ 3 : Nat) : Int))) :=
  ⟨by decide,
   C3_cfarQualified_kernel sampleObjRaw 8 3 1 (by decide) (by decide) (by decide) (by decide)
     (by decide) (by decide)⟩

/-- C5 on `sampleObjRaw3` with only Doppler-direction grouping and capacity 2. -/
theorem C5_peak_grouping_output_bounded_witness :
    0 < 2 ∧
    (OdsDemo_cfarPeakGrouping sampleObjOut sampleObjRaw3 3 sampleDetMatrix 8 5 1 1 0 2
        (fun _ => 99)).1 ≤ 2 ∧
    (OdsDemo_cfarPeakGroupingCfarQualified sampleObjOut sampleObjRaw3 3 8 5 1 1 0 2).1 ≤ 2 :=
  ⟨by decide,
   (C5_peak_grouping_output_bounded sampleObjOut sampleObjRaw3 3 sampleDetMatrix 8 5 1 1 0 2
     (fun _ => 99) (by decide)).1.1,
   (C5_peak_grouping_output_bounded sampleObjOut sampleObjRaw3 3 sampleDetMatrix 8 5 1 1 0 2
     (fun _ => 99) (by decide)).2.1⟩

/-- C6 for the peak 40 at `(3, 6)` over the background 7, 8 Doppler bins, window `[1, 5]`,
grouping in the Doppler direction only. -/
theorem C6_single_peak_witness :
    (7 < 40 ∧ 1 < 3 ∧ 3 < 5 ∧ 6 < 8) ∧
    emitted (OdsDemo_cfarPeakGrouping sampleObjOut (fun _ => ⟨3, 6, 40⟩) 1
        (fun idx => if idx = 3 * 8 + 6 then 40 else 7) 8 5 1 1 0 100 (fun _ => 99))
      = [(3, DOPPLER_IDX_TO_SIGNED 6 8, 40)] ∧
    emitted (OdsDemo_cfarPeakGroupingCfarQualified sampleObjOut (fun _ => ⟨3, 6, 40⟩) 1 8 5 1
        1 0 100)
      = [(3, DOPPLER_IDX_TO_SIGNED 6 8, 40)] :=
  ⟨by decide,
   C6_single_peak sampleObjOut (fun _ => ⟨3, 6, 40⟩) (fun idx => if idx = 3 * 8 + 6 then 40 else 7)
     8 5 1 100 (fun _ => 99) 7 40 3 6 1 0 rfl (fun _ => rfl) (by decide) (by decide) (by decide)
     (by decide) (Or.inr (Or.inr ⟨rfl, rfl⟩))⟩

/-! ### C11 -/

theorem tdiv_two (x : Int) : x.tdiv 2 = if 0 ≤ x then x / 2 else -((-x) / 2) := by
  by_cases h : 0 ≤ x
  · rw [if_pos h]
    exact Int.tdiv_eq_ediv h (by decide)
  · rw [if_neg h]
    have e : x = -(-x) := by omega
    conv_lhs => rw [e]
    rw [Int.neg_tdiv, Int.tdiv_eq_ediv (by omega) (by decide)]

theorem emod_of_rep (E m r c : Int) (h : E = r + c * m) (h0 : 0 ≤ r) (h1 : r < m) :
    E % m = r := by
  subst h
  rw [Int.add_mul_emod_self, Int.emod_eq_of_lt h0 h1]

/-- Claim C11, as the code behaves: for `numDopplerBins = 2 ^ p` with `1 ≤ p ≤ 30`, a Doppler
index `d < 2 ^ p` and at least one antenna, the table index `k` and the odd flag of
`OdsDemo_addDopplerCompensation` satisfy `2 * k + flag = s (mod 2 * N)` for the signed index
`s` exactly when `d` is even or `d < N / 2`; for an odd `d` in the upper half the value
`2 * k + flag` is congruent to `s + 2` instead, one whole bin away from half the signed
index. -/
theorem C11_doppler_compensation_index (p d numAnt : Nat) (hp1 : 1 ≤ p) (hp : p ≤ 30)
    (hd : d < 2 ^ p) (hAnt : numAnt ≠ 0) :
    ∃ k flag : Int,
      OdsDemo_addDopplerCompensation.lookup (d : Int) ((2 ^ p : Nat) : Int) numAnt
        = some (k, flag) ∧
      (2 * k + flag - (if d < 2 ^ p / 2 then (d : Int) else (d : Int) - ((2 ^ p : Nat) : Int)))
          % (2 * ((2 ^ p : Nat) : Int))
        = if d % 2 = 1 ∧ 2 ^ p / 2 ≤ d then 2 else 0 := by
  obtain ⟨q, rfl⟩ : ∃ q, p = q + 1 := ⟨p - 1, by omega⟩
  have hN : (2 : Nat) ^ (q + 1) = 2 * 2 ^ q := by rw [pow_succ]; ring
  have hq : 0 < 2 ^ q := Nat.pos_pow_of_pos _ (by decide)
  generalize (2 : Nat) ^ q = M at hN hq
  rw [hN] at hd ⊢
  have _ := hp
  unfold OdsDemo_addDopplerCompensation.lookup
  rw [if_neg hAnt]
  refine ⟨_, _, rfl, ?_⟩
  simp only [tdiv_two]
  push_cast
  split_ifs <;>
    first
    | omega
    | exact emod_of_rep _ _ _ 0 (by omega) (by omega) (by omega)
    | exact emod_of_rep _ _ _ 1 (by omega) (by omega) (by omega)

/-- The failing input of claim C11: with 8 Doppler bins and Doppler index 7 the signed index
is `-1`, the routine reads table entry 0 and applies the half-bin factor, a rotation of `+1`
half bins instead of `-1`. -/
theorem C11_doppler_compensation_index_witness :
    ∃ k flag : Int,
      OdsDemo_addDopplerCompensation.lookup ((7 : Nat) : Int) ((2 ^ 3 : Nat) : Int) 1
        = some (k, flag) ∧
      (2 * k + flag - (if 7 < 2 ^ 3 / 2 then ((7 : Nat) : Int)
          else ((7 : Nat) : Int) - ((2 ^ 3 : Nat) : Int)))
          % (2 * ((2 ^ 3 : Nat) : Int))
        = if 7 % 2 = 1 ∧ 2 ^ 3 / 2 ≤ 7 then 2 else 0 :=
  C11_doppler_compensation_index 3 7 1 (by decide) (by decide) (by decide) (by decide)

/-! ### C14 -/

/-- Claim C14: `OdsDemo_checkDynamicConfigErrors` halts on a failed assertion exactly when
extended maximum velocity is enabled together with multi-object beamforming, near-field
correction or a single transmit antenna; every other configuration passes all three
assertions. -/
theorem C14_checkDynamicConfigErrors_iff (extendedMaxVelocityEnabled multiObjBeamFormingEnabled
    nearFieldCorrectionEnabled numTxAntennas : Nat) :
    OdsDemo_checkDynamicConfigErrors extendedMaxVelocityEnabled multiObjBeamFormingEnabled
        nearFieldCorrectionEnabled numTxAntennas
      = if extendedMaxVelocityEnabled = 1 ∧
            (multiObjBeamFormingEnabled = 1 ∨ nearFieldCorrectionEnabled = 1 ∨
              numTxAntennas = 1)
        then .error .assertFailed else .ok () := by
  unfold OdsDemo_checkDynamicConfigErrors OdsDemo_dssAssert
  by_cases h1 : extendedMaxVelocityEnabled = 1 <;>
    by_cases h2 : multiObjBeamFormingEnabled = 1 <;>
    by_cases h3 : nearFieldCorrectionEnabled = 1 <;>
    by_cases h4 : numTxAntennas = 1 <;>
    simp [h1, h2, h3, h4] <;> rfl

/-! ### C19 -/

theorem sentinel_iff (q : Nat) (hq : q ≤ 30) :
    wrapInt16 (ROUND (wrapInt32 (1000 * ONE_QFORMAT q))) = 1000 * 2 ^ q ↔ q ≤ 5 := by
  simp only [ROUND, ONE_QFORMAT]
  interval_cases q <;> norm_num [wrapInt16, wrapInt32]

/-- Claim C19, as the code behaves: for a shift count `xyzOutputQFormat ≤ 30`, the three
16-bit values stored by `OdsDemo_angleEstimationAzimElev` for an object whose angle cannot be
computed equal `1000 * 2 ^ xyzOutputQFormat` exactly when `xyzOutputQFormat ≤ 5`; from 6 on
the sentinel does not fit in 16 bits. -/
theorem C19_unresolvable_sentinel (detObj2D : Nat → OdsDemo_detectedObj)
    (objIndex xyzOutputQFormat : Nat) (hq : xyzOutputQFormat ≤ 30) :
    ((OdsDemo_angleEstimationAzimElev.unresolvable detObj2D objIndex xyzOutputQFormat
          objIndex).x = 1000 * 2 ^ xyzOutputQFormat ∧
      (OdsDemo_angleEstimationAzimElev.unresolvable detObj2D objIndex xyzOutputQFormat
          objIndex).y = 1000 * 2 ^ xyzOutputQFormat ∧
      (OdsDemo_angleEstimationAzimElev.unresolvable detObj2D objIndex xyzOutputQFormat
          objIndex).z = 1000 * 2 ^ xyzOutputQFormat) ↔ xyzOutputQFormat ≤ 5 := by
  have h := sentinel_iff xyzOutputQFormat hq
  simp only [OdsDemo_angleEstimationAzimElev.unresolvable, Function.update_same]
  tauto

/-- The failing input of claim C19: with `xyzOutputQFormat = 9` the stored values are not
`1000 * 2 ^ 9 = 512000`. -/
theorem C19_unresolvable_sentinel_witness :
    ((OdsDemo_angleEstimationAzimElev.unresolvable sampleObjOut 0 9 0).x = 1000 * 2 ^ 9 ∧
      (OdsDemo_angleEstimationAzimElev.unresolvable sampleObjOut 0 9 0).y = 1000 * 2 ^ 9 ∧
      (OdsDemo_angleEstimationAzimElev.unresolvable sampleObjOut 0 9 0).z = 1000 * 2 ^ 9)
      ↔ 9 ≤ 5 :=
  C19_unresolvable_sentinel sampleObjOut 0 9 (by decide)

/-! ### C20 -/

/-- Claim C20, as the code behaves: `OdsDemo_XYcalc` and `OdsDemo_Yestimation` use the
range `max 0 (rangeIdx * rangeResolution - rangeBias)`, while the range of
`OdsDemo_angleEstimationAzimElev` is `rangeIdx * rangeResolution`, which differs from the
bias-compensated range whenever the bias and the uncompensated range are positive. -/
theorem C20_range_bias_not_applied (rangeIdx : Nat) (rangeResolution rangeBias : ℚ)
    (hb : 0 < rangeBias) (hr : 0 < (rangeIdx : ℚ) * rangeResolution) :
    OdsDemo_XYcalc.range rangeIdx rangeResolution rangeBias
        = max 0 ((rangeIdx : ℚ) * rangeResolution - rangeBias) ∧
      OdsDemo_Yestimation.range rangeIdx rangeResolution rangeBias
        = max 0 ((rangeIdx : ℚ) * rangeResolution - rangeBias) ∧
      OdsDemo_angleEstimationAzimElev.range rangeIdx rangeResolution
        = (rangeIdx : ℚ) * rangeResolution ∧
      OdsDemo_angleEstimationAzimElev.range rangeIdx rangeResolution
        ≠ max 0 ((rangeIdx : ℚ) * rangeResolution - rangeBias) := by
  have hmax : ∀ t : ℚ, (if t < 0 then 0 else t) = max 0 t := by
    intro t
    split_ifs with h
    · exact (max_eq_left h.le).symm
    · exact (max_eq_right (not_lt.mp h)).symm
  refine ⟨hmax _, hmax _, rfl, ?_⟩
  unfold OdsDemo_angleEstimationAzimElev.range
  intro h
  rcases max_cases (0 : ℚ) ((rangeIdx : ℚ) * rangeResolution - rangeBias) with h1 | h1
  · rw [h1.1] at h; linarith
  · rw [h1.1] at h; linarith

/-- The failing input of claim C20: range index 10, range resolution 1 and range bias 2 give
the range 8 in `OdsDemo_XYcalc` and 10 in `OdsDemo_angleEstimationAzimElev`. -/
theorem C20_range_bias_not_applied_witness :
    OdsDemo_XYcalc.range 10 1 2 = max 0 (((10 : Nat) : ℚ) * 1 - 2) ∧
      OdsDemo_Yestimation.range 10 1 2 = max 0 (((10 : Nat) : ℚ) * 1 - 2) ∧
      OdsDemo_angleEstimationAzimElev.range 10 1 = ((10 : Nat) : ℚ) * 1 ∧
      OdsDemo_angleEstimationAzimElev.range 10 1 ≠ max 0 (((10 : Nat) : ℚ) * 1 - 2) :=
  C20_range_bias_not_applied 10 1 2 (by norm_num) (by norm_num)

/-! ### C17 -/

/-- Claim C17 at its failing input: for the spectrum `1, 2, 5, 3, 1, 1, 1, 1` over 8 angle
bins, with multi-object beamforming enabled, extended velocity disabled and a threshold of
half the first peak, the first peak is bin 2, the two edge scans run past each other
(`leftSearchIdx = 1`, `rightSearchIdx = 3`), the searched arc `1, 2, 3` contains the first
peak, the second peak is again bin 2, and a second object with angle bin 2 is appended. -/
theorem C17_second_peak_repeats_first :
    (OdsDemo_XYestimation.firstPeak singlePeakSpectrum 8).1 = 2 ∧
    OdsDemo_XYestimation.rightEdge singlePeakSpectrum 8 8 2 3 = 1 ∧
    OdsDemo_XYestimation.leftEdge singlePeakSpectrum 8 8 2 1 = 3 ∧
    (OdsDemo_XYestimation.secondPeak singlePeakSpectrum 8 2).1 = 2 ∧
    (OdsDemo_XYestimation (fun _ _ _ => (0, 0, 0)) (fun v => v / 2) singlePeakSpectrum
        8 16 8 4 0 1 100 oneObjState 0).numDetObj = 2 ∧
    (OdsDemo_XYestimation (fun _ _ _ => (0, 0, 0)) (fun v => v / 2) singlePeakSpectrum
        8 16 8 4 0 1 100 oneObjState 0).detObj2dAzimIdx 0 = 2 ∧
    (OdsDemo_XYestimation (fun _ _ _ => (0, 0, 0)) (fun v => v / 2) singlePeakSpectrum
        8 16 8 4 0 1 100 oneObjState 0).detObj2dAzimIdx 1 = 2 := by
  refine ⟨by decide, by decide, by decide, by decide, by decide, by decide, by decide⟩

/-! ### C18 -/

theorem XYcalc_numDetObj {α : Type} (coords : Nat → Nat → α → Nat × Int × Int)
    (obj : DetObjState) (objIndex azimIdx : Nat) (maxVal : α) :
    (OdsDemo_XYcalc coords obj objIndex azimIdx maxVal).numDetObj = obj.numDetObj := rfl

theorem XYcalc_rangeIdx {α : Type} (coords : Nat → Nat → α → Nat × Int × Int)
    (obj : DetObjState) (objIndex azimIdx : Nat) (maxVal : α) (j : Nat) :
    ((OdsDemo_XYcalc coords obj objIndex azimIdx maxVal).detObj2D j).rangeIdx
      = (obj.detObj2D j).rangeIdx := by
  unfold OdsDemo_XYcalc
  by_cases h : j = objIndex
  · subst h; simp
  · simp [Function.update_noteq h]

theorem XYcalc_dopplerIdx {α : Type} (coords : Nat → Nat → α → Nat × Int × Int)
    (obj : DetObjState) (objIndex azimIdx : Nat) (maxVal : α) (j : Nat) :
    ((OdsDemo_XYcalc coords obj objIndex azimIdx maxVal).detObj2D j).dopplerIdx
      = (obj.detObj2D j).dopplerIdx := by
  unfold OdsDemo_XYcalc
  by_cases h : j = objIndex
  · subst h; simp
  · simp [Function.update_noteq h]

theorem first_numDetObj {α : Type} [LinearOrder α] [Zero α]
    (coords : Nat → Nat → α → Nat × Int × Int) (azimuthMagSqr : Nat → α)
    (N ND NV NR ext : Nat) (obj : DetObjState) (objIndex : Nat) :
    (OdsDemo_XYestimation.first coords azimuthMagSqr N ND NV NR ext obj objIndex).1.numDetObj
      = obj.numDetObj := by
  unfold OdsDemo_XYestimation.first
  simp only [XYcalc_numDetObj]
  split_ifs <;> rfl

theorem first_rangeIdx {α : Type} [LinearOrder α] [Zero α]
    (coords : Nat → Nat → α → Nat × Int × Int) (azimuthMagSqr : Nat → α)
    (N ND NV NR ext : Nat) (obj : DetObjState) (objIndex j : Nat) :
    ((OdsDemo_XYestimation.first coords azimuthMagSqr N ND NV NR ext obj objIndex).1.detObj2D
        j).rangeIdx = (obj.detObj2D j).rangeIdx := by
  unfold OdsDemo_XYestimation.first
  simp only [XYcalc_rangeIdx]
  by_cases h : j = objIndex
  · subst h
    split_ifs <;> simp
  · split_ifs <;> simp [Function.update_noteq h]

theorem first_dopplerIdx {α : Type} [LinearOrder α] [Zero α]
    (coords : Nat → Nat → α → Nat × Int × Int) (azimuthMagSqr : Nat → α)
    (N ND NV NR ext : Nat) (obj : DetObjState) (objIndex j : Nat)
    (h : ext = 0 ∨ j ≠ objIndex) :
    ((OdsDemo_XYestimation.first coords azimuthMagSqr N ND NV NR ext obj objIndex).1.detObj2D
        j).dopplerIdx = (obj.detObj2D j).dopplerIdx := by
  unfold OdsDemo_XYestimation.first
  simp only [XYcalc_dopplerIdx]
  rcases h with h | h
  · subst h
    simp
  · split_ifs <;> simp [Function.update_noteq h]

/-- Claim C18: a call of `OdsDemo_XYestimation` with `numDetObj ≤ MMW_MAX_OBJ_OUT` keeps
`numDetObj ≤ MMW_MAX_OBJ_OUT`; the count grows by one exactly when a second peak is accepted
(which requires `numDetObj < MMW_MAX_OBJ_OUT`) and is unchanged otherwise; an appended record
takes the range and Doppler indices of the first object; every record other than the appended
one keeps its range index, and keeps its Doppler index unless it is the first object of a call
with extended maximum velocity enabled. -/
theorem C18_second_peak_append_bounded {α : Type} [LinearOrder α] [Zero α]
    (coords : Nat → Nat → α → Nat × Int × Int) (thrs : α → α) (azimuthMagSqr : Nat → α)
    (numAngleBins numDopplerBins numVirtualAntAzim numRxAntennas
      extendedMaxVelocityEnabled multiObjBeamFormingEnabled MMW_MAX_OBJ_OUT : Nat)
    (obj : DetObjState) (objIndex : Nat)
    (hM : MMW_MAX_OBJ_OUT < 4294967296) (hle : obj.numDetObj ≤ MMW_MAX_OBJ_OUT) :
    (OdsDemo_XYestimation coords thrs azimuthMagSqr numAngleBins numDopplerBins
        numVirtualAntAzim numRxAntennas extendedMaxVelocityEnabled multiObjBeamFormingEnabled
        MMW_MAX_OBJ_OUT obj objIndex).numDetObj ≤ MMW_MAX_OBJ_OUT ∧
    (OdsDemo_XYestimation coords thrs azimuthMagSqr numAngleBins numDopplerBins
        numVirtualAntAzim numRxAntennas extendedMaxVelocityEnabled multiObjBeamFormingEnabled
        MMW_MAX_OBJ_OUT obj objIndex).numDetObj
      = (if OdsDemo_XYestimation.accepted coords thrs azimuthMagSqr numAngleBins numDopplerBins
          numVirtualAntAzim numRxAntennas extendedMaxVelocityEnabled multiObjBeamFormingEnabled
          MMW_MAX_OBJ_OUT obj objIndex then obj.numDetObj + 1 else obj.numDetObj) ∧
    (OdsDemo_XYestimation.accepted coords thrs azimuthMagSqr numAngleBins numDopplerBins
        numVirtualAntAzim numRxAntennas extendedMaxVelocityEnabled multiObjBeamFormingEnabled
        MMW_MAX_OBJ_OUT obj objIndex →
      ((OdsDemo_XYestimation coords thrs azimuthMagSqr numAngleBins numDopplerBins
          numVirtualAntAzim numRxAntennas extendedMaxVelocityEnabled multiObjBeamFormingEnabled
          MMW_MAX_OBJ_OUT obj objIndex).detObj2D obj.numDetObj).rangeIdx
        = (obj.detObj2D objIndex).rangeIdx ∧
      ((OdsDemo_XYestimation coords thrs azimuthMagSqr numAngleBins numDopplerBins
          numVirtualAntAzim numRxAntennas extendedMaxVelocityEnabled multiObjBeamFormingEnabled
          MMW_MAX_OBJ_OUT obj objIndex).detObj2D obj.numDetObj).dopplerIdx
        = (obj.detObj2D objIndex).dopplerIdx) ∧
    (∀ j : Nat,
      (OdsDemo_XYestimation.accepted coords thrs azimuthMagSqr numAngleBins numDopplerBins
          numVirtualAntAzim numRxAntennas extendedMaxVelocityEnabled multiObjBeamFormingEnabled
          MMW_MAX_OBJ_OUT obj objIndex → j ≠ obj.numDetObj) →
      ((OdsDemo_XYestimation coords thrs azimuthMagSqr numAngleBins numDopplerBins
          numVirtualAntAzim numRxAntennas extendedMaxVelocityEnabled multiObjBeamFormingEnabled
          MMW_MAX_OBJ_OUT obj objIndex).detObj2D j).rangeIdx = (obj.detObj2D j).rangeIdx ∧
      (extendedMaxVelocityEnabled = 0 ∨ j ≠ objIndex →
        ((OdsDemo_XYestimation coords thrs azimuthMagSqr numAngleBins numDopplerBins
            numVirtualAntAzim numRxAntennas extendedMaxVelocityEnabled
            multiObjBeamFormingEnabled MMW_MAX_OBJ_OUT obj objIndex).detObj2D j).dopplerIdx
          = (obj.detObj2D j).dopplerIdx)) := by
  have hn := first_numDetObj coords azimuthMagSqr numAngleBins numDopplerBins
    numVirtualAntAzim numRxAntennas extendedMaxVelocityEnabled obj objIndex
  have hr := first_rangeIdx coords azimuthMagSqr numAngleBins numDopplerBins
    numVirtualAntAzim numRxAntennas extendedMaxVelocityEnabled obj objIndex
  have hd := first_dopplerIdx coords azimuthMagSqr numAngleBins numDopplerBins
    numVirtualAntAzim numRxAntennas extendedMaxVelocityEnabled obj objIndex
  by_cases hacc : OdsDemo_XYestimation.accepted coords thrs azimuthMagSqr numAngleBins
      numDopplerBins numVirtualAntAzim numRxAntennas extendedMaxVelocityEnabled
      multiObjBeamFormingEnabled MMW_MAX_OBJ_OUT obj objIndex
  · have hacc' := hacc
    unfold OdsDemo_XYestimation.accepted at hacc'
    obtain ⟨hm, he, ht, hlt⟩ := hacc'
    rw [if_pos hacc]
    unfold OdsDemo_XYestimation
    simp only []
    rw [if_pos ⟨hm, by simp [he]⟩, if_pos ⟨ht, by rw [hn]; exact hlt⟩]
    simp only [XYcalc_numDetObj, XYcalc_rangeIdx, XYcalc_dopplerIdx]
    have hd0 := hd objIndex (Or.inl he)
    clear ht
    generalize OdsDemo_XYestimation.first coords azimuthMagSqr numAngleBins numDopplerBins
      numVirtualAntAzim numRxAntennas extendedMaxVelocityEnabled obj objIndex = s
      at hn hr hd hd0 ⊢
    obtain ⟨⟨dO, dA, n⟩, a, m⟩ := s
    simp only at hn hr hd hd0 ⊢
    subst hn
    have ha : addU32 obj.numDetObj 1 = obj.numDetObj + 1 := by
      unfold addU32
      exact Nat.mod_eq_of_lt (by omega)
    refine ⟨by rw [ha]; omega, ha, fun _ => ⟨?_, ?_⟩, fun j hj => ⟨?_, fun hx => ?_⟩⟩
    · by_cases hi : objIndex = obj.numDetObj
      · rw [hi]; simp [hr]
      · simp [Function.update_noteq hi, hr]
    · by_cases hi : objIndex = obj.numDetObj
      · rw [hi] at hd0 ⊢; simp [hd0]
      · simp [Function.update_noteq hi, hd0]
    · simp [Function.update_noteq (hj hacc), hr]
    · simp [Function.update_noteq (hj hacc), hd j hx]
  · have hres : OdsDemo_XYestimation coords thrs azimuthMagSqr numAngleBins numDopplerBins
        numVirtualAntAzim numRxAntennas extendedMaxVelocityEnabled multiObjBeamFormingEnabled
        MMW_MAX_OBJ_OUT obj objIndex
        = (OdsDemo_XYestimation.first coords azimuthMagSqr numAngleBins numDopplerBins
          numVirtualAntAzim numRxAntennas extendedMaxVelocityEnabled obj objIndex).1 := by
      unfold OdsDemo_XYestimation
      simp only []
      unfold OdsDemo_XYestimation.accepted at hacc
      split_ifs with c1 c2
      · exfalso
        apply hacc
        refine ⟨c1.1, by simpa using c1.2, c2.1, ?_⟩
        rw [← hn]; exact c2.2
      · rfl
      · rfl
    rw [hres, if_neg hacc, hn]
    exact ⟨hle, rfl, fun h => absurd h hacc, fun j _ => ⟨hr j, fun hx => hd j hx⟩⟩

/-- Claim C18 on the single-peak spectrum with one stored object and room for 100: the count
stays within the capacity and grows by one exactly when the second peak is accepted. -/
theorem C18_second_peak_append_bounded_witness :
    100 < 4294967296 ∧ oneObjState.numDetObj ≤ 100 ∧
    (OdsDemo_XYestimation (fun _ _ _ => (0, 0, 0)) (fun v => v / 2) singlePeakSpectrum
        8 16 8 4 0 1 100 oneObjState 0).numDetObj ≤ 100 ∧
    (OdsDemo_XYestimation (fun _ _ _ => (0, 0, 0)) (fun v => v / 2) singlePeakSpectrum
        8 16 8 4 0 1 100 oneObjState 0).numDetObj
      = (if OdsDemo_XYestimation.accepted (fun _ _ _ => (0, 0, 0)) (fun v => v / 2)
          singlePeakSpectrum 8 16 8 4 0 1 100 oneObjState 0
        then oneObjState.numDetObj + 1 else oneObjState.numDetObj) :=
  ⟨by decide, by decide,
    (C18_second_peak_append_bounded (fun _ _ _ => (0, 0, 0)) (fun v => v / 2)
      singlePeakSpectrum 8 16 8 4 0 1 100 oneObjState 0 (by decide) (by decide)).1,
    (C18_second_peak_append_bounded (fun _ _ _ => (0, 0, 0)) (fun v => v / 2)
      singlePeakSpectrum 8 16 8 4 0 1 100 oneObjState 0 (by decide) (by decide)).2.1⟩

/-! ### C13 -/

theorem wrapInt16_wrapInt32 (x : Int) : wrapInt16 (wrapInt32 x) = wrapInt16 x := by
  unfold wrapInt16 wrapInt32
  omega

theorem subtractBand_spec (mean : Nat → cmplx32ImRe_t) (MB FB : Nat) :
    ∀ (count : Nat) (st : (Nat → cmplx16ReIm_t) × Nat),
      OdsDemo_dcRangeSignatureCompensation.subtractBand mean MB FB count st
        = (fun a => if FB ≤ a ∧ a < FB + count then
              dcSubtract (st.1 a) (mean (MB + st.2 + (a - FB)))
            else st.1 a, st.2 + count) := by
  intro count
  induction count with
  | zero =>
    intro st
    unfold OdsDemo_dcRangeSignatureCompensation.subtractBand
    rw [List.range_zero, List.foldl_nil]
    refine Prod.ext ?_ rfl
    funext a
    show st.1 a = if FB ≤ a ∧ a < FB + 0 then _ else _
    rw [if_neg (by omega)]
  | succ k ih =>
    intro st
    have ih' := ih st
    unfold OdsDemo_dcRangeSignatureCompensation.subtractBand at ih' ⊢
    rw [List.range_succ, List.foldl_append, ih']
    simp only [List.foldl_cons, List.foldl_nil]
    refine Prod.ext ?_ (by simp only []; omega)
    funext a
    simp only [Function.update_apply, wrapInt16_wrapInt32]
    by_cases ha : a = FB + k
    · subst ha
      rw [if_pos rfl, if_neg (by omega), if_pos (by omega)]
      unfold dcSubtract
      have e : MB + st.2 + (FB + k - FB) = MB + (st.2 + k) := by omega
      rw [e]
    · rw [if_neg ha]
      by_cases hb : FB ≤ a ∧ a < FB + k
      · rw [if_pos hb, if_pos (by omega)]
      · rw [if_neg hb, if_neg (by omega)]

theorem dc_offsets (cfg : DcRangeSigCfg) (id n rx : Nat)
    (hneg : cfg.negativeBinIdx = -(n : Int))
    (hband : cfg.positiveBinIdx + n < cfg.numRangeBins)
    (hfft : 2 * (cfg.numRxAntennas * cfg.numRangeBins) < 4294967296)
    (hid : id ≤ 1) (hrx : rx < cfg.numRxAntennas) :
    OdsDemo_dcRangeSignatureCompensation.chirpInOffs cfg id rx
        = id * (cfg.numRxAntennas * cfg.numRangeBins) + cfg.numRangeBins * rx ∧
      OdsDemo_dcRangeSignatureCompensation.chirpInOffsNeg cfg id rx
        = id * (cfg.numRxAntennas * cfg.numRangeBins) + cfg.numRangeBins * rx
          + (cfg.numRangeBins - n) ∧
      u32 (-cfg.negativeBinIdx) = n := by
  have hX : cfg.numRangeBins * (rx + 1) ≤ cfg.numRangeBins * cfg.numRxAntennas :=
    Nat.mul_le_mul_left _ hrx
  rw [Nat.mul_succ, Nat.mul_comm cfg.numRangeBins cfg.numRxAntennas] at hX
  have hI : id * (cfg.numRxAntennas * cfg.numRangeBins)
      ≤ cfg.numRxAntennas * cfg.numRangeBins := by
    rcases (show id = 0 ∨ id = 1 by omega) with h | h <;> subst h <;> simp
  have e1 : OdsDemo_dcRangeSignatureCompensation.chirpInOffs cfg id rx
      = id * (cfg.numRxAntennas * cfg.numRangeBins) + cfg.numRangeBins * rx := by
    unfold OdsDemo_dcRangeSignatureCompensation.chirpInOffs
    rw [Nat.mod_eq_of_lt (show cfg.numRxAntennas * cfg.numRangeBins < 4294967296 by omega),
      Nat.mod_eq_of_lt (show id * (cfg.numRxAntennas * cfg.numRangeBins) < 4294967296 by omega),
      Nat.mod_eq_of_lt (show cfg.numRangeBins * rx < 4294967296 by omega),
      Nat.mod_eq_of_lt (by omega)]
  refine ⟨e1, ?_, ?_⟩
  · unfold OdsDemo_dcRangeSignatureCompensation.chirpInOffsNeg u32
    rw [e1, hneg]
    omega
  · unfold u32
    rw [hneg]
    omega

theorem dc_meanBase (cfg : DcRangeSigCfg) (id n : Nat)
    (hneg : cfg.negativeBinIdx = -(n : Int))
    (hband : cfg.positiveBinIdx + n < cfg.numRangeBins)
    (hfft : 2 * (cfg.numRxAntennas * cfg.numRangeBins) < 4294967296)
    (hid : id ≤ 1) :
    (wrapInt32 ((id : Int) * OdsDemo_dcRangeSignatureCompensation.chirpPingPongSize cfg)).toNat
      = id * (cfg.numRxAntennas * (cfg.positiveBinIdx + n + 1)) := by
  have hW : cfg.numRxAntennas * (cfg.positiveBinIdx + n + 1)
      ≤ cfg.numRxAntennas * cfg.numRangeBins := Nat.mul_le_mul_left _ (by omega)
  have e : ((cfg.numRxAntennas : Int) * ((cfg.positiveBinIdx : Int) - cfg.negativeBinIdx + 1))
      = ((cfg.numRxAntennas * (cfg.positiveBinIdx + n + 1) : Nat) : Int) := by
    rw [hneg]; push_cast; ring
  unfold OdsDemo_dcRangeSignatureCompensation.chirpPingPongSize
  rw [e]
  generalize cfg.numRxAntennas * (cfg.positiveBinIdx + n + 1) = S at hW ⊢
  have hS : wrapInt32 (S : Int) = S := wrapInt32_of_isInt32 _ (by unfold isInt32; omega)
  rw [hS]
  rcases (show id = 0 ∨ id = 1 by omega) with h | h <;> subst h
  · simp [wrapInt32]
  · simp only [Nat.cast_one, one_mul, Nat.one_mul]
    rw [hS]
    simp

theorem row_le (NRB rx R : Nat) (h : rx < R) : NRB * rx + NRB ≤ NRB * R := by
  have := Nat.mul_le_mul_left NRB (Nat.succ_le_of_lt h)
  rwa [Nat.mul_succ] at this

theorem subtract_loop (mean : Nat → cmplx32ImRe_t) (fft0 : Nat → cmplx16ReIm_t)
    (MB B NRB pos n : Nat) (hband : pos + n < NRB) (R : Nat) :
    ((List.range R).foldl
        (fun st rx =>
          OdsDemo_dcRangeSignatureCompensation.subtractBand mean MB (B + NRB * rx + (NRB - n)) n
            (OdsDemo_dcRangeSignatureCompensation.subtractBand mean MB (B + NRB * rx) (pos + 1)
              st))
        (fft0, 0)).2 = R * (pos + n + 1) ∧
    (∀ rx, rx < R → ∀ p, p ≤ pos →
      ((List.range R).foldl
        (fun st rx =>
          OdsDemo_dcRangeSignatureCompensation.subtractBand mean MB (B + NRB * rx + (NRB - n)) n
            (OdsDemo_dcRangeSignatureCompensation.subtractBand mean MB (B + NRB * rx) (pos + 1)
              st))
        (fft0, 0)).1 (B + NRB * rx + p)
        = dcSubtract (fft0 (B + NRB * rx + p)) (mean (MB + rx * (pos + n + 1) + p))) ∧
    (∀ rx, rx < R → ∀ q, q < n →
      ((List.range R).foldl
        (fun st rx =>
          OdsDemo_dcRangeSignatureCompensation.subtractBand mean MB (B + NRB * rx + (NRB - n)) n
            (OdsDemo_dcRangeSignatureCompensation.subtractBand mean MB (B + NRB * rx) (pos + 1)
              st))
        (fft0, 0)).1 (B + NRB * rx + (NRB - n) + q)
        = dcSubtract (fft0 (B + NRB * rx + (NRB - n) + q))
            (mean (MB + rx * (pos + n + 1) + (pos + 1) + q))) ∧
    (∀ a, (∀ rx, rx < R → (∀ p, p ≤ pos → a ≠ B + NRB * rx + p) ∧
        (∀ q, q < n → a ≠ B + NRB * rx + (NRB - n) + q)) →
      ((List.range R).foldl
        (fun st rx =>
          OdsDemo_dcRangeSignatureCompensation.subtractBand mean MB (B + NRB * rx + (NRB - n)) n
            (OdsDemo_dcRangeSignatureCompensation.subtractBand mean MB (B + NRB * rx) (pos + 1)
              st))
        (fft0, 0)).1 a = fft0 a) := by
  induction R with
  | zero =>
    refine ⟨by simp, fun rx h => absurd h (Nat.not_lt_zero _),
      fun rx h => absurd h (Nat.not_lt_zero _), fun a _ => by simp⟩
  | succ R ih =>
    rw [List.range_succ, List.foldl_append]
    simp only [List.foldl_cons, List.foldl_nil]
    generalize (List.range R).foldl
        (fun st rx =>
          OdsDemo_dcRangeSignatureCompensation.subtractBand mean MB (B + NRB * rx + (NRB - n)) n
            (OdsDemo_dcRangeSignatureCompensation.subtractBand mean MB (B + NRB * rx) (pos + 1)
              st))
        (fft0, 0) = S at ih ⊢
    obtain ⟨i2, i1, i3, i4⟩ := ih
    rw [subtractBand_spec, subtractBand_spec]
    simp only []
    have hW : (R + 1) * (pos + n + 1) = R * (pos + n + 1) + (pos + n + 1) := Nat.succ_mul _ _
    refine ⟨by rw [i2, hW]; omega, ?_, ?_, ?_⟩
    · intro rx hrx p hp
      rcases Nat.lt_succ_iff_lt_or_eq.mp hrx with h | h
      · have := row_le NRB rx R h
        rw [if_neg (by omega), if_neg (by omega)]
        exact i1 rx h p hp
      · subst h
        rw [if_neg (by omega), if_pos (by omega), i2]
        have e : MB + rx * (pos + n + 1) + (B + NRB * rx + p - (B + NRB * rx))
            = MB + rx * (pos + n + 1) + p := by omega
        rw [e, i4]
        intro r hr
        have := row_le NRB r rx hr
        exact ⟨fun p' hp' => by omega, fun q hq => by omega⟩
    · intro rx hrx q hq
      rcases Nat.lt_succ_iff_lt_or_eq.mp hrx with h | h
      · have := row_le NRB rx R h
        rw [if_neg (by omega), if_neg (by omega)]
        exact i3 rx h q hq
      · subst h
        rw [if_pos (by omega), if_neg (by omega), i2]
        have e : MB + (rx * (pos + n + 1) + (pos + 1))
              + (B + NRB * rx + (NRB - n) + q - (B + NRB * rx + (NRB - n)))
            = MB + rx * (pos + n + 1) + (pos + 1) + q := by omega
        rw [e, i4]
        intro r hr
        have := row_le NRB r rx hr
        exact ⟨fun p' hp' => by omega, fun q' hq' => by omega⟩
    · intro a ha
      have hR := ha R (Nat.lt_succ_self R)
      have h1 : ¬ (B + NRB * R + (NRB - n) ≤ a ∧ a < B + NRB * R + (NRB - n) + n) := by
        intro hc
        exact hR.2 (a - (B + NRB * R + (NRB - n))) (by omega) (by omega)
      have h2 : ¬ (B + NRB * R ≤ a ∧ a < B + NRB * R + (pos + 1)) := by
        intro hc
        exact hR.1 (a - (B + NRB * R)) (by omega) (by omega)
      rw [if_neg h1, if_neg h2]
      exact i4 a (fun rx hrx => ha rx (Nat.lt_succ_of_lt hrx))

/-- Claim C13: after the warm-up window, with the counter at
`numAvgChirps * numTxAntennas > 0`, a call of `OdsDemo_dcRangeSignatureCompensation` for the
ping/pong half `chirpPingPongId ≤ 1` with calibration bands that do not overlap
(`positiveBinIdx - negativeBinIdx < numRangeBins`) leaves `dcRangeSigMean` and the counter
unchanged, replaces the bins `0 .. positiveBinIdx` and
`numRangeBins + negativeBinIdx .. numRangeBins - 1` of every receive antenna of that half by
the bin minus the mean entry of the same antenna and bin, truncated to 16 bits per component,
and leaves every other element of `fftOut1D` unchanged. -/
theorem C13_subtract_after_warmup (cfg : DcRangeSigCfg) (obj : DcRangeSigState)
    (chirpPingPongId n : Nat)
    (hneg : cfg.negativeBinIdx = -(n : Int))
    (hband : cfg.positiveBinIdx + n < cfg.numRangeBins)
    (hfft : 2 * (cfg.numRxAntennas * cfg.numRangeBins) < 4294967296)
    (hid : chirpPingPongId ≤ 1)
    (hpos : 0 < cfg.numAvgChirps * cfg.numTxAntennas)
    (hlt : cfg.numAvgChirps * cfg.numTxAntennas < 4294967296)
    (hcnt : obj.dcRangeSigCalibCntr = cfg.numAvgChirps * cfg.numTxAntennas) :
    (OdsDemo_dcRangeSignatureCompensation cfg obj chirpPingPongId).dcRangeSigMean
        = obj.dcRangeSigMean ∧
    (OdsDemo_dcRangeSignatureCompensation cfg obj chirpPingPongId).dcRangeSigCalibCntr
        = obj.dcRangeSigCalibCntr ∧
    (∀ rxAntIdx, rxAntIdx < cfg.numRxAntennas → ∀ binIdx, binIdx ≤ cfg.positiveBinIdx →
      (OdsDemo_dcRangeSignatureCompensation cfg obj chirpPingPongId).fftOut1D
          (chirpPingPongId * (cfg.numRxAntennas * cfg.numRangeBins)
            + cfg.numRangeBins * rxAntIdx + binIdx)
        = dcSubtract
            (obj.fftOut1D (chirpPingPongId * (cfg.numRxAntennas * cfg.numRangeBins)
              + cfg.numRangeBins * rxAntIdx + binIdx))
            (obj.dcRangeSigMean
              (chirpPingPongId * (cfg.numRxAntennas * (cfg.positiveBinIdx + n + 1))
                + rxAntIdx * (cfg.positiveBinIdx + n + 1) + binIdx))) ∧
    (∀ rxAntIdx, rxAntIdx < cfg.numRxAntennas → ∀ binIdx, binIdx < n →
      (OdsDemo_dcRangeSignatureCompensation cfg obj chirpPingPongId).fftOut1D
          (chirpPingPongId * (cfg.numRxAntennas * cfg.numRangeBins)
            + cfg.numRangeBins * rxAntIdx + (cfg.numRangeBins - n) + binIdx)
        = dcSubtract
            (obj.fftOut1D (chirpPingPongId * (cfg.numRxAntennas * cfg.numRangeBins)
              + cfg.numRangeBins * rxAntIdx + (cfg.numRangeBins - n) + binIdx))
            (obj.dcRangeSigMean
              (chirpPingPongId * (cfg.numRxAntennas * (cfg.positiveBinIdx + n + 1))
                + rxAntIdx * (cfg.positiveBinIdx + n + 1) + (cfg.positiveBinIdx + 1)
                + binIdx))) ∧
    (∀ a,
      (∀ rxAntIdx, rxAntIdx < cfg.numRxAntennas →
        (∀ binIdx, binIdx ≤ cfg.positiveBinIdx →
          a ≠ chirpPingPongId * (cfg.numRxAntennas * cfg.numRangeBins)
            + cfg.numRangeBins * rxAntIdx + binIdx) ∧
        (∀ binIdx, binIdx < n →
          a ≠ chirpPingPongId * (cfg.numRxAntennas * cfg.numRangeBins)
            + cfg.numRangeBins * rxAntIdx + (cfg.numRangeBins - n) + binIdx)) →
      (OdsDemo_dcRangeSignatureCompensation cfg obj chirpPingPongId).fftOut1D a
        = obj.fftOut1D a) := by
  have hc0 : ¬ obj.dcRangeSigCalibCntr = 0 := by omega
  have hc1 : ¬ obj.dcRangeSigCalibCntr
      < cfg.numAvgChirps * cfg.numTxAntennas % 4294967296 := by
    rw [Nat.mod_eq_of_lt hlt]; omega
  have hfold : ∀ (mean : Nat → cmplx32ImRe_t) (MB : Nat),
      (List.range cfg.numRxAntennas).foldl
        (fun st rxAntIdx =>
          OdsDemo_dcRangeSignatureCompensation.subtractBand mean MB
            (OdsDemo_dcRangeSignatureCompensation.chirpInOffsNeg cfg chirpPingPongId rxAntIdx)
            (u32 (-cfg.negativeBinIdx))
            (OdsDemo_dcRangeSignatureCompensation.subtractBand mean MB
              (OdsDemo_dcRangeSignatureCompensation.chirpInOffs cfg chirpPingPongId rxAntIdx)
              (cfg.positiveBinIdx + 1) st))
        (obj.fftOut1D, 0)
      = (List.range cfg.numRxAntennas).foldl
        (fun st rx =>
          OdsDemo_dcRangeSignatureCompensation.subtractBand mean MB
            (chirpPingPongId * (cfg.numRxAntennas * cfg.numRangeBins) + cfg.numRangeBins * rx
              + (cfg.numRangeBins - n)) n
            (OdsDemo_dcRangeSignatureCompensation.subtractBand mean MB
              (chirpPingPongId * (cfg.numRxAntennas * cfg.numRangeBins)
                + cfg.numRangeBins * rx) (cfg.positiveBinIdx + 1) st))
        (obj.fftOut1D, 0) := by
    intro mean MB
    apply List.foldl_ext
    intro st rx hrx
    have h := dc_offsets cfg chirpPingPongId n rx hneg hband hfft hid (List.mem_range.mp hrx)
    rw [h.1, h.2.1, h.2.2]
  have hspec := subtract_loop obj.dcRangeSigMean obj.fftOut1D
    (chirpPingPongId * (cfg.numRxAntennas * (cfg.positiveBinIdx + n + 1)))
    (chirpPingPongId * (cfg.numRxAntennas * cfg.numRangeBins)) cfg.numRangeBins
    cfg.positiveBinIdx n hband cfg.numRxAntennas
  unfold OdsDemo_dcRangeSignatureCompensation
  simp only [if_neg hc0, if_neg hc1, dc_meanBase cfg chirpPingPongId n hneg hband hfft hid,
    hfold]
  exact ⟨trivial, trivial, hspec.2.1, hspec.2.2.1, hspec.2.2.2⟩

/-- Claim C13 on `sampleDcCfg` for the pong half: the mean and the counter are unchanged, and
bin 0 of receive antenna 1 becomes the bin minus its mean entry. -/
theorem C13_subtract_after_warmup_witness :
    sampleDcCfg.negativeBinIdx = -((1 : Nat) : Int) ∧
    sampleDcCfg.positiveBinIdx + 1 < sampleDcCfg.numRangeBins ∧
    sampleDcState.dcRangeSigCalibCntr = sampleDcCfg.numAvgChirps * sampleDcCfg.numTxAntennas ∧
    (OdsDemo_dcRangeSignatureCompensation sampleDcCfg sampleDcState 1).dcRangeSigMean
        = sampleDcState.dcRangeSigMean ∧
    (OdsDemo_dcRangeSignatureCompensation sampleDcCfg sampleDcState 1).dcRangeSigCalibCntr
        = sampleDcState.dcRangeSigCalibCntr ∧
    (OdsDemo_dcRangeSignatureCompensation sampleDcCfg sampleDcState 1).fftOut1D
          (1 * (sampleDcCfg.numRxAntennas * sampleDcCfg.numRangeBins)
            + sampleDcCfg.numRangeBins * 1 + 0)
        = dcSubtract
            (sampleDcState.fftOut1D (1 * (sampleDcCfg.numRxAntennas * sampleDcCfg.numRangeBins)
              + sampleDcCfg.numRangeBins * 1 + 0))
            (sampleDcState.dcRangeSigMean
              (1 * (sampleDcCfg.numRxAntennas * (sampleDcCfg.positiveBinIdx + 1 + 1))
                + 1 * (sampleDcCfg.positiveBinIdx + 1 + 1) + 0)) :=
  ⟨by decide, by decide, by decide,
    (C13_subtract_after_warmup sampleDcCfg sampleDcState 1 1 (by decide) (by decide)
      (by decide) (by decide) (by decide) (by decide) (by decide)).1,
    (C13_subtract_after_warmup sampleDcCfg sampleDcState 1 1 (by decide) (by decide)
      (by decide) (by decide) (by decide) (by decide) (by decide)).2.1,
    (C13_subtract_after_warmup sampleDcCfg sampleDcState 1 1 (by decide) (by decide)
      (by decide) (by decide) (by decide) (by decide) (by decide)).2.2.1 1 (by decide) 0
      (by decide)⟩

/-! ### C12 -/

/-- Claim C12 at its failing input: with one transmit antenna and 4 averaged chirps whose
bin 0 is 10, 20, 30, 40, the warm-up window ends after 4 calls. The chirps 0 and 2 were
accumulated into entry 0 and the chirps 1 and 3 into entry 1; entry 0 holds
`(10 + 30) >> 2 = 10` and entry 1 holds the undivided sum `20 + 40 = 60`, while the means of
the two accumulated values are `(10 + 30) >> 1 = 20` and `(20 + 40) >> 1 = 30`. -/
theorem C12_single_tx_not_mean :
    (dcRangeSigRun singleTxDcCfg rampChirps 4 0 freshDcState).dcRangeSigCalibCntr = 4 ∧
    (dcRangeSigRun singleTxDcCfg rampChirps 4 0 freshDcState).dcRangeSigMean 0 = ⟨0, 10⟩ ∧
    (dcRangeSigRun singleTxDcCfg rampChirps 4 0 freshDcState).dcRangeSigMean 1 = ⟨0, 60⟩ ∧
    ((10 + 30 : Int) >>> 1 = 20 ∧ (20 + 40 : Int) >>> 1 = 30) := by
  refine ⟨by decide, by decide, by decide, by decide, by decide⟩

/-! ### The allocator -/

theorem and_hi_mask (y k : Nat) (hk : k ≤ 32) (hy : y < 2 ^ 32) :
    y &&& (2 ^ 32 - 2 ^ k) = y - y % 2 ^ k := by
  have e1 : 2 ^ 32 - 2 ^ k = 2 ^ k * (2 ^ (32 - k) - 1) := by
    have : 2 ^ 32 = 2 ^ k * 2 ^ (32 - k) := by rw [← pow_add]; congr 1; omega
    rw [this, Nat.mul_sub, Nat.mul_one]
  have e2 : y - y % 2 ^ k = 2 ^ k * (y / 2 ^ k) := by
    have := Nat.div_add_mod y (2 ^ k)
    omega
  rw [e1, e2]
  apply Nat.eq_of_testBit_eq
  intro i
  rw [Nat.testBit_and, Nat.testBit_mul_pow_two, Nat.testBit_mul_pow_two,
    Nat.testBit_two_pow_sub_one, ← Nat.shiftRight_eq_div_pow, Nat.testBit_shiftRight]
  by_cases h : k ≤ i
  · have hi : k + (i - k) = i := by omega
    by_cases h2 : i < 32
    · simp [h, hi, show i - k < 32 - k by omega]
    · have : y.testBit i = false :=
        Nat.testBit_lt_two_pow (lt_of_lt_of_le hy (Nat.pow_le_pow_right (by decide) (by omega)))
      simp [h, hi, this]
  · simp [h]

theorem ALIGN_spec (x a k : Nat) (ha : a = 2 ^ k) (hk : k ≤ 31)
    (hx : x + (a - 1) < 4294967296) : x ≤ ALIGN x a ∧ ALIGN x a < x + a := by
  have hpos : 0 < a := by rw [ha]; exact Nat.pos_pow_of_pos _ (by decide)
  have hlt : a ≤ 2147483648 := by
    rw [ha]; exact Nat.pow_le_pow_right (by decide) hk
  have e1 : subU32 a 1 = a - 1 := by unfold subU32; omega
  have e2 : addU32 x (a - 1) = x + (a - 1) := by unfold addU32; omega
  have e3 : 4294967295 - (a - 1) = 2 ^ 32 - 2 ^ k := by rw [← ha]; norm_num; omega
  unfold ALIGN
  rw [e1, e2, e3, and_hi_mask _ k (by omega) (by norm_num; omega), ← ha]
  have := Nat.mod_lt (x + (a - 1)) hpos
  omega

theorem alloc_spec (sizeofType startAddr alignment size k : Nat) (hal : alignment = 2 ^ k)
    (hk : k ≤ 31) (hnw : (MMW_ALLOC_BUF sizeofType startAddr alignment size).noWrap) :
    startAddr ≤ (MMW_ALLOC_BUF sizeofType startAddr alignment size).name ∧
      (MMW_ALLOC_BUF sizeofType startAddr alignment size).name_end
        = (MMW_ALLOC_BUF sizeofType startAddr alignment size).name
          + (MMW_ALLOC_BUF sizeofType startAddr alignment size).bytes := by
  unfold Buf.noWrap at hnw
  unfold MMW_ALLOC_BUF at hnw ⊢
  simp only at hnw ⊢
  refine ⟨(ALIGN_spec startAddr alignment k hal hk hnw.1).1, ?_⟩
  unfold addU32
  exact Nat.mod_eq_of_lt hnw.2

theorem layout_facts (cfg : DataPathCfg) (a s : Nat)
    (hdw : cfg.MMWDEMO_MEMORY_ALLOC_DOUBLE_WORD_ALIGN = 2 ^ a) (ha : a ≤ 31)
    (hsa : cfg.MMWDEMO_MEMORY_ALLOC_MAX_STRUCT_ALIGN = 2 ^ s) (hs : s ≤ 31)
    (hnw : ∀ b, (OdsDemo_dataPathConfigBuffers.layout cfg b).noWrap) :
    ∀ b, b ≠ BufName.ADCdataBuf →
      (OdsDemo_dataPathConfigBuffers.layout cfg b).startAddr
          ≤ (OdsDemo_dataPathConfigBuffers.layout cfg b).name ∧
        (OdsDemo_dataPathConfigBuffers.layout cfg b).name_end
          = (OdsDemo_dataPathConfigBuffers.layout cfg b).name
            + (OdsDemo_dataPathConfigBuffers.layout cfg b).bytes := by
  intro b hb
  cases b
  · exact alloc_spec _ _ _ _ a hdw ha (hnw .adcDataIn)
  · exact alloc_spec _ _ _ _ a hdw ha (hnw .dstPingPong)
  · exact alloc_spec _ _ _ _ a hdw ha (hnw .fftOut2D)
  · exact alloc_spec _ _ _ _ a hdw ha (hnw .windowingBuf2D)
  · exact alloc_spec _ _ _ _ a hdw ha (hnw .log2Abs)
  · exact alloc_spec _ _ _ _ a hdw ha (hnw .sumAbs)
  · exact alloc_spec _ _ _ _ s hsa hs (hnw .detObj2DRaw)
  · exact alloc_spec _ _ _ _ a hdw ha (hnw .azimuthIn)
  · exact alloc_spec _ _ _ _ a hdw ha (hnw .azimuthOut)
  · exact alloc_spec _ _ _ _ 2 rfl (by decide) (hnw .azimuthMagSqr)
  · exact alloc_spec _ _ _ _ a hdw ha (hnw .fftOut1D)
  · exact alloc_spec _ _ _ _ 1 rfl (by decide) (hnw .cfarDetObjIndexBuf)
  · exact alloc_spec _ _ _ _ s hsa hs (hnw .dopplerLineMask)
  · exact alloc_spec _ _ _ _ 1 rfl (by decide) (hnw .sumAbsRange)
  · exact alloc_spec _ _ _ _ a hdw ha (hnw .twiddle16x16_1D)
  · exact alloc_spec _ _ _ _ a hdw ha (hnw .window1D)
  · exact alloc_spec _ _ _ _ a hdw ha (hnw .twiddle32x32_2D)
  · exact alloc_spec _ _ _ _ a hdw ha (hnw .window2D)
  · exact alloc_spec _ _ _ _ s hsa hs (hnw .detObj2D)
  · exact alloc_spec _ _ _ _ s hsa hs (hnw .detObj2dAzimIdx)
  · exact alloc_spec _ _ _ _ a hdw ha (hnw .azimuthTwiddle32x32)
  · exact alloc_spec _ _ _ _ a hdw ha (hnw .azimuthModCoefs)
  · exact alloc_spec _ _ _ _ a hdw ha (hnw .dcRangeSigMean)
  · exact absurd rfl hb
  · exact alloc_spec _ _ _ _ a hdw ha (hnw .radarCube)
  · exact alloc_spec _ _ _ _ a hdw ha (hnw .azimuthStaticHeatMap)
  · exact alloc_spec _ _ _ _ 1 rfl (by decide) (hnw .detMatrix)

theorem arena_arith_L1 (adcDataIn dstPingPong fftOut2D windowingBuf2D log2Abs sumAbs detObj2DRaw azimuthIn azimuthOut azimuthMagSqr : Buf) (h c : Nat)
    (k_adcDataIn : (h) ≤ adcDataIn.name ∧ adcDataIn.name_end = adcDataIn.name + adcDataIn.bytes)
    (k_dstPingPong : (h) ≤ dstPingPong.name ∧ dstPingPong.name_end = dstPingPong.name + dstPingPong.bytes)
    (k_fftOut2D : (dstPingPong.name_end) ≤ fftOut2D.name ∧ fftOut2D.name_end = fftOut2D.name + fftOut2D.bytes)
    (k_windowingBuf2D : (fftOut2D.name_end) ≤ windowingBuf2D.name ∧ windowingBuf2D.name_end = windowingBuf2D.name + windowingBuf2D.bytes)
    (k_log2Abs : (fftOut2D.name_end) ≤ log2Abs.name ∧ log2Abs.name_end = log2Abs.name + log2Abs.bytes)
    (k_sumAbs : (max log2Abs.name_end windowingBuf2D.name_end) ≤ sumAbs.name ∧ sumAbs.name_end = sumAbs.name + sumAbs.bytes)
    (k_detObj2DRaw : (h) ≤ detObj2DRaw.name ∧ detObj2DRaw.name_end = detObj2DRaw.name + detObj2DRaw.bytes)
    (k_azimuthIn : (dstPingPong.name_end) ≤ azimuthIn.name ∧ azimuthIn.name_end = azimuthIn.name + azimuthIn.bytes)
    (k_azimuthOut : (azimuthIn.name_end) ≤ azimuthOut.name ∧ azimuthOut.name_end = azimuthOut.name + azimuthOut.bytes)
    (k_azimuthMagSqr : (azimuthOut.name_end) ≤ azimuthMagSqr.name ∧ azimuthMagSqr.name_end = azimuthMagSqr.name + azimuthMagSqr.bytes)
    :
    (h ≤ adcDataIn.name ∧
      h ≤ dstPingPong.name ∧
      h ≤ fftOut2D.name ∧
      h ≤ windowingBuf2D.name ∧
      h ≤ log2Abs.name ∧
      h ≤ sumAbs.name ∧
      h ≤ detObj2DRaw.name ∧
      h ≤ azimuthIn.name ∧
      h ≤ azimuthOut.name ∧
      h ≤ azimuthMagSqr.name) ∧
    (max (max (max sumAbs.name_end adcDataIn.name_end) azimuthMagSqr.name_end)
      detObj2DRaw.name_end ≤ h + c ↔
      (adcDataIn.name_end ≤ h + c ∧
      dstPingPong.name_end ≤ h + c ∧
      fftOut2D.name_end ≤ h + c ∧
      windowingBuf2D.name_end ≤ h + c ∧
      log2Abs.name_end ≤ h + c ∧
      sumAbs.name_end ≤ h + c ∧
      detObj2DRaw.name_end ≤ h + c ∧
      azimuthIn.name_end ≤ h + c ∧
      azimuthOut.name_end ≤ h + c ∧
      azimuthMagSqr.name_end ≤ h + c)) ∧
    h ≤ max (max (max sumAbs.name_end adcDataIn.name_end) azimuthMagSqr.name_end)
      detObj2DRaw.name_end := by
  refine ⟨?_, ⟨?_, ?_⟩, ?_⟩
  · refine ⟨?_, ?_, ?_, ?_, ?_, ?_, ?_, ?_, ?_, ?_⟩ <;> omega
  · intro hc
    refine ⟨?_, ?_, ?_, ?_, ?_, ?_, ?_, ?_, ?_, ?_⟩ <;> omega
  · intro hc
    omega
  · omega

theorem arena_arith_L2 (fftOut1D cfarDetObjIndexBuf dopplerLineMask sumAbsRange twiddle16x16_1D window1D twiddle32x32_2D window2D detObj2D detObj2dAzimIdx azimuthTwiddle32x32 azimuthModCoefs dcRangeSigMean : Buf) (h c : Nat)
    (k_fftOut1D : (h) ≤ fftOut1D.name ∧ fftOut1D.name_end = fftOut1D.name + fftOut1D.bytes)
    (k_cfarDetObjIndexBuf : (h) ≤ cfarDetObjIndexBuf.name ∧ cfarDetObjIndexBuf.name_end = cfarDetObjIndexBuf.name + cfarDetObjIndexBuf.bytes)
    (k_dopplerLineMask : (cfarDetObjIndexBuf.name_end) ≤ dopplerLineMask.name ∧ dopplerLineMask.name_end = dopplerLineMask.name + dopplerLineMask.bytes)
    (k_sumAbsRange : (dopplerLineMask.name_end) ≤ sumAbsRange.name ∧ sumAbsRange.name_end = sumAbsRange.name + sumAbsRange.bytes)
    (k_twiddle16x16_1D : (max fftOut1D.name_end sumAbsRange.name_end) ≤ twiddle16x16_1D.name ∧ twiddle16x16_1D.name_end = twiddle16x16_1D.name + twiddle16x16_1D.bytes)
    (k_window1D : (twiddle16x16_1D.name_end) ≤ window1D.name ∧ window1D.name_end = window1D.name + window1D.bytes)
    (k_twiddle32x32_2D : (window1D.name_end) ≤ twiddle32x32_2D.name ∧ twiddle32x32_2D.name_end = twiddle32x32_2D.name + twiddle32x32_2D.bytes)
    (k_window2D : (twiddle32x32_2D.name_end) ≤ window2D.name ∧ window2D.name_end = window2D.name + window2D.bytes)
    (k_detObj2D : (window2D.name_end) ≤ detObj2D.name ∧ detObj2D.name_end = detObj2D.name + detObj2D.bytes)
    (k_detObj2dAzimIdx : (detObj2D.name_end) ≤ detObj2dAzimIdx.name ∧ detObj2dAzimIdx.name_end = detObj2dAzimIdx.name + detObj2dAzimIdx.bytes)
    (k_azimuthTwiddle32x32 : (detObj2dAzimIdx.name_end) ≤ azimuthTwiddle32x32.name ∧ azimuthTwiddle32x32.name_end = azimuthTwiddle32x32.name + azimuthTwiddle32x32.bytes)
    (k_azimuthModCoefs : (azimuthTwiddle32x32.name_end) ≤ azimuthModCoefs.name ∧ azimuthModCoefs.name_end = azimuthModCoefs.name + azimuthModCoefs.bytes)
    (k_dcRangeSigMean : (azimuthModCoefs.name_end) ≤ dcRangeSigMean.name ∧ dcRangeSigMean.name_end = dcRangeSigMean.name + dcRangeSigMean.bytes)
    :
    (h ≤ fftOut1D.name ∧
      h ≤ cfarDetObjIndexBuf.name ∧
      h ≤ dopplerLineMask.name ∧
      h ≤ sumAbsRange.name ∧
      h ≤ twiddle16x16_1D.name ∧
      h ≤ window1D.name ∧
      h ≤ twiddle32x32_2D.name ∧
      h ≤ window2D.name ∧
      h ≤ detObj2D.name ∧
      h ≤ detObj2dAzimIdx.name ∧
      h ≤ azimuthTwiddle32x32.name ∧
      h ≤ azimuthModCoefs.name ∧
      h ≤ dcRangeSigMean.name) ∧
    (dcRangeSigMean.name_end ≤ h + c ↔
      (fftOut1D.name_end ≤ h + c ∧
      cfarDetObjIndexBuf.name_end ≤ h + c ∧
      dopplerLineMask.name_end ≤ h + c ∧
      sumAbsRange.name_end ≤ h + c ∧
      twiddle16x16_1D.name_end ≤ h + c ∧
      window1D.name_end ≤ h + c ∧
      twiddle32x32_2D.name_end ≤ h + c ∧
      window2D.name_end ≤ h + c ∧
      detObj2D.name_end ≤ h + c ∧
      detObj2dAzimIdx.name_end ≤ h + c ∧
      azimuthTwiddle32x32.name_end ≤ h + c ∧
      azimuthModCoefs.name_end ≤ h + c ∧
      dcRangeSigMean.name_end ≤ h + c)) ∧
    h ≤ dcRangeSigMean.name_end := by
  refine ⟨?_, ⟨?_, ?_⟩, ?_⟩
  · refine ⟨?_, ?_, ?_, ?_, ?_, ?_, ?_, ?_, ?_, ?_, ?_, ?_, ?_⟩ <;> omega
  · intro hc
    refine ⟨?_, ?_, ?_, ?_, ?_, ?_, ?_, ?_, ?_, ?_, ?_, ?_, ?_⟩ <;> omega
  · intro hc
    omega
  · omega

theorem arena_arith_L3 (ADCdataBuf radarCube azimuthStaticHeatMap detMatrix : Buf) (h c : Nat)
    (k_ADCdataBuf : (h) ≤ ADCdataBuf.name ∧ ADCdataBuf.name_end = ADCdataBuf.name + ADCdataBuf.bytes)
    (k_radarCube : (ADCdataBuf.name_end) ≤ radarCube.name ∧ radarCube.name_end = radarCube.name + radarCube.bytes)
    (k_azimuthStaticHeatMap : (radarCube.name_end) ≤ azimuthStaticHeatMap.name ∧ azimuthStaticHeatMap.name_end = azimuthStaticHeatMap.name + azimuthStaticHeatMap.bytes)
    (k_detMatrix : (azimuthStaticHeatMap.name_end) ≤ detMatrix.name ∧ detMatrix.name_end = detMatrix.name + detMatrix.bytes)
    :
    (h ≤ ADCdataBuf.name ∧
      h ≤ radarCube.name ∧
      h ≤ azimuthStaticHeatMap.name ∧
      h ≤ detMatrix.name) ∧
    (detMatrix.name_end ≤ h + c ↔
      (ADCdataBuf.name_end ≤ h + c ∧
      radarCube.name_end ≤ h + c ∧
      azimuthStaticHeatMap.name_end ≤ h + c ∧
      detMatrix.name_end ≤ h + c)) ∧
    h ≤ detMatrix.name_end := by
  refine ⟨?_, ⟨?_, ?_⟩, ?_⟩
  · refine ⟨?_, ?_, ?_, ?_⟩ <;> omega
  · intro hc
    refine ⟨?_, ?_, ?_, ?_⟩ <;> omega
  · intro hc
    omega
  · omega

theorem heapUsed_iff (x h c : Nat) (hl : h ≤ x) (hx : x < 4294967296) :
    subU32 x h ≤ c ↔ x ≤ h + c := by
  unfold subU32
  omega

theorem end_lt (b : Buf) (e : b.name_end = b.name + b.bytes)
    (n : b.name + b.bytes < 4294967296) : b.name_end < 4294967296 := by
  omega

theorem configBuffers_eq (cfg : DataPathCfg) :
    OdsDemo_dataPathConfigBuffers cfg
      = if OdsDemo_dataPathConfigBuffers.heapUsedL1 cfg ≤ MMW_L1_HEAP_SIZE ∧
            OdsDemo_dataPathConfigBuffers.heapUsedL2 cfg ≤ MMW_L2_HEAP_SIZE ∧
            OdsDemo_dataPathConfigBuffers.heapUsedL3 cfg ≤ cfg.L3_HEAP_SIZE
        then .ok (OdsDemo_dataPathConfigBuffers.layout cfg) else .error .assertFailed := by
  unfold OdsDemo_dataPathConfigBuffers OdsDemo_dssAssert
  by_cases h1 : OdsDemo_dataPathConfigBuffers.heapUsedL1 cfg ≤ MMW_L1_HEAP_SIZE <;>
    by_cases h2 : OdsDemo_dataPathConfigBuffers.heapUsedL2 cfg ≤ MMW_L2_HEAP_SIZE <;>
    by_cases h3 : OdsDemo_dataPathConfigBuffers.heapUsedL3 cfg ≤ cfg.L3_HEAP_SIZE <;>
    simp [h1, h2, h3] <;> rfl

theorem ADCdataBuf_facts (cfg : DataPathCfg) (a s : Nat)
    (hdw : cfg.MMWDEMO_MEMORY_ALLOC_DOUBLE_WORD_ALIGN = 2 ^ a) (ha : a ≤ 31)
    (hsa : cfg.MMWDEMO_MEMORY_ALLOC_MAX_STRUCT_ALIGN = 2 ^ s) (hs : s ≤ 31)
    (hadc : cfg.adcBufAddress = 0)
    (hnw : (OdsDemo_dataPathConfigBuffers.layout cfg .ADCdataBuf).noWrap) :
    cfg.heapL3start ≤ (OdsDemo_dataPathConfigBuffers.ADCdataBuf cfg).name ∧
      (OdsDemo_dataPathConfigBuffers.ADCdataBuf cfg).name_end
        = (OdsDemo_dataPathConfigBuffers.ADCdataBuf cfg).name + (OdsDemo_dataPathConfigBuffers.ADCdataBuf cfg).bytes := by
  have _ := hsa
  have _ := hs
  unfold OdsDemo_dataPathConfigBuffers.layout OdsDemo_dataPathConfigBuffers.ADCdataBuf at hnw
  unfold OdsDemo_dataPathConfigBuffers.ADCdataBuf
  simp only [hadc, ne_eq, not_true_eq_false, if_false] at hnw ⊢
  exact alloc_spec _ _ _ _ a hdw ha hnw

/-! ### C15 -/

/-- Claim C15: when the alignments are powers of two, no address computation wraps around
32 bits and `adcBufAddress` is `NULL`, every buffer assigned by `OdsDemo_dataPathConfigBuffers`
starts at or after the base of its tier; the routine passes its three heap assertions exactly
when every buffer ends within its tier (L1 of `0x4000` bytes, L2 of `0x6000` bytes, L3 of
`sizeof(gOdsL3)` bytes), so a result that passed has every buffer inside its tier, and a buffer
ending beyond the capacity of its tier makes an assertion fail. -/
theorem C15_arena_capacity (cfg : DataPathCfg) (a s : Nat)
    (hdw : cfg.MMWDEMO_MEMORY_ALLOC_DOUBLE_WORD_ALIGN = 2 ^ a) (ha : a ≤ 31)
    (hsa : cfg.MMWDEMO_MEMORY_ALLOC_MAX_STRUCT_ALIGN = 2 ^ s) (hs : s ≤ 31)
    (hadc : cfg.adcBufAddress = 0)
    (hnw : ∀ b, (OdsDemo_dataPathConfigBuffers.layout cfg b).noWrap) :
    (∀ l, OdsDemo_dataPathConfigBuffers cfg = .ok l → ∀ b,
      arenaBase cfg b.tier ≤ (l b).name ∧
        (l b).name_end ≤ arenaBase cfg b.tier + arenaSize cfg b.tier) ∧
    ((∀ b, (OdsDemo_dataPathConfigBuffers.layout cfg b).name_end ≤ arenaBase cfg b.tier + arenaSize cfg b.tier) →
      OdsDemo_dataPathConfigBuffers cfg = .ok (OdsDemo_dataPathConfigBuffers.layout cfg)) ∧
    ((∃ b, arenaBase cfg b.tier + arenaSize cfg b.tier < (OdsDemo_dataPathConfigBuffers.layout cfg b).name_end) →
      OdsDemo_dataPathConfigBuffers cfg = .error .assertFailed) := by
  have F := layout_facts cfg a s hdw ha hsa hs hnw
  have kA := ADCdataBuf_facts cfg a s hdw ha hsa hs hadc (hnw .ADCdataBuf)
  have A1 := arena_arith_L1 (OdsDemo_dataPathConfigBuffers.adcDataIn cfg) (OdsDemo_dataPathConfigBuffers.dstPingPong cfg) (OdsDemo_dataPathConfigBuffers.fftOut2D cfg) (OdsDemo_dataPathConfigBuffers.windowingBuf2D cfg) (OdsDemo_dataPathConfigBuffers.log2Abs cfg) (OdsDemo_dataPathConfigBuffers.sumAbs cfg) (OdsDemo_dataPathConfigBuffers.detObj2DRaw cfg) (OdsDemo_dataPathConfigBuffers.azimuthIn cfg) (OdsDemo_dataPathConfigBuffers.azimuthOut cfg) (OdsDemo_dataPathConfigBuffers.azimuthMagSqr cfg)
    cfg.heapL1start MMW_L1_HEAP_SIZE
    (F .adcDataIn (by decide)) (F .dstPingPong (by decide)) (F .fftOut2D (by decide)) (F .windowingBuf2D (by decide)) (F .log2Abs (by decide)) (F .sumAbs (by decide)) (F .detObj2DRaw (by decide)) (F .azimuthIn (by decide)) (F .azimuthOut (by decide)) (F .azimuthMagSqr (by decide))
  have B1 : OdsDemo_dataPathConfigBuffers.heapUsedL1 cfg ≤ MMW_L1_HEAP_SIZE ↔ _ :=
    (heapUsed_iff _ cfg.heapL1start MMW_L1_HEAP_SIZE A1.2.2
      (max_lt (max_lt (max_lt (end_lt _ (F .sumAbs (by decide)).2 (hnw .sumAbs).2) (end_lt _ (F .adcDataIn (by decide)).2 (hnw .adcDataIn).2))
      (end_lt _ (F .azimuthMagSqr (by decide)).2 (hnw .azimuthMagSqr).2)) (end_lt _ (F .detObj2DRaw (by decide)).2 (hnw .detObj2DRaw).2))).trans A1.2.1
  have A2 := arena_arith_L2 (OdsDemo_dataPathConfigBuffers.fftOut1D cfg) (OdsDemo_dataPathConfigBuffers.cfarDetObjIndexBuf cfg) (OdsDemo_dataPathConfigBuffers.dopplerLineMask cfg) (OdsDemo_dataPathConfigBuffers.sumAbsRange cfg) (OdsDemo_dataPathConfigBuffers.twiddle16x16_1D cfg) (OdsDemo_dataPathConfigBuffers.window1D cfg) (OdsDemo_dataPathConfigBuffers.twiddle32x32_2D cfg) (OdsDemo_dataPathConfigBuffers.window2D cfg) (OdsDemo_dataPathConfigBuffers.detObj2D cfg) (OdsDemo_dataPathConfigBuffers.detObj2dAzimIdx cfg) (OdsDemo_dataPathConfigBuffers.azimuthTwiddle32x32 cfg) (OdsDemo_dataPathConfigBuffers.azimuthModCoefs cfg) (OdsDemo_dataPathConfigBuffers.dcRangeSigMean cfg)
    cfg.heapL2start MMW_L2_HEAP_SIZE
    (F .fftOut1D (by decide)) (F .cfarDetObjIndexBuf (by decide)) (F .dopplerLineMask (by decide)) (F .sumAbsRange (by decide)) (F .twiddle16x16_1D (by decide)) (F .window1D (by decide)) (F .twiddle32x32_2D (by decide)) (F .window2D (by decide)) (F .detObj2D (by decide)) (F .detObj2dAzimIdx (by decide)) (F .azimuthTwiddle32x32 (by decide)) (F .azimuthModCoefs (by decide)) (F .dcRangeSigMean (by decide))
  have B2 : OdsDemo_dataPathConfigBuffers.heapUsedL2 cfg ≤ MMW_L2_HEAP_SIZE ↔ _ :=
    (heapUsed_iff _ cfg.heapL2start MMW_L2_HEAP_SIZE A2.2.2
      (end_lt _ (F .dcRangeSigMean (by decide)).2 (hnw .dcRangeSigMean).2)).trans A2.2.1
  have A3 := arena_arith_L3 (OdsDemo_dataPathConfigBuffers.ADCdataBuf cfg) (OdsDemo_dataPathConfigBuffers.radarCube cfg) (OdsDemo_dataPathConfigBuffers.azimuthStaticHeatMap cfg) (OdsDemo_dataPathConfigBuffers.detMatrix cfg)
    cfg.heapL3start cfg.L3_HEAP_SIZE
    kA (F .radarCube (by decide)) (F .azimuthStaticHeatMap (by decide)) (F .detMatrix (by decide))
  have B3 : OdsDemo_dataPathConfigBuffers.heapUsedL3 cfg ≤ cfg.L3_HEAP_SIZE ↔ _ :=
    (heapUsed_iff _ cfg.heapL3start cfg.L3_HEAP_SIZE A3.2.2
      (end_lt _ (F .detMatrix (by decide)).2 (hnw .detMatrix).2)).trans A3.2.1
  rw [configBuffers_eq]
  refine ⟨?_, ?_, ?_⟩
  · intro l hl b
    split_ifs at hl with hc
    have e : OdsDemo_dataPathConfigBuffers.layout cfg = l := by injection hl
    rw [← e]
    cases b
    · exact ⟨A1.1.1, (B1.mp hc.1).1⟩
    · exact ⟨A1.1.2.1, (B1.mp hc.1).2.1⟩
    · exact ⟨A1.1.2.2.1, (B1.mp hc.1).2.2.1⟩
    · exact ⟨A1.1.2.2.2.1, (B1.mp hc.1).2.2.2.1⟩
    · exact ⟨A1.1.2.2.2.2.1, (B1.mp hc.1).2.2.2.2.1⟩
    · exact ⟨A1.1.2.2.2.2.2.1, (B1.mp hc.1).2.2.2.2.2.1⟩
    · exact ⟨A1.1.2.2.2.2.2.2.1, (B1.mp hc.1).2.2.2.2.2.2.1⟩
    · exact ⟨A1.1.2.2.2.2.2.2.2.1, (B1.mp hc.1).2.2.2.2.2.2.2.1⟩
    · exact ⟨A1.1.2.2.2.2.2.2.2.2.1, (B1.mp hc.1).2.2.2.2.2.2.2.2.1⟩
    · exact ⟨A1.1.2.2.2.2.2.2.2.2.2, (B1.mp hc.1).2.2.2.2.2.2.2.2.2⟩
    · exact ⟨A2.1.1, (B2.mp hc.2.1).1⟩
    · exact ⟨A2.1.2.1, (B2.mp hc.2.1).2.1⟩
    · exact ⟨A2.1.2.2.1, (B2.mp hc.2.1).2.2.1⟩
    · exact ⟨A2.1.2.2.2.1, (B2.mp hc.2.1).2.2.2.1⟩
    · exact ⟨A2.1.2.2.2.2.1, (B2.mp hc.2.1).2.2.2.2.1⟩
    · exact ⟨A2.1.2.2.2.2.2.1, (B2.mp hc.2.1).2.2.2.2.2.1⟩
    · exact ⟨A2.1.2.2.2.2.2.2.1, (B2.mp hc.2.1).2.2.2.2.2.2.1⟩
    · exact ⟨A2.1.2.2.2.2.2.2.2.1, (B2.mp hc.2.1).2.2.2.2.2.2.2.1⟩
    · exact ⟨A2.1.2.2.2.2.2.2.2.2.1, (B2.mp hc.2.1).2.2.2.2.2.2.2.2.1⟩
    · exact ⟨A2.1.2.2.2.2.2.2.2.2.2.1, (B2.mp hc.2.1).2.2.2.2.2.2.2.2.2.1⟩
    · exact ⟨A2.1.2.2.2.2.2.2.2.2.2.2.1, (B2.mp hc.2.1).2.2.2.2.2.2.2.2.2.2.1⟩
    · exact ⟨A2.1.2.2.2.2.2.2.2.2.2.2.2.1, (B2.mp hc.2.1).2.2.2.2.2.2.2.2.2.2.2.1⟩
    · exact ⟨A2.1.2.2.2.2.2.2.2.2.2.2.2.2, (B2.mp hc.2.1).2.2.2.2.2.2.2.2.2.2.2.2⟩
    · exact ⟨A3.1.1, (B3.mp hc.2.2).1⟩
    · exact ⟨A3.1.2.1, (B3.mp hc.2.2).2.1⟩
    · exact ⟨A3.1.2.2.1, (B3.mp hc.2.2).2.2.1⟩
    · exact ⟨A3.1.2.2.2, (B3.mp hc.2.2).2.2.2⟩
  · intro hall
    rw [if_pos]
    exact ⟨B1.mpr ⟨hall .adcDataIn, hall .dstPingPong, hall .fftOut2D, hall .windowingBuf2D, hall .log2Abs, hall .sumAbs, hall .detObj2DRaw, hall .azimuthIn, hall .azimuthOut, hall .azimuthMagSqr⟩,
      B2.mpr ⟨hall .fftOut1D, hall .cfarDetObjIndexBuf, hall .dopplerLineMask, hall .sumAbsRange, hall .twiddle16x16_1D, hall .window1D, hall .twiddle32x32_2D, hall .window2D, hall .detObj2D, hall .detObj2dAzimIdx, hall .azimuthTwiddle32x32, hall .azimuthModCoefs, hall .dcRangeSigMean⟩,
      B3.mpr ⟨hall .ADCdataBuf, hall .radarCube, hall .azimuthStaticHeatMap, hall .detMatrix⟩⟩
  · rintro ⟨b, hb⟩
    rw [if_neg]
    intro hc
    cases b
    · exact absurd ((B1.mp hc.1).1) (not_le.mpr hb)
    · exact absurd ((B1.mp hc.1).2.1) (not_le.mpr hb)
    · exact absurd ((B1.mp hc.1).2.2.1) (not_le.mpr hb)
    · exact absurd ((B1.mp hc.1).2.2.2.1) (not_le.mpr hb)
    · exact absurd ((B1.mp hc.1).2.2.2.2.1) (not_le.mpr hb)
    · exact absurd ((B1.mp hc.1).2.2.2.2.2.1) (not_le.mpr hb)
    · exact absurd ((B1.mp hc.1).2.2.2.2.2.2.1) (not_le.mpr hb)
    · exact absurd ((B1.mp hc.1).2.2.2.2.2.2.2.1) (not_le.mpr hb)
    · exact absurd ((B1.mp hc.1).2.2.2.2.2.2.2.2.1) (not_le.mpr hb)
    · exact absurd ((B1.mp hc.1).2.2.2.2.2.2.2.2.2) (not_le.mpr hb)
    · exact absurd ((B2.mp hc.2.1).1) (not_le.mpr hb)
    · exact absurd ((B2.mp hc.2.1).2.1) (not_le.mpr hb)
    · exact absurd ((B2.mp hc.2.1).2.2.1) (not_le.mpr hb)
    · exact absurd ((B2.mp hc.2.1).2.2.2.1) (not_le.mpr hb)
    · exact absurd ((B2.mp hc.2.1).2.2.2.2.1) (not_le.mpr hb)
    · exact absurd ((B2.mp hc.2.1).2.2.2.2.2.1) (not_le.mpr hb)
    · exact absurd ((B2.mp hc.2.1).2.2.2.2.2.2.1) (not_le.mpr hb)
    · exact absurd ((B2.mp hc.2.1).2.2.2.2.2.2.2.1) (not_le.mpr hb)
    · exact absurd ((B2.mp hc.2.1).2.2.2.2.2.2.2.2.1) (not_le.mpr hb)
    · exact absurd ((B2.mp hc.2.1).2.2.2.2.2.2.2.2.2.1) (not_le.mpr hb)
    · exact absurd ((B2.mp hc.2.1).2.2.2.2.2.2.2.2.2.2.1) (not_le.mpr hb)
    · exact absurd ((B2.mp hc.2.1).2.2.2.2.2.2.2.2.2.2.2.1) (not_le.mpr hb)
    · exact absurd ((B2.mp hc.2.1).2.2.2.2.2.2.2.2.2.2.2.2) (not_le.mpr hb)
    · exact absurd ((B3.mp hc.2.2).1) (not_le.mpr hb)
    · exact absurd ((B3.mp hc.2.2).2.1) (not_le.mpr hb)
    · exact absurd ((B3.mp hc.2.2).2.2.1) (not_le.mpr hb)
    · exact absurd ((B3.mp hc.2.2).2.2.2) (not_le.mpr hb)

/-- Claim C15 on `sampleDataPathCfg`: the configuration passes the three assertions and every
buffer lies inside its tier. -/
theorem C15_arena_capacity_witness :
    sampleDataPathCfg.MMWDEMO_MEMORY_ALLOC_DOUBLE_WORD_ALIGN = 2 ^ 3 ∧
    sampleDataPathCfg.MMWDEMO_MEMORY_ALLOC_MAX_STRUCT_ALIGN = 2 ^ 3 ∧
    sampleDataPathCfg.adcBufAddress = 0 ∧
    (∀ b, (OdsDemo_dataPathConfigBuffers.layout sampleDataPathCfg b).noWrap) ∧
    OdsDemo_dataPathConfigBuffers sampleDataPathCfg
      = .ok (OdsDemo_dataPathConfigBuffers.layout sampleDataPathCfg) ∧
    ∀ b, arenaBase sampleDataPathCfg b.tier
          ≤ (OdsDemo_dataPathConfigBuffers.layout sampleDataPathCfg b).name ∧
        (OdsDemo_dataPathConfigBuffers.layout sampleDataPathCfg b).name_end
          ≤ arenaBase sampleDataPathCfg b.tier + arenaSize sampleDataPathCfg b.tier :=
  ⟨by decide, by decide, by decide, fun b => by cases b <;> decide,
    (C15_arena_capacity sampleDataPathCfg 3 3 (by decide) (by decide) (by decide) (by decide)
      (by decide) (fun b => by cases b <;> decide)).2.1 (fun b => by cases b <;> decide),
    (C15_arena_capacity sampleDataPathCfg 3 3 (by decide) (by decide) (by decide) (by decide)
      (by decide) (fun b => by cases b <;> decide)).1 _
      ((C15_arena_capacity sampleDataPathCfg 3 3 (by decide) (by decide) (by decide)
        (by decide) (by decide) (fun b => by cases b <;> decide)).2.1
        (fun b => by cases b <;> decide))⟩

/-! ### C16 -/

theorem chain_before : ∀ (l : List Buf) (a : Buf), List.Chain Buf.before a l →
    ∀ c ∈ l, a.name_end ≤ c.name
  | [], _, _, c, hc => absurd hc (List.not_mem_nil c)
  | b :: l, a, h, c, hc => by
    rw [List.chain_cons] at h
    rcases List.mem_cons.mp hc with e | hc'
    · rw [e]; exact h.1.1
    · exact le_trans (le_trans h.1.1 h.1.2) (chain_before l b h.2 c hc')

theorem pairwise_disjoint_of_chain : ∀ (l : List Buf), List.Chain' Buf.before l →
    l.Pairwise Buf.disjoint
  | [], _ => List.Pairwise.nil
  | a :: l, h => by
    rw [List.pairwise_cons]
    exact ⟨fun c hc => Or.inl (chain_before l a h c hc),
      pairwise_disjoint_of_chain l (List.Chain'.tail h)⟩

/-- Claim C16: when the alignments are powers of two and no address computation wraps around
32 bits, the buffers of each of the following lists have pairwise disjoint byte ranges: in L1
the 2D-stage buffers `dstPingPong`, `fftOut2D`, `windowingBuf2D`, `sumAbs`, then `log2Abs`
with `dstPingPong`, `fftOut2D`, `sumAbs`, and the 3D-stage buffers `dstPingPong`, `azimuthIn`,
`azimuthOut`, `azimuthMagSqr`; in L2 the scratch buffers `cfarDetObjIndexBuf`,
`dopplerLineMask`, `sumAbsRange` together with the nine persistent buffers, and the scratch
buffer `fftOut1D` together with the nine persistent buffers; in L3 `radarCube`,
`azimuthStaticHeatMap`, `detMatrix`. -/
theorem C16_overlay_disjoint (cfg : DataPathCfg) (a s : Nat)
    (hdw : cfg.MMWDEMO_MEMORY_ALLOC_DOUBLE_WORD_ALIGN = 2 ^ a) (ha : a ≤ 31)
    (hsa : cfg.MMWDEMO_MEMORY_ALLOC_MAX_STRUCT_ALIGN = 2 ^ s) (hs : s ≤ 31)
    (hnw : ∀ b, (OdsDemo_dataPathConfigBuffers.layout cfg b).noWrap) :
    (([.dstPingPong, .fftOut2D, .windowingBuf2D, .sumAbs] : List BufName).map (OdsDemo_dataPathConfigBuffers.layout cfg)).Pairwise
      Buf.disjoint ∧
    (([.dstPingPong, .fftOut2D, .log2Abs, .sumAbs] : List BufName).map (OdsDemo_dataPathConfigBuffers.layout cfg)).Pairwise
      Buf.disjoint ∧
    (([.dstPingPong, .azimuthIn, .azimuthOut, .azimuthMagSqr] : List BufName).map (OdsDemo_dataPathConfigBuffers.layout cfg)).Pairwise
      Buf.disjoint ∧
    (([.cfarDetObjIndexBuf, .dopplerLineMask, .sumAbsRange, .twiddle16x16_1D, .window1D, .twiddle32x32_2D, .window2D, .detObj2D, .detObj2dAzimIdx, .azimuthTwiddle32x32, .azimuthModCoefs, .dcRangeSigMean] : List BufName).map (OdsDemo_dataPathConfigBuffers.layout cfg)).Pairwise
      Buf.disjoint ∧
    (([.fftOut1D, .twiddle16x16_1D, .window1D, .twiddle32x32_2D, .window2D, .detObj2D, .detObj2dAzimIdx, .azimuthTwiddle32x32, .azimuthModCoefs, .dcRangeSigMean] : List BufName).map (OdsDemo_dataPathConfigBuffers.layout cfg)).Pairwise
      Buf.disjoint ∧
    (([.radarCube, .azimuthStaticHeatMap, .detMatrix] : List BufName).map (OdsDemo_dataPathConfigBuffers.layout cfg)).Pairwise
      Buf.disjoint := by
  have F := layout_facts cfg a s hdw ha hsa hs hnw
  refine ⟨?_, ?_, ?_, ?_, ?_, ?_⟩
  · apply pairwise_disjoint_of_chain
    exact List.Chain.cons ⟨(F .fftOut2D (by decide)).1, Nat.le.intro (F .fftOut2D (by decide)).2.symm⟩
      (List.Chain.cons ⟨(F .windowingBuf2D (by decide)).1, Nat.le.intro (F .windowingBuf2D (by decide)).2.symm⟩
      (List.Chain.cons ⟨le_trans (le_max_right _ _) (F .sumAbs (by decide)).1, Nat.le.intro (F .sumAbs (by decide)).2.symm⟩
      (List.Chain.nil)))
  · apply pairwise_disjoint_of_chain
    exact List.Chain.cons ⟨(F .fftOut2D (by decide)).1, Nat.le.intro (F .fftOut2D (by decide)).2.symm⟩
      (List.Chain.cons ⟨(F .log2Abs (by decide)).1, Nat.le.intro (F .log2Abs (by decide)).2.symm⟩
      (List.Chain.cons ⟨le_trans (le_max_left _ _) (F .sumAbs (by decide)).1, Nat.le.intro (F .sumAbs (by decide)).2.symm⟩
      (List.Chain.nil)))
  · apply pairwise_disjoint_of_chain
    exact List.Chain.cons ⟨(F .azimuthIn (by decide)).1, Nat.le.intro (F .azimuthIn (by decide)).2.symm⟩
      (List.Chain.cons ⟨(F .azimuthOut (by decide)).1, Nat.le.intro (F .azimuthOut (by decide)).2.symm⟩
      (List.Chain.cons ⟨(F .azimuthMagSqr (by decide)).1, Nat.le.intro (F .azimuthMagSqr (by decide)).2.symm⟩
      (List.Chain.nil)))
  · apply pairwise_disjoint_of_chain
    exact List.Chain.cons ⟨(F .dopplerLineMask (by decide)).1, Nat.le.intro (F .dopplerLineMask (by decide)).2.symm⟩
      (List.Chain.cons ⟨(F .sumAbsRange (by decide)).1, Nat.le.intro (F .sumAbsRange (by decide)).2.symm⟩
      (List.Chain.cons ⟨le_trans (le_max_right _ _) (F .twiddle16x16_1D (by decide)).1, Nat.le.intro (F .twiddle16x16_1D (by decide)).2.symm⟩
      (List.Chain.cons ⟨(F .window1D (by decide)).1, Nat.le.intro (F .window1D (by decide)).2.symm⟩
      (List.Chain.cons ⟨(F .twiddle32x32_2D (by decide)).1, Nat.le.intro (F .twiddle32x32_2D (by decide)).2.symm⟩
      (List.Chain.cons ⟨(F .window2D (by decide)).1, Nat.le.intro (F .window2D (by decide)).2.symm⟩
      (List.Chain.cons ⟨(F .detObj2D (by decide)).1, Nat.le.intro (F .detObj2D (by decide)).2.symm⟩
      (List.Chain.cons ⟨(F .detObj2dAzimIdx (by decide)).1, Nat.le.intro (F .detObj2dAzimIdx (by decide)).2.symm⟩
      (List.Chain.cons ⟨(F .azimuthTwiddle32x32 (by decide)).1, Nat.le.intro (F .azimuthTwiddle32x32 (by decide)).2.symm⟩
      (List.Chain.cons ⟨(F .azimuthModCoefs (by decide)).1, Nat.le.intro (F .azimuthModCoefs (by decide)).2.symm⟩
      (List.Chain.cons ⟨(F .dcRangeSigMean (by decide)).1, Nat.le.intro (F .dcRangeSigMean (by decide)).2.symm⟩
      (List.Chain.nil)))))))))))
  · apply pairwise_disjoint_of_chain
    exact List.Chain.cons ⟨le_trans (le_max_left _ _) (F .twiddle16x16_1D (by decide)).1, Nat.le.intro (F .twiddle16x16_1D (by decide)).2.symm⟩
      (List.Chain.cons ⟨(F .window1D (by decide)).1, Nat.le.intro (F .window1D (by decide)).2.symm⟩
      (List.Chain.cons ⟨(F .twiddle32x32_2D (by decide)).1, Nat.le.intro (F .twiddle32x32_2D (by decide)).2.symm⟩
      (List.Chain.cons ⟨(F .window2D (by decide)).1, Nat.le.intro (F .window2D (by decide)).2.symm⟩
      (List.Chain.cons ⟨(F .detObj2D (by decide)).1, Nat.le.intro (F .detObj2D (by decide)).2.symm⟩
      (List.Chain.cons ⟨(F .detObj2dAzimIdx (by decide)).1, Nat.le.intro (F .detObj2dAzimIdx (by decide)).2.symm⟩
      (List.Chain.cons ⟨(F .azimuthTwiddle32x32 (by decide)).1, Nat.le.intro (F .azimuthTwiddle32x32 (by decide)).2.symm⟩
      (List.Chain.cons ⟨(F .azimuthModCoefs (by decide)).1, Nat.le.intro (F .azimuthModCoefs (by decide)).2.symm⟩
      (List.Chain.cons ⟨(F .dcRangeSigMean (by decide)).1, Nat.le.intro (F .dcRangeSigMean (by decide)).2.symm⟩
      (List.Chain.nil)))))))))
  · apply pairwise_disjoint_of_chain
    exact List.Chain.cons ⟨(F .azimuthStaticHeatMap (by decide)).1, Nat.le.intro (F .azimuthStaticHeatMap (by decide)).2.symm⟩
      (List.Chain.cons ⟨(F .detMatrix (by decide)).1, Nat.le.intro (F .detMatrix (by decide)).2.symm⟩
      (List.Chain.nil))

/-- Claim C16 on `sampleDataPathCfg`. -/
theorem C16_overlay_disjoint_witness :
    sampleDataPathCfg.MMWDEMO_MEMORY_ALLOC_DOUBLE_WORD_ALIGN = 2 ^ 3 ∧
    sampleDataPathCfg.MMWDEMO_MEMORY_ALLOC_MAX_STRUCT_ALIGN = 2 ^ 3 ∧
    (∀ b, (OdsDemo_dataPathConfigBuffers.layout sampleDataPathCfg b).noWrap) ∧
    (([.dstPingPong, .fftOut2D, .windowingBuf2D, .sumAbs] : List BufName).map (OdsDemo_dataPathConfigBuffers.layout sampleDataPathCfg)).Pairwise
      Buf.disjoint ∧
    (([.dstPingPong, .fftOut2D, .log2Abs, .sumAbs] : List BufName).map (OdsDemo_dataPathConfigBuffers.layout sampleDataPathCfg)).Pairwise
      Buf.disjoint ∧
    (([.dstPingPong, .azimuthIn, .azimuthOut, .azimuthMagSqr] : List BufName).map (OdsDemo_dataPathConfigBuffers.layout sampleDataPathCfg)).Pairwise
      Buf.disjoint ∧
    (([.cfarDetObjIndexBuf, .dopplerLineMask, .sumAbsRange, .twiddle16x16_1D, .window1D, .twiddle32x32_2D, .window2D, .detObj2D, .detObj2dAzimIdx, .azimuthTwiddle32x32, .azimuthModCoefs, .dcRangeSigMean] : List BufName).map (OdsDemo_dataPathConfigBuffers.layout sampleDataPathCfg)).Pairwise
      Buf.disjoint ∧
    (([.fftOut1D, .twiddle16x16_1D, .window1D, .twiddle32x32_2D, .window2D, .detObj2D, .detObj2dAzimIdx, .azimuthTwiddle32x32, .azimuthModCoefs, .dcRangeSigMean] : List BufName).map (OdsDemo_dataPathConfigBuffers.layout sampleDataPathCfg)).Pairwise
      Buf.disjoint ∧
    (([.radarCube, .azimuthStaticHeatMap, .detMatrix] : List BufName).map (OdsDemo_dataPathConfigBuffers.layout sampleDataPathCfg)).Pairwise
      Buf.disjoint :=
  ⟨by decide, by decide, fun b => by cases b <;> decide,
    C16_overlay_disjoint sampleDataPathCfg 3 3 (by decide) (by decide) (by decide) (by decide)
      (fun b => by cases b <;> decide)⟩

/-! ### The accumulation of the DC range signature -/

theorem accumulateBand_spec (fft : Nat → cmplx16ReIm_t) (MB FB : Nat) :
    ∀ (count : Nat) (st : (Nat → cmplx32ImRe_t) × Nat),
      OdsDemo_dcRangeSignatureCompensation.accumulateBand fft MB FB count st
        = (fun i => if MB + st.2 ≤ i ∧ i < MB + st.2 + count then
              dcAdd (st.1 i) (fft (FB + (i - (MB + st.2))))
            else st.1 i, st.2 + count) := by
  intro count
  induction count with
  | zero =>
    intro st
    unfold OdsDemo_dcRangeSignatureCompensation.accumulateBand
    rw [List.range_zero, List.foldl_nil]
    refine Prod.ext ?_ rfl
    funext i
    show st.1 i = if MB + st.2 ≤ i ∧ i < MB + st.2 + 0 then _ else _
    rw [if_neg (by omega)]
  | succ k ih =>
    intro st
    have ih' := ih st
    unfold OdsDemo_dcRangeSignatureCompensation.accumulateBand at ih' ⊢
    rw [List.range_succ, List.foldl_append, ih']
    simp only [List.foldl_cons, List.foldl_nil]
    refine Prod.ext ?_ (by simp only []; omega)
    funext i
    simp only [Function.update_apply]
    by_cases hi : i = MB + (st.2 + k)
    · subst hi
      rw [if_pos rfl, if_neg (by omega), if_pos (by omega)]
      unfold dcAdd
      have e : MB + (st.2 + k) - (MB + st.2) = k := by omega
      rw [e]
    · rw [if_neg hi]
      by_cases hb : MB + st.2 ≤ i ∧ i < MB + st.2 + k
      · rw [if_pos hb, if_pos (by omega)]
      · rw [if_neg hb, if_neg (by omega)]

theorem row_le_right (W rx R : Nat) (h : rx < R) : rx * W + W ≤ R * W := by
  have := Nat.mul_le_mul_right W (Nat.succ_le_of_lt h)
  rwa [Nat.succ_mul] at this

theorem accumulate_loop (fft : Nat → cmplx16ReIm_t) (mean0 : Nat → cmplx32ImRe_t)
    (MB B NRB pos n : Nat) (R : Nat) :
    ((List.range R).foldl
        (fun st rx =>
          OdsDemo_dcRangeSignatureCompensation.accumulateBand fft MB
            (B + NRB * rx + (NRB - n)) n
            (OdsDemo_dcRangeSignatureCompensation.accumulateBand fft MB (B + NRB * rx)
              (pos + 1) st))
        (mean0, 0)).2 = R * (pos + n + 1) ∧
    (∀ rx, rx < R → ∀ p, p ≤ pos →
      ((List.range R).foldl
        (fun st rx =>
          OdsDemo_dcRangeSignatureCompensation.accumulateBand fft MB
            (B + NRB * rx + (NRB - n)) n
            (OdsDemo_dcRangeSignatureCompensation.accumulateBand fft MB (B + NRB * rx)
              (pos + 1) st))
        (mean0, 0)).1 (MB + rx * (pos + n + 1) + p)
        = dcAdd (mean0 (MB + rx * (pos + n + 1) + p)) (fft (B + NRB * rx + p))) ∧
    (∀ rx, rx < R → ∀ q, q < n →
      ((List.range R).foldl
        (fun st rx =>
          OdsDemo_dcRangeSignatureCompensation.accumulateBand fft MB
            (B + NRB * rx + (NRB - n)) n
            (OdsDemo_dcRangeSignatureCompensation.accumulateBand fft MB (B + NRB * rx)
              (pos + 1) st))
        (mean0, 0)).1 (MB + rx * (pos + n + 1) + (pos + 1) + q)
        = dcAdd (mean0 (MB + rx * (pos + n + 1) + (pos + 1) + q))
            (fft (B + NRB * rx + (NRB - n) + q))) ∧
    (∀ i, (i < MB ∨ MB + R * (pos + n + 1) ≤ i) →
      ((List.range R).foldl
        (fun st rx =>
          OdsDemo_dcRangeSignatureCompensation.accumulateBand fft MB
            (B + NRB * rx + (NRB - n)) n
            (OdsDemo_dcRangeSignatureCompensation.accumulateBand fft MB (B + NRB * rx)
              (pos + 1) st))
        (mean0, 0)).1 i = mean0 i) := by
  induction R with
  | zero =>
    refine ⟨by simp, fun rx h => absurd h (Nat.not_lt_zero _),
      fun rx h => absurd h (Nat.not_lt_zero _), fun i _ => by simp⟩
  | succ R ih =>
    rw [List.range_succ, List.foldl_append]
    simp only [List.foldl_cons, List.foldl_nil]
    generalize (List.range R).foldl
        (fun st rx =>
          OdsDemo_dcRangeSignatureCompensation.accumulateBand fft MB
            (B + NRB * rx + (NRB - n)) n
            (OdsDemo_dcRangeSignatureCompensation.accumulateBand fft MB (B + NRB * rx)
              (pos + 1) st))
        (mean0, 0) = S at ih ⊢
    obtain ⟨i2, i1, i3, i4⟩ := ih
    rw [accumulateBand_spec, accumulateBand_spec]
    simp only []
    have hW : (R + 1) * (pos + n + 1) = R * (pos + n + 1) + (pos + n + 1) := Nat.succ_mul _ _
    rw [i2]
    refine ⟨by rw [hW]; omega, ?_, ?_, ?_⟩
    · intro rx hrx p hp
      rcases Nat.lt_succ_iff_lt_or_eq.mp hrx with h | h
      · have := row_le_right (pos + n + 1) rx R h
        rw [if_neg (by omega), if_neg (by omega)]
        exact i1 rx h p hp
      · subst h
        rw [if_neg (by omega), if_pos (by omega)]
        have e : MB + rx * (pos + n + 1) + p - (MB + rx * (pos + n + 1)) = p := by omega
        rw [e, i4 _ (Or.inr (by omega))]
    · intro rx hrx q hq
      rcases Nat.lt_succ_iff_lt_or_eq.mp hrx with h | h
      · have := row_le_right (pos + n + 1) rx R h
        rw [if_neg (by omega), if_neg (by omega)]
        exact i3 rx h q hq
      · subst h
        rw [if_pos (by omega), if_neg (by omega)]
        have e : MB + rx * (pos + n + 1) + (pos + 1) + q
            - (MB + (rx * (pos + n + 1) + (pos + 1))) = q := by omega
        rw [e, i4 _ (Or.inr (by omega))]
    · intro i hi
      rw [if_neg (by omega), if_neg (by omega)]
      exact i4 i (by omega)

theorem dc_size (cfg : DcRangeSigCfg) (n : Nat)
    (hneg : cfg.negativeBinIdx = -(n : Int))
    (hband : cfg.positiveBinIdx + n < cfg.numRangeBins)
    (hfft : 2 * (cfg.numRxAntennas * cfg.numRangeBins) < 4294967296) :
    OdsDemo_dcRangeSignatureCompensation.chirpPingPongSize cfg
        = ((cfg.numRxAntennas * (cfg.positiveBinIdx + n + 1) : Nat) : Int) ∧
      2 * (cfg.numRxAntennas * (cfg.positiveBinIdx + n + 1)) < 4294967296 := by
  have hW : cfg.numRxAntennas * (cfg.positiveBinIdx + n + 1)
      ≤ cfg.numRxAntennas * cfg.numRangeBins := Nat.mul_le_mul_left _ (by omega)
  have e : ((cfg.numRxAntennas : Int) * ((cfg.positiveBinIdx : Int) - cfg.negativeBinIdx + 1))
      = ((cfg.numRxAntennas * (cfg.positiveBinIdx + n + 1) : Nat) : Int) := by
    rw [hneg]; push_cast; ring
  unfold OdsDemo_dcRangeSignatureCompensation.chirpPingPongSize
  rw [e]
  exact ⟨wrapInt32_of_isInt32 _ (by unfold isInt32; omega), by omega⟩

theorem dc_call_accumulate (cfg : DcRangeSigCfg) (obj : DcRangeSigState)
    (chirpPingPongId n : Nat)
    (hneg : cfg.negativeBinIdx = -(n : Int))
    (hband : cfg.positiveBinIdx + n < cfg.numRangeBins)
    (hfft : 2 * (cfg.numRxAntennas * cfg.numRangeBins) < 4294967296)
    (hid : chirpPingPongId ≤ 1)
    (hlt : cfg.numAvgChirps * cfg.numTxAntennas < 4294967296)
    (hc : obj.dcRangeSigCalibCntr < cfg.numAvgChirps * cfg.numTxAntennas) :
    (OdsDemo_dcRangeSignatureCompensation cfg obj chirpPingPongId).dcRangeSigCalibCntr
        = obj.dcRangeSigCalibCntr + 1 ∧
    (∀ rx, rx < cfg.numRxAntennas → ∀ j, j < cfg.positiveBinIdx + n + 1 →
      ∃ v, v = dcAdd
            (dcMean0 cfg obj
              (chirpPingPongId * (cfg.numRxAntennas * (cfg.positiveBinIdx + n + 1))
                + rx * (cfg.positiveBinIdx + n + 1) + j))
            (obj.fftOut1D
              (chirpPingPongId * (cfg.numRxAntennas * cfg.numRangeBins)
                + cfg.numRangeBins * rx + dcBinOffset cfg n j)) ∧
        (OdsDemo_dcRangeSignatureCompensation cfg obj chirpPingPongId).dcRangeSigMean
          (chirpPingPongId * (cfg.numRxAntennas * (cfg.positiveBinIdx + n + 1))
            + rx * (cfg.positiveBinIdx + n + 1) + j)
        = if obj.dcRangeSigCalibCntr + 1 = cfg.numAvgChirps * cfg.numTxAntennas ∧
              chirpPingPongId * (cfg.numRxAntennas * (cfg.positiveBinIdx + n + 1))
                + rx * (cfg.positiveBinIdx + n + 1) + j
                < u32 ((cfg.numTxAntennas : Int)
                    * OdsDemo_dcRangeSignatureCompensation.chirpPingPongSize cfg)
          then dcShift cfg v else v) ∧
    (∀ i, (i < chirpPingPongId * (cfg.numRxAntennas * (cfg.positiveBinIdx + n + 1)) ∨
        chirpPingPongId * (cfg.numRxAntennas * (cfg.positiveBinIdx + n + 1))
          + cfg.numRxAntennas * (cfg.positiveBinIdx + n + 1) ≤ i) →
      (OdsDemo_dcRangeSignatureCompensation cfg obj chirpPingPongId).dcRangeSigMean i
        = if obj.dcRangeSigCalibCntr + 1 = cfg.numAvgChirps * cfg.numTxAntennas ∧
              i < u32 ((cfg.numTxAntennas : Int)
                    * OdsDemo_dcRangeSignatureCompensation.chirpPingPongSize cfg)
          then dcShift cfg (dcMean0 cfg obj i) else dcMean0 cfg obj i) := by
  have hc1 : obj.dcRangeSigCalibCntr
      < cfg.numAvgChirps * cfg.numTxAntennas % 4294967296 := by
    rw [Nat.mod_eq_of_lt hlt]; exact hc
  have hadd : addU32 obj.dcRangeSigCalibCntr 1 = obj.dcRangeSigCalibCntr + 1 := by
    unfold addU32; omega
  have hfold : ∀ (mean : Nat → cmplx32ImRe_t) (MB : Nat),
      (List.range cfg.numRxAntennas).foldl
        (fun st rxAntIdx =>
          OdsDemo_dcRangeSignatureCompensation.accumulateBand obj.fftOut1D MB
            (OdsDemo_dcRangeSignatureCompensation.chirpInOffsNeg cfg chirpPingPongId rxAntIdx)
            (u32 (-cfg.negativeBinIdx))
            (OdsDemo_dcRangeSignatureCompensation.accumulateBand obj.fftOut1D MB
              (OdsDemo_dcRangeSignatureCompensation.chirpInOffs cfg chirpPingPongId rxAntIdx)
              (cfg.positiveBinIdx + 1) st))
        (mean, 0)
      = (List.range cfg.numRxAntennas).foldl
        (fun st rx =>
          OdsDemo_dcRangeSignatureCompensation.accumulateBand obj.fftOut1D MB
            (chirpPingPongId * (cfg.numRxAntennas * cfg.numRangeBins) + cfg.numRangeBins * rx
              + (cfg.numRangeBins - n)) n
            (OdsDemo_dcRangeSignatureCompensation.accumulateBand obj.fftOut1D MB
              (chirpPingPongId * (cfg.numRxAntennas * cfg.numRangeBins)
                + cfg.numRangeBins * rx) (cfg.positiveBinIdx + 1) st))
        (mean, 0) := by
    intro mean MB
    apply List.foldl_ext
    intro st rx hrx
    have h := dc_offsets cfg chirpPingPongId n rx hneg hband hfft hid (List.mem_range.mp hrx)
    rw [h.1, h.2.1, h.2.2]
  have hspec := accumulate_loop obj.fftOut1D (dcMean0 cfg obj)
    (chirpPingPongId * (cfg.numRxAntennas * (cfg.positiveBinIdx + n + 1)))
    (chirpPingPongId * (cfg.numRxAntennas * cfg.numRangeBins)) cfg.numRangeBins
    cfg.positiveBinIdx n cfg.numRxAntennas
  have hres : OdsDemo_dcRangeSignatureCompensation cfg obj chirpPingPongId
      = { obj with
          dcRangeSigMean :=
            if obj.dcRangeSigCalibCntr + 1 = cfg.numAvgChirps * cfg.numTxAntennas then
              fun ind =>
                if ind < u32 ((cfg.numTxAntennas : Int)
                    * OdsDemo_dcRangeSignatureCompensation.chirpPingPongSize cfg) then
                  dcShift cfg (((List.range cfg.numRxAntennas).foldl
                    (fun st rx =>
                      OdsDemo_dcRangeSignatureCompensation.accumulateBand obj.fftOut1D
                        (chirpPingPongId * (cfg.numRxAntennas * (cfg.positiveBinIdx + n + 1)))
                        (chirpPingPongId * (cfg.numRxAntennas * cfg.numRangeBins)
                          + cfg.numRangeBins * rx + (cfg.numRangeBins - n)) n
                        (OdsDemo_dcRangeSignatureCompensation.accumulateBand obj.fftOut1D
                          (chirpPingPongId
                            * (cfg.numRxAntennas * (cfg.positiveBinIdx + n + 1)))
                          (chirpPingPongId * (cfg.numRxAntennas * cfg.numRangeBins)
                            + cfg.numRangeBins * rx) (cfg.positiveBinIdx + 1) st))
                    (dcMean0 cfg obj, 0)).1 ind)
                else ((List.range cfg.numRxAntennas).foldl
                    (fun st rx =>
                      OdsDemo_dcRangeSignatureCompensation.accumulateBand obj.fftOut1D
                        (chirpPingPongId * (cfg.numRxAntennas * (cfg.positiveBinIdx + n + 1)))
                        (chirpPingPongId * (cfg.numRxAntennas * cfg.numRangeBins)
                          + cfg.numRangeBins * rx + (cfg.numRangeBins - n)) n
                        (OdsDemo_dcRangeSignatureCompensation.accumulateBand obj.fftOut1D
                          (chirpPingPongId
                            * (cfg.numRxAntennas * (cfg.positiveBinIdx + n + 1)))
                          (chirpPingPongId * (cfg.numRxAntennas * cfg.numRangeBins)
                            + cfg.numRangeBins * rx) (cfg.positiveBinIdx + 1) st))
                    (dcMean0 cfg obj, 0)).1 ind
            else ((List.range cfg.numRxAntennas).foldl
                    (fun st rx =>
                      OdsDemo_dcRangeSignatureCompensation.accumulateBand obj.fftOut1D
                        (chirpPingPongId * (cfg.numRxAntennas * (cfg.positiveBinIdx + n + 1)))
                        (chirpPingPongId * (cfg.numRxAntennas * cfg.numRangeBins)
                          + cfg.numRangeBins * rx + (cfg.numRangeBins - n)) n
                        (OdsDemo_dcRangeSignatureCompensation.accumulateBand obj.fftOut1D
                          (chirpPingPongId
                            * (cfg.numRxAntennas * (cfg.positiveBinIdx + n + 1)))
                          (chirpPingPongId * (cfg.numRxAntennas * cfg.numRangeBins)
                            + cfg.numRangeBins * rx) (cfg.positiveBinIdx + 1) st))
                    (dcMean0 cfg obj, 0)).1
          dcRangeSigCalibCntr := obj.dcRangeSigCalibCntr + 1 } := by
    unfold OdsDemo_dcRangeSignatureCompensation
    simp only [if_pos hc1, if_pos hc, hadd, Nat.mod_eq_of_lt hlt,
      dc_meanBase cfg chirpPingPongId n hneg hband hfft hid, hfold]
    rfl
  rw [hres]
  simp only []
  generalize (List.range cfg.numRxAntennas).foldl
      (fun st rx =>
        OdsDemo_dcRangeSignatureCompensation.accumulateBand obj.fftOut1D
          (chirpPingPongId * (cfg.numRxAntennas * (cfg.positiveBinIdx + n + 1)))
          (chirpPingPongId * (cfg.numRxAntennas * cfg.numRangeBins)
            + cfg.numRangeBins * rx + (cfg.numRangeBins - n)) n
          (OdsDemo_dcRangeSignatureCompensation.accumulateBand obj.fftOut1D
            (chirpPingPongId * (cfg.numRxAntennas * (cfg.positiveBinIdx + n + 1)))
            (chirpPingPongId * (cfg.numRxAntennas * cfg.numRangeBins)
              + cfg.numRangeBins * rx) (cfg.positiveBinIdx + 1) st))
      (dcMean0 cfg obj, 0) = S at hspec ⊢
  obtain ⟨_, s1, s2, s3⟩ := hspec
  have hsel : ∀ i : Nat,
      (if obj.dcRangeSigCalibCntr + 1 = cfg.numAvgChirps * cfg.numTxAntennas then
          fun ind =>
            if ind < u32 ((cfg.numTxAntennas : Int)
                * OdsDemo_dcRangeSignatureCompensation.chirpPingPongSize cfg) then
              dcShift cfg (S.1 ind)
            else S.1 ind
        else S.1) i
      = if obj.dcRangeSigCalibCntr + 1 = cfg.numAvgChirps * cfg.numTxAntennas ∧
            i < u32 ((cfg.numTxAntennas : Int)
                * OdsDemo_dcRangeSignatureCompensation.chirpPingPongSize cfg)
        then dcShift cfg (S.1 i) else S.1 i := by
    intro i
    by_cases h1 : obj.dcRangeSigCalibCntr + 1 = cfg.numAvgChirps * cfg.numTxAntennas
    · simp only [h1, if_true, true_and]
    · simp only [h1, if_false, false_and]
  refine ⟨trivial, ?_, ?_⟩
  · intro rx hrx j hj
    refine ⟨_, rfl, ?_⟩
    rw [hsel]
    have hv : S.1 (chirpPingPongId * (cfg.numRxAntennas * (cfg.positiveBinIdx + n + 1))
          + rx * (cfg.positiveBinIdx + n + 1) + j)
        = dcAdd
            (dcMean0 cfg obj
              (chirpPingPongId * (cfg.numRxAntennas * (cfg.positiveBinIdx + n + 1))
                + rx * (cfg.positiveBinIdx + n + 1) + j))
            (obj.fftOut1D
              (chirpPingPongId * (cfg.numRxAntennas * cfg.numRangeBins)
                + cfg.numRangeBins * rx + dcBinOffset cfg n j)) := by
      unfold dcBinOffset
      by_cases hjp : j ≤ cfg.positiveBinIdx
      · rw [if_pos hjp]
        exact s1 rx hrx j hjp
      · rw [if_neg hjp]
        have hq := s2 rx hrx (j - (cfg.positiveBinIdx + 1)) (by omega)
        have e1 : chirpPingPongId * (cfg.numRxAntennas * (cfg.positiveBinIdx + n + 1))
              + rx * (cfg.positiveBinIdx + n + 1) + (cfg.positiveBinIdx + 1)
              + (j - (cfg.positiveBinIdx + 1))
            = chirpPingPongId * (cfg.numRxAntennas * (cfg.positiveBinIdx + n + 1))
              + rx * (cfg.positiveBinIdx + n + 1) + j := by omega
        have e2 : chirpPingPongId * (cfg.numRxAntennas * cfg.numRangeBins)
              + cfg.numRangeBins * rx + (cfg.numRangeBins - n)
              + (j - (cfg.positiveBinIdx + 1))
            = chirpPingPongId * (cfg.numRxAntennas * cfg.numRangeBins)
              + cfg.numRangeBins * rx
              + (cfg.numRangeBins - n + (j - (cfg.positiveBinIdx + 1))) := by omega
        rw [e1, e2] at hq
        exact hq
    rw [hv]
  · intro i hi
    rw [hsel, s3 i hi]

theorem wrapInt32_add_left (x y : Int) : wrapInt32 (wrapInt32 x + y) = wrapInt32 (x + y) := by
  unfold wrapInt32
  omega

theorem dcSumRe_succ (chirps : Nat → Nat → cmplx16ReIm_t) (id addr m : Nat) :
    dcSumRe chirps id addr (m + 1)
      = dcSumRe chirps id addr m + (chirps (2 * m + id) addr).real := by
  unfold dcSumRe
  rw [List.range_succ, List.map_append, List.sum_append]
  simp

theorem dcSumIm_succ (chirps : Nat → Nat → cmplx16ReIm_t) (id addr m : Nat) :
    dcSumIm chirps id addr (m + 1)
      = dcSumIm chirps id addr m + (chirps (2 * m + id) addr).imag := by
  unfold dcSumIm
  rw [List.range_succ, List.map_append, List.sum_append]
  simp

theorem dc_partial_step (chirps : Nat → Nat → cmplx16ReIm_t) (c id addr : Nat) (hid : id ≤ 1) :
    (if id = c % 2 then
        dcAdd ⟨wrapInt32 (dcSumIm chirps id addr ((c + 1 - id) / 2)),
            wrapInt32 (dcSumRe chirps id addr ((c + 1 - id) / 2))⟩ (chirps c addr)
      else ⟨wrapInt32 (dcSumIm chirps id addr ((c + 1 - id) / 2)),
            wrapInt32 (dcSumRe chirps id addr ((c + 1 - id) / 2))⟩)
      = ⟨wrapInt32 (dcSumIm chirps id addr ((c + 1 + 1 - id) / 2)),
          wrapInt32 (dcSumRe chirps id addr ((c + 1 + 1 - id) / 2))⟩ := by
  by_cases h : id = c % 2
  · rw [if_pos h]
    have e1 : (c + 1 + 1 - id) / 2 = (c + 1 - id) / 2 + 1 := by omega
    have e2 : 2 * ((c + 1 - id) / 2) + id = c := by omega
    rw [e1, dcSumIm_succ, dcSumRe_succ, e2]
    unfold dcAdd
    simp only [wrapInt32_add_left]
  · rw [if_neg h]
    have e1 : (c + 1 + 1 - id) / 2 = (c + 1 - id) / 2 := by omega
    rw [e1]

theorem dc_run_two_tx (cfg : DcRangeSigCfg) (chirps : Nat → Nat → cmplx16ReIm_t) (n : Nat)
    (hneg : cfg.negativeBinIdx = -(n : Int))
    (hband : cfg.positiveBinIdx + n < cfg.numRangeBins)
    (hfft : 2 * (cfg.numRxAntennas * cfg.numRangeBins) < 4294967296)
    (hTx : cfg.numTxAntennas = 2)
    (hlt : cfg.numAvgChirps * 2 < 4294967296) :
    ∀ (m c : Nat) (obj : DcRangeSigState), c + m = cfg.numAvgChirps * 2 → 1 ≤ m →
      obj.dcRangeSigCalibCntr = c →
      (∀ id, id ≤ 1 → ∀ rx, rx < cfg.numRxAntennas → ∀ j, j < cfg.positiveBinIdx + n + 1 →
        dcMean0 cfg obj
            (id * (cfg.numRxAntennas * (cfg.positiveBinIdx + n + 1))
              + rx * (cfg.positiveBinIdx + n + 1) + j)
          = ⟨wrapInt32 (dcSumIm chirps id
                (id * (cfg.numRxAntennas * cfg.numRangeBins) + cfg.numRangeBins * rx
                  + dcBinOffset cfg n j) ((c + 1 - id) / 2)),
              wrapInt32 (dcSumRe chirps id
                (id * (cfg.numRxAntennas * cfg.numRangeBins) + cfg.numRangeBins * rx
                  + dcBinOffset cfg n j) ((c + 1 - id) / 2))⟩) →
      (dcRangeSigRun cfg chirps m c obj).dcRangeSigCalibCntr = cfg.numAvgChirps * 2 ∧
      (∀ id, id ≤ 1 → ∀ rx, rx < cfg.numRxAntennas → ∀ j, j < cfg.positiveBinIdx + n + 1 →
        (dcRangeSigRun cfg chirps m c obj).dcRangeSigMean
            (id * (cfg.numRxAntennas * (cfg.positiveBinIdx + n + 1))
              + rx * (cfg.positiveBinIdx + n + 1) + j)
          = dcShift cfg
              ⟨wrapInt32 (dcSumIm chirps id
                (id * (cfg.numRxAntennas * cfg.numRangeBins) + cfg.numRangeBins * rx
                  + dcBinOffset cfg n j) cfg.numAvgChirps),
              wrapInt32 (dcSumRe chirps id
                (id * (cfg.numRxAntennas * cfg.numRangeBins) + cfg.numRangeBins * rx
                  + dcBinOffset cfg n j) cfg.numAvgChirps)⟩) := by
  have hsz := dc_size cfg n hneg hband hfft
  have htot : u32 ((cfg.numTxAntennas : Int)
      * OdsDemo_dcRangeSignatureCompensation.chirpPingPongSize cfg)
      = 2 * (cfg.numRxAntennas * (cfg.positiveBinIdx + n + 1)) := by
    rw [hsz.1, hTx]
    unfold u32
    have := hsz.2
    omega
  intro m
  induction m with
  | zero => intro c obj _ h1; omega
  | succ m ih =>
    intro c obj hcm _ hcnt hinv
    have hidc : c &&& 1 ≤ 1 := by rw [Nat.and_one_is_mod]; omega
    have hc2 : (c &&& 1) = c % 2 := Nat.and_one_is_mod c
    -- the call for chirp `c`
    have hcall := dc_call_accumulate cfg { obj with fftOut1D := chirps c } (c &&& 1) n hneg
      hband hfft hidc (by rw [hTx]; exact hlt) (by rw [hTx]; show obj.dcRangeSigCalibCntr < _; omega)
    have hm0 : dcMean0 cfg { obj with fftOut1D := chirps c } = dcMean0 cfg obj := rfl
    rw [hm0] at hcall
    obtain ⟨k1, k2, k3⟩ := hcall
    have htot' := htot
    rw [hTx] at htot'
    simp only [htot, htot', hTx] at k2 k3
    have k1' : (OdsDemo_dcRangeSignatureCompensation cfg { obj with fftOut1D := chirps c }
        (c &&& 1)).dcRangeSigCalibCntr = c + 1 := by rw [k1]; show obj.dcRangeSigCalibCntr + 1 = _; omega
    -- every entry after the call
    have hstep : ∀ id, id ≤ 1 → ∀ rx, rx < cfg.numRxAntennas →
        ∀ j, j < cfg.positiveBinIdx + n + 1 →
        (OdsDemo_dcRangeSignatureCompensation cfg { obj with fftOut1D := chirps c }
            (c &&& 1)).dcRangeSigMean
            (id * (cfg.numRxAntennas * (cfg.positiveBinIdx + n + 1))
              + rx * (cfg.positiveBinIdx + n + 1) + j)
          = if c + 1 = cfg.numAvgChirps * 2 then
              dcShift cfg
                ⟨wrapInt32 (dcSumIm chirps id
                  (id * (cfg.numRxAntennas * cfg.numRangeBins) + cfg.numRangeBins * rx
                    + dcBinOffset cfg n j) ((c + 1 + 1 - id) / 2)),
                wrapInt32 (dcSumRe chirps id
                  (id * (cfg.numRxAntennas * cfg.numRangeBins) + cfg.numRangeBins * rx
                    + dcBinOffset cfg n j) ((c + 1 + 1 - id) / 2))⟩
            else
              ⟨wrapInt32 (dcSumIm chirps id
                  (id * (cfg.numRxAntennas * cfg.numRangeBins) + cfg.numRangeBins * rx
                    + dcBinOffset cfg n j) ((c + 1 + 1 - id) / 2)),
                wrapInt32 (dcSumRe chirps id
                  (id * (cfg.numRxAntennas * cfg.numRangeBins) + cfg.numRangeBins * rx
                    + dcBinOffset cfg n j) ((c + 1 + 1 - id) / 2))⟩ := by
      intro id hid rx hrx j hj
      have hrow := row_le_right (cfg.positiveBinIdx + n + 1) rx cfg.numRxAntennas hrx
      have hidsz : id * (cfg.numRxAntennas * (cfg.positiveBinIdx + n + 1))
          ≤ cfg.numRxAntennas * (cfg.positiveBinIdx + n + 1) := by
        rcases (show id = 0 ∨ id = 1 by omega) with h | h <;> subst h <;> simp
      have hpart := dc_partial_step chirps c id
        (id * (cfg.numRxAntennas * cfg.numRangeBins) + cfg.numRangeBins * rx
          + dcBinOffset cfg n j) hid
      rw [← hpart]
      have hcnt' : (obj.dcRangeSigCalibCntr + 1 = cfg.numAvgChirps * 2) ↔
          (c + 1 = cfg.numAvgChirps * 2) := by rw [hcnt]
      by_cases hsame : id = c % 2
      · have hidc' : c &&& 1 = id := by rw [hc2]; exact hsame.symm
        obtain ⟨v, hv, hk⟩ := k2 rx hrx j hj
        rw [hidc'] at hk hv ⊢
        rw [hinv id hid rx hrx j hj] at hv
        rw [if_pos hsame, ← hv, hk]
        by_cases hfin : c + 1 = cfg.numAvgChirps * 2
        · rw [if_pos ⟨hcnt'.mpr hfin, by omega⟩, if_pos hfin]
        · rw [if_neg (fun h => hfin (hcnt'.mp h.1)), if_neg hfin]
      · have hout : id * (cfg.numRxAntennas * (cfg.positiveBinIdx + n + 1))
              + rx * (cfg.positiveBinIdx + n + 1) + j
              < (c &&& 1) * (cfg.numRxAntennas * (cfg.positiveBinIdx + n + 1)) ∨
            (c &&& 1) * (cfg.numRxAntennas * (cfg.positiveBinIdx + n + 1))
              + cfg.numRxAntennas * (cfg.positiveBinIdx + n + 1)
              ≤ id * (cfg.numRxAntennas * (cfg.positiveBinIdx + n + 1))
                + rx * (cfg.positiveBinIdx + n + 1) + j := by
          rcases (show id = 0 ∨ id = 1 by omega) with h | h <;>
            rcases (show c &&& 1 = 0 ∨ c &&& 1 = 1 by omega) with h' | h' <;>
            rw [h, h'] <;> simp only [Nat.zero_mul, Nat.one_mul, Nat.zero_add] <;> omega
        rw [k3 _ hout, hinv id hid rx hrx j hj, if_neg hsame]
        by_cases hfin : c + 1 = cfg.numAvgChirps * 2
        · rw [if_pos ⟨hcnt'.mpr hfin, by omega⟩, if_pos hfin]
        · rw [if_neg (fun h => hfin (hcnt'.mp h.1)), if_neg hfin]
    show (dcRangeSigRun cfg chirps m (c + 1)
        (OdsDemo_dcRangeSignatureCompensation cfg { obj with fftOut1D := chirps c }
          (c &&& 1))).dcRangeSigCalibCntr = _ ∧ _
    rcases Nat.eq_zero_or_pos m with hm | hm
    · subst hm
      have hfin : c + 1 = cfg.numAvgChirps * 2 := by omega
      refine ⟨by show (OdsDemo_dcRangeSignatureCompensation cfg _ _).dcRangeSigCalibCntr = _
                 rw [k1', hfin], ?_⟩
      intro id hid rx hrx j hj
      show (OdsDemo_dcRangeSignatureCompensation cfg _ _).dcRangeSigMean _ = _
      rw [hstep id hid rx hrx j hj, if_pos hfin]
      have e : (c + 1 + 1 - id) / 2 = cfg.numAvgChirps := by omega
      rw [e]
    · have hne : c + 1 ≠ cfg.numAvgChirps * 2 := by omega
      refine ih (c + 1) _ (by omega) hm k1' ?_
      intro id hid rx hrx j hj
      have hm0' : dcMean0 cfg (OdsDemo_dcRangeSignatureCompensation cfg
          { obj with fftOut1D := chirps c } (c &&& 1))
          = (OdsDemo_dcRangeSignatureCompensation cfg
          { obj with fftOut1D := chirps c } (c &&& 1)).dcRangeSigMean := by
        unfold dcMean0
        rw [if_neg (by rw [k1']; omega)]
      rw [hm0', hstep id hid rx hrx j hj, if_neg hne]

theorem dcSumRe_bound (chirps : Nat → Nat → cmplx16ReIm_t) (id addr : Nat)
    (h16 : ∀ c a, isInt16 (chirps c a).real ∧ isInt16 (chirps c a).imag) :
    ∀ m : Nat, -(32768 * (m : Int)) ≤ dcSumRe chirps id addr m ∧
      dcSumRe chirps id addr m ≤ 32768 * (m : Int) := by
  intro m
  induction m with
  | zero => simp [dcSumRe]
  | succ m ih =>
    rw [dcSumRe_succ]
    have h := (h16 (2 * m + id) addr).1
    unfold isInt16 at h
    push_cast
    omega

theorem dcSumIm_bound (chirps : Nat → Nat → cmplx16ReIm_t) (id addr : Nat)
    (h16 : ∀ c a, isInt16 (chirps c a).real ∧ isInt16 (chirps c a).imag) :
    ∀ m : Nat, -(32768 * (m : Int)) ≤ dcSumIm chirps id addr m ∧
      dcSumIm chirps id addr m ≤ 32768 * (m : Int) := by
  intro m
  induction m with
  | zero => simp [dcSumIm]
  | succ m ih =>
    rw [dcSumIm_succ]
    have h := (h16 (2 * m + id) addr).2
    unfold isInt16 at h
    push_cast
    omega

/-- The DC calibration with two transmit antennas: with `numAvgChirps =
2 ^ log2NumAvgChirps` at most `2 ^ 15`, 16-bit FFT values, calibration bands that do not
overlap and the counter starting at 0, the `2 * numAvgChirps` calls of the warm-up window
driven with the ping/pong id `chirpCount & 1` leave in every entry of the mean, for both
halves, every receive antenna and every band position, the sum of the `numAvgChirps` values
accumulated into it shifted right arithmetically by `log2NumAvgChirps`, per component. -/
theorem dc_mean_two_tx (cfg : DcRangeSigCfg) (chirps : Nat → Nat → cmplx16ReIm_t)
    (obj : DcRangeSigState) (n : Nat)
    (hneg : cfg.negativeBinIdx = -(n : Int))
    (hband : cfg.positiveBinIdx + n < cfg.numRangeBins)
    (hfft : 2 * (cfg.numRxAntennas * cfg.numRangeBins) < 4294967296)
    (hTx : cfg.numTxAntennas = 2)
    (hL : cfg.numAvgChirps = 2 ^ cfg.log2NumAvgChirps) (hL15 : cfg.log2NumAvgChirps ≤ 15)
    (h16 : ∀ c a, isInt16 (chirps c a).real ∧ isInt16 (chirps c a).imag)
    (h0 : obj.dcRangeSigCalibCntr = 0) :
    (dcRangeSigRun cfg chirps (cfg.numAvgChirps * 2) 0 obj).dcRangeSigCalibCntr
        = cfg.numAvgChirps * 2 ∧
    (∀ id, id ≤ 1 → ∀ rx, rx < cfg.numRxAntennas → ∀ j, j < cfg.positiveBinIdx + n + 1 →
      (dcRangeSigRun cfg chirps (cfg.numAvgChirps * 2) 0 obj).dcRangeSigMean
          (id * (cfg.numRxAntennas * (cfg.positiveBinIdx + n + 1))
            + rx * (cfg.positiveBinIdx + n + 1) + j)
        = ⟨dcSumIm chirps id
              (id * (cfg.numRxAntennas * cfg.numRangeBins) + cfg.numRangeBins * rx
                + dcBinOffset cfg n j) cfg.numAvgChirps >>> cfg.log2NumAvgChirps,
            dcSumRe chirps id
              (id * (cfg.numRxAntennas * cfg.numRangeBins) + cfg.numRangeBins * rx
                + dcBinOffset cfg n j) cfg.numAvgChirps >>> cfg.log2NumAvgChirps⟩) := by
  have hA1 : 1 ≤ cfg.numAvgChirps := by rw [hL]; exact Nat.one_le_two_pow
  have hA2 : cfg.numAvgChirps ≤ 32768 := by
    rw [hL]
    calc 2 ^ cfg.log2NumAvgChirps ≤ 2 ^ 15 := Nat.pow_le_pow_right (by decide) hL15
      _ = 32768 := by norm_num
  have hsz := dc_size cfg n hneg hband hfft
  have hrun := dc_run_two_tx cfg chirps n hneg hband hfft hTx (by omega)
    (cfg.numAvgChirps * 2) 0 obj (by omega) (by omega) h0 (by
      intro id hid rx hrx j hj
      have hrow := row_le_right (cfg.positiveBinIdx + n + 1) rx cfg.numRxAntennas hrx
      have hidsz : id * (cfg.numRxAntennas * (cfg.positiveBinIdx + n + 1))
          ≤ cfg.numRxAntennas * (cfg.positiveBinIdx + n + 1) := by
        rcases (show id = 0 ∨ id = 1 by omega) with h | h <;> subst h <;> simp
      have e : (0 + 1 - id) / 2 = 0 := by omega
      rw [e]
      have htot : u32 ((cfg.numTxAntennas : Int)
          * OdsDemo_dcRangeSignatureCompensation.chirpPingPongSize cfg)
          = 2 * (cfg.numRxAntennas * (cfg.positiveBinIdx + n + 1)) := by
        rw [hsz.1, hTx]
        unfold u32
        have := hsz.2
        omega
      unfold dcMean0
      rw [if_pos h0, htot]
      show (if _ < _ then _ else _) = _
      rw [if_pos (by omega)]
      simp [dcSumIm, dcSumRe, wrapInt32])
  refine ⟨hrun.1, ?_⟩
  intro id hid rx hrx j hj
  rw [hrun.2 id hid rx hrx j hj]
  unfold dcShift
  have b1 := dcSumIm_bound chirps id
    (id * (cfg.numRxAntennas * cfg.numRangeBins) + cfg.numRangeBins * rx
      + dcBinOffset cfg n j) h16 cfg.numAvgChirps
  have b2 := dcSumRe_bound chirps id
    (id * (cfg.numRxAntennas * cfg.numRangeBins) + cfg.numRangeBins * rx
      + dcBinOffset cfg n j) h16 cfg.numAvgChirps
  have hAi : (cfg.numAvgChirps : Int) ≤ 32768 := by exact_mod_cast hA2
  rw [wrapInt32_of_isInt32 _ (by unfold isInt32; omega),
    wrapInt32_of_isInt32 _ (by unfold isInt32; omega)]

/-! ### C28 -/

/-- Claim C28: for every `numDopplerBins = N` with `2 ≤ N < 2 ^ 31` (in particular every power
of two from 2 to `2 ^ 30`), every `dopplerIdx` in `[0, N)` and at least one antenna,
`OdsDemo_addDopplerCompensation` reads `azimuthModCoefs` at an index `k` with `0 ≤ k < N`. -/
theorem C28_compensation_index_in_table (N d numAnt : Nat) (hN : 2 ≤ N) (hN31 : N < 2 ^ 31)
    (hd : d < N) (hAnt : numAnt ≠ 0) :
    ∃ k flag : Int,
      OdsDemo_addDopplerCompensation.lookup (d : Int) (N : Int) numAnt = some (k, flag) ∧
      0 ≤ k ∧ k < (N : Int) := by
  have _ := hN31
  unfold OdsDemo_addDopplerCompensation.lookup
  rw [if_neg hAnt]
  refine ⟨_, _, rfl, ?_⟩
  simp only [tdiv_two]
  split_ifs <;> omega

/-- Claim C28 at 8 Doppler bins and Doppler index 7. -/
theorem C28_compensation_index_in_table_witness :
    ∃ k flag : Int,
      OdsDemo_addDopplerCompensation.lookup ((7 : Nat) : Int) ((8 : Nat) : Int) 1
        = some (k, flag) ∧
      0 ≤ k ∧ k < ((8 : Nat) : Int) :=
  C28_compensation_index_in_table 8 7 1 (by decide) (by decide) (by decide) (by decide)

/-! ### C23 -/

theorem pow2roundup_loop_spec (x : Nat) (hx : x ≤ 2 ^ 31) :
    ∀ fuel i, i ≤ 31 → 32 ≤ i + fuel → (∀ j, j < i → 2 ^ j < x) →
      ∃ k, OdsDemo_pow2roundup.loop x fuel (2 ^ i) = .ok (2 ^ k) ∧ x ≤ 2 ^ k ∧
        ∀ j, j < k → 2 ^ j < x := by
  intro fuel
  induction fuel with
  | zero => intro i h1 h2 _; omega
  | succ f ih =>
    intro i h1 h2 hlow
    rw [OdsDemo_pow2roundup.loop]
    by_cases hgt : x > 2 ^ i
    · rw [if_pos hgt]
      have hi : i < 31 := by
        by_contra hc
        have e : i = 31 := by omega
        rw [e] at hgt
        omega
      have hlt : 2 ^ (i + 1) < 4294967296 := by
        have : 2 ^ (i + 1) ≤ 2 ^ 31 := Nat.pow_le_pow_right (by decide) (by omega)
        omega
      have e : (2 ^ i <<< 1) % 4294967296 = 2 ^ (i + 1) := by
        rw [Nat.shiftLeft_eq, ← pow_succ, Nat.mod_eq_of_lt hlt]
      rw [e]
      refine ih (i + 1) (by omega) (by omega) (fun j hj => ?_)
      by_cases hji : j = i
      · rw [hji]; exact hgt
      · exact hlow j (by omega)
    · rw [if_neg hgt]
      exact ⟨i, rfl, by omega, hlow⟩

theorem pow2roundup_loop_zero (x : Nat) (hx : 0 < x) :
    ∀ fuel, OdsDemo_pow2roundup.loop x fuel 0 = .error .outOfFuel := by
  intro fuel
  induction fuel with
  | zero => rfl
  | succ f ih =>
    rw [OdsDemo_pow2roundup.loop, if_pos hx]
    exact ih

theorem pow2roundup_loop_diverges (x : Nat) (hx : 2 ^ 31 < x) :
    ∀ fuel i, i ≤ 31 → OdsDemo_pow2roundup.loop x fuel (2 ^ i) = .error .outOfFuel := by
  intro fuel
  induction fuel with
  | zero => intro i _; rfl
  | succ f ih =>
    intro i hi
    have hle : 2 ^ i ≤ 2 ^ 31 := Nat.pow_le_pow_right (by decide) hi
    rw [OdsDemo_pow2roundup.loop, if_pos (by omega)]
    by_cases h31 : i = 31
    · subst h31
      have e : ((2 : Nat) ^ 31 <<< 1) % 4294967296 = 0 := by decide
      rw [e]
      exact pow2roundup_loop_zero x (by omega) f
    · have hlt : 2 ^ (i + 1) < 4294967296 := by
        have : 2 ^ (i + 1) ≤ 2 ^ 31 := Nat.pow_le_pow_right (by decide) (by omega)
        omega
      have e : (2 ^ i <<< 1) % 4294967296 = 2 ^ (i + 1) := by
        rw [Nat.shiftLeft_eq, ← pow_succ, Nat.mod_eq_of_lt hlt]
      rw [e]
      exact ih (i + 1) (by omega)

/-- Claim C23: for a 32-bit `x ≤ 2 ^ 31` the loop of `OdsDemo_pow2roundup` ends within 32
tests of its condition and the routine returns a power of two `2 ^ k` with `x ≤ 2 ^ k` that is
below every other power of two that is at least `x` (so 1 for `x ≤ 1`, and `x` itself when
`x` is a power of two); for a 32-bit `x > 2 ^ 31` the result wraps to 0 and the loop does not
end, whatever the iteration budget. -/
theorem C23_pow2roundup_least_power (x : Nat) (hx : x < 2 ^ 32) :
    (x ≤ 2 ^ 31 → ∀ fuel, 32 ≤ fuel →
      ∃ k, OdsDemo_pow2roundup fuel x = .ok (2 ^ k) ∧ x ≤ 2 ^ k ∧
        (∀ j, x ≤ 2 ^ j → 2 ^ k ≤ 2 ^ j) ∧ (x ≤ 1 → 2 ^ k = 1) ∧
        (∀ m, x = 2 ^ m → 2 ^ k = x)) ∧
    (2 ^ 31 < x → ∀ fuel, OdsDemo_pow2roundup fuel x = .error .outOfFuel) := by
  have _ := hx
  constructor
  · intro h31 fuel hfuel
    obtain ⟨k, hk, hle, hlow⟩ :=
      pow2roundup_loop_spec x h31 fuel 0 (by omega) (by omega) (fun j hj => by omega)
    have hleast : ∀ j, x ≤ 2 ^ j → 2 ^ k ≤ 2 ^ j := by
      intro j hj
      apply Nat.pow_le_pow_right (by decide)
      by_contra hc
      have := hlow j (by omega)
      omega
    refine ⟨k, hk, hle, hleast, ?_, ?_⟩
    · intro h1
      have := hleast 0 (by simpa using h1)
      have hpos : 0 < 2 ^ k := Nat.pos_pow_of_pos _ (by decide)
      simp only [pow_zero] at this
      omega
    · intro m hm
      have := hleast m (by omega)
      omega
  · intro h31 fuel
    exact pow2roundup_loop_diverges x h31 fuel 0 (by omega)

/-- Claim C23 at `x = 5` with a budget of 32 iterations, where the result is 8, and at
`x = 2 ^ 31 + 1` with a budget of 100 iterations, where the loop does not end. -/
theorem C23_pow2roundup_least_power_witness :
    (∃ k, OdsDemo_pow2roundup 32 5 = .ok (2 ^ k) ∧ 5 ≤ 2 ^ k ∧
        (∀ j, 5 ≤ 2 ^ j → 2 ^ k ≤ 2 ^ j) ∧ (5 ≤ 1 → 2 ^ k = 1) ∧
        (∀ m, 5 = 2 ^ m → 2 ^ k = 5)) ∧
    OdsDemo_pow2roundup 32 5 = .ok 8 ∧
    OdsDemo_pow2roundup 100 (2 ^ 31 + 1) = .error .outOfFuel :=
  ⟨(C23_pow2roundup_least_power 5 (by decide)).1 (by decide) 32 (by decide), rfl,
    (C23_pow2roundup_least_power (2 ^ 31 + 1) (by decide)).2 (by decide) 100⟩

/-! ### C30 -/

theorem binIndex_two_tx (R a : Nat) (hR32 : 2 * R < 2 ^ 32) (ha : a < 2 * R) :
    OdsDemo_interFrameProcessing.binIndex 2 R a = a / 2 + (a % 2) * R := by
  unfold OdsDemo_interFrameProcessing.binIndex pingPongId addU32 mulU32
  rw [if_pos rfl, Nat.and_one_is_mod]
  rcases Nat.mod_two_eq_zero_or_one a with h | h
  · rw [h, Nat.zero_mul, Nat.zero_mod, Nat.add_zero, Nat.mod_eq_of_lt (by omega)]
  · rw [h, Nat.one_mul, Nat.mod_eq_of_lt (a := R) (by omega), Nat.mod_eq_of_lt (by omega)]

/-- Claim C30: with two TX antennas and `numRxAntennas = R ≥ 1` (`2 * R` a 32-bit value), the
index `rxAntIdx/2 + pingPongId(rxAntIdx) * numRxAntennas`, used for `binIndex` and for
`azimuthInIndx`, maps `[0, 2 * R)` into itself, an even `a` into `[0, R)` and an odd `a` into
`[R, 2 * R)`, takes different values at different arguments, and takes every value of
`[0, 2 * R)`. -/
theorem C30_slot_map_bijective (R : Nat) (hR : 1 ≤ R) (hR32 : 2 * R < 2 ^ 32) :
    (∀ a, OdsDemo_interFrameProcessing.azimuthInIndx 2 R a
        = OdsDemo_interFrameProcessing.binIndex 2 R a) ∧
    (∀ a, a < 2 * R → OdsDemo_interFrameProcessing.binIndex 2 R a < 2 * R) ∧
    (∀ a, a < 2 * R → a % 2 = 0 → OdsDemo_interFrameProcessing.binIndex 2 R a < R) ∧
    (∀ a, a < 2 * R → a % 2 = 1 → R ≤ OdsDemo_interFrameProcessing.binIndex 2 R a) ∧
    (∀ a b, a < 2 * R → b < 2 * R →
      OdsDemo_interFrameProcessing.binIndex 2 R a
        = OdsDemo_interFrameProcessing.binIndex 2 R b → a = b) ∧
    (∀ b, b < 2 * R → ∃ a, a < 2 * R ∧ OdsDemo_interFrameProcessing.binIndex 2 R a = b) := by
  have _ := hR
  have key := binIndex_two_tx R
  refine ⟨fun a => rfl, ?_, ?_, ?_, ?_, ?_⟩
  · intro a ha
    rw [key a hR32 ha]
    rcases Nat.mod_two_eq_zero_or_one a with h | h <;> rw [h] <;> omega
  · intro a ha h
    rw [key a hR32 ha, h]
    omega
  · intro a ha h
    rw [key a hR32 ha, h]
    omega
  · intro a b ha hb
    rw [key a hR32 ha, key b hR32 hb]
    rcases Nat.mod_two_eq_zero_or_one a with h | h <;>
      rcases Nat.mod_two_eq_zero_or_one b with h' | h' <;> rw [h, h'] <;> omega
  · intro b hb
    by_cases hlt : b < R
    · refine ⟨2 * b, by omega, ?_⟩
      rw [key (2 * b) hR32 (by omega)]
      have e : 2 * b % 2 = 0 := by omega
      rw [e]
      omega
    · refine ⟨2 * (b - R) + 1, by omega, ?_⟩
      rw [key _ hR32 (by omega)]
      have e : (2 * (b - R) + 1) % 2 = 1 := by omega
      rw [e]
      omega

/-- Claim C30 for 4 RX antennas. -/
theorem C30_slot_map_bijective_witness :
    (∀ a, OdsDemo_interFrameProcessing.azimuthInIndx 2 4 a
        = OdsDemo_interFrameProcessing.binIndex 2 4 a) ∧
    (∀ a, a < 2 * 4 → OdsDemo_interFrameProcessing.binIndex 2 4 a < 2 * 4) ∧
    (∀ a, a < 2 * 4 → a % 2 = 0 → OdsDemo_interFrameProcessing.binIndex 2 4 a < 4) ∧
    (∀ a, a < 2 * 4 → a % 2 = 1 → 4 ≤ OdsDemo_interFrameProcessing.binIndex 2 4 a) ∧
    (∀ a b, a < 2 * 4 → b < 2 * 4 →
      OdsDemo_interFrameProcessing.binIndex 2 4 a
        = OdsDemo_interFrameProcessing.binIndex 2 4 b → a = b) ∧
    (∀ b, b < 2 * 4 → ∃ a, a < 2 * 4 ∧ OdsDemo_interFrameProcessing.binIndex 2 4 a = b) :=
  C30_slot_map_bijective 4 (by decide) (by decide)

/-! ### C29 -/

theorem processChirp_eq (cb db tb T D : Nat) (obj : ChirpCounters) :
    OdsDemo_processChirp cb db tb T D obj
      = if (obj.txAntennaCount + 1) % 2 ^ tb = T then
          if (obj.dopplerBinCount + 1) % 2 ^ db = D then ⟨0, 0, 0⟩
          else ⟨(obj.chirpCount + 1) % 2 ^ cb, (obj.dopplerBinCount + 1) % 2 ^ db, 0⟩
        else ⟨(obj.chirpCount + 1) % 2 ^ cb, obj.dopplerBinCount,
          (obj.txAntennaCount + 1) % 2 ^ tb⟩ := by
  unfold OdsDemo_processChirp
  simp only

/-- One call of `OdsDemo_processChirp` keeps the relation between the counters and advances
`chirpCount` by one modulo `numTxAntennas * numDopplerBins`. -/
theorem processChirp_step (cb db tb T D : Nat) (hTb : T < 2 ^ tb)
    (hDb : D < 2 ^ db) (hCb : T * D ≤ 2 ^ cb) (obj : ChirpCounters)
    (h1 : obj.txAntennaCount < T) (h2 : obj.dopplerBinCount < D)
    (h3 : obj.chirpCount = obj.dopplerBinCount * T + obj.txAntennaCount) :
    (OdsDemo_processChirp cb db tb T D obj).txAntennaCount < T ∧
    (OdsDemo_processChirp cb db tb T D obj).dopplerBinCount < D ∧
    (OdsDemo_processChirp cb db tb T D obj).chirpCount
      = (OdsDemo_processChirp cb db tb T D obj).dopplerBinCount * T
        + (OdsDemo_processChirp cb db tb T D obj).txAntennaCount ∧
    (OdsDemo_processChirp cb db tb T D obj).chirpCount = (obj.chirpCount + 1) % (T * D) := by
  obtain ⟨c, d, t⟩ := obj
  simp only at h1 h2 h3
  rw [processChirp_eq]
  simp only
  have hsucc : (d + 1) * T = d * T + T := Nat.succ_mul d T
  have hle : (d + 1) * T ≤ D * T := Nat.mul_le_mul_right T h2
  have hcomm : T * D = D * T := Nat.mul_comm T D
  rw [Nat.mod_eq_of_lt (show t + 1 < 2 ^ tb by omega),
    Nat.mod_eq_of_lt (show d + 1 < 2 ^ db by omega)]
  by_cases ht : t + 1 = T
  · rw [if_pos ht]
    by_cases hd : d + 1 = D
    · rw [if_pos hd]
      simp only
      subst hd
      refine ⟨by omega, by omega, by simp, ?_⟩
      have e : c + 1 = T * (d + 1) := by omega
      simp only [e, Nat.mod_self]
    · rw [if_neg hd]
      have hle2 : (d + 1 + 1) * T ≤ D * T := Nat.mul_le_mul_right T (by omega)
      have hsucc2 : (d + 1 + 1) * T = (d + 1) * T + T := Nat.succ_mul (d + 1) T
      have hlt : c + 1 < T * D := by omega
      simp only
      rw [Nat.mod_eq_of_lt (show c + 1 < 2 ^ cb by omega), Nat.mod_eq_of_lt hlt]
      refine ⟨by omega, by omega, by omega, rfl⟩
  · rw [if_neg ht]
    have hlt : c + 1 < T * D := by omega
    simp only
    rw [Nat.mod_eq_of_lt (show c + 1 < 2 ^ cb by omega), Nat.mod_eq_of_lt hlt]
    refine ⟨by omega, by omega, by omega, rfl⟩

theorem processChirps_inv (cb db tb T D : Nat) (hT : 1 ≤ T) (hD : 1 ≤ D) (hTb : T < 2 ^ tb)
    (hDb : D < 2 ^ db) (hCb : T * D ≤ 2 ^ cb) (obj : ChirpCounters) :
    ∀ n,
      (processChirps cb db tb T D n (OdsDemo_dataPathInit1Dstate obj)).txAntennaCount < T ∧
      (processChirps cb db tb T D n (OdsDemo_dataPathInit1Dstate obj)).dopplerBinCount < D ∧
      (processChirps cb db tb T D n (OdsDemo_dataPathInit1Dstate obj)).chirpCount
        = (processChirps cb db tb T D n (OdsDemo_dataPathInit1Dstate obj)).dopplerBinCount * T
          + (processChirps cb db tb T D n (OdsDemo_dataPathInit1Dstate obj)).txAntennaCount ∧
      (processChirps cb db tb T D n (OdsDemo_dataPathInit1Dstate obj)).chirpCount
        = n % (T * D) := by
  intro n
  induction n with
  | zero =>
    simp only [processChirps, OdsDemo_dataPathInit1Dstate, Nat.zero_mod]
    refine ⟨by omega, by omega, by simp, trivial⟩
  | succ n ih =>
    obtain ⟨i1, i2, i3, i4⟩ := ih
    have hs := processChirp_step cb db tb T D hTb hDb hCb _ i1 i2 i3
    rw [processChirps]
    refine ⟨hs.1, hs.2.1, hs.2.2.1, ?_⟩
    rw [hs.2.2.2, i4, Nat.mod_add_mod]

/-- Claim C29: starting from `OdsDemo_dataPathInit1Dstate`, with `numTxAntennas = T ≥ 1` and
`numDopplerBins = D ≥ 1` (both below the range of their counter fields, and `T * D` within
the range of `chirpCount`), after any number `n` of calls of `OdsDemo_processChirp`
`txAntennaCount < T`, `dopplerBinCount < D` and
`chirpCount = dopplerBinCount * T + txAntennaCount = n mod (T * D)`; after exactly `T * D`
calls the three counters are 0. -/
theorem C29_chirp_counters (chirpBits dopplerBits txBits T D : Nat) (hT : 1 ≤ T) (hD : 1 ≤ D)
    (hTb : T < 2 ^ txBits) (hDb : D < 2 ^ dopplerBits) (hCb : T * D ≤ 2 ^ chirpBits)
    (obj : ChirpCounters) :
    (∀ n,
      (processChirps chirpBits dopplerBits txBits T D n
        (OdsDemo_dataPathInit1Dstate obj)).txAntennaCount < T ∧
      (processChirps chirpBits dopplerBits txBits T D n
        (OdsDemo_dataPathInit1Dstate obj)).dopplerBinCount < D ∧
      (processChirps chirpBits dopplerBits txBits T D n
        (OdsDemo_dataPathInit1Dstate obj)).chirpCount
        = (processChirps chirpBits dopplerBits txBits T D n
            (OdsDemo_dataPathInit1Dstate obj)).dopplerBinCount * T
          + (processChirps chirpBits dopplerBits txBits T D n
            (OdsDemo_dataPathInit1Dstate obj)).txAntennaCount ∧
      (processChirps chirpBits dopplerBits txBits T D n
        (OdsDemo_dataPathInit1Dstate obj)).chirpCount = n % (T * D)) ∧
    processChirps chirpBits dopplerBits txBits T D (T * D) (OdsDemo_dataPathInit1Dstate obj)
      = ⟨0, 0, 0⟩ := by
  have hinv := processChirps_inv chirpBits dopplerBits txBits T D hT hD hTb hDb hCb obj
  refine ⟨hinv, ?_⟩
  obtain ⟨_, _, h3, h4⟩ := hinv (T * D)
  rw [Nat.mod_self] at h4
  rw [h4] at h3
  generalize processChirps chirpBits dopplerBits txBits T D (T * D)
    (OdsDemo_dataPathInit1Dstate obj) = s at h3 h4
  obtain ⟨c, d, t⟩ := s
  simp only at h3 h4
  have ht : t = 0 := by omega
  have hd : d * T = 0 := by omega
  have hd0 : d = 0 := by
    rcases Nat.mul_eq_zero.1 hd with h | h
    · exact h
    · omega
  rw [h4, ht, hd0]

/-- Claim C29 for 2 TX antennas and 3 Doppler bins, with 16-bit `chirpCount` and
`dopplerBinCount` and 8-bit `txAntennaCount`. -/
theorem C29_chirp_counters_witness :
    (∀ n,
      (processChirps 16 16 8 2 3 n (OdsDemo_dataPathInit1Dstate ⟨5, 1, 1⟩)).txAntennaCount < 2 ∧
      (processChirps 16 16 8 2 3 n (OdsDemo_dataPathInit1Dstate ⟨5, 1, 1⟩)).dopplerBinCount < 3 ∧
      (processChirps 16 16 8 2 3 n (OdsDemo_dataPathInit1Dstate ⟨5, 1, 1⟩)).chirpCount
        = (processChirps 16 16 8 2 3 n (OdsDemo_dataPathInit1Dstate ⟨5, 1, 1⟩)).dopplerBinCount * 2
          + (processChirps 16 16 8 2 3 n (OdsDemo_dataPathInit1Dstate ⟨5, 1, 1⟩)).txAntennaCount ∧
      (processChirps 16 16 8 2 3 n (OdsDemo_dataPathInit1Dstate ⟨5, 1, 1⟩)).chirpCount
        = n % (2 * 3)) ∧
    processChirps 16 16 8 2 3 (2 * 3) (OdsDemo_dataPathInit1Dstate ⟨5, 1, 1⟩) = ⟨0, 0, 0⟩ :=
  C29_chirp_counters 16 16 8 2 3 (by decide) (by decide) (by decide) (by decide) (by decide)
    ⟨5, 1, 1⟩

/-! ### C21 -/

/-- Claim C26: the two peak-grouping policies differ on the matrix `gapDetMatrix` (8 Doppler
bins) with the candidate list `gapObjRaw`, the range window `[0, 5]` and both grouping
directions enabled. The list is in CFAR order and every `peakVal` is the matrix cell of its
candidate. The cell `(2, 3)` holds 60 and is not in the list: `OdsDemo_cfarPeakGrouping`
drops the candidate `(2, 2)` with value 50 and emits only the candidate `(4, 5)`, while
`OdsDemo_cfarPeakGroupingCfarQualified` emits both. -/
theorem C26_policies_differ :
    InCfarOrder gapObjRaw 2 ∧
    (∀ i, i < 2 →
      (gapObjRaw i).peakVal
        = gapDetMatrix ((gapObjRaw i).rangeIdx * 8 + (gapObjRaw i).dopplerIdx)) ∧
    (∀ i, i < 2 → ¬ ((gapObjRaw i).rangeIdx = 2 ∧ (gapObjRaw i).dopplerIdx = 3)) ∧
    gapDetMatrix (2 * 8 + 3) > gapDetMatrix (2 * 8 + 2) ∧
    emitted (OdsDemo_cfarPeakGrouping sampleObjOut gapObjRaw 2 gapDetMatrix 8 5 0 1 1 100
        (fun _ => 0)) = [(4, -3, 10)] ∧
    emitted (OdsDemo_cfarPeakGroupingCfarQualified sampleObjOut gapObjRaw 2 8 5 0 1 1 100)
      = [(2, 2, 50), (4, -3, 10)] ∧
    emitted (OdsDemo_cfarPeakGrouping sampleObjOut gapObjRaw 2 gapDetMatrix 8 5 0 1 1 100
        (fun _ => 0))
      ≠ emitted (OdsDemo_cfarPeakGroupingCfarQualified sampleObjOut gapObjRaw 2 8 5 0 1 1 100) := by
  refine ⟨by decide, by decide, by decide, by decide, by decide, by decide, by decide⟩

/-! ### C24 -/

/-- With start 1, step 3 and end 7 the flag stays 1 exactly when neither entry 1 nor entry 7
exceeds the centre. -/
theorem compareLoop_range (kernel : Nat → Nat) :
    compareLoop kernel 3 7 8 1 1 = 1 ↔ kernel 1 ≤ kernel 4 ∧ kernel 7 ≤ kernel 4 := by
  simp only [compareLoop]
  norm_num
  split_ifs with h1 h2
  · exact ⟨fun h => absurd h (by decide), fun h => by omega⟩
  · exact ⟨fun h => absurd h (by decide), fun h => by omega⟩
  · exact ⟨fun _ => ⟨by omega, by omega⟩, fun _ => rfl⟩

theorem cfarPeakGrouping_check_range_iff (objRaw : Nat → OdsDemo_objRaw_t)
    (detMatrix : Nat → Nat) (N maxR minR : Nat) (kernel : Nat → Nat) (i : Nat)
    (hwin : minR < maxR) (hd : (objRaw i).dopplerIdx < N) :
    (OdsDemo_cfarPeakGrouping.check objRaw detMatrix N maxR minR 1 3 7 kernel i).2 = 1 ↔
      isRangePeak detMatrix N maxR minR (objRaw i).rangeIdx (objRaw i).dopplerIdx := by
  unfold OdsDemo_cfarPeakGrouping.check isRangePeak
  simp only
  by_cases hw : (objRaw i).rangeIdx ≤ maxR ∧ (objRaw i).rangeIdx ≥ minR
  · rw [if_pos hw]
    simp only
    rw [compareLoop_range]
    have hK := fun j k hj hk =>
      fillKernel_spec detMatrix N maxR minR kernel _ _ hwin hw.2 hw.1 hd j k hj hk
    have h1 := hK 0 1 (by omega) (by omega)
    have h4 := hK 1 1 (by omega) (by omega)
    have h7 := hK 2 1 (by omega) (by omega)
    simp only [Nat.cast_zero, Nat.cast_one, Nat.cast_ofNat, sub_self, add_zero, zero_sub] at h1 h4 h7
    rw [show 3 * 0 + 1 = 1 from rfl] at h1
    rw [show 3 * 1 + 1 = 4 from rfl, windowedCell_centre _ _ _ _ _ _ hw.2 hw.1 hd] at h4
    rw [show 3 * 2 + 1 = 7 from rfl, show ((2 : Int) - 1) = 1 from rfl] at h7
    rw [h1, h4, h7]
    constructor
    · rintro ⟨ha, hb⟩
      refine ⟨hw.2, hw.1, fun dr hdr => ?_⟩
      simp only [List.mem_cons, List.mem_singleton, List.not_mem_nil, or_false] at hdr
      rcases hdr with rfl | rfl
      · exact ha
      · exact hb
    · rintro ⟨_, _, hnb⟩
      exact ⟨hnb (-1) (by simp), hnb 1 (by simp)⟩
  · rw [if_neg hw]
    constructor
    · intro h
      have h' : (0 : Nat) = 1 := h
      omega
    · rintro ⟨h1, h2, _⟩; exact absurd ⟨h2, h1⟩ hw

theorem cfarPeakGrouping_check_doppler_iff (objRaw : Nat → OdsDemo_objRaw_t)
    (detMatrix : Nat → Nat) (N maxR minR : Nat) (kernel : Nat → Nat) (i : Nat)
    (hwin : minR < maxR) (hd : (objRaw i).dopplerIdx < N) :
    (OdsDemo_cfarPeakGrouping.check objRaw detMatrix N maxR minR 3 1 5 kernel i).2 = 1 ↔
      isDopplerPeak detMatrix N maxR minR (objRaw i).rangeIdx (objRaw i).dopplerIdx := by
  unfold OdsDemo_cfarPeakGrouping.check isDopplerPeak
  simp only
  by_cases hw : (objRaw i).rangeIdx ≤ maxR ∧ (objRaw i).rangeIdx ≥ minR
  · rw [if_pos hw]
    simp only
    rw [compareLoop_step_one _ 5 6 3 1 (by omega)]
    have hK := fun j k hj hk =>
      fillKernel_spec detMatrix N maxR minR kernel _ _ hwin hw.2 hw.1 hd j k hj hk
    have hin : (minR : Int) ≤ ((objRaw i).rangeIdx : Int) ∧
        ((objRaw i).rangeIdx : Int) ≤ (maxR : Int) := ⟨by omega, by omega⟩
    have h3 := hK 1 0 (by omega) (by omega)
    have h4 := hK 1 1 (by omega) (by omega)
    have h5 := hK 1 2 (by omega) (by omega)
    simp only [Nat.cast_zero, Nat.cast_one, Nat.cast_ofNat, sub_self, add_zero, zero_sub] at h3 h4 h5
    rw [show 3 * 1 = 3 from rfl] at h3
    rw [show 3 * 1 + 1 = 4 from rfl, windowedCell_centre _ _ _ _ _ _ hw.2 hw.1 hd] at h4
    rw [show 3 * 1 + 2 = 5 from rfl, show ((2 : Int) - 1) = 1 from rfl] at h5
    unfold windowedCell at h3 h5
    rw [if_pos hin, Int.toNat_ofNat] at h3 h5
    rw [h4]
    constructor
    · rintro ⟨_, hall⟩
      refine ⟨hw.2, hw.1, fun dd hdd => ?_⟩
      simp only [List.mem_cons, List.mem_singleton, List.not_mem_nil, or_false] at hdd
      rcases hdd with rfl | rfl
      · rw [← h3]; exact hall 3 (by omega) (by omega)
      · rw [← h5]; exact hall 5 (by omega) (by omega)
    · rintro ⟨_, _, hnb⟩
      refine ⟨rfl, fun t ht1 ht2 => ?_⟩
      have : t = 3 ∨ t = 4 ∨ t = 5 := by omega
      rcases this with rfl | rfl | rfl
      · rw [h3]; exact hnb (-1) (by simp)
      · rw [h4]
      · rw [h5]; exact hnb 1 (by simp)
  · rw [if_neg hw]
    constructor
    · intro h
      have h' : (0 : Nat) = 1 := h
      omega
    · rintro ⟨h1, h2, _⟩; exact absurd ⟨h2, h1⟩ hw

/-- Claim C24: `OdsDemo_cfarPeakGrouping` with `minRangeIdx < maxRangeIdx` (all candidate
Doppler bins below `numDopplerBins`, capacity at least 1). With only range-direction grouping
enabled the emitted objects are, in list order and up to the capacity, the in-window
candidates `(r, d)` with `detMatrix[r][d] ≥ detMatrix[r-1][d]` and `≥ detMatrix[r+1][d]`, a row
outside the window counting as 0; with only Doppler-direction grouping enabled they are the
in-window candidates with `detMatrix[r][d] ≥ detMatrix[r][(d-1) mod N]` and
`≥ detMatrix[r][(d+1) mod N]`. No other matrix cell enters either condition. -/
theorem C24_direction_subsets (objOut : Nat → OdsDemo_detectedObj)
    (objRaw : Nat → OdsDemo_objRaw_t) (numDetectedObjects : Nat) (detMatrix : Nat → Nat)
    (numDopplerBins maxRangeIdx minRangeIdx MMW_MAX_OBJ_OUT : Nat) (kernel : Nat → Nat)
    (hcap : 0 < MMW_MAX_OBJ_OUT) (hwin : minRangeIdx < maxRangeIdx)
    (hd : ∀ i, i < numDetectedObjects → (objRaw i).dopplerIdx < numDopplerBins) :
    emitted (OdsDemo_cfarPeakGrouping objOut objRaw numDetectedObjects detMatrix numDopplerBins
        maxRangeIdx minRangeIdx 0 1 MMW_MAX_OBJ_OUT kernel)
      = (((List.range numDetectedObjects).filter (fun i =>
            decide (isRangePeak detMatrix numDopplerBins maxRangeIdx minRangeIdx
              (objRaw i).rangeIdx (objRaw i).dopplerIdx))).take MMW_MAX_OBJ_OUT).map
          (emittedOf objRaw numDopplerBins) ∧
    emitted (OdsDemo_cfarPeakGrouping objOut objRaw numDetectedObjects detMatrix numDopplerBins
        maxRangeIdx minRangeIdx 1 0 MMW_MAX_OBJ_OUT kernel)
      = (((List.range numDetectedObjects).filter (fun i =>
            decide (isDopplerPeak detMatrix numDopplerBins maxRangeIdx minRangeIdx
              (objRaw i).rangeIdx (objRaw i).dopplerIdx))).take MMW_MAX_OBJ_OUT).map
          (emittedOf objRaw numDopplerBins) := by
  constructor
  · unfold OdsDemo_cfarPeakGrouping
    rw [if_neg (by decide), if_pos ⟨rfl, rfl⟩,
      cfarPeakGrouping_loop_eq _ _ _ _ _ _ 1 3 7 (by omega) _ _ _ _ _ hcap]
    have hf : (List.range' 0 numDetectedObjects).filter (fun i =>
          decide ((OdsDemo_cfarPeakGrouping.check objRaw detMatrix numDopplerBins maxRangeIdx
            minRangeIdx 1 3 7 (fun _ => 0) i).2 = 1))
        = (List.range numDetectedObjects).filter (fun i =>
          decide (isRangePeak detMatrix numDopplerBins maxRangeIdx minRangeIdx
            (objRaw i).rangeIdx (objRaw i).dopplerIdx)) := by
      rw [List.range_eq_range']
      apply List.filter_congr
      intro i hi
      have hi' : i < numDetectedObjects := by
        have := List.mem_range'.1 hi
        omega
      exact decide_eq_decide.2
        (cfarPeakGrouping_check_range_iff objRaw detMatrix _ _ _ _ i hwin (hd i hi'))
    rw [hf, Nat.sub_zero, Nat.zero_add]
    exact emitted_emitAll _ _ _ _
  · unfold OdsDemo_cfarPeakGrouping
    rw [if_neg (by decide), if_neg (by decide), if_pos ⟨rfl, rfl⟩,
      cfarPeakGrouping_loop_eq _ _ _ _ _ _ 3 1 5 (by omega) _ _ _ _ _ hcap]
    have hf : (List.range' 0 numDetectedObjects).filter (fun i =>
          decide ((OdsDemo_cfarPeakGrouping.check objRaw detMatrix numDopplerBins maxRangeIdx
            minRangeIdx 3 1 5 (fun _ => 0) i).2 = 1))
        = (List.range numDetectedObjects).filter (fun i =>
          decide (isDopplerPeak detMatrix numDopplerBins maxRangeIdx minRangeIdx
            (objRaw i).rangeIdx (objRaw i).dopplerIdx)) := by
      rw [List.range_eq_range']
      apply List.filter_congr
      intro i hi
      have hi' : i < numDetectedObjects := by
        have := List.mem_range'.1 hi
        omega
      exact decide_eq_decide.2
        (cfarPeakGrouping_check_doppler_iff objRaw detMatrix _ _ _ _ i hwin (hd i hi'))
    rw [hf, Nat.sub_zero, Nat.zero_add]
    exact emitted_emitAll _ _ _ _

/-- Claim C24 on the matrix `gapDetMatrix` with the candidates `gapObjRaw` and the range
window `[0, 5]`: the candidate `(2, 2)` passes the range-only test and fails the Doppler-only
test. -/
theorem C24_direction_subsets_witness :
    emitted (OdsDemo_cfarPeakGrouping sampleObjOut gapObjRaw 2 gapDetMatrix 8 5 0 0 1 100
        (fun _ => 0))
      = (((List.range 2).filter (fun i =>
            decide (isRangePeak gapDetMatrix 8 5 0
              (gapObjRaw i).rangeIdx (gapObjRaw i).dopplerIdx))).take 100).map
          (emittedOf gapObjRaw 8) ∧
    emitted (OdsDemo_cfarPeakGrouping sampleObjOut gapObjRaw 2 gapDetMatrix 8 5 0 1 0 100
        (fun _ => 0))
      = (((List.range 2).filter (fun i =>
            decide (isDopplerPeak gapDetMatrix 8 5 0
              (gapObjRaw i).rangeIdx (gapObjRaw i).dopplerIdx))).take 100).map
          (emittedOf gapObjRaw 8) :=
  C24_direction_subsets sampleObjOut gapObjRaw 2 gapDetMatrix 8 5 0 100 (fun _ => 0)
    (by decide) (by decide) (by decide)

/-! ### C25 -/

theorem kernelColumn_lt (d k N : Nat) (hd : d < N) (hk : k ≤ 2) :
    kernelColumn d k N < (N : Int) := by
  rw [kernelColumn_eq_emod d k N hd hk]
  exact Int.emod_lt_of_pos _ (by omega)

theorem kernelColumn_one (d N : Nat) (hd : d < N) : kernelColumn d 1 N = (d : Int) := by
  unfold kernelColumn
  simp only
  split_ifs <;> omega

/-- An offset `R * N + c` with `minR ≤ R ≤ maxR` and `0 ≤ c < N` lies in the rows of the
window. -/
theorem offset_in_window (N minR maxR R X : Nat) (c : Int) (hX : X = R * N) (h1 : minR ≤ R)
    (h2 : R ≤ maxR) (hc0 : 0 ≤ c) (hc1 : c < (N : Int)) :
    minR * N ≤ ((X : Int) + c).toNat ∧ ((X : Int) + c).toNat < (maxR + 1) * N := by
  have a1 : minR * N ≤ R * N := Nat.mul_le_mul_right N h1
  have a2 : (R + 1) * N ≤ (maxR + 1) * N := Nat.mul_le_mul_right N (by omega)
  have a3 : (R + 1) * N = R * N + N := Nat.succ_mul R N
  omega

theorem fillKernelReads_in_window (N maxR minR r d : Nat) (hd : d < N) (hwin : minR < maxR)
    (h1 : minR ≤ r) (h2 : r ≤ maxR) :
    ∀ idx ∈ OdsDemo_cfarPeakGrouping.fillKernelReads N maxR minR r d,
      minR * N ≤ idx ∧ idx < (maxR + 1) * N := by
  have c0 := fun k hk => kernelColumn_nonneg d k N hd hk
  have c1 := fun k hk => kernelColumn_lt d k N hd hk
  have s1 : (r + 1) * N = r * N + N := Nat.succ_mul r N
  by_cases e1 : r = minR
  · intro idx hidx
    simp only [OdsDemo_cfarPeakGrouping.fillKernelReads, if_pos e1, List.range', List.foldl_cons,
      List.foldl_nil, List.range_succ, List.range_zero, List.nil_append, List.cons_append,
      List.mem_cons, List.mem_singleton, List.not_mem_nil, or_false] at hidx
    rcases hidx with h | h | h | h | h | h <;> subst h
    · exact offset_in_window N minR maxR r _ _ rfl h1 h2 (c0 0 (by omega)) (c1 0 (by omega))
    · exact offset_in_window N minR maxR r _ _ rfl h1 h2 (c0 1 (by omega)) (c1 1 (by omega))
    · exact offset_in_window N minR maxR r _ _ rfl h1 h2 (c0 2 (by omega)) (c1 2 (by omega))
    · exact offset_in_window N minR maxR (r + 1) _ _ s1.symm (by omega) (by omega)
        (c0 0 (by omega)) (c1 0 (by omega))
    · exact offset_in_window N minR maxR (r + 1) _ _ s1.symm (by omega) (by omega)
        (c0 1 (by omega)) (c1 1 (by omega))
    · exact offset_in_window N minR maxR (r + 1) _ _ s1.symm (by omega) (by omega)
        (c0 2 (by omega)) (c1 2 (by omega))
  · obtain ⟨p, hp⟩ : ∃ p, r = p + 1 := ⟨r - 1, by omega⟩
    subst hp
    have s0 : (p + 1) * N = p * N + N := Nat.succ_mul p N
    have s2 : (p + 2) * N = p * N + N + N := by rw [Nat.succ_mul, Nat.succ_mul]
    by_cases e2 : p + 1 = maxR
    · intro idx hidx
      simp only [OdsDemo_cfarPeakGrouping.fillKernelReads, if_neg e1, if_pos e2, List.range',
        List.foldl_cons, List.foldl_nil, List.range_succ, List.range_zero, List.nil_append,
        List.cons_append, List.mem_cons, List.mem_singleton, List.not_mem_nil, or_false,
        Nat.add_sub_cancel] at hidx
      rcases hidx with h | h | h | h | h | h <;> subst h
      · exact offset_in_window N minR maxR p _ _ rfl (by omega) (by omega)
          (c0 0 (by omega)) (c1 0 (by omega))
      · exact offset_in_window N minR maxR p _ _ rfl (by omega) (by omega)
          (c0 1 (by omega)) (c1 1 (by omega))
      · exact offset_in_window N minR maxR p _ _ rfl (by omega) (by omega)
          (c0 2 (by omega)) (c1 2 (by omega))
      · exact offset_in_window N minR maxR (p + 1) _ _ s0.symm (by omega) (by omega)
          (c0 0 (by omega)) (c1 0 (by omega))
      · exact offset_in_window N minR maxR (p + 1) _ _ s0.symm (by omega) (by omega)
          (c0 1 (by omega)) (c1 1 (by omega))
      · exact offset_in_window N minR maxR (p + 1) _ _ s0.symm (by omega) (by omega)
          (c0 2 (by omega)) (c1 2 (by omega))
    · intro idx hidx
      simp only [OdsDemo_cfarPeakGrouping.fillKernelReads, if_neg e1, if_neg e2, List.range',
        List.foldl_cons, List.foldl_nil, List.range_succ, List.range_zero, List.nil_append,
        List.cons_append, List.mem_cons, List.mem_singleton, List.not_mem_nil, or_false,
        Nat.add_sub_cancel] at hidx
      rcases hidx with h | h | h | h | h | h | h | h | h <;> subst h
      · exact offset_in_window N minR maxR p _ _ rfl (by omega) (by omega)
          (c0 0 (by omega)) (c1 0 (by omega))
      · exact offset_in_window N minR maxR p _ _ rfl (by omega) (by omega)
          (c0 1 (by omega)) (c1 1 (by omega))
      · exact offset_in_window N minR maxR p _ _ rfl (by omega) (by omega)
          (c0 2 (by omega)) (c1 2 (by omega))
      · exact offset_in_window N minR maxR (p + 1) _ _ s0.symm (by omega) (by omega)
          (c0 0 (by omega)) (c1 0 (by omega))
      · exact offset_in_window N minR maxR (p + 1) _ _ s0.symm (by omega) (by omega)
          (c0 1 (by omega)) (c1 1 (by omega))
      · exact offset_in_window N minR maxR (p + 1) _ _ s0.symm (by omega) (by omega)
          (c0 2 (by omega)) (c1 2 (by omega))
      · exact offset_in_window N minR maxR (p + 2) _ _ s2.symm (by omega) (by omega)
          (c0 0 (by omega)) (c1 0 (by omega))
      · exact offset_in_window N minR maxR (p + 2) _ _ s2.symm (by omega) (by omega)
          (c0 1 (by omega)) (c1 1 (by omega))
      · exact offset_in_window N minR maxR (p + 2) _ _ s2.symm (by omega) (by omega)
          (c0 2 (by omega)) (c1 2 (by omega))

/-- Claim C25 as the code behaves, for an in-window candidate `(r, d)` with `d` below
`numDopplerBins = N`. When `minRangeIdx < maxRangeIdx` every offset that the kernel filling
reads lies in the rows `minRangeIdx .. maxRangeIdx`, kernel row 0 is all zeros for
`r = minRangeIdx` and kernel row 2 is all zeros for `r = maxRangeIdx`, and the kernel entry
`3*j + k` is the cell of row `r + j - 1` and Doppler bin `(d + k - 1) mod N`, rows outside the
window counting as 0. When `minRangeIdx = maxRangeIdx` the filling reads the cell `(r + 1, d)`
of the row above the window, and kernel row 2 holds that row: entry 7 is
`detMatrix[r + 1][d]`. -/
theorem C25_window_edge_rows (detMatrix : Nat → Nat) (N maxR minR : Nat) (kernel : Nat → Nat)
    (r d : Nat) (hd : d < N) (h1 : minR ≤ r) (h2 : r ≤ maxR) :
    (minR < maxR →
      (∀ idx ∈ OdsDemo_cfarPeakGrouping.fillKernelReads N maxR minR r d,
        minR * N ≤ idx ∧ idx < (maxR + 1) * N) ∧
      (r = minR → ∀ k, k < 3 →
        OdsDemo_cfarPeakGrouping.fillKernel detMatrix N maxR minR kernel r d k = 0) ∧
      (r = maxR → ∀ k, k < 3 →
        OdsDemo_cfarPeakGrouping.fillKernel detMatrix N maxR minR kernel r d (6 + k) = 0) ∧
      (∀ j k, j < 3 → k < 3 →
        OdsDemo_cfarPeakGrouping.fillKernel detMatrix N maxR minR kernel r d (3 * j + k)
          = windowedCell detMatrix N maxR minR ((r : Int) + ((j : Int) - 1))
              ((d : Int) + ((k : Int) - 1)))) ∧
    (minR = maxR →
      (r + 1) * N + d ∈ OdsDemo_cfarPeakGrouping.fillKernelReads N maxR minR r d ∧
      maxR * N + N ≤ (r + 1) * N + d ∧
      OdsDemo_cfarPeakGrouping.fillKernel detMatrix N maxR minR kernel r d 7
        = detMatrix ((r + 1) * N + d)) := by
  constructor
  · intro hwin
    refine ⟨fillKernelReads_in_window N maxR minR r d hd hwin h1 h2, ?_, ?_,
      fun j k hj hk => fillKernel_spec detMatrix N maxR minR kernel r d hwin h1 h2 hd j k hj hk⟩
    · intro e k hk
      rw [fillKernel_min _ _ _ _ _ _ _ _ (by omega) e, if_pos hk]
    · intro e k hk
      rw [fillKernel_max _ _ _ _ _ _ _ _ (by omega) (by omega) e, if_pos (by omega)]
  · intro heq
    have e1 : r = minR := by omega
    have hc := kernelColumn_one d N hd
    have s1 : (r + 1) * N = r * N + N := Nat.succ_mul r N
    refine ⟨?_, ?_, ?_⟩
    · simp only [OdsDemo_cfarPeakGrouping.fillKernelReads, if_pos e1, List.range',
        List.foldl_cons, List.foldl_nil, List.range_succ, List.range_zero, List.nil_append,
        List.cons_append, List.mem_cons, List.mem_singleton, List.not_mem_nil, or_false, hc]
      right; right; right; right; left
      omega
    · have : maxR = r := by omega
      rw [this, s1]
      omega
    · rw [fillKernel_min _ _ _ _ _ _ _ _ (by omega) e1, if_neg (by omega)]
      rw [show 7 / 3 - 1 = 1 from rfl, show 7 % 3 = 1 from rfl, hc]
      congr 1

/-- Claim C25 at 8 Doppler bins and the candidate `(3, 2)`. With the range window `[0, 5]`
all reads stay in the rows 0 to 5. With the range window `[3, 3]`, the failing input, the
filling reads offset `4 * 8 + 2` in row 4, kernel entry 7 is that cell, and with
range-direction grouping the candidate, of value 10, is dropped because of the value 90 in
row 4, outside the window. -/
theorem C25_window_edge_rows_witness :
    (∀ idx ∈ OdsDemo_cfarPeakGrouping.fillKernelReads 8 5 0 3 2,
      0 * 8 ≤ idx ∧ idx < (5 + 1) * 8) ∧
    ((3 + 1) * 8 + 2 ∈ OdsDemo_cfarPeakGrouping.fillKernelReads 8 3 3 3 2 ∧
      3 * 8 + 8 ≤ (3 + 1) * 8 + 2 ∧
      OdsDemo_cfarPeakGrouping.fillKernel edgeDetMatrix 8 3 3 (fun _ => 0) 3 2 7
        = edgeDetMatrix ((3 + 1) * 8 + 2)) ∧
    OdsDemo_cfarPeakGrouping.fillKernel edgeDetMatrix 8 3 3 (fun _ => 0) 3 2 7 = 90 ∧
    emitted (OdsDemo_cfarPeakGrouping sampleObjOut (fun _ => ⟨3, 2, 10⟩) 1 edgeDetMatrix 8 3 3
      0 1 100 (fun _ => 0)) = [] :=
  ⟨((C25_window_edge_rows edgeDetMatrix 8 5 0 (fun _ => 0) 3 2 (by decide) (by decide)
      (by decide)).1 (by decide)).1,
    (C25_window_edge_rows edgeDetMatrix 8 3 3 (fun _ => 0) 3 2 (by decide) (by decide)
      (by decide)).2 rfl, by decide, by decide⟩

/-! ### C22 -/

theorem storeRaw_eq_appendRaw (M y : Nat) (sar : Nat → Nat) (buf : List Nat)
    (st : Nat × (Nat → OdsDemo_objRaw_t)) :
    OdsDemo_interFrameProcessing.storeRaw M y sar buf st
      = appendRaw M (buf.map (fun idx => ⟨idx, y, sar idx⟩)) st := by
  unfold OdsDemo_interFrameProcessing.storeRaw appendRaw
  by_cases h : buf.length > 0
  · rw [if_pos h, List.foldl_map]
  · rw [if_neg h]
    have : buf = [] := List.length_eq_zero.1 (by omega)
    subst this
    rfl

theorem appendRaw_append (M : Nat) (a b : List OdsDemo_objRaw_t)
    (st : Nat × (Nat → OdsDemo_objRaw_t)) :
    appendRaw M (a ++ b) st = appendRaw M b (appendRaw M a st) := by
  unfold appendRaw
  rw [List.foldl_append]

/-- The store loops of the lines `lines`, one after the other, append the candidates of
`stage2Candidates`. -/
theorem storeRaw_fold (cfar : Nat → List Nat) (sar : Nat → Nat → Nat) (M : Nat)
    (lines : List Nat) :
    ∀ st : Nat × (Nat → OdsDemo_objRaw_t),
      lines.foldl (fun st y => OdsDemo_interFrameProcessing.storeRaw M y (sar y) (cfar y) st) st
        = appendRaw M (stage2Candidates cfar sar lines) st := by
  induction lines with
  | nil => intro st; rfl
  | cons y ys ih =>
    intro st
    rw [List.foldl_cons, ih, storeRaw_eq_appendRaw]
    unfold stage2Candidates
    rw [List.flatMap_cons, appendRaw_append]

/-- Result of `appendRaw`: the counter stops at the capacity, the slots below the new counter
hold the entries in order, the other slots are untouched. -/
theorem appendRaw_spec (M : Nat) (entries : List OdsDemo_objRaw_t) :
    ∀ st : Nat × (Nat → OdsDemo_objRaw_t), st.1 ≤ M →
      (appendRaw M entries st).1 = min M (st.1 + entries.length) ∧
      ∀ i, (appendRaw M entries st).2 i
        = if st.1 ≤ i ∧ i < min M (st.1 + entries.length) then
            entries.getD (i - st.1) ⟨0, 0, 0⟩
          else st.2 i := by
  induction entries with
  | nil =>
    intro st h
    refine ⟨by simp [appendRaw]; omega, fun i => ?_⟩
    rw [if_neg (by simp; omega)]
    rfl
  | cons e es ih =>
    intro st h
    obtain ⟨n, raw⟩ := st
    simp only at h
    have hcons : appendRaw M (e :: es) (n, raw)
        = appendRaw M es (if n < M then (n + 1, Function.update raw n e) else (n, raw)) := rfl
    rw [hcons]
    by_cases hlt : n < M
    · rw [if_pos hlt]
      obtain ⟨h1, h2⟩ := ih (n + 1, Function.update raw n e) (by simp; omega)
      simp only [List.length_cons] at h1 h2 ⊢
      refine ⟨by rw [h1]; congr 1; omega, fun i => ?_⟩
      rw [h2 i]
      by_cases hi : i = n
      · subst hi
        rw [if_neg (by omega), if_pos (by omega), Function.update_same, Nat.sub_self]
        rfl
      · rw [Function.update_noteq hi]
        by_cases hc : n + 1 ≤ i ∧ i < min M (n + 1 + es.length)
        · rw [if_pos hc, if_pos (by omega)]
          obtain ⟨p, hp⟩ : ∃ p, i - n = p + 1 := ⟨i - n - 1, by omega⟩
          rw [hp, show i - (n + 1) = p by omega]
          rfl
        · rw [if_neg hc, if_neg (by omega)]
    · rw [if_neg hlt]
      obtain ⟨h1, h2⟩ := ih (n, raw) h
      simp only [List.length_cons] at h1 h2 ⊢
      refine ⟨by rw [h1]; omega, fun i => ?_⟩
      rw [h2 i, if_neg (by omega), if_neg (by omega)]

/-- The loop of Stage 2 when the current line is `y` and the lines still flagged at or after
the cursor are `ys`: it returns normally, having run the store loop of `y` and of every line
of `ys`, in this order. -/
theorem stage2Loop_spec (cfar : Nat → List Nat) (sar : Nat → Nat → Nat) (M n : Nat) :
    ∀ (ys : List Nat) (y k : Nat) (ths : OdsDemo_1D_DopplerLines_t) (dn : Nat)
      (st : Nat × (Nat → OdsDemo_objRaw_t)),
      ys.Sorted (· < ·) →
      ths.dopplerLineMask.length = ths.dopplerLineMaskLen →
      (∀ z ∈ ys, ths.currentIndex ≤ z ∧ z < 32 * ths.dopplerLineMaskLen) →
      (∀ j, ths.currentIndex ≤ j → (maskBit ths.dopplerLineMask j = true ↔ j ∈ ys)) →
      k + ys.length + 1 = n →
      ∃ ths1, OdsDemo_interFrameProcessing.stage2Loop cfar sar M n (ys.length + 1) k ths y dn st
        = .ok (ths1,
            (y :: ys).foldl
              (fun st y => OdsDemo_interFrameProcessing.storeRaw M y (sar y) (cfar y) st) st) := by
  intro ys
  induction ys with
  | nil =>
    intro y k ths dn st _ _ _ _ hk
    simp only [List.length_nil, Nat.add_zero] at hk
    refine ⟨ths, ?_⟩
    simp only [List.length_nil, Nat.zero_add, OdsDemo_interFrameProcessing.stage2Loop,
      if_neg (show ¬ k < n - 1 by omega), List.foldl_cons, List.foldl_nil]
  | cons z zs ih =>
    intro y k ths dn st hs hlen hb hbits hk
    have hsort := List.sorted_cons.1 hs
    have hz := hb z (List.mem_cons_self _ _)
    have hget := getDopplerLine_found ths hlen z hz.1 hz.2
      ((hbits z hz.1).2 (List.mem_cons_self _ _))
      (fun j hj hjz => by
        by_contra hc
        have hmem := (hbits j hj).1 (by simpa using hc)
        rcases List.mem_cons.1 hmem with h | h
        · omega
        · have := hsort.1 _ h; omega)
    simp only [List.length_cons] at hk
    obtain ⟨ths1, h1⟩ := ih z (k + 1) { ths with currentIndex := z + 1 } z
      (OdsDemo_interFrameProcessing.storeRaw M y (sar y) (cfar y) st) hsort.2 hlen
      (fun w hw => ⟨by have := hsort.1 _ hw; show z + 1 ≤ w; omega,
        (hb w (List.mem_cons_of_mem _ hw)).2⟩)
      (fun j hj => by
        have hj1 : z + 1 ≤ j := hj
        rw [hbits j (by omega), List.mem_cons]
        constructor
        · rintro (h | h)
          · omega
          · exact h
        · exact fun h => Or.inr h)
      (by omega)
    refine ⟨ths1, ?_⟩
    rw [List.length_cons, OdsDemo_interFrameProcessing.stage2Loop,
      if_pos (show k < n - 1 by omega), hget]
    simp only
    rw [h1]
    rfl

/-- Stage 2 on a mask whose set bits are the lines `ys` (ascending), with the cursor at 0 and
`numDetObj1D` the number of lines: it returns normally and `detObj2DRaw` holds the candidates
of `stage2Candidates`, cut at the capacity. -/
theorem stage2_spec (cfar : Nat → List Nat) (sar : Nat → Nat → Nat) (M : Nat)
    (ys : List Nat) (hs : ys.Sorted (· < ·)) (ths : OdsDemo_1D_DopplerLines_t)
    (hlen : ths.dopplerLineMask.length = ths.dopplerLineMaskLen)
    (hcur : ths.currentIndex = 0)
    (hb : ∀ z ∈ ys, z < 32 * ths.dopplerLineMaskLen)
    (hbits : ∀ j, maskBit ths.dopplerLineMask j = true ↔ j ∈ ys)
    (dl dn : Nat) (raw0 : Nat → OdsDemo_objRaw_t) :
    ∃ ths1, OdsDemo_interFrameProcessing.stage2 cfar sar M ys.length ths dl dn raw0
      = .ok (ths1, appendRaw M (stage2Candidates cfar sar ys) (0, raw0)) := by
  unfold OdsDemo_interFrameProcessing.stage2
  cases ys with
  | nil =>
    refine ⟨ths, ?_⟩
    simp only [List.length_nil, if_neg (show ¬ 0 > 0 by omega),
      OdsDemo_interFrameProcessing.stage2Loop]
    rfl
  | cons y ys =>
    have hsort := List.sorted_cons.1 hs
    have hget := getDopplerLine_found ths hlen y (by omega) (hb y (List.mem_cons_self _ _))
      ((hbits y).2 (List.mem_cons_self _ _))
      (fun j _ hjy => by
        by_contra hc
        have hmem := (hbits j).1 (by simpa using hc)
        rcases List.mem_cons.1 hmem with h | h
        · omega
        · have := hsort.1 _ h; omega)
    obtain ⟨ths1, h1⟩ := stage2Loop_spec cfar sar M (ys.length + 1) ys y 0
      { ths with currentIndex := y + 1 } dn (0, raw0) hsort.2 hlen
      (fun w hw => ⟨by have := hsort.1 _ hw; show y + 1 ≤ w; omega,
        hb w (List.mem_cons_of_mem _ hw)⟩)
      (fun j hj => by
        have hj1 : y + 1 ≤ j := hj
        rw [hbits j, List.mem_cons]
        constructor
        · rintro (h | h)
          · omega
          · exact h
        · exact fun h => Or.inr h)
      (by omega)
    refine ⟨ths1, ?_⟩
    rw [List.length_cons, if_pos (by omega), hget]
    simp only
    rw [h1, storeRaw_fold]

/-- The candidates of ascending lines, each with ascending range indices, are in CFAR order. -/
theorem stage2Candidates_pairwise (cfar : Nat → List Nat) (sar : Nat → Nat → Nat)
    (ys : List Nat) (hs : ys.Sorted (· < ·)) (hcfar : ∀ y ∈ ys, (cfar y).Sorted (· < ·)) :
    (stage2Candidates cfar sar ys).Pairwise cfarOrderLt := by
  unfold stage2Candidates
  rw [List.pairwise_flatMap]
  constructor
  · intro y hy
    rw [List.pairwise_map]
    exact (hcfar y hy).imp (fun h => Or.inr ⟨rfl, h⟩)
  · refine hs.imp ?_
    intro a b hab x hx z hz
    obtain ⟨_, _, rfl⟩ := List.mem_map.1 hx
    obtain ⟨_, _, rfl⟩ := List.mem_map.1 hz
    exact Or.inl hab

theorem flagDopplerLines_fields (det : List Nat) (st : OdsDemo_1D_DopplerLines_t × Nat) :
    (flagDopplerLines det st).1.dopplerLineMaskLen = st.1.dopplerLineMaskLen ∧
    (flagDopplerLines det st).1.currentIndex = st.1.currentIndex := by
  have key : ∀ (det : List Nat) (st : OdsDemo_1D_DopplerLines_t × Nat),
      (det.foldl (fun st d =>
        if OdsDemo_isSetDopplerLine st.1 d = 0 then (OdsDemo_setDopplerLine st.1 d, st.2 + 1)
        else st) st).1.dopplerLineMaskLen = st.1.dopplerLineMaskLen ∧
      (det.foldl (fun st d =>
        if OdsDemo_isSetDopplerLine st.1 d = 0 then (OdsDemo_setDopplerLine st.1 d, st.2 + 1)
        else st) st).1.currentIndex = st.1.currentIndex := by
    intro det
    induction det with
    | nil => intro st; exact ⟨rfl, rfl⟩
    | cons d ds ih =>
      intro st
      rw [List.foldl_cons]
      obtain ⟨h1, h2⟩ := ih (if OdsDemo_isSetDopplerLine st.1 d = 0 then
        (OdsDemo_setDopplerLine st.1 d, st.2 + 1) else st)
      rw [h1, h2]
      split_ifs
      · exact ⟨setDopplerLine_len _ _, setDopplerLine_cur _ _⟩
      · exact ⟨rfl, rfl⟩
  unfold flagDopplerLines
  split_ifs
  · exact key det st
  · exact ⟨rfl, rfl⟩

theorem stage1Flagging_fields (ths : OdsDemo_1D_DopplerLines_t) (dets : List (List Nat)) :
    (stage1Flagging ths dets).1.dopplerLineMaskLen = ths.dopplerLineMaskLen ∧
    (stage1Flagging ths dets).1.currentIndex = 0 := by
  have key : ∀ (dets : List (List Nat)) (st : OdsDemo_1D_DopplerLines_t × Nat),
      (dets.foldl (fun st det => flagDopplerLines det st) st).1.dopplerLineMaskLen
        = st.1.dopplerLineMaskLen ∧
      (dets.foldl (fun st det => flagDopplerLines det st) st).1.currentIndex
        = st.1.currentIndex := by
    intro dets
    induction dets with
    | nil => intro st; exact ⟨rfl, rfl⟩
    | cons d ds ih =>
      intro st
      rw [List.foldl_cons]
      obtain ⟨h1, h2⟩ := ih (flagDopplerLines d st)
      obtain ⟨h3, h4⟩ := flagDopplerLines_fields d st
      exact ⟨h1.trans h3, h2.trans h4⟩
  unfold stage1Flagging
  obtain ⟨h1, h2⟩ := key dets (OdsDemo_resetDopplerLines ths, 0)
  exact ⟨h1, h2⟩

/-- Claim C22: Stage 2 of `OdsDemo_interFrameProcessing` after Stage 1. For every Stage-1
detection (lists `dets` of Doppler bins below `32 * dopplerLineMaskLen`, one list per range
bin) and every range CFAR whose index lists are strictly ascending, Stage 2 returns normally,
`numDetObjRaw` is the number of candidates of all flagged lines cut at
`MAX_DET_OBJECTS_RAW`, the list `detObj2DRaw[0 .. numDetObjRaw-1]` is strictly ascending in
`(dopplerIdx, rangeIdx)` lexicographic order, and every candidate has the `dopplerIdx` of a
line flagged in Stage 1 and a `rangeIdx` of the range CFAR of that line. -/
theorem C22_stage2_candidate_order (ths0 : OdsDemo_1D_DopplerLines_t)
    (dets : List (List Nat))
    (hdets : ∀ det ∈ dets, ∀ d ∈ det, d < 32 * ths0.dopplerLineMaskLen)
    (cfar : Nat → List Nat) (sumAbsRange : Nat → Nat → Nat) (MAX_DET_OBJECTS_RAW : Nat)
    (dopplerLine dopplerLineNext : Nat) (detObj2DRaw : Nat → OdsDemo_objRaw_t)
    (hcfar : ∀ line, (cfar line).Sorted (· < ·)) :
    ∃ ths1 numDetObjRaw raw,
      OdsDemo_interFrameProcessing.stage2 cfar sumAbsRange MAX_DET_OBJECTS_RAW
          (stage1Flagging ths0 dets).2 (stage1Flagging ths0 dets).1 dopplerLine dopplerLineNext
          detObj2DRaw
        = .ok (ths1, numDetObjRaw, raw) ∧
      numDetObjRaw = min MAX_DET_OBJECTS_RAW
        (stage2Candidates cfar sumAbsRange (dets.flatten.toFinset.sort (· ≤ ·))).length ∧
      InCfarOrder raw numDetObjRaw ∧
      ∀ i, i < numDetObjRaw →
        (raw i).dopplerIdx ∈ dets.flatten ∧
        maskBit (stage1Flagging ths0 dets).1.dopplerLineMask (raw i).dopplerIdx = true ∧
        (raw i).rangeIdx ∈ cfar (raw i).dopplerIdx := by
  have h0 : FlagInv ths0.dopplerLineMaskLen ∅ (OdsDemo_resetDopplerLines ths0, 0) := by
    refine ⟨by simp [OdsDemo_resetDopplerLines], fun j => ?_, by simp⟩
    simp [OdsDemo_resetDopplerLines, maskBit_replicate]
  have h := stage1_fold ths0.dopplerLineMaskLen dets ∅ _ hdets h0
  rw [Finset.empty_union] at h
  obtain ⟨hlen, hbits, hcount⟩ := h
  have hlen1 : (stage1Flagging ths0 dets).1.dopplerLineMask.length = ths0.dopplerLineMaskLen :=
    hlen
  have hbits1 : ∀ j, maskBit (stage1Flagging ths0 dets).1.dopplerLineMask j = true
      ↔ j ∈ dets.flatten.toFinset := hbits
  have hcount1 : (stage1Flagging ths0 dets).2 = dets.flatten.toFinset.card := hcount
  obtain ⟨hf1, hf2⟩ := stage1Flagging_fields ths0 dets
  have hmem : ∀ x, x ∈ dets.flatten.toFinset.sort (· ≤ ·) ↔ x ∈ dets.flatten := by
    intro x; rw [Finset.mem_sort, List.mem_toFinset]
  have hsorted : (dets.flatten.toFinset.sort (· ≤ ·)).Sorted (· < ·) := Finset.sort_sorted_lt _
  have hlength : (dets.flatten.toFinset.sort (· ≤ ·)).length = (stage1Flagging ths0 dets).2 := by
    rw [Finset.length_sort, hcount1]
  obtain ⟨ths1, hrun⟩ := stage2_spec cfar sumAbsRange MAX_DET_OBJECTS_RAW
    (dets.flatten.toFinset.sort (· ≤ ·)) hsorted (stage1Flagging ths0 dets).1
    (by rw [hlen1, hf1]) hf2
    (fun z hz => by
      rw [hf1]
      obtain ⟨det, hdet, hzd⟩ := List.mem_flatten.1 ((hmem z).1 hz)
      exact hdets det hdet z hzd)
    (fun j => by rw [hbits1, Finset.mem_sort])
    dopplerLine dopplerLineNext detObj2DRaw
  rw [hlength] at hrun
  obtain ⟨hn, hraw⟩ := appendRaw_spec MAX_DET_OBJECTS_RAW
    (stage2Candidates cfar sumAbsRange (dets.flatten.toFinset.sort (· ≤ ·))) (0, detObj2DRaw)
    (Nat.zero_le _)
  simp only [Nat.zero_add, Nat.zero_le, true_and, Nat.sub_zero] at hn hraw
  have hpair := stage2Candidates_pairwise cfar sumAbsRange _ hsorted (fun y _ => hcfar y)
  have hmemL : ∀ e ∈ stage2Candidates cfar sumAbsRange (dets.flatten.toFinset.sort (· ≤ ·)),
      e.dopplerIdx ∈ dets.flatten ∧ e.rangeIdx ∈ cfar e.dopplerIdx := by
    intro e he
    unfold stage2Candidates at he
    obtain ⟨y, hy, hey⟩ := List.mem_flatMap.1 he
    obtain ⟨idx, hidx, rfl⟩ := List.mem_map.1 hey
    exact ⟨(hmem y).1 hy, hidx⟩
  generalize stage2Candidates cfar sumAbsRange (dets.flatten.toFinset.sort (· ≤ ·)) = L
    at hrun hn hraw hpair hmemL ⊢
  generalize appendRaw MAX_DET_OBJECTS_RAW L (0, detObj2DRaw) = res at hrun hn hraw
  obtain ⟨num, raw⟩ := res
  simp only at hn hraw
  have hget : ∀ i, i < num → ∃ hi : i < L.length, raw i = L.get ⟨i, hi⟩ := by
    intro i hi
    have hiL : i < L.length := by omega
    refine ⟨hiL, ?_⟩
    rw [hraw i, if_pos (by omega), List.getD_eq_getElem _ _ hiL]
    rfl
  refine ⟨ths1, num, raw, hrun, hn, ?_, ?_⟩
  · intro b hb a hab
    obtain ⟨hbL, eb⟩ := hget b hb
    obtain ⟨haL, ea⟩ := hget a (by omega)
    rw [ea, eb]
    exact List.pairwise_iff_get.1 hpair ⟨a, haL⟩ ⟨b, hbL⟩ hab
  · intro i hi
    obtain ⟨hiL, ei⟩ := hget i hi
    have hin : raw i ∈ L := by rw [ei]; exact List.get_mem _ _ _
    obtain ⟨m1, m2⟩ := hmemL _ hin
    exact ⟨m1, (hbits1 _).2 (List.mem_toFinset.2 m1), m2⟩

/-- Claim C22 for a mask of 2 words, the Stage-1 detections `[3, 40]`, `[]`, `[40, 3, 63]`, a
range CFAR that returns the range indices 1 and 5 on every line, and a capacity of 3. -/
theorem C22_stage2_candidate_order_witness :
    ∃ ths1 numDetObjRaw raw,
      OdsDemo_interFrameProcessing.stage2 (fun _ => [1, 5]) (fun _ _ => 20) 3
          (stage1Flagging ⟨[], 2, 0⟩ [[3, 40], [], [40, 3, 63]]).2
          (stage1Flagging ⟨[], 2, 0⟩ [[3, 40], [], [40, 3, 63]]).1 0 0 (fun _ => ⟨0, 0, 0⟩)
        = .ok (ths1, numDetObjRaw, raw) ∧
      numDetObjRaw = min 3
        (stage2Candidates (fun _ => [1, 5]) (fun _ _ => 20)
          (([[3, 40], [], [40, 3, 63]] : List (List Nat)).flatten.toFinset.sort (· ≤ ·))).length ∧
      InCfarOrder raw numDetObjRaw ∧
      ∀ i, i < numDetObjRaw →
        (raw i).dopplerIdx ∈ ([[3, 40], [], [40, 3, 63]] : List (List Nat)).flatten ∧
        maskBit (stage1Flagging ⟨[], 2, 0⟩ [[3, 40], [], [40, 3, 63]]).1.dopplerLineMask
          (raw i).dopplerIdx = true ∧
        (raw i).rangeIdx ∈ (fun _ => [1, 5] : Nat → List Nat) (raw i).dopplerIdx :=
  C22_stage2_candidate_order ⟨[], 2, 0⟩ [[3, 40], [], [40, 3, 63]] (by decide)
    (fun _ => [1, 5]) (fun _ _ => 20) 3 0 0 (fun _ => ⟨0, 0, 0⟩)
    (fun _ => (by decide : List.Sorted (· < ·) ([1, 5] : List Nat)))

/-! ### C27 -/

theorem iteration_inner (n a : Nat) (h : a < n - 1) :
    OdsDemo_interChirpProcessing.iteration n a
      = [Event1D.startDma ((a + 1) % 2), Event1D.wait1DInputData (a % 2),
          Event1D.windowing a (a % 2), Event1D.zeroPad a (a % 2), Event1D.fft a (a % 2)] := by
  unfold OdsDemo_interChirpProcessing.iteration isPong pingPongId
  rw [if_pos h, Nat.and_one_is_mod]
  rcases Nat.mod_two_eq_zero_or_one a with e | e
  · have e2 : (a + 1) % 2 = 1 := by omega
    rw [e, e2]
    rfl
  · have e2 : (a + 1) % 2 = 0 := by omega
    rw [e, e2]
    rfl

theorem iteration_last (n a : Nat) (h : ¬ a < n - 1) :
    OdsDemo_interChirpProcessing.iteration n a
      = [Event1D.wait1DInputData (a % 2),
          Event1D.windowing a (a % 2), Event1D.zeroPad a (a % 2), Event1D.fft a (a % 2)] := by
  unfold OdsDemo_interChirpProcessing.iteration pingPongId
  rw [if_neg h, Nat.and_one_is_mod]
  rfl

theorem prefix_length (n : Nat) (hn : 1 ≤ n) :
    ∀ k, k ≤ n →
      (Event1D.startDma 0 ::
        (List.range k).flatMap (OdsDemo_interChirpProcessing.iteration n)).length
        = if k < n then 5 * k + 1 else 5 * n := by
  intro k
  induction k with
  | zero =>
    intro _
    rw [if_pos (by omega)]
    rfl
  | succ k ih =>
    intro h
    have ih' := ih (by omega)
    rw [if_pos (by omega)] at ih'
    rw [List.range_succ, List.flatMap_append, ← List.cons_append, List.length_append, ih',
      List.flatMap_singleton]
    by_cases hk : k < n - 1
    · rw [iteration_inner n k hk, if_pos (by omega)]
      simp only [List.length_cons, List.length_nil]
      omega
    · rw [iteration_last n k hk, if_neg (by omega)]
      simp only [List.length_cons, List.length_nil]
      omega

theorem prefix_get (n : Nat) (hn : 1 ≤ n) :
    ∀ k, k ≤ n → ∀ p,
      (Event1D.startDma 0 ::
        (List.range k).flatMap (OdsDemo_interChirpProcessing.iteration n))[p]?
        = if p < (if k < n then 5 * k + 1 else 5 * n) then traceAt n p else none := by
  intro k
  induction k with
  | zero =>
    intro h p
    simp only [List.range_zero, List.flatMap_nil]
    rw [if_pos (show 0 < n by omega)]
    by_cases hp : p = 0
    · subst hp
      rfl
    · rw [if_neg (by omega)]
      obtain ⟨q, rfl⟩ : ∃ q, p = q + 1 := ⟨p - 1, by omega⟩
      rfl
  | succ k ih =>
    intro h p
    have ih' := ih (by omega)
    have hlen := prefix_length n hn k (by omega)
    rw [if_pos (by omega)] at ih' hlen
    rw [List.range_succ, List.flatMap_append, ← List.cons_append, List.flatMap_singleton]
    by_cases hp : p < 5 * k + 1
    · rw [List.getElem?_append_left (by rw [hlen]; exact hp), ih' p, if_pos hp]
      have : p < (if k + 1 < n then 5 * (k + 1) + 1 else 5 * n) := by
        split_ifs <;> omega
      rw [if_pos this]
    · rw [List.getElem?_append_right (by rw [hlen]; omega), hlen]
      obtain ⟨i, rfl⟩ : ∃ i, p = 5 * k + 1 + i := ⟨p - (5 * k + 1), by omega⟩
      have e1 : 5 * k + 1 + i - (5 * k + 1) = i := by omega
      rw [e1]
      by_cases hk : k < n - 1
      · rw [iteration_inner n k hk, if_pos (show k + 1 < n by omega)]
        by_cases hi : i < 5
        · rw [if_pos (by omega)]
          have d1 : (5 * k + 1 + i - 1) / 5 = k := by omega
          have d2 : (5 * k + 1 + i - 1) % 5 = i := by omega
          unfold traceAt
          rw [if_neg (by omega), d1, d2, if_pos hk]
          interval_cases i <;> simp
        · rw [if_neg (by omega)]
          exact List.getElem?_eq_none (by simp; omega)
      · rw [iteration_last n k hk, if_neg (show ¬ k + 1 < n by omega)]
        by_cases hi : i < 4
        · rw [if_pos (by omega)]
          have d1 : (5 * k + 1 + i - 1) / 5 = k := by omega
          have d2 : (5 * k + 1 + i - 1) % 5 = i := by omega
          unfold traceAt
          rw [if_neg (by omega), d1, d2, if_neg hk, if_pos (by omega)]
          interval_cases i <;> simp
        · rw [if_neg (by omega)]
          exact List.getElem?_eq_none (by simp; omega)

/-- The trace for `n ≥ 1` antennas has the closed form `traceAt`. -/
theorem trace_get (n : Nat) (hn : 1 ≤ n) (p : Nat) :
    (OdsDemo_interChirpProcessing.trace n)[p]? = traceAt n p := by
  unfold OdsDemo_interChirpProcessing.trace
  rw [prefix_get n hn n le_rfl p, if_neg (Nat.lt_irrefl n)]
  by_cases hp : p < 5 * n
  · rw [if_pos hp]
  · rw [if_neg hp]
    unfold traceAt
    rw [if_neg (by omega), if_neg (by omega)]
    by_cases h : (p - 1) / 5 = n - 1
    · rw [if_pos h, if_neg (by omega), if_neg (by omega), if_neg (by omega), if_neg (by omega)]
    · rw [if_neg h]

theorem traceAt_start_iff (n p c : Nat) :
    traceAt n p = some (Event1D.startDma c) ↔
      (p = 0 ∧ c = 0) ∨ (1 ≤ p ∧ (p - 1) % 5 = 0 ∧ (p - 1) / 5 < n - 1 ∧
        c = ((p - 1) / 5 + 1) % 2) := by
  unfold traceAt
  split_ifs <;> simp <;> omega

theorem traceAt_wait_iff (n p c : Nat) :
    traceAt n p = some (Event1D.wait1DInputData c) ↔
      1 ≤ p ∧ c = (p - 1) / 5 % 2 ∧
        (((p - 1) % 5 = 1 ∧ (p - 1) / 5 < n - 1) ∨ ((p - 1) % 5 = 0 ∧ (p - 1) / 5 = n - 1)) := by
  unfold traceAt
  split_ifs <;> simp <;> omega

theorem traceAt_fft_iff (n p a c : Nat) :
    traceAt n p = some (Event1D.fft a c) ↔
      1 ≤ p ∧ a = (p - 1) / 5 ∧ c = (p - 1) / 5 % 2 ∧
        (((p - 1) % 5 = 4 ∧ (p - 1) / 5 < n - 1) ∨ ((p - 1) % 5 = 3 ∧ (p - 1) / 5 = n - 1)) := by
  unfold traceAt
  split_ifs <;> simp <;> omega

/-- A position that holds a computation on slot `c` lies in the iteration of an antenna `a`
of parity `c`, after the wait of that iteration. -/
theorem traceAt_slot (n p c : Nat) (e : Event1D) (h : traceAt n p = some e)
    (hs : e.slot = some c) :
    1 ≤ p ∧ c = (p - 1) / 5 % 2 ∧
      ((2 ≤ (p - 1) % 5 ∧ (p - 1) / 5 < n - 1) ∨
        (1 ≤ (p - 1) % 5 ∧ (p - 1) % 5 ≤ 3 ∧ (p - 1) / 5 = n - 1)) := by
  unfold traceAt at h
  split_ifs at h <;> simp at h <;> subst h <;> simp [Event1D.slot] at hs <;> omega

theorem prefix_counts (n : Nat) (hn : 1 ≤ n) :
    ∀ k, k ≤ n →
      (Event1D.startDma 0 ::
        (List.range k).flatMap (OdsDemo_interChirpProcessing.iteration n)).countP
          Event1D.isStart = (if k < n then k + 1 else n) ∧
      (Event1D.startDma 0 ::
        (List.range k).flatMap (OdsDemo_interChirpProcessing.iteration n)).countP
          Event1D.isWait = k := by
  intro k
  induction k with
  | zero =>
    intro _
    rw [if_pos (by omega)]
    exact ⟨rfl, rfl⟩
  | succ k ih =>
    intro h
    obtain ⟨i1, i2⟩ := ih (by omega)
    rw [if_pos (by omega)] at i1
    rw [List.range_succ, List.flatMap_append, ← List.cons_append, List.countP_append,
      List.countP_append, i1, i2, List.flatMap_singleton]
    by_cases hk : k < n - 1
    · rw [iteration_inner n k hk, if_pos (by omega)]
      exact ⟨rfl, rfl⟩
    · rw [iteration_last n k hk, if_neg (by omega)]
      refine ⟨?_, rfl⟩
      show k + 1 + 0 = n
      omega

/-- Claim C27: the event trace of `OdsDemo_interChirpProcessing` for `numRxAntennas = n ≥ 1`.
(1) Before every computation on a slot `c` (windowing, zero padding or FFT) there is a start
of the transfer of slot `c` and, after it, a wait on `c`, with no other start of `c` between
that start and the computation. (2) Between two starts of the transfer of the same slot there
is a wait on the slot followed by the FFT of an antenna on that slot. (3) The trace has `n`
starts and `n` waits, and every wait on `c` follows a start of `c` with neither a start of
`c` nor a wait on `c` in between. -/
theorem C27_wait_before_kickoff (n : Nat) (hn : 1 ≤ n) :
    (∀ (p : Nat) (e : Event1D) (c : Nat), (OdsDemo_interChirpProcessing.trace n)[p]? = some e → e.slot = some c →
      ∃ s q : Nat, s < q ∧ q < p ∧
        (OdsDemo_interChirpProcessing.trace n)[s]? = some (Event1D.startDma c) ∧
        (OdsDemo_interChirpProcessing.trace n)[q]? = some (Event1D.wait1DInputData c) ∧
        ∀ t : Nat, s < t → t < p →
          (OdsDemo_interChirpProcessing.trace n)[t]? ≠ some (Event1D.startDma c)) ∧
    (∀ (s1 s2 c : Nat), s1 < s2 →
      (OdsDemo_interChirpProcessing.trace n)[s1]? = some (Event1D.startDma c) →
      (OdsDemo_interChirpProcessing.trace n)[s2]? = some (Event1D.startDma c) →
      ∃ q f a : Nat, s1 < q ∧ q < f ∧ f < s2 ∧
        (OdsDemo_interChirpProcessing.trace n)[q]? = some (Event1D.wait1DInputData c) ∧
        (OdsDemo_interChirpProcessing.trace n)[f]? = some (Event1D.fft a c)) ∧
    (OdsDemo_interChirpProcessing.trace n).countP Event1D.isStart = n ∧
    (OdsDemo_interChirpProcessing.trace n).countP Event1D.isWait = n ∧
    (∀ (q c : Nat), (OdsDemo_interChirpProcessing.trace n)[q]? = some (Event1D.wait1DInputData c) →
      ∃ s : Nat, s < q ∧
        (OdsDemo_interChirpProcessing.trace n)[s]? = some (Event1D.startDma c) ∧
        ∀ t : Nat, s < t → t < q →
          (OdsDemo_interChirpProcessing.trace n)[t]? ≠ some (Event1D.startDma c) ∧
          (OdsDemo_interChirpProcessing.trace n)[t]? ≠ some (Event1D.wait1DInputData c)) := by
  have hc := prefix_counts n hn n le_rfl
  rw [if_neg (Nat.lt_irrefl n)] at hc
  refine ⟨?_, ?_, hc.1, hc.2, ?_⟩
  · intro p e c hp hs
    rw [trace_get n hn] at hp
    obtain ⟨h1, h2, h3⟩ := traceAt_slot n p c e hp hs
    simp only [trace_get n hn]
    by_cases ha : (p - 1) / 5 = 0
    · by_cases hl : (p - 1) / 5 < n - 1
      · refine ⟨0, 2, by omega, by omega, ?_, ?_, ?_⟩
        · rw [traceAt_start_iff]; left; omega
        · rw [traceAt_wait_iff]; omega
        · intro t ht1 ht2 hc
          rw [traceAt_start_iff] at hc
          omega
      · refine ⟨0, 1, by omega, by omega, ?_, ?_, ?_⟩
        · rw [traceAt_start_iff]; left; omega
        · rw [traceAt_wait_iff]; omega
        · intro t ht1 ht2 hc
          rw [traceAt_start_iff] at hc
          omega
    · by_cases hl : (p - 1) / 5 < n - 1
      · refine ⟨5 * ((p - 1) / 5 - 1) + 1, 5 * ((p - 1) / 5) + 2, by omega, by omega, ?_, ?_, ?_⟩
        · rw [traceAt_start_iff]; right; omega
        · rw [traceAt_wait_iff]; omega
        · intro t ht1 ht2 hc
          rw [traceAt_start_iff] at hc
          omega
      · refine ⟨5 * ((p - 1) / 5 - 1) + 1, 5 * ((p - 1) / 5) + 1, by omega, by omega, ?_, ?_, ?_⟩
        · rw [traceAt_start_iff]; right; omega
        · rw [traceAt_wait_iff]; omega
        · intro t ht1 ht2 hc
          rw [traceAt_start_iff] at hc
          omega
  · intro s1 s2 c h12 hs1 hs2
    rw [trace_get n hn, traceAt_start_iff] at hs1 hs2
    simp only [trace_get n hn]
    by_cases h0 : s1 = 0
    · refine ⟨2, 5, 0, by omega, by omega, by omega, ?_, ?_⟩
      · rw [traceAt_wait_iff]; omega
      · rw [traceAt_fft_iff]; omega
    · refine ⟨s1 + 6, s1 + 9, (s1 - 1) / 5 + 1, by omega, by omega, by omega, ?_, ?_⟩
      · rw [traceAt_wait_iff]; omega
      · rw [traceAt_fft_iff]; omega
  · intro q c hq
    rw [trace_get n hn, traceAt_wait_iff] at hq
    simp only [trace_get n hn]
    by_cases ha : (q - 1) / 5 = 0
    · refine ⟨0, by omega, ?_, ?_⟩
      · rw [traceAt_start_iff]; left; omega
      · intro t ht1 ht2
        constructor
        · intro hc
          rw [traceAt_start_iff] at hc
          omega
        · intro hc
          rw [traceAt_wait_iff] at hc
          omega
    · refine ⟨5 * ((q - 1) / 5 - 1) + 1, by omega, ?_, ?_⟩
      · rw [traceAt_start_iff]; right; omega
      · intro t ht1 ht2
        constructor
        · intro hc
          rw [traceAt_start_iff] at hc
          omega
        · intro hc
          rw [traceAt_wait_iff] at hc
          omega

/-- Claim C27 for 4 RX antennas. -/
theorem C27_wait_before_kickoff_witness :
    (∀ (p : Nat) (e : Event1D) (c : Nat), (OdsDemo_interChirpProcessing.trace 4)[p]? = some e → e.slot = some c →
      ∃ s q : Nat, s < q ∧ q < p ∧
        (OdsDemo_interChirpProcessing.trace 4)[s]? = some (Event1D.startDma c) ∧
        (OdsDemo_interChirpProcessing.trace 4)[q]? = some (Event1D.wait1DInputData c) ∧
        ∀ t : Nat, s < t → t < p →
          (OdsDemo_interChirpProcessing.trace 4)[t]? ≠ some (Event1D.startDma c)) ∧
    (∀ (s1 s2 c : Nat), s1 < s2 →
      (OdsDemo_interChirpProcessing.trace 4)[s1]? = some (Event1D.startDma c) →
      (OdsDemo_interChirpProcessing.trace 4)[s2]? = some (Event1D.startDma c) →
      ∃ q f a : Nat, s1 < q ∧ q < f ∧ f < s2 ∧
        (OdsDemo_interChirpProcessing.trace 4)[q]? = some (Event1D.wait1DInputData c) ∧
        (OdsDemo_interChirpProcessing.trace 4)[f]? = some (Event1D.fft a c)) ∧
    (OdsDemo_interChirpProcessing.trace 4).countP Event1D.isStart = 4 ∧
    (OdsDemo_interChirpProcessing.trace 4).countP Event1D.isWait = 4 ∧
    (∀ (q c : Nat), (OdsDemo_interChirpProcessing.trace 4)[q]? = some (Event1D.wait1DInputData c) →
      ∃ s : Nat, s < q ∧
        (OdsDemo_interChirpProcessing.trace 4)[s]? = some (Event1D.startDma c) ∧
        ∀ t : Nat, s < t → t < q →
          (OdsDemo_interChirpProcessing.trace 4)[t]? ≠ some (Event1D.startDma c) ∧
          (OdsDemo_interChirpProcessing.trace 4)[t]? ≠ some (Event1D.wait1DInputData c)) :=
  C27_wait_before_kickoff 4 (by decide)

/-! ### C7 -/

/-- Whatever the grouping flags, `OdsDemo_cfarPeakGrouping` emits candidates of the list:
its result is the emission of the candidates at some list positions below
`numDetectedObjects`. -/
theorem cfarPeakGrouping_shape (objOut : Nat → OdsDemo_detectedObj)
    (objRaw : Nat → OdsDemo_objRaw_t) (n : Nat) (detMatrix : Nat → Nat)
    (N maxR minR gD gR M : Nat) (kernel : Nat → Nat) (hcap : 0 < M) :
    ∃ is : List Nat, (∀ i ∈ is, i < n) ∧
      OdsDemo_cfarPeakGrouping objOut objRaw n detMatrix N maxR minR gD gR M kernel
        = (is.length, emitAll objRaw N objOut 0 is) := by
  have hmem : ∀ (f : Nat → Bool) (i : Nat),
      i ∈ ((List.range' 0 n).filter f).take (M - 0) → i < n := by
    intro f i hi
    have h1 := List.mem_of_mem_take hi
    have h2 := (List.mem_filter.1 h1).1
    have := List.mem_range'.1 h2
    omega
  unfold OdsDemo_cfarPeakGrouping
  split_ifs
  · rw [cfarPeakGrouping_loop_eq _ _ _ _ _ _ 0 1 8 (by omega) _ _ _ _ _ hcap, Nat.zero_add]
    exact ⟨_, hmem _, rfl⟩
  · rw [cfarPeakGrouping_loop_eq _ _ _ _ _ _ 1 3 7 (by omega) _ _ _ _ _ hcap, Nat.zero_add]
    exact ⟨_, hmem _, rfl⟩
  · rw [cfarPeakGrouping_loop_eq _ _ _ _ _ _ 3 1 5 (by omega) _ _ _ _ _ hcap, Nat.zero_add]
    exact ⟨_, hmem _, rfl⟩
  · rw [noGroupingCopy_eq]
    refine ⟨_, fun i hi => ?_, rfl⟩
    have h2 := (List.mem_filter.1 hi).1
    have := List.mem_range.1 h2
    have := Nat.min_le_left n M
    omega

/-- Whatever the grouping flags, `OdsDemo_cfarPeakGroupingCfarQualified` emits candidates of
the list. -/
theorem cfarQ_shape (objOut : Nat → OdsDemo_detectedObj)
    (objRaw : Nat → OdsDemo_objRaw_t) (n N maxR minR gD gR M : Nat) (hcap : 0 < M) :
    ∃ is : List Nat, (∀ i ∈ is, i < n) ∧
      OdsDemo_cfarPeakGroupingCfarQualified objOut objRaw n N maxR minR gD gR M
        = (is.length, emitAll objRaw N objOut 0 is) := by
  have hmem : ∀ (f : Nat → Bool) (i : Nat),
      i ∈ ((List.range' 0 n).filter f).take (M - 0) → i < n := by
    intro f i hi
    have h1 := List.mem_of_mem_take hi
    have h2 := (List.mem_filter.1 h1).1
    have := List.mem_range'.1 h2
    omega
  unfold OdsDemo_cfarPeakGroupingCfarQualified
  split_ifs
  · rw [cfarQ_loop_eq _ _ _ _ _ _ 0 1 8 _ _ _ _ hcap, Nat.zero_add]
    exact ⟨_, hmem _, rfl⟩
  · rw [cfarQ_loop_eq _ _ _ _ _ _ 1 3 7 _ _ _ _ hcap, Nat.zero_add]
    exact ⟨_, hmem _, rfl⟩
  · rw [cfarQ_loop_eq _ _ _ _ _ _ 3 1 5 _ _ _ _ hcap, Nat.zero_add]
    exact ⟨_, hmem _, rfl⟩
  · rw [noGroupingCopy_eq]
    refine ⟨_, fun i hi => ?_, rfl⟩
    have h2 := (List.mem_filter.1 hi).1
    have := List.mem_range.1 h2
    have := Nat.min_le_left n M
    omega

/-- An object emitted from list positions `is`: slot `j` holds the range index and the peak
value of a candidate of the list and the signed Doppler index of its raw bin, which fits a
16-bit signed field and which the direction-of-arrival stage takes back to the raw bin. -/
theorem emitted_signed_doppler (objOut : Nat → OdsDemo_detectedObj)
    (objRaw : Nat → OdsDemo_objRaw_t) (n p : Nat) (hp1 : 1 ≤ p) (hp : p ≤ 16)
    (hd : ∀ i, i < n → (objRaw i).dopplerIdx < 2 ^ p)
    (is : List Nat) (his : ∀ i ∈ is, i < n) (j : Nat) (hj : j < is.length) :
    ∃ i, i < n ∧
      (emitAll objRaw (2 ^ p) objOut 0 is j).rangeIdx = (objRaw i).rangeIdx ∧
      (emitAll objRaw (2 ^ p) objOut 0 is j).peakVal = (objRaw i).peakVal ∧
      IsSignedDoppler (2 ^ p) (objRaw i).dopplerIdx
        (emitAll objRaw (2 ^ p) objOut 0 is j).dopplerIdx ∧
      wrapInt16 (emitAll objRaw (2 ^ p) objOut 0 is j).dopplerIdx
        = (emitAll objRaw (2 ^ p) objOut 0 is j).dopplerIdx ∧
      OdsDemo_interFrameProcessing.dopplerBin (emitAll objRaw (2 ^ p) objOut 0 is) j (2 ^ p)
        = (objRaw i).dopplerIdx := by
  have hin := emitAll_inside objRaw (2 ^ p) is objOut 0 j hj
  rw [Nat.zero_add] at hin
  unfold emittedOf at hin
  simp only [Prod.mk.injEq] at hin
  obtain ⟨e1, e2, e3⟩ := hin
  have hi : is.get ⟨j, hj⟩ < n := his _ (List.get_mem _ _ _)
  obtain ⟨c1, c2, c3, c4⟩ := signed_doppler_conversions p (objRaw (is.get ⟨j, hj⟩)).dopplerIdx
    hp1 (by omega) (hd _ hi)
  refine ⟨is.get ⟨j, hj⟩, hi, e1, e3, ?_, ?_, ?_⟩
  · rw [e2]
    exact ⟨c1, c2, fun t h1 h2 h3 => c3 t h1 h2 h3⟩
  · rw [e2]
    have hle : (2 : Nat) ^ p ≤ 2 ^ 16 := Nat.pow_le_pow_right (by decide) hp
    have hpos : 0 < (2 : Nat) ^ p := Nat.pos_pow_of_pos _ (by decide)
    generalize DOPPLER_IDX_TO_SIGNED (objRaw (is.get ⟨j, hj⟩)).dopplerIdx (2 ^ p) = s at c1
    generalize (2 : Nat) ^ p = N at c1 hle hpos
    unfold wrapInt16
    have h16 : ((2 : Nat) ^ 16 : Nat) = 65536 := by norm_num
    omega
  · unfold OdsDemo_interFrameProcessing.dopplerBin
    rw [e2]
    exact c4

/-- Claim C7: signed Doppler on emission, for `numDopplerBins = N = 2^p` with `2 ≤ N ≤ 2^16`,
candidates with raw Doppler bins below `N` and a capacity of at least 1. Whatever the
grouping flags, every object that `OdsDemo_cfarPeakGrouping` or
`OdsDemo_cfarPeakGroupingCfarQualified` emits comes from a candidate of the list, with its
range index and peak value, and its `dopplerIdx` is the only `s` in `[-N/2, N/2)` that is
congruent to the candidate's raw bin `d` modulo `N`; `s` is kept by the store into the 16-bit
signed field, and the bin `DOPPLER_IDX_TO_UNSIGNED(s, N)` that the direction-of-arrival stage
computes from the emitted object is `d` again. -/
theorem C7_signed_doppler_on_emission (objOut : Nat → OdsDemo_detectedObj)
    (objRaw : Nat → OdsDemo_objRaw_t) (numDetectedObjects : Nat) (detMatrix : Nat → Nat)
    (p maxRangeIdx minRangeIdx groupInDopplerDirection groupInRangeDirection : Nat)
    (MMW_MAX_OBJ_OUT : Nat) (kernel : Nat → Nat) (hp1 : 1 ≤ p) (hp : p ≤ 16)
    (hcap : 0 < MMW_MAX_OBJ_OUT)
    (hd : ∀ i, i < numDetectedObjects → (objRaw i).dopplerIdx < 2 ^ p)
    (res : Nat × (Nat → OdsDemo_detectedObj))
    (hres : res = OdsDemo_cfarPeakGrouping objOut objRaw numDetectedObjects detMatrix (2 ^ p)
          maxRangeIdx minRangeIdx groupInDopplerDirection groupInRangeDirection
          MMW_MAX_OBJ_OUT kernel ∨
      res = OdsDemo_cfarPeakGroupingCfarQualified objOut objRaw numDetectedObjects (2 ^ p)
          maxRangeIdx minRangeIdx groupInDopplerDirection groupInRangeDirection
          MMW_MAX_OBJ_OUT)
    (j : Nat) (hj : j < res.1) :
    ∃ i, i < numDetectedObjects ∧
      (res.2 j).rangeIdx = (objRaw i).rangeIdx ∧
      (res.2 j).peakVal = (objRaw i).peakVal ∧
      IsSignedDoppler (2 ^ p) (objRaw i).dopplerIdx (res.2 j).dopplerIdx ∧
      wrapInt16 (res.2 j).dopplerIdx = (res.2 j).dopplerIdx ∧
      OdsDemo_interFrameProcessing.dopplerBin res.2 j (2 ^ p) = (objRaw i).dopplerIdx := by
  rcases hres with h | h
  · obtain ⟨is, his, heq⟩ := cfarPeakGrouping_shape objOut objRaw numDetectedObjects detMatrix
      (2 ^ p) maxRangeIdx minRangeIdx groupInDopplerDirection groupInRangeDirection
      MMW_MAX_OBJ_OUT kernel hcap
    rw [heq] at h
    subst h
    exact emitted_signed_doppler objOut objRaw numDetectedObjects p hp1 hp hd is his j hj
  · obtain ⟨is, his, heq⟩ := cfarQ_shape objOut objRaw numDetectedObjects
      (2 ^ p) maxRangeIdx minRangeIdx groupInDopplerDirection groupInRangeDirection
      MMW_MAX_OBJ_OUT hcap
    rw [heq] at h
    subst h
    exact emitted_signed_doppler objOut objRaw numDetectedObjects p hp1 hp hd is his j hj

/-- Claim C7 at 8 Doppler bins on the candidates `gapObjRaw`, both grouping directions
enabled: the second object that `OdsDemo_cfarPeakGroupingCfarQualified` emits comes from the
candidate with raw bin 5, its `dopplerIdx` is `-3`, and the direction-of-arrival stage
computes bin 5 from it. -/
theorem C7_signed_doppler_on_emission_witness :
    (∃ i, i < 2 ∧
      ((OdsDemo_cfarPeakGroupingCfarQualified sampleObjOut gapObjRaw 2 (2 ^ 3) 5 0 1 1 100).2
          1).rangeIdx = (gapObjRaw i).rangeIdx ∧
      ((OdsDemo_cfarPeakGroupingCfarQualified sampleObjOut gapObjRaw 2 (2 ^ 3) 5 0 1 1 100).2
          1).peakVal = (gapObjRaw i).peakVal ∧
      IsSignedDoppler (2 ^ 3) (gapObjRaw i).dopplerIdx
        ((OdsDemo_cfarPeakGroupingCfarQualified sampleObjOut gapObjRaw 2 (2 ^ 3) 5 0 1 1 100).2
          1).dopplerIdx ∧
      wrapInt16
          ((OdsDemo_cfarPeakGroupingCfarQualified sampleObjOut gapObjRaw 2 (2 ^ 3) 5 0 1 1
            100).2 1).dopplerIdx
        = ((OdsDemo_cfarPeakGroupingCfarQualified sampleObjOut gapObjRaw 2 (2 ^ 3) 5 0 1 1
            100).2 1).dopplerIdx ∧
      OdsDemo_interFrameProcessing.dopplerBin
          (OdsDemo_cfarPeakGroupingCfarQualified sampleObjOut gapObjRaw 2 (2 ^ 3) 5 0 1 1 100).2
          1 (2 ^ 3)
        = (gapObjRaw i).dopplerIdx) ∧
    ((OdsDemo_cfarPeakGroupingCfarQualified sampleObjOut gapObjRaw 2 (2 ^ 3) 5 0 1 1 100).2
      1).dopplerIdx = -3 ∧
    OdsDemo_interFrameProcessing.dopplerBin
      (OdsDemo_cfarPeakGroupingCfarQualified sampleObjOut gapObjRaw 2 (2 ^ 3) 5 0 1 1 100).2
      1 (2 ^ 3) = 5 :=
  ⟨C7_signed_doppler_on_emission sampleObjOut gapObjRaw 2 gapDetMatrix 3 5 0 1 1 100
      (fun _ => 0) (by decide) (by decide) (by decide) (by decide) _ (Or.inr rfl) 1
      (by decide),
    by decide, by decide⟩
